import Mathlib

/-!
# Lua-RPC: wire primitives, value codec, session negotiation, client proxies

A shallow embedding of `transport.c`, `server.c`, `luarpc.c` and `client.c`.

* A transport is a record with the negotiated attributes of the C struct plus
  two byte queues: `inp` (octets the peer has sent and that are still unread)
  and `out` (octets written so far, oldest first).
* C code that can `Throw` a `struct exception`, raise a Lua error, or loop is
  embedded in the state monad `RPC`, whose result `Res` keeps the state that
  was reached when the exception was thrown.
* Facts that live in headers that are not part of the sources (the error
  numbers, `MAX_LINK_ERRS`, `NUM_FUNCNAME_CHARS`) and facts about the C
  implementation (endianness, `sizeof(lua_Number)`, the number conversions)
  are fields of the parameter `Host`.
* The host interpreter is a collaborator: what a protected call does, what the
  loader makes of a chunk and how a number prints are fields of the parameter
  `Interp`. Tables are represented by their content.
-/

namespace LuaRpc

/-! ## Octets and memory images -/

/-- One octet (`u8`, `uint8_t`, or the bit pattern of a `char`). -/
abbrev Byte := Fin 256

/-- Conversion of an integer value to `u8` / `char`: reduction modulo 256. -/
def byte (n : Nat) : Byte := ⟨n % 256, Nat.mod_lt _ (by decide)⟩

/-- A `lua_Number` is represented by its object representation: the octets it
occupies in memory, lowest address first. -/
abbrev LNum := List Byte

/-- Kind of a `struct exception` (`e.type`). -/
inductive exception_type where
  | nonfatal
  | fatal
  deriving DecidableEq, Repr

/-- The C `struct exception`: an error number and a kind. -/
structure exception where
  errnum : Int
  type : exception_type
  deriving DecidableEq, Repr

/-- Everything the sources take from the C implementation and from headers that
are not among the source files. -/
structure Host where
  /-- Value of `*(char *)&x` for `int x = 1` being 1: the machine is little-endian. -/
  little_endian : Bool
  /-- Whether plain `char` is a signed type. -/
  char_signed : Bool
  /-- The value of `sizeof(lua_Number)`. -/
  sizeof_lua_Number : Nat
  /-- Value of `((lua_Number)0.5) == 0`: `lua_Number` is an integer type. -/
  lua_Number_integral : Bool
  /-- The C conversion from `lua_Number` to a (mathematical) integer. -/
  number_to_integer : LNum → Int
  /-- The C conversion `(lua_Number)y` from an integer. -/
  integer_to_number : Int → LNum
  ERR_EOF : Int
  ERR_CLOSED : Int
  ERR_PROTOCOL : Int
  ERR_COMMAND : Int
  ERR_NODATA : Int
  ERR_HEADER : Int
  ERR_LONGFNAME : Int
  MAX_LINK_ERRS : Nat
  NUM_FUNCNAME_CHARS : Nat
  /-- Whether the build defines `HELPER_WAIT`. -/
  HELPER_WAIT : Bool
  /-- The number of octets `alloca` can take from the stack of the running
  program; after a larger request the stack pointer is outside the stack. The
  room is taken to be the same at every call. -/
  alloca_room : Nat

/-- Integer promotion of a `char` holding the bit pattern `b`. -/
def char_val (h : Host) (b : Byte) : Int :=
  if h.char_signed && decide (128 ≤ b.val) then (b.val : Int) - 256 else (b.val : Int)

/-- The octet 0 or 1 of a C truth value. -/
def flag (b : Bool) : Byte := if b then 1 else 0

/-- Little-endian octets of the low `8 * w` bits of `x`. -/
def le_bytes : Nat → Nat → List Byte
  | 0, _ => []
  | w + 1, x => byte x :: le_bytes w (x / 256)

/-- Value of a little-endian octet string. -/
def le_value : List Byte → Nat
  | [] => 0
  | b :: bs => b.val + 256 * le_value bs

/-- Memory image of a `w`-octet unsigned integer on a machine of the given
endianness. -/
def int_to_mem (little : Bool) (w x : Nat) : List Byte :=
  if little then le_bytes w x else (le_bytes w x).reverse

/-- The unsigned integer stored in a memory image. -/
def mem_to_nat (little : Bool) (b : List Byte) : Nat :=
  if little then le_value b else le_value b.reverse

/-- Conversion of an integer to the signed type of `w` octets, as an unsigned
bit pattern (two-complement wrap-around). -/
def to_bits (w : Nat) (x : Int) : Nat := (x % (2 ^ (8 * w) : Int)).toNat

/-- The signed value of a `w`-octet bit pattern. -/
def of_bits (w : Nat) (n : Nat) : Int :=
  if n < 2 ^ (8 * w - 1) then (n : Int) else (n : Int) - 2 ^ (8 * w)

/-- Body of the loop of `swap_bytes`: exchange `number[i]` and `number[j]`. -/
def swap_at (number : List Byte) (i j : Nat) : List Byte :=
  let temp := number.getD i 0
  (number.set i (number.getD j 0)).set j temp

/-- The C function `swap_bytes`: for `i` from 0 below `numbersize / 2`, exchange
`number[i]` and `number[numbersize - 1 - i]`. -/
def swap_bytes (number : List Byte) (numbersize : Nat) : List Byte :=
  (List.range (numbersize / 2)).foldl
    (fun num i => swap_at num i (numbersize - 1 - i)) number

/-- Reading `n` octets from the address of an object whose image is `x`. Octets
past the end of the object are not determined by the program; they read as 0
here. -/
def mem_read (x : List Byte) (n : Nat) : List Byte :=
  (x ++ List.replicate n 0).take n

/-! ## Lua values -/

/-- A client proxy (`Helper`): parent pointer, parent count and segment name.
`funcname` is the content of the `char funcname[NUM_FUNCNAME_CHARS]` array up
to the octets that `strncpy` wrote. -/
inductive Helper where
  | mk (parent : Option Helper) (nparents : Nat) (funcname : List Byte)

/-- The `parent` field. -/
def Helper.parent : Helper → Option Helper
  | .mk p _ _ => p

/-- The `nparents` field. -/
def Helper.nparents : Helper → Nat
  | .mk _ n _ => n

/-- The `funcname` field. -/
def Helper.funcname : Helper → List Byte
  | .mk _ _ f => f

mutual
/-- Values of the host interpreter, as far as the codec distinguishes them. A
Lua function is represented by the bytecode `lua_dump` produces for it. -/
inductive LVal where
  | nil
  | boolean (b : Bool)
  | number (x : LNum)
  | string (s : List Byte)
  | table (t : LTable)
  | function (code : List Byte)
  | helper (h : Helper)
  | userdata
  | thread
  | lightuserdata
/-- The key/value pairs of a table, in the order in which `lua_next`
enumerates them. -/
inductive LTable where
  | empty
  | entry (k v : LVal) (rest : LTable)
end

/-- Errors raised through the interpreter (`luaL_error`, `lua_error`) rather
than through `Throw`. -/
inductive LuaError where
  | userdata_unsupported
  | thread_unsupported
  | lightuserdata_unsupported
  | index_nil
  | not_indexable
  | string_expected
  | helper_expected
  | bad_arg_count
  | non_string_index
  | rpc (errnum : Int)
  | message (msg : List Byte)
  deriving DecidableEq, Repr

/-! ## Transport and interpreter state -/

/-- The read/write mode hint of a transport. -/
inductive Mode where
  | stop
  | reading
  | writing
  deriving DecidableEq, Repr

/-- The C struct `Transport` together with the two directions of its byte
channel. The five attribute fields hold octets, as `u8` fields do. -/
structure Transport where
  is_open : Bool
  loc_little : Byte
  net_little : Byte
  lnum_bytes : Byte
  loc_intnum : Byte
  net_intnum : Byte
  mode : Mode
  inp : List Byte
  out : List Byte
  deriving DecidableEq, Repr

/-- One transport together with the interpreter state `L` that the codec works
on: the value stack (bottom first, so index `i` of the C API is position
`i - 1`) and the table of globals. -/
structure RpcState where
  tpt : Transport
  stack : List LVal
  globals : LTable
  /-- The static variable `global_error_handler`; `none` is `LUA_NOREF`. -/
  global_error_handler : Option LVal

/-- Outcome of a piece of C code: normal return, `Throw`, a Lua error, undefined
behaviour of the C program (a NULL pointer is followed), or an exhausted
recursion budget. -/
inductive Res (α : Type) where
  | ok (a : α)
  | throw (e : exception)
  | error (msg : LuaError)
  | undefined
  | timeout
  deriving DecidableEq

/-- Code that works on a transport and an interpreter state. -/
def RPC (α : Type) : Type := RpcState → Res α × RpcState

/-- Sequencing: the continuation runs only after a normal return. -/
def RPC.bind {α β : Type} (x : RPC α) (f : α → RPC β) : RPC β := fun s =>
  match x s with
  | (.ok a, s1) => f a s1
  | (.throw e, s1) => (.throw e, s1)
  | (.error msg, s1) => (.error msg, s1)
  | (.undefined, s1) => (.undefined, s1)
  | (.timeout, s1) => (.timeout, s1)

instance : Monad RPC where
  pure a := fun s => (.ok a, s)
  bind := RPC.bind

/-- The C macro `Throw( e )`. -/
def Throw {α : Type} (e : exception) : RPC α := fun s => (.throw e, s)

/-- Raising a Lua error (`luaL_error`). -/
def luaL_error {α : Type} (msg : LuaError) : RPC α := fun s => (.error msg, s)

/-- Undefined behaviour: a NULL pointer is followed. -/
def undefined {α : Type} : RPC α := fun s => (.undefined, s)

/-- The recursion budget of a loop is used up. -/
def out_of_fuel {α : Type} : RPC α := fun s => (.timeout, s)

/-- Read access to the transport. -/
def get_tpt : RPC Transport := fun s => (.ok s.tpt, s)

/-- Update of the transport. -/
def modify_tpt (f : Transport → Transport) : RPC Unit :=
  fun s => (.ok (), { s with tpt := f s.tpt })

/-- Read access to the interpreter stack. -/
def get_stack : RPC (List LVal) := fun s => (.ok s.stack, s)

/-- Update of the interpreter stack. -/
def modify_stack (f : List LVal → List LVal) : RPC Unit :=
  fun s => (.ok (), { s with stack := f s.stack })

/-- The C function `transport_set_mode`. -/
def transport_set_mode (mode : Mode) : RPC Unit :=
  modify_tpt fun t => { t with mode := mode }

/-- Modelled from the spec: the macro `TRANSPORT_START_READING` of the missing
header `luarpc_rpc.h`; "set-mode(read)". -/
def TRANSPORT_START_READING : RPC Unit := transport_set_mode .reading

/-- Modelled from the spec: the macro `TRANSPORT_START_WRITING` of the missing
header; "set-mode(write)". -/
def TRANSPORT_START_WRITING : RPC Unit := transport_set_mode .writing

/-- Modelled from the spec: the macro `TRANSPORT_STOP` of the missing header;
"set-mode(stop) at completion of a logical exchange". -/
def TRANSPORT_STOP : RPC Unit := transport_set_mode .stop

/-- Modelled from the spec: the macro `TRANSPORT_VERIFY_OPEN` of the missing
header; an operation on a closed transport fails with `ERR_CLOSED`, which the
error table lists as nonfatal. -/
def TRANSPORT_VERIFY_OPEN (h : Host) : RPC Unit := fun s =>
  if s.tpt.is_open then (.ok (), s) else (.throw ⟨h.ERR_CLOSED, .nonfatal⟩, s)

/-- Modelled from the spec: the macro `TRANSPORT_VERIFY_READ` of the missing
header; "all primitive reads/writes call set-mode(read) / set-mode(write)
before any I/O". -/
def TRANSPORT_VERIFY_READ : RPC Unit := transport_set_mode .reading

/-- Modelled from the spec: the macro `TRANSPORT_VERIFY_WRITE` of the missing
header. -/
def TRANSPORT_VERIFY_WRITE : RPC Unit := transport_set_mode .writing

/-- Modelled from the spec: `transport_read_buffer` of the transport back end,
which is not among the sources; "Read-bytes and write-bytes MUST consume/produce
the full requested length or fail with EOF / NoData". -/
def transport_read_buffer (h : Host) (length : Nat) : RPC (List Byte) := fun s =>
  if length ≤ s.tpt.inp.length then
    (.ok (s.tpt.inp.take length), { s with tpt := { s.tpt with inp := s.tpt.inp.drop length } })
  else (.throw ⟨h.ERR_EOF, .nonfatal⟩, s)

/-- Modelled from the spec: `transport_write_buffer` of the transport back end;
the octets are appended to what was written before. -/
def transport_write_buffer (buffer : List Byte) : RPC Unit :=
  modify_tpt fun t => { t with out := t.out ++ buffer }

/-- Conversion of a `u32` to `int`. -/
def u32_to_int (n : Nat) : Int := if n < 2 ^ 31 then (n : Int) else (n : Int) - 2 ^ 32

/-- Conversion of a `size_t` to `int`: the low 32 bits, read as an `int`. -/
def size_to_int (n : Nat) : Int := u32_to_int (n % 2 ^ 32)

/-- The C function `transport_read_string`; `length` is the value of its
parameter `int length`. A negative length is handed on to
`transport_read_buffer` of the back end, which is not among the sources: what
happens then is not determined. -/
def transport_read_string (h : Host) (length : Int) : RPC (List Byte) := do
  TRANSPORT_VERIFY_READ
  if length < 0 then undefined else transport_read_buffer h length.toNat

/-- The C function `transport_write_string`; `length` is the value of its
parameter `int length`, and `buffer` is the part of the C buffer that a length
which is not negative covers. A negative length is handed on to
`transport_write_buffer` of the back end, which is not among the sources: what
happens then is not determined. -/
def transport_write_string (buffer : List Byte) (length : Int) : RPC Unit := do
  TRANSPORT_VERIFY_WRITE
  if length < 0 then undefined else transport_write_buffer buffer

/-- The statements `s = alloca( len + 1 )`, `transport_read_string( tpt, s, len )`
and `s[ len ] = 0` for a `u32 len`, as they stand in the string arm of
`read_variable`, in `read_index`, `read_cmd_call`, `read_cmd_get`,
`read_cmd_newindex` and in the error branches of `helper_call` and
`helper_newindex`. The size `len + 1` is computed in `u32`, so it is 0 for
`len = 2^32 - 1`; after a request beyond the room of the stack the call that
follows leaves the stack; `len` is converted to the `int` parameter; the
terminator is stored outside the buffer when the size has wrapped around. The
result is the buffer without its terminator. -/
def alloca_read_string (h : Host) (len : Nat) : RPC (List Byte) := do
  let size := (len + 1) % 2 ^ 32
  if h.alloca_room < size then undefined
  else do
    let s ← transport_read_string h (u32_to_int len)
    if size ≤ len then undefined else pure s

/-- The C function `transport_read_u8`. -/
def transport_read_u8 (h : Host) : RPC Byte := do
  TRANSPORT_VERIFY_OPEN h
  TRANSPORT_VERIFY_READ
  let b ← transport_read_buffer h 1
  pure (b.headD 0)

/-- The C function `transport_write_u8`. -/
def transport_write_u8 (h : Host) (x : Byte) : RPC Unit := do
  TRANSPORT_VERIFY_OPEN h
  TRANSPORT_VERIFY_WRITE
  transport_write_buffer [x]

/-- The C function `transport_read_u32`: the four octets are the memory image
of `union u32_bytes`, reversed when the wire order differs from the local
one. -/
def transport_read_u32 (h : Host) : RPC Nat := do
  TRANSPORT_VERIFY_OPEN h
  TRANSPORT_VERIFY_READ
  let b ← transport_read_buffer h 4
  let tpt ← get_tpt
  let b := if tpt.net_little ≠ tpt.loc_little then swap_bytes b 4 else b
  pure (mem_to_nat h.little_endian b)

/-- The C function `transport_write_u32`; `x` is converted to `uint32_t`. -/
def transport_write_u32 (h : Host) (x : Nat) : RPC Unit := do
  TRANSPORT_VERIFY_OPEN h
  TRANSPORT_VERIFY_WRITE
  let tpt ← get_tpt
  let b := int_to_mem h.little_endian 4 (x % 2 ^ 32)
  let b := if tpt.net_little ≠ tpt.loc_little then swap_bytes b 4 else b
  transport_write_buffer b

/-! ## Native numbers -/

/-- The value of a `lua_Number` variable that was never assigned (the
`default: lua_assert( 0 )` arm of `transport_read_number`); the program does
not determine it, it is all zero octets here. -/
def uninitialised_number (h : Host) : LNum := List.replicate h.sizeof_lua_Number 0

/-- The C function `transport_read_number`. -/
def transport_read_number (h : Host) : RPC LNum := do
  TRANSPORT_VERIFY_OPEN h
  TRANSPORT_VERIFY_READ
  let tpt ← get_tpt
  let b ← transport_read_buffer h tpt.lnum_bytes.val
  let b := if tpt.net_little ≠ tpt.loc_little then swap_bytes b tpt.lnum_bytes.val else b
  if tpt.net_intnum ≠ tpt.loc_intnum then
    match tpt.lnum_bytes.val with
    | 1 => pure (h.integer_to_number (of_bits 1 (mem_to_nat h.little_endian (mem_read b 1))))
    | 2 => pure (h.integer_to_number (of_bits 2 (mem_to_nat h.little_endian (mem_read b 2))))
    | 4 => pure (h.integer_to_number (of_bits 4 (mem_to_nat h.little_endian (mem_read b 4))))
    | 8 => pure (h.integer_to_number (of_bits 8 (mem_to_nat h.little_endian (mem_read b 8))))
    | _ => pure (uninitialised_number h)
  else
    pure (mem_read b h.sizeof_lua_Number)

/-- The C function `transport_write_number`. -/
def transport_write_number (h : Host) (x : LNum) : RPC Unit := do
  TRANSPORT_VERIFY_OPEN h
  TRANSPORT_VERIFY_WRITE
  let tpt ← get_tpt
  if tpt.net_intnum ≠ 0 then
    match tpt.lnum_bytes.val with
    | 1 =>
      let y := int_to_mem h.little_endian 1 (to_bits 1 (h.number_to_integer x))
      transport_write_buffer (mem_read y 1)
    | 2 =>
      let y := int_to_mem h.little_endian 2 (to_bits 2 (h.number_to_integer x))
      let y := if tpt.net_little ≠ tpt.loc_little then swap_bytes y 2 else y
      transport_write_buffer (mem_read y 2)
    | 4 =>
      let y := int_to_mem h.little_endian 4 (to_bits 4 (h.number_to_integer x))
      let y := if tpt.net_little ≠ tpt.loc_little then swap_bytes y 4 else y
      transport_write_buffer (mem_read y 4)
    | 8 =>
      let y := int_to_mem h.little_endian 8 (to_bits 8 (h.number_to_integer x))
      let y := if tpt.net_little ≠ tpt.loc_little then swap_bytes y 8 else y
      transport_write_buffer (mem_read y 8)
    | _ => pure ()
  else
    let b := mem_read x 8
    let b := if tpt.net_little ≠ tpt.loc_little then swap_bytes b 8 else b
    transport_write_buffer b

/-! ## Session negotiation -/

/-- The enum constant `RPC_PROTOCOL_VERSION`. -/
def RPC_PROTOCOL_VERSION : Nat := 3

/-- The test both negotiators apply to a header: some magic octet or the
version octet is wrong. -/
def header_mismatch (h : Host) (header : List Byte) : Bool :=
  char_val h (header.getD 0 0) != 76 ||
  char_val h (header.getD 1 0) != 82 ||
  char_val h (header.getD 2 0) != 80 ||
  char_val h (header.getD 3 0) != 67 ||
  char_val h (header.getD 4 0) != (RPC_PROTOCOL_VERSION : Int)

/-- The C function `client_negotiate` of `luarpc.c`. -/
def client_negotiate (h : Host) : RPC Unit := do
  TRANSPORT_START_WRITING
  -- default client configuration
  modify_tpt fun t => { t with loc_little := flag h.little_endian }
  modify_tpt fun t => { t with lnum_bytes := byte h.sizeof_lua_Number }
  modify_tpt fun t => { t with loc_intnum := flag h.lua_Number_integral }
  -- write the protocol header
  let tpt ← get_tpt
  let header : List Byte :=
    [76, 82, 80, 67, byte RPC_PROTOCOL_VERSION, tpt.loc_little, tpt.lnum_bytes, tpt.loc_intnum]
  transport_write_string header 8
  TRANSPORT_START_READING
  -- read server's response
  let header ← transport_read_string h 8
  if header_mismatch h header then
    Throw ⟨h.ERR_HEADER, .nonfatal⟩
  else
    TRANSPORT_STOP
    -- write configuration from response
    modify_tpt fun t => { t with net_little := header.getD 5 0 }
    modify_tpt fun t => { t with lnum_bytes := header.getD 6 0 }
    modify_tpt fun t => { t with net_intnum := header.getD 7 0 }

/-- The C function `server_negotiate` of `server.c`. The comparisons are made
after integer promotion of the `char` header octet and of the `u8` field. -/
def server_negotiate (h : Host) : RPC Unit := do
  TRANSPORT_START_READING
  -- default server configuration
  modify_tpt fun t =>
    { t with net_little := flag h.little_endian, loc_little := flag h.little_endian }
  modify_tpt fun t => { t with lnum_bytes := byte h.sizeof_lua_Number }
  modify_tpt fun t =>
    { t with net_intnum := flag h.lua_Number_integral, loc_intnum := flag h.lua_Number_integral }
  -- read and check header from client
  let header ← transport_read_string h 8
  if header_mismatch h header then
    Throw ⟨h.ERR_HEADER, .nonfatal⟩
  else
    -- check if endianness differs, if so use big endian order
    let tpt ← get_tpt
    let header ←
      if char_val h (header.getD 5 0) ≠ (tpt.loc_little.val : Int) then do
        modify_tpt fun t => { t with net_little := 0 }
        pure (header.set 5 0)
      else pure header
    -- set number precision to lowest common denominator
    let tpt ← get_tpt
    let header :=
      if char_val h (header.getD 6 0) > (tpt.lnum_bytes.val : Int) then
        header.set 6 tpt.lnum_bytes
      else header
    if char_val h (header.getD 6 0) < (tpt.lnum_bytes.val : Int) then
      modify_tpt fun t => { t with lnum_bytes := header.getD 6 0 }
    -- if lua_Number is integer on either side, use integer
    let tpt ← get_tpt
    let header ←
      if char_val h (header.getD 7 0) ≠ (tpt.loc_intnum.val : Int) then do
        modify_tpt fun t => { t with net_intnum := 1 }
        pure (header.set 7 1)
      else pure header
    -- send reconciled configuration to client
    TRANSPORT_START_WRITING
    transport_write_string header 8
    TRANSPORT_STOP

/-! ## The interpreter API, as far as the sources use it -/

/-- What the sources take from the host interpreter beyond plain stack
manipulation. -/
structure Interp where
  /-- The string `lua_tolstring` produces for a number. -/
  number_tostring : LNum → List Byte
  /-- The value `luaL_loadbuffer` pushes for a chunk: the loaded function, or
  the error message when loading fails. -/
  loadbuffer : List Byte → LVal
  /-- A protected call of a value with arguments in an interpreter with the
  given globals: the status code (0 without error), the values the call leaves
  on the stack (the results, or the error object) and the globals afterwards. -/
  pcall : LVal → List LVal → LTable → Nat × List LVal × LTable

/-- Raw equality of a freshly decoded key with a key that is already in a
table. Tables, functions and userdata are compared by identity in the
interpreter, and a freshly constructed object is identical to no other. -/
def LVal.rawequal : LVal → LVal → Bool
  | .nil, .nil => true
  | .boolean a, .boolean b => a == b
  | .number a, .number b => a == b
  | .string a, .string b => a == b
  | _, _ => false

/-- Raw lookup (`lua_rawget`): the value stored under `k`, or nil. -/
def LTable.get : LTable → LVal → LVal
  | .empty, _ => .nil
  | .entry k v rest, key => if k.rawequal key then v else rest.get key

/-- Removal of the pair stored under `key`. -/
def LTable.remove : LTable → LVal → LTable
  | .empty, _ => .empty
  | .entry k v rest, key => if k.rawequal key then rest else .entry k v (rest.remove key)

/-- Storing a non-nil value under `key`: an existing pair is overwritten, a new
pair is added after the existing ones. -/
def LTable.insert : LTable → LVal → LVal → LTable
  | .empty, key, val => .entry key val .empty
  | .entry k v rest, key, val =>
    if k.rawequal key then .entry k val rest else .entry k v (rest.insert key val)

/-- Whether a value is nil. -/
def LVal.isnil : LVal → Bool
  | .nil => true
  | _ => false

/-- Raw assignment `t[key] = val`; assigning nil removes the pair. -/
def LTable.set (t : LTable) (key val : LVal) : LTable :=
  if val.isnil then t.remove key else t.insert key val

/-- The API function `lua_gettop`. -/
def lua_gettop : RPC Nat := do
  let stack ← get_stack
  pure stack.length

/-- Pushing a value (`lua_pushnil`, `lua_pushboolean`, `lua_pushnumber`,
`lua_pushlstring`, `lua_newtable`). -/
def lua_push (v : LVal) : RPC Unit := modify_stack fun st => st ++ [v]

/-- The API function `lua_pop`. -/
def lua_pop (n : Nat) : RPC Unit := modify_stack fun st => st.take (st.length - n)

/-- The API function `lua_settop` for a non-negative index. -/
def lua_settop (n : Nat) : RPC Unit :=
  modify_stack fun st => st.take n ++ List.replicate (n - st.length) LVal.nil

/-- The API function `lua_rawset( L, table_index )` for an absolute index: the
value is on top of the stack, the key just below it; both are popped. A nil key
raises the error "table index is nil". If fewer than two values are above the
table, or the indexed value is not a table, the API is misused; the stack is
then only shortened. -/
def lua_rawset (table_index : Nat) : RPC Unit := do
  let stack ← get_stack
  let n := stack.length
  let val := stack.getD (n - 1) .nil
  let key := stack.getD (n - 2) .nil
  if key.isnil then
    luaL_error .index_nil
  else
    match stack.getD (table_index - 1) .nil with
    | .table t =>
      modify_stack fun st => (st.set (table_index - 1) (.table (t.set key val))).take (n - 2)
    | _ => modify_stack fun st => st.take (n - 2)

/-- The C string that starts at the beginning of a buffer: the octets before
the first NUL. -/
def cstring (s : List Byte) : List Byte := s.takeWhile fun c => c != 0

/-- The C function `strlen`. -/
def strlen (s : List Byte) : Nat := (cstring s).length

/-- Cutting a NUL-free string at the separator octet. -/
def split_at_sep (sep : Byte) : List Byte → List (List Byte)
  | [] => [[]]
  | c :: cs =>
    if c == sep then [] :: split_at_sep sep cs
    else
      match split_at_sep sep cs with
      | [] => [[c]]
      | w :: ws => (c :: w) :: ws

/-- All tokens that successive calls `strtok( funcname, "." )`,
`strtok( NULL, "." )`, ... return: the non-empty pieces of the C string between
dots. -/
def strtok_all (funcname : List Byte) : List (List Byte) :=
  (split_at_sep 46 (cstring funcname)).filter fun w => !w.isEmpty

/-- The API function `lua_getglobal`. -/
def lua_getglobal (name : List Byte) : RPC Unit := fun s =>
  (.ok (), { s with stack := s.stack ++ [s.globals.get (.string name)] })

/-- The pair `lua_getfield( L, -1, token ); lua_remove( L, -2 );`: the value on
top of the stack is replaced by its field. Indexing a value that is not a table
raises a Lua error (metatables are not modelled). -/
def lua_getfield_replace (token : List Byte) : RPC Unit := do
  let stack ← get_stack
  match stack.getLast? with
  | some (.table t) =>
    modify_stack fun st => st.take (st.length - 1) ++ [t.get (.string token)]
  | _ => luaL_error .not_indexable

/-- The loop `while( token != NULL )` of the path resolution. -/
def resolve_fields : List (List Byte) → RPC Unit
  | [] => pure ()
  | token :: tokens => do
    lua_getfield_replace token
    resolve_fields tokens

/-- The path resolution shared by `read_index`, `read_cmd_call`, `read_cmd_get`
and `read_cmd_newindex`: first token through `lua_getglobal`, the others through
field lookups. With no token at all `lua_getglobal` receives a NULL name. -/
def resolve_path (funcname : List Byte) : RPC Unit :=
  match strtok_all funcname with
  | [] => undefined
  | token :: tokens => do
    lua_getglobal token
    resolve_fields tokens

/-- The C function `read_index`. -/
def read_index (h : Host) : RPC Unit := do
  let len ← transport_read_u32 h
  let funcname ← alloca_read_string h len
  resolve_path funcname

/-! ## Client proxies: path serialisation -/

/-- The array `hstack` after the first loop of `helper_remote_index`, together
with the amount the loop adds to `len`: for `i` from `nparents - 1` down
to 1, `hstack[ i - 1 ] = hstack[ i ]->parent` and
`len += strlen( hstack[ i ]->funcname ) + 1`. The first component is
`hstack[i], ..., hstack[nparents - 1]` reversed into index order; `none` stands
for following a NULL parent pointer. -/
def hstack_fill : Nat → Helper → Option (List Helper × Nat)
  | 0, top => some ([top], 0)
  | i + 1, top =>
    match top.parent with
    | none => none
    | some p =>
      match hstack_fill i p with
      | none => none
      | some (below, len) => some (below ++ [top], len + (strlen top.funcname + 1))

/-- The second loop of `helper_remote_index`: each name followed by a dot. -/
def replay_names : List Helper → RPC Unit
  | [] => pure ()
  | p :: ps => do
    transport_write_string (cstring p.funcname) (size_to_int (strlen p.funcname))
    transport_write_string [46] 1
    replay_names ps

/-- The C function `helper_remote_index`. -/
def helper_remote_index (h : Host) (helper : Helper) : RPC Unit := do
  let len := strlen helper.funcname
  if helper.nparents > 0 then
    match helper.parent with
    | none => undefined
    | some parent =>
      let len := len + (strlen parent.funcname + 1)
      match hstack_fill (helper.nparents - 1) parent with
      | none => undefined
      | some (hstack, more) =>
        let len := len + more
        transport_write_u32 h len
        replay_names hstack
        transport_write_string (cstring helper.funcname) (size_to_int (strlen helper.funcname))
  else do
    transport_write_u32 h len
    transport_write_string (cstring helper.funcname) (size_to_int (strlen helper.funcname))

/-! ## Value codec

The type tags of the anonymous enum in `transport.c`. -/

def RPC_NIL : Byte := 0
def RPC_NUMBER : Byte := 1
def RPC_BOOLEAN : Byte := 2
def RPC_STRING : Byte := 3
def RPC_TABLE : Byte := 4
def RPC_TABLE_END : Byte := 5
def RPC_FUNCTION : Byte := 6
def RPC_FUNCTION_END : Byte := 7
def RPC_REMOTE : Byte := 8

/-- The `LUA_TSTRING` arm of `write_variable`; `write_function` reaches the same
code with the dumped bytecode. The length is converted to `u32`, and from
there to the `int` parameter of `transport_write_string`. -/
def write_string_value (h : Host) (s : List Byte) : RPC Unit := do
  transport_write_u8 h RPC_STRING
  let len := s.length % 2 ^ 32
  transport_write_u32 h len
  transport_write_string (s.take len) (u32_to_int len)

mutual
/-- The C function `write_variable`, applied to the value at `var_index`. -/
def write_variable (h : Host) : LVal → RPC Unit
  | .number x => do
    transport_write_u8 h RPC_NUMBER
    transport_write_number h x
  | .string s => write_string_value h s
  | .table t => do
    transport_write_u8 h RPC_TABLE
    write_table h t
    transport_write_u8 h RPC_TABLE_END
  | .nil => transport_write_u8 h RPC_NIL
  | .boolean b => do
    transport_write_u8 h RPC_BOOLEAN
    transport_write_u8 h (flag b)
  | .function code => do
    transport_write_u8 h RPC_FUNCTION
    write_string_value h code
    transport_write_u8 h RPC_FUNCTION_END
  | .helper hp => do
    transport_write_u8 h RPC_REMOTE
    helper_remote_index h hp
  | .userdata => luaL_error .userdata_unsupported
  | .thread => luaL_error .thread_unsupported
  | .lightuserdata => luaL_error .lightuserdata_unsupported
/-- The C function `write_table`: the `lua_next` loop over the pairs. -/
def write_table (h : Host) : LTable → RPC Unit
  | .empty => pure ()
  | .entry k v rest => do
    write_variable h k
    write_variable h v
    write_table h rest
end

/-- The body of the loop of `read_function` after a value was read:
`luaL_checklstring( L, -1, &len )`, `luaL_loadbuffer`, `lua_insert( L, -2 )`,
`lua_pop( L, 1 )`. The string on top of the stack is replaced by what the
loader pushes. -/
def load_top (ip : Interp) : RPC Unit := do
  let stack ← get_stack
  match stack.getLast? with
  | some (.string b) =>
    modify_stack fun st => st.take (st.length - 1) ++ [ip.loadbuffer b]
  | some (.number x) =>
    modify_stack fun st => st.take (st.length - 1) ++ [ip.loadbuffer (ip.number_tostring x)]
  | _ => luaL_error .string_expected

mutual
/-- The C function `read_variable`. The first argument bounds the nesting of
calls; the result is the returned `int`. -/
def read_variable (h : Host) (ip : Interp) : Nat → RPC Nat
  | 0 => out_of_fuel
  | fuel + 1 => do
    let type ← transport_read_u8 h
    match type.val with
    | 0 => do
      lua_push .nil
      pure 1
    | 2 => do
      let b ← transport_read_u8 h
      lua_push (.boolean (b != 0))
      pure 1
    | 1 => do
      let x ← transport_read_number h
      lua_push (.number x)
      pure 1
    | 3 => do
      let len ← transport_read_u32 h
      let s ← alloca_read_string h len
      lua_push (.string s)
      pure 1
    | 4 => do
      read_table h ip fuel
      pure 1
    | 5 => pure 0
    | 6 => do
      read_function h ip fuel
      pure 1
    | 7 => pure 0
    | 8 => do
      read_index h
      pure 1
    | _ => Throw ⟨(type.val : Int), .fatal⟩
/-- The C function `read_table`. -/
def read_table (h : Host) (ip : Interp) : Nat → RPC Unit
  | 0 => out_of_fuel
  | fuel + 1 => do
    lua_push (.table .empty)
    let table_index ← lua_gettop
    read_table_loop h ip table_index fuel
/-- The `for ( ;; )` loop of `read_table`. -/
def read_table_loop (h : Host) (ip : Interp) (table_index : Nat) : Nat → RPC Unit
  | 0 => out_of_fuel
  | fuel + 1 => do
    let r ← read_variable h ip fuel
    if r = 0 then
      pure ()
    else do
      let _ ← read_variable h ip fuel
      lua_rawset table_index
      read_table_loop h ip table_index fuel
/-- The C function `read_function`, which is one `for( ;; )` loop. -/
def read_function (h : Host) (ip : Interp) : Nat → RPC Unit
  | 0 => out_of_fuel
  | fuel + 1 => do
    let r ← read_variable h ip fuel
    if r = 0 then
      pure ()
    else do
      load_top ip
      read_function h ip fuel
end

/-! ## Client side: remote call and remote get

The command octets and status codes of the anonymous enums in `client.c`. -/

def RPC_CMD_CALL : Byte := 1
def RPC_CMD_GET : Byte := 2
def RPC_CMD_CON : Byte := 3
def RPC_CMD_NEWINDEX : Byte := 4
def RPC_READY : Byte := 64
def RPC_UNSUPPORTED_CMD : Byte := 65
def RPC_DONE : Byte := 66

/-- Modelled from the spec: `transport_close` of the transport back end, which
is not among the sources; afterwards the transport is not open. -/
def transport_close : RPC Unit := modify_tpt fun t => { t with is_open := false }

/-- The macros `Try { body } Catch( e ) { handler }`: the handler runs on the
state in which the exception was thrown. -/
def Try {α : Type} (body : RPC α) (handler : exception → RPC α) : RPC α := fun s =>
  match body s with
  | (.throw e, s1) => handler e s1
  | r => r

/-- The C function `deal_with_error`. With a global handler installed the
handler is called under `lua_pcall` and its results are discarded (what the
handler itself does is not modelled); without one, `luaL_error` raises the
message. -/
def deal_with_error (error_string : LuaError) : RPC Unit := fun s =>
  match s.global_error_handler with
  | some _ => (.ok (), s)
  | none => (.error error_string, s)

/-- The C function `generic_catch_handler`; `LuaError.rpc n` stands for the
string `errorString( n )`. -/
def generic_catch_handler (e : exception) : RPC Int := do
  deal_with_error (.rpc e.errnum)
  match e.type with
  | .nonfatal => do
    lua_push .nil
    pure 1
  | .fatal => do
    transport_close
    pure 0

/-- The function `helper_wait_ready`, which is the macro `transport_write_u8`
unless the build defines `HELPER_WAIT`. -/
def helper_wait_ready (h : Host) (cmd : Byte) : RPC Unit :=
  if h.HELPER_WAIT then do
    transport_write_u8 h cmd
    let cmdresp ← transport_read_u8 h
    if cmdresp ≠ RPC_READY then
      Throw ⟨h.ERR_PROTOCOL, .nonfatal⟩
    else pure ()
  else transport_write_u8 h cmd

/-- The C function `helper_get`. -/
def helper_get (h : Host) (ip : Interp) (fuel : Nat) (helper : Helper) : RPC Int :=
  Try (do
    TRANSPORT_START_WRITING
    helper_wait_ready h RPC_CMD_GET
    helper_remote_index h helper
    TRANSPORT_START_READING
    let _ ← read_variable h ip fuel
    TRANSPORT_STOP
    pure 1)
  generic_catch_handler

/-- The loop `for( i = 2; i <= n; i ++ ) write_variable( tpt, L, i )`. -/
def write_arguments (h : Host) : List LVal → RPC Unit
  | [] => pure ()
  | a :: as => do
    write_variable h a
    write_arguments h as

/-- The loop `for ( i = 0; i < ( ( int ) nret ); i ++ ) read_variable( tpt, L )`. -/
def read_results (h : Host) (ip : Interp) (fuel : Nat) : Nat → RPC Unit
  | 0 => pure ()
  | n + 1 => do
    let _ ← read_variable h ip fuel
    read_results h ip fuel n

/-- First half of the `Try` block of `helper_call`: the request is written.
`args` are the values at the indices 2 to `n`. -/
def helper_call_request (h : Host) (hp : Helper) (args : List LVal) : RPC Unit := do
  TRANSPORT_START_WRITING
  -- write function name
  helper_wait_ready h RPC_CMD_CALL
  helper_remote_index h hp
  -- write number of arguments
  let n ← lua_gettop
  transport_write_u32 h (n - 1)
  -- write each argument
  write_arguments h args

/-- Second half of the `Try` block of `helper_call`: the response is read. The
result is `freturn`. -/
def helper_call_response (h : Host) (ip : Interp) (fuel : Nat) : RPC Int := do
  TRANSPORT_START_READING
  -- read return code
  let ret_code ← transport_read_u8 h
  let freturn ←
    if ret_code = 0 then do
      -- read return arguments
      let nret ← transport_read_u32 h
      read_results h ip fuel (u32_to_int nret).toNat
      pure (u32_to_int nret)
    else do
      -- read error and handle it
      let _ ← transport_read_u32 h
      let len ← transport_read_u32 h
      let err_string ← alloca_read_string h len
      deal_with_error (.message err_string)
      pure 0
  TRANSPORT_STOP
  pure freturn

/-- The C function `helper_call`; the helper is the value at index 1, the
arguments are the values above it. The result is `freturn`. -/
def helper_call (h : Host) (ip : Interp) (fuel : Nat) : RPC Int := do
  let stack ← get_stack
  match stack.head? with
  | some (.helper hp) =>
    -- capture special calls, otherwise execute normal remote call
    if cstring hp.funcname = [103, 101, 116] then
      match hp.parent with
      | none => undefined
      | some parent => do
        let _ ← helper_get h ip fuel parent
        pure 1
    else
      Try (do
        helper_call_request h hp (stack.drop 1)
        helper_call_response h ip fuel)
        generic_catch_handler
  | _ => luaL_error .helper_expected

/-- The C function `strncpy` into an array of `n` octets: the C string `src`,
cut after `n` octets, padded with NUL. -/
def strncpy (src : List Byte) (n : Nat) : List Byte :=
  (cstring src).take n ++ List.replicate (n - (cstring src).length) 0

/-- The C function `helper_create`: a proxy without parent. -/
def helper_create (h : Host) (funcname : List Byte) : Helper :=
  .mk none 0 (strncpy funcname h.NUM_FUNCNAME_CHARS)

/-- The C function `helper_append`: a proxy whose parent is `helper`. -/
def helper_append (h : Host) (helper : Helper) (funcname : List Byte) : Helper :=
  .mk (some helper) (helper.nparents + 1) (strncpy funcname h.NUM_FUNCNAME_CHARS)

/-! ## Client side: remote assignment -/

/-- The request half of the `Try` block of `helper_newindex`: command octet,
path of the proxy, then the values at the indices `lua_gettop( L ) - 1` and
`lua_gettop( L )`. -/
def helper_newindex_request (h : Host) (hp : Helper) (key val : LVal) : RPC Unit := do
  -- index destination on remote side
  TRANSPORT_START_WRITING
  helper_wait_ready h RPC_CMD_NEWINDEX
  helper_remote_index h hp
  write_variable h key
  write_variable h val

/-- The response half of the `Try` block of `helper_newindex`. The result is
`freturn`. -/
def helper_newindex_response (h : Host) : RPC Int := do
  TRANSPORT_START_READING
  let ret_code ← transport_read_u8 h
  if ret_code ≠ 0 then do
    -- read error and handle it
    let _ ← transport_read_u32 h
    let len ← transport_read_u32 h
    let err_string ← alloca_read_string h len
    deal_with_error (.message err_string)
  else pure ()
  TRANSPORT_STOP
  pure 0

/-- The C function `helper_newindex`: the proxy is the value at index -3, the
key (which must be a string) the value at index -2, the assigned value is on
top. The result is `freturn`. -/
def helper_newindex (h : Host) : RPC Int := do
  let stack ← get_stack
  let n := stack.length
  if n < 3 then luaL_error .helper_expected
  else
    match stack.getD (n - 3) .nil with
    | .helper hp =>
      match stack.getD (n - 2) .nil with
      | .string k =>
        Try (do
          helper_newindex_request h hp (.string k) (stack.getD (n - 1) .nil)
          helper_newindex_response h)
          generic_catch_handler
      | _ => luaL_error .string_expected
    | _ => luaL_error .helper_expected

/-- The C function `handle_index`: the handle is the userdata at index 1, the
name the value at index 2. The new proxy is pushed; the result is the number of
returned values. -/
def handle_index (h : Host) : RPC Int := do
  let stack ← get_stack
  if stack.length ≠ 2 then luaL_error .bad_arg_count
  else
    match stack.getD 1 .nil with
    | .string s =>
      if strlen s > h.NUM_FUNCNAME_CHARS - 1 then luaL_error (.rpc h.ERR_LONGFNAME)
      else do
        lua_push (.helper (helper_create h s))
        -- return the helper object
        pure 1
    | _ => luaL_error .non_string_index

/-- The C function `helper_index`: the parent proxy is the value at index 1,
the name the value at index 2. -/
def helper_index (h : Host) : RPC Int := do
  let stack ← get_stack
  if stack.length ≠ 2 then luaL_error .bad_arg_count
  else
    match stack.getD 1 .nil with
    | .string s =>
      if strlen s > h.NUM_FUNCNAME_CHARS - 1 then luaL_error (.rpc h.ERR_LONGFNAME)
      else
        match stack.getD 0 .nil with
        | .helper parent => do
          lua_push (.helper (helper_append h parent s))
          pure 1
        | _ => undefined
    | _ => luaL_error .non_string_index

/-- The C function `handle_newindex`: the handle is the userdata at index 1,
the name at index 2, the assigned value at index 3. A proxy with the empty
name is created and put at index 1 (`helper_create( L, ..., "" )`,
`lua_replace( L, 1 )`) before `helper_newindex` runs. -/
def handle_newindex (h : Host) : RPC Int := do
  let stack ← get_stack
  if stack.length ≠ 3 then luaL_error .bad_arg_count
  else
    match stack.getD 1 .nil with
    | .string s =>
      if strlen s > h.NUM_FUNCNAME_CHARS - 1 then luaL_error (.rpc h.ERR_LONGFNAME)
      else do
        modify_stack fun st => st.set 0 (.helper (helper_create h []))
        let _ ← helper_newindex h
        pure 0
    | _ => luaL_error .non_string_index

/-! ## Server side: the commands -/

/-- The status code `LUA_ERRRUN` of the interpreter. -/
def LUA_ERRRUN : Nat := 2

/-- The macro `LUA_ISCALLABLE` (`lua_isfunction`). -/
def LVal.iscallable : LVal → Bool
  | .function _ => true
  | _ => false

/-- The API call `lua_pcall( L, nargs, LUA_MULTRET, 0 )`: the called value lies
below its `nargs` arguments; all of them are replaced by what the call leaves.
The result is the status code. Fewer than `nargs + 1` values on the stack, or a
negative `nargs`, is a misuse of the API. -/
def lua_pcall (ip : Interp) (nargs : Int) : RPC Nat := fun s =>
  let n := s.stack.length
  if nargs < 0 ∨ (n : Int) < nargs + 1 then (.undefined, s)
  else
    let k := n - nargs.toNat - 1
    let r := ip.pcall (s.stack.getD k .nil) (s.stack.drop (k + 1)) s.globals
    (.ok r.1, { s with stack := s.stack.take k ++ r.2.1, globals := r.2.2 })

/-- The array `funcname` after the `strtok` calls of the path resolution:
`strtok` overwrites the dot that ends a token with NUL, skips dots in front of
a token, and does not look beyond the first NUL. `in_token` tells whether the
scan is inside a token. -/
def strtok_marks : Bool → List Byte → List Byte
  | _, [] => []
  | in_token, c :: cs =>
    if c = 0 then c :: cs
    else if c = 46 then
      if in_token then 0 :: strtok_marks false cs else c :: strtok_marks false cs
    else c :: strtok_marks true cs

/-- The string literal `"undefined function: "`. -/
def undefined_function_msg : List Byte :=
  [117, 110, 100, 101, 102, 105, 110, 101, 100, 32, 102, 117, 110, 99, 116, 105, 111, 110, 58, 32]

/-- The loop `for ( i = 0; i < nargs; i ++ ) read_variable( tpt, L )` of
`read_cmd_call`. -/
def read_arguments (h : Host) (ip : Interp) (fuel : Nat) : Nat → RPC Unit
  | 0 => pure ()
  | n + 1 => do
    let _ ← read_variable h ip fuel
    read_arguments h ip fuel n

/-- The part of `read_cmd_call` that reads the request: path, resolution, number
of arguments, arguments. The result holds `len`, the array `funcname` as
`strtok` leaves it, `stackpos`, `good_function` and `nargs`. -/
def read_cmd_call_request (h : Host) (ip : Interp) (fuel : Nat) :
    RPC (Nat × List Byte × Int × Bool × Int) := do
  -- read function name
  let len ← transport_read_u32 h
  let funcname ← alloca_read_string h len
  -- get function
  resolve_path funcname
  let top ← lua_gettop
  let stackpos : Int := (top : Int) - 1
  let stack ← get_stack
  let good_function := (stack.getLast?.getD .nil).iscallable
  -- read number of arguments
  let nargs := u32_to_int (← transport_read_u32 h)
  -- read in each argument, leave it on the stack
  read_arguments h ip fuel nargs.toNat
  pure (len, strtok_marks false funcname, stackpos, good_function, nargs)

/-- The part of `read_cmd_call` that calls the function and writes the
response. Integers that the C code passes as `u32` are reduced modulo 2^32. -/
def read_cmd_call_respond (h : Host) (ip : Interp)
    (r : Nat × List Byte × Int × Bool × Int) : RPC Unit := do
  let (len, funcname, stackpos, good_function, nargs) := r
  -- call the function
  if good_function then do
    let error_code ← lua_pcall ip nargs
    -- handle errors
    TRANSPORT_START_WRITING
    if error_code ≠ 0 then do
      let stack ← get_stack
      match stack.getLast? with
      | some (.string errmsg) =>
        transport_write_u8 h 1
        transport_write_u32 h error_code
        transport_write_u32 h errmsg.length
        transport_write_string errmsg (size_to_int errmsg.length)
      | some (.number x) =>
        transport_write_u8 h 1
        transport_write_u32 h error_code
        transport_write_u32 h (ip.number_tostring x).length
        transport_write_string (ip.number_tostring x) (size_to_int (ip.number_tostring x).length)
      | _ => undefined
    else do
      -- pass the return values back to the caller
      transport_write_u8 h 0
      let top ← lua_gettop
      let nret : Int := (top : Int) - stackpos
      transport_write_u32 h (nret % 2 ^ 32).toNat
      let stack ← get_stack
      write_arguments h ((stack.drop stackpos.toNat).take nret.toNat)
  else do
    -- bad function
    let errlen := undefined_function_msg.length + len
    transport_write_u8 h 1
    transport_write_u32 h LUA_ERRRUN
    transport_write_u32 h errlen
    transport_write_string undefined_function_msg (size_to_int (strlen undefined_function_msg))
    transport_write_string funcname (u32_to_int len)
  -- empty the stack
  lua_settop 0

/-- The C function `read_cmd_call`. -/
def read_cmd_call (h : Host) (ip : Interp) (fuel : Nat) : RPC Unit := do
  let r ← read_cmd_call_request h ip fuel
  read_cmd_call_respond h ip r

/-- The C function `read_cmd_get`. -/
def read_cmd_get (h : Host) : RPC Unit := do
  -- read function name
  let len ← transport_read_u32 h
  let funcname ← alloca_read_string h len
  -- get function
  resolve_path funcname
  TRANSPORT_START_WRITING
  -- return top value on stack
  let stack ← get_stack
  write_variable h (stack.getLast?.getD .nil)
  -- empty the stack
  lua_settop 0

/-- The content of a table after the assignment `t[key] = val` on the table
that the path `tokens` leads to, the change written back along the path.
Tables are represented by their content, so the update of a table that is
reached through the globals is an update of the globals. -/
def LTable.store_at : List (List Byte) → LTable → LVal → LVal → LTable
  | [], g, key, val => g.set key val
  | token :: tokens, g, key, val =>
    match g.get (.string token) with
    | .table t => g.set (.string token) (.table (LTable.store_at tokens t key val))
    | _ => g

/-- The API call `lua_settable( L, -3 )`: the value is on top of the stack, the
key below it, the assigned table below the key; key and value are popped.
Assigning into a value that is not a table raises a Lua error (metatables are
not modelled). `target` is the index and `tokens` the path of the value the
path resolution has left on the stack: when the assigned table is that value,
the table of the globals it was taken from is the one that changes. -/
def lua_settable (target : Nat) (tokens : List (List Byte)) : RPC Unit := fun s =>
  let n := s.stack.length
  if n < 3 then (.undefined, s)
  else
    match s.stack.getD (n - 3) .nil with
    | .table t =>
      if (s.stack.getD (n - 2) .nil).isnil then (.error .index_nil, s)
      else
        (.ok (), { s with
          stack := (s.stack.set (n - 3)
            (.table (t.set (s.stack.getD (n - 2) .nil) (s.stack.getD (n - 1) .nil)))).take (n - 2)
          globals :=
            if n - 2 = target then
              s.globals.store_at tokens (s.stack.getD (n - 2) .nil) (s.stack.getD (n - 1) .nil)
            else s.globals })
    | _ => (.error .not_indexable, s)

/-- The call `lua_setglobal( L, lua_tostring( L, -2 ) )`: the name is the C
string of the value below the top (a number is converted to a string in place),
the value on top is popped and stored under that name. A value that is neither
string nor number gives a NULL name. -/
def lua_setglobal_tostring (ip : Interp) : RPC Unit := fun s =>
  let n := s.stack.length
  if n < 2 then (.undefined, s)
  else
    match s.stack.getD (n - 2) .nil with
    | .string k =>
      (.ok (), { s with stack := s.stack.take (n - 1),
                        globals := s.globals.set (.string (cstring k)) (s.stack.getD (n - 1) .nil) })
    | .number x =>
      (.ok (), { s with
        stack := (s.stack.set (n - 2) (.string (ip.number_tostring x))).take (n - 1),
        globals := s.globals.set (.string (cstring (ip.number_tostring x)))
          (s.stack.getD (n - 1) .nil) })
    | _ => (.undefined, s)

/-- The C function `read_cmd_newindex`. -/
def read_cmd_newindex (h : Host) (ip : Interp) (fuel : Nat) : RPC Unit := do
  -- read function name
  let len ← transport_read_u32 h
  let funcname ← alloca_read_string h len
  -- get function
  if strlen funcname > 0 then do
    resolve_path funcname
    let target ← lua_gettop
    let _ ← read_variable h ip fuel -- key
    let _ ← read_variable h ip fuel -- value
    lua_settable target (strtok_all funcname) -- set key to value on indexed table
  else do
    let _ ← read_variable h ip fuel -- key
    let _ ← read_variable h ip fuel -- value
    lua_setglobal_tostring ip
  TRANSPORT_START_WRITING
  -- Write out 0 to indicate no error and that we're done
  transport_write_u8 h 0
  -- empty the stack
  lua_settop 0

/-! ## Server side: the dispatcher -/

/-- The C struct `ServerHandle` together with the interpreter state `L`. The
accepted transport `atpt` is the transport of `st`. -/
structure ServerState where
  /-- The listening transport `handle->ltpt`. -/
  ltpt : Transport
  /-- The field `handle->link_errs`. -/
  link_errs : Int
  /-- The interpreter state and, as its transport, `handle->atpt`. -/
  st : RpcState
  /-- The octets a peer has sent on the connection that waits at the
  listener. -/
  incoming : List Byte

/-- Code that works on the accepted transport and the interpreter, run on a
server handle. -/
def on_atpt {α : Type} (m : RPC α) (σ : ServerState) : Res α × ServerState :=
  ((m σ.st).1, { σ with st := (m σ.st).2 })

/-- Modelled from the spec: `transport_accept` of the transport back end, which
is not among the sources; "accept a new connection onto `atpt`". The accepted
transport is open, nothing is written on it yet, and its unread input is what
the connecting peer has sent. -/
def transport_accept (σ : ServerState) : ServerState :=
  { σ with
    st := { σ.st with tpt := { σ.st.tpt with is_open := true, inp := σ.incoming, out := [] } }
    incoming := [] }

/-- The C function `server_handle_shutdown`: both transports are closed. -/
def server_handle_shutdown (σ : ServerState) : ServerState :=
  { σ with
    ltpt := { σ.ltpt with is_open := false }
    st := (transport_close σ.st).2 }

/-- The lines `#ifdef HELPER_WAIT transport_write_u8( ..., x ); #endif`. -/
def helper_wait_reply (h : Host) (x : Byte) : RPC Unit :=
  if h.HELPER_WAIT then transport_write_u8 h x else pure ()

/-- The `switch` of the inner `Try` block of `rpc_dispatch_helper`, with the
`TRANSPORT_START_READING` in front of it: one command on the open accepted
transport. -/
def dispatch_command (h : Host) (ip : Interp) (fuel : Nat) : RPC Unit := do
  TRANSPORT_START_READING
  let cmd ← transport_read_u8 h
  match cmd.val with
  | 1 => do -- call function
    helper_wait_reply h RPC_READY
    read_cmd_call h ip fuel
  | 2 => do -- get server-side variable for client
    helper_wait_reply h RPC_READY
    read_cmd_get h
  | 3 => -- allow client to renegotiate active connection
    server_negotiate h
  | 4 => do -- assign new variable on server
    helper_wait_reply h RPC_READY
    read_cmd_newindex h ip fuel
  | _ => do -- complain and throw exception if unknown command
    helper_wait_reply h RPC_UNSUPPORTED_CMD
    Throw ⟨h.ERR_COMMAND, .nonfatal⟩

/-- The inner `Try ... Catch( e )` of `rpc_dispatch_helper`, for an accepted
transport that is open. -/
def dispatch_open (h : Host) (ip : Interp) (fuel : Nat) (σ : ServerState) :
    Res Unit × ServerState :=
  match dispatch_command h ip fuel σ.st with
  | (.ok (), s1) =>
    (.ok (), { σ with link_errs := 0, st := (TRANSPORT_STOP s1).2 })
  | (.throw e, s1) =>
    match e.type with
    | .fatal => (.throw e, { σ with st := s1 }) -- shutdown will initiate after throw
    | .nonfatal =>
      if σ.link_errs + 1 > (h.MAX_LINK_ERRS : Int) then
        (.throw e, { σ with link_errs := 0, st := s1 }) -- remote connection will be closed
      else (.ok (), { σ with link_errs := σ.link_errs + 1, st := s1 })
  | (.error msg, s1) => (.error msg, { σ with st := s1 })
  | (.undefined, s1) => (.undefined, { σ with st := s1 })
  | (.timeout, s1) => (.timeout, { σ with st := s1 })

/-- The first command on a connection that was just accepted. -/
def dispatch_first (h : Host) : RPC Unit := do
  TRANSPORT_START_READING
  let cmd ← transport_read_u8 h
  match cmd.val with
  | 3 => server_negotiate h
  | _ => Throw ⟨h.ERR_COMMAND, .nonfatal⟩ -- remote connection will be closed

/-- The body of the outer `Try` block of `rpc_dispatch_helper`. -/
def dispatch_body (h : Host) (ip : Interp) (fuel : Nat) (σ : ServerState) :
    Res Unit × ServerState :=
  -- if accepting transport is open, read function calls
  if σ.st.tpt.is_open then dispatch_open h ip fuel σ
  else
    -- if accepting transport is not open, accept a new connection from the
    -- listening transport
    on_atpt (dispatch_first h) (transport_accept σ)

/-- The C function `rpc_dispatch_helper`. -/
def rpc_dispatch_helper (h : Host) (ip : Interp) (fuel : Nat) (σ : ServerState) :
    Res Unit × ServerState :=
  match dispatch_body h ip fuel σ with
  | (.throw e, σ1) =>
    match e.type with
    | .fatal => on_atpt (deal_with_error (.rpc e.errnum)) (server_handle_shutdown σ1)
    | .nonfatal => (.ok (), { σ1 with st := (transport_close σ1.st).2 })
  | r => r

/-- Further octets of the peer arrive on the accepted connection. -/
def arrive (octets : List Byte) (σ : ServerState) : ServerState :=
  { σ with st := { σ.st with tpt := { σ.st.tpt with inp := σ.st.tpt.inp ++ octets } } }

/-- Successive calls of `rpc_dispatch_helper`, each after the arrival of
further octets. -/
def dispatch_all (h : Host) (ip : Interp) (fuel : Nat) :
    List (List Byte) → ServerState → ServerState
  | [], σ => σ
  | a :: as, σ => dispatch_all h ip fuel as (rpc_dispatch_helper h ip fuel (arrive a σ)).2

/-- Whether an outcome is a thrown exception of kind nonfatal. -/
def Res.nonfatal {α : Type} : Res α → Bool
  | .throw e => decide (e.type = .nonfatal)
  | _ => false

/-- Whether in each of the successive dispatches the command ends in a nonfatal
exception. -/
def all_nonfatal (h : Host) (ip : Interp) (fuel : Nat) :
    List (List Byte) → ServerState → Bool
  | [], _ => true
  | a :: as, σ =>
    (dispatch_command h ip fuel (arrive a σ).st).1.nonfatal &&
      all_nonfatal h ip fuel as (rpc_dispatch_helper h ip fuel (arrive a σ)).2

/-- The string literal `"arg must be server handle"`. -/
def server_handle_msg : List Byte :=
  [97, 114, 103, 32, 109, 117, 115, 116, 32, 98, 101, 32, 115, 101, 114, 118, 101, 114, 32,
    104, 97, 110, 100, 108, 101]

/-- The C function `rpc_peek`. The server handle is the userdata at index 1;
`readable` stands for `transport_readable` of the transport back end, which is
not among the sources. The result is the number of returned values, the
returned value is pushed. -/
def rpc_peek (h : Host) (readable : Transport → Bool) (σ : ServerState) :
    Res Int × ServerState :=
  if σ.st.stack.length ≠ 1 then (.error .bad_arg_count, σ)
  else
    match σ.st.stack.getD 0 .nil with
    | .userdata =>
      -- if accepting transport is open, see if there is any data to read
      if σ.st.tpt.is_open then
        if readable σ.st.tpt then on_atpt (do lua_push (.number (h.integer_to_number 1)); pure 1) σ
        else on_atpt (do lua_push .nil; pure 1) σ
      -- otherwise, see if there is a new connection on the listening transport
      else if σ.ltpt.is_open then
        if readable σ.ltpt then on_atpt (do lua_push (.number (h.integer_to_number 1)); pure 1) σ
        else on_atpt (do lua_push .nil; pure 1) σ
      else on_atpt (do lua_push (.number (h.integer_to_number 0)); pure 1) σ
    | _ => (.error (.message server_handle_msg), σ)

/-! ## The global error handler -/

/-- The string literal `"bad args"`. -/
def bad_args_msg : List Byte := [98, 97, 100, 32, 97, 114, 103, 115]

/-- The C function `rpc_on_error`. The reference in `global_error_handler` is
released and the variable is set to `LUA_NOREF` before the argument is looked
at; `lua_ref( L, 1 )` pops the value it registers. The result is the number of
returned values. -/
def rpc_on_error : RPC Int := fun s =>
  if s.stack.length ≠ 1 then (.error .bad_arg_count, s)
  else
    match s.stack.getD 0 .nil with
    | .function code =>
      (.ok 0, { s with stack := [], global_error_handler := some (.function code) })
    | .nil => (.ok 0, { s with global_error_handler := none })
    | _ => (.error (.message bad_args_msg), { s with global_error_handler := none })

/-! ## The server handle from creation on -/

/-- Modelled from the spec: `transport_init` of the transport back end, which
is not among the sources; the transport it leaves is not open. -/
def transport_init : Transport where
  is_open := false
  loc_little := 0
  net_little := 0
  lnum_bytes := 0
  loc_intnum := 0
  net_intnum := 0
  mode := .stop
  inp := []
  out := []

/-- The C function `server_handle_create`, in the interpreter state `st`: the
new userdata is pushed, `link_errs` is 0 and both transports are initialised. -/
def server_handle_create (st : RpcState) : ServerState where
  ltpt := transport_init
  link_errs := 0
  st := { st with tpt := transport_init, stack := st.stack ++ [.userdata] }
  incoming := []

/-- A peer connects to the listener, which is open, and sends octets. -/
def connect (octets : List Byte) (σ : ServerState) : ServerState :=
  { σ with ltpt := { σ.ltpt with is_open := true }, incoming := octets }

/-- Successive calls of `rpc_dispatch_helper`, each after something else has
happened to the handle (`before`). -/
def dispatch_between (h : Host) (ip : Interp) (fuel : Nat) :
    List (ServerState → ServerState) → ServerState → ServerState
  | [], σ => σ
  | before :: rest, σ =>
    dispatch_between h ip fuel rest (rpc_dispatch_helper h ip fuel (before σ)).2

/-- The C struct `Helper` with its field `handle`, which `Helper` leaves out
(the operations on a proxy work on the one transport of the state): the number
identifies the `Handle` userdata the pointer refers to. -/
inductive WithHandle.Helper where
  | mk (handle : Nat) (parent : Option WithHandle.Helper) (nparents : Nat)
      (funcname : List Byte)

/-- The `handle` field. -/
def WithHandle.Helper.handle : WithHandle.Helper → Nat
  | .mk hd _ _ _ => hd

/-- The `parent` field. -/
def WithHandle.Helper.parent : WithHandle.Helper → Option WithHandle.Helper
  | .mk _ p _ _ => p

/-- The `nparents` field. -/
def WithHandle.Helper.nparents : WithHandle.Helper → Nat
  | .mk _ _ n _ => n

/-- The `funcname` field. -/
def WithHandle.Helper.funcname : WithHandle.Helper → List Byte
  | .mk _ _ _ f => f

/-- The C function `helper_create`, all assigned fields but `pref`. -/
def WithHandle.helper_create (h : Host) (handle : Nat) (funcname : List Byte) :
    WithHandle.Helper :=
  .mk handle none 0 (strncpy funcname h.NUM_FUNCNAME_CHARS)

/-- The C function `helper_append`, all assigned fields but `pref`. -/
def WithHandle.helper_append (h : Host) (helper : WithHandle.Helper) (funcname : List Byte) :
    WithHandle.Helper :=
  .mk helper.handle (some helper) (helper.nparents + 1) (strncpy funcname h.NUM_FUNCNAME_CHARS)

/-- The proxy without the `handle` field. -/
def WithHandle.Helper.forget : WithHandle.Helper → LuaRpc.Helper
  | .mk _ none n f => .mk none n f
  | .mk _ (some p) n f => .mk (some (WithHandle.Helper.forget p)) n f

/-- The proxy reached by following the `parent` pointer `k` times, if none of
the pointers followed is NULL. -/
def WithHandle.Helper.ancestor : Nat → WithHandle.Helper → Option WithHandle.Helper
  | 0, x => some x
  | k + 1, x =>
    match x.parent with
    | none => none
    | some p => WithHandle.Helper.ancestor k p

/-- The proxies that indexing produces from the handle `handle`: `handle_index`
makes one with `helper_create`, `helper_index` makes one from a proxy with
`helper_append`. -/
inductive WithHandle.Indexed (h : Host) (handle : Nat) : WithHandle.Helper → Prop where
  | handle_index (name : List Byte) :
    WithHandle.Indexed h handle (WithHandle.helper_create h handle name)
  | helper_index (p : WithHandle.Helper) (name : List Byte) :
    WithHandle.Indexed h handle p →
      WithHandle.Indexed h handle (WithHandle.helper_append h p name)

/-! ## Paths, in the words of the specification -/

/-- Modelled from the spec: the non-empty maximal runs of octets other than
`sep` in a path, left to right; `cur` is the run that is being read. -/
def spec_runs (sep : Byte) : List Byte → List Byte → List (List Byte)
  | cur, [] => if cur.isEmpty then [] else [cur]
  | cur, c :: cs =>
    if c == sep then
      if cur.isEmpty then spec_runs sep [] cs else cur :: spec_runs sep [] cs
    else spec_runs sep (cur ++ [c]) cs

/-- Modelled from the spec: the segments of a path, "the non-empty maximal runs
of non-'.' bytes". -/
def spec_segments (path : List Byte) : List (List Byte) := spec_runs 46 [] path

/-- Modelled from the spec: "each later one by field lookup on the previous
result"; there is no result when the previous result is not a table. -/
def spec_fields : LVal → List (List Byte) → Option LVal
  | v, [] => some v
  | .table t, seg :: segs => spec_fields (t.get (.string seg)) segs
  | _, _ :: _ => none

/-- Modelled from the spec: the value a list of segments resolves to, "the
first by global lookup and each later one by field lookup on the previous
result". -/
def spec_resolve (globals : LTable) : List (List Byte) → Option LVal
  | [] => none
  | seg :: segs => spec_fields (globals.get (.string seg)) segs

/-- Code that leaves no more unread input than it found. -/
def NoGrow {α : Type} (m : RPC α) : Prop :=
  ∀ s : RpcState, (m s).2.tpt.inp.length ≤ s.tpt.inp.length

/-- Code whose outcome is never the exhausted recursion budget. -/
def Finishes {α : Type} (m : RPC α) : Prop :=
  ∀ s : RpcState, (m s).1 ≠ .timeout

/-- Code whose outcome on the state `s` is not the exhausted recursion
budget. -/
def FinishesAt {α : Type} (s : RpcState) (m : RPC α) : Prop := (m s).1 ≠ .timeout

/-- Code that returns only values with the property `P`. -/
def Returns {α : Type} (P : α → Prop) (m : RPC α) : Prop :=
  ∀ (s : RpcState) (r : α), (m s).1 = .ok r → P r

/-! ## Notions used to state the properties -/

/-- The octets a piece of code appends to the output of the transport when it
is started in state `s`. -/
def emitted {α : Type} (m : RPC α) (s : RpcState) : List Byte :=
  (m s).2.tpt.out.drop s.tpt.out.length

/-- The state `s` with everything forgotten that code which only writes cannot
depend on: pending input, earlier output, and the interpreter state. -/
def blank (s : RpcState) : RpcState where
  tpt := { s.tpt with inp := [], out := [] }
  stack := []
  globals := .empty
  global_error_handler := none

/-- The state `s` after `TRANSPORT_START_WRITING`. -/
def writing (s : RpcState) : RpcState :=
  { s with tpt := { s.tpt with mode := .writing } }

/-- Code that only appends to the output: started in writing mode it changes
nothing but the output, and what it appends and returns is what it appends and
returns from the blank state. -/
def Frame {α : Type} (m : RPC α) : Prop :=
  ∀ s : RpcState, s.tpt.mode = .writing →
    m s = ((m (blank s)).1,
      { s with tpt := { s.tpt with out := s.tpt.out ++ (m (blank s)).2.tpt.out } })

/-- Code that leaves the output of the transport as it is. -/
def NoWrite {α : Type} (m : RPC α) : Prop :=
  ∀ s : RpcState, (m s).2.tpt.out = s.tpt.out

/-- Code that leaves the transport open if it was open, and closed if it was
closed. -/
def KeepsOpen {α : Type} (m : RPC α) : Prop :=
  ∀ s : RpcState, (m s).2.tpt.is_open = s.tpt.is_open

/-- Whether `key` is raw-equal to a key of the table. -/
def LTable.contains : LTable → LVal → Bool
  | .empty, _ => false
  | .entry k _ rest, key => k.rawequal key || rest.contains key

/-- Whether `key` is raw-equal to no key of the table that comes after it. -/
def LTable.unhit (key : LVal) : LTable → Bool
  | .empty => true
  | .entry k _ rest => !key.rawequal k && LTable.unhit key rest

/-- Whether no key of the second table is raw-equal to a key of `acc`. -/
def LTable.apart (acc : LTable) : LTable → Bool
  | .empty => true
  | .entry k _ rest => !acc.contains k && LTable.apart acc rest

/-- Concatenation of the pair lists of two tables. -/
def LTable.append : LTable → LTable → LTable
  | .empty, t => t
  | .entry k v rest, t => .entry k v (rest.append t)

/-- The number of octets from which on the string transfer refuses a length:
from 2^31 on it is negative as the `int` parameter of `transport_read_string`
and `transport_write_string`, and `alloca( len + 1 )` needs room on the stack
for the string and its terminator. -/
def string_limit (h : Host) : Nat := min (2 ^ 31) h.alloca_room

mutual
/-- Values without numbers, functions and userdata: nil, booleans, strings
shorter than `n` octets, and tables of such values. A table is a table of the
interpreter: no nil key, no nil value, no key twice. -/
def LVal.plain (n : Nat) : LVal → Bool
  | .nil => true
  | .boolean _ => true
  | .string s => decide (s.length < n)
  | .table t => t.plain n
  | _ => false
/-- The condition of `LVal.plain` on the pairs of a table. -/
def LTable.plain (n : Nat) : LTable → Bool
  | .empty => true
  | .entry k v rest =>
    k.plain n && v.plain n && !k.isnil && !v.isnil && LTable.unhit k rest && rest.plain n
end

mutual
/-- A nesting budget that suffices for `read_variable` to decode the value. -/
def LVal.cost : LVal → Nat
  | .table t => 2 + t.cost
  | _ => 1
/-- A nesting budget that suffices for the loop of `read_table`. -/
def LTable.cost : LTable → Nat
  | .empty => 2
  | .entry k v rest => 1 + k.cost + v.cost + rest.cost
end

/-- The four octets `transport_write_u32` emits for `x < 2^32` on a host of the
given endianness, byte-swapped when `swap` holds. -/
def wire_u32 (little swap : Bool) (x : Nat) : List Byte :=
  if swap then swap_bytes (int_to_mem little 4 x) 4 else int_to_mem little 4 x

mutual
/-- The octets `write_variable` emits for a plain value. -/
def wire_value (little swap : Bool) : LVal → List Byte
  | .nil => [RPC_NIL]
  | .boolean b => [RPC_BOOLEAN, flag b]
  | .string s => RPC_STRING :: (wire_u32 little swap s.length ++ s)
  | .table t => RPC_TABLE :: (wire_table little swap t ++ [RPC_TABLE_END])
  | _ => []
/-- The octets `write_table` emits for the pairs of a plain table. -/
def wire_table (little swap : Bool) : LTable → List Byte
  | .empty => []
  | .entry k v rest => wire_value little swap k ++ wire_value little swap v ++
      wire_table little swap rest
end

/-- Whether no key occurs twice in the table, as in every table of the
interpreter. -/
def LTable.nodup : LTable → Bool
  | .empty => true
  | .entry k _ rest => LTable.unhit k rest && rest.nodup

/-- Structural equality of proxies, as a computation. -/
def Helper.beq : Helper → Helper → Bool
  | .mk none n f, .mk none m g => n == m && f == g
  | .mk (some p) n f, .mk (some q) m g => Helper.beq p q && n == m && f == g
  | _, _ => false

mutual
/-- Structural equality of values, as a computation. -/
def LVal.beq : LVal → LVal → Bool
  | .nil, .nil => true
  | .boolean a, .boolean b => a == b
  | .number a, .number b => a == b
  | .string a, .string b => a == b
  | .table a, .table b => LTable.beq a b
  | .function a, .function b => a == b
  | .helper a, .helper b => Helper.beq a b
  | .userdata, .userdata => true
  | .thread, .thread => true
  | .lightuserdata, .lightuserdata => true
  | _, _ => false
/-- Structural equality of pair lists, as a computation. -/
def LTable.beq : LTable → LTable → Bool
  | .empty, .empty => true
  | .entry k v r, .entry k2 v2 r2 => LVal.beq k k2 && LVal.beq v v2 && LTable.beq r r2
  | _, _ => false
end

/-- Structural equality of stacks, as a computation. -/
def LVal.beq_list : List LVal → List LVal → Bool
  | [], [] => true
  | a :: as, b :: bs => LVal.beq a b && LVal.beq_list as bs
  | _, _ => false

/-- Structural equality of states, as a computation. -/
def RpcState.beq (a b : RpcState) : Bool :=
  decide (a.tpt = b.tpt) && LVal.beq_list a.stack b.stack && LTable.beq a.globals b.globals &&
    (match a.global_error_handler, b.global_error_handler with
      | none, none => true
      | some x, some y => LVal.beq x y
      | _, _ => false)

/-! ## Sample hosts and states -/

/-- The eight octets `client_negotiate` assembles in `header` before it writes
them. -/
def client_header (h : Host) : List Byte :=
  [76, 82, 80, 67, 3, flag h.little_endian, byte h.sizeof_lua_Number, flag h.lua_Number_integral]

/-- Truncating conversion of an IEEE-754 binary64 memory image (little-endian)
to an integer; subnormals, infinities and NaN give 0. -/
def double_to_integer (b : List Byte) : Int :=
  let bits := le_value b
  let frac := bits % 2 ^ 52
  let e := bits / 2 ^ 52 % 2 ^ 11
  let mag : Nat :=
    if e = 0 ∨ e = 2047 then 0
    else if 1075 ≤ e then (2 ^ 52 + frac) * 2 ^ (e - 1075)
    else (2 ^ 52 + frac) / 2 ^ (1075 - e)
  if bits / 2 ^ 63 % 2 = 1 then -(mag : Int) else (mag : Int)

/-- Conversion of an integer to an IEEE-754 binary64 memory image
(little-endian); exact below 2^53 in magnitude, truncated to 53 significant
bits above. -/
def integer_to_double (x : Int) : List Byte :=
  let a := x.natAbs
  if a = 0 then List.replicate 8 0
  else
    let e := Nat.log2 a
    let frac := if e ≤ 52 then a * 2 ^ (52 - e) - 2 ^ 52 else a / 2 ^ (e - 52) - 2 ^ 52
    le_bytes 8 ((if x < 0 then 2 ^ 63 else 0) + (e + 1023) * 2 ^ 52 + frac)

/-- A little-endian machine whose `lua_Number` is an 8-octet IEEE double, with
the error numbers of the upstream header (`MAXINT - 100` and following) and a
stack of 8 MiB, all of it taken as room for `alloca`. -/
def host_le_double : Host where
  little_endian := true
  char_signed := true
  sizeof_lua_Number := 8
  lua_Number_integral := false
  number_to_integer := double_to_integer
  integer_to_number := integer_to_double
  ERR_EOF := 2147483547
  ERR_CLOSED := 2147483546
  ERR_PROTOCOL := 2147483545
  ERR_NODATA := 2147483544
  ERR_COMMAND := 2147483541
  ERR_HEADER := 2147483540
  ERR_LONGFNAME := 2147483539
  MAX_LINK_ERRS := 2
  NUM_FUNCNAME_CHARS := 20
  HELPER_WAIT := false
  alloca_room := 8388608

/-- A big-endian machine with unsigned `char` whose `lua_Number` is a 4-octet
integer. -/
def host_be_int32 : Host where
  little_endian := false
  char_signed := false
  sizeof_lua_Number := 4
  lua_Number_integral := true
  number_to_integer := fun b => of_bits 4 (mem_to_nat false b)
  integer_to_number := fun x => int_to_mem false 4 (to_bits 4 x)
  ERR_EOF := 2147483547
  ERR_CLOSED := 2147483546
  ERR_PROTOCOL := 2147483545
  ERR_NODATA := 2147483544
  ERR_COMMAND := 2147483541
  ERR_HEADER := 2147483540
  ERR_LONGFNAME := 2147483539
  MAX_LINK_ERRS := 2
  NUM_FUNCNAME_CHARS := 20
  HELPER_WAIT := false
  alloca_room := 8388608

/-- A big-endian machine whose `lua_Number` is an 8-octet IEEE double. -/
def host_be_double : Host where
  little_endian := false
  char_signed := true
  sizeof_lua_Number := 8
  lua_Number_integral := false
  number_to_integer := fun b => double_to_integer b.reverse
  integer_to_number := fun x => (integer_to_double x).reverse
  ERR_EOF := 2147483547
  ERR_CLOSED := 2147483546
  ERR_PROTOCOL := 2147483545
  ERR_NODATA := 2147483544
  ERR_COMMAND := 2147483541
  ERR_HEADER := 2147483540
  ERR_LONGFNAME := 2147483539
  MAX_LINK_ERRS := 2
  NUM_FUNCNAME_CHARS := 20
  HELPER_WAIT := false
  alloca_room := 8388608

/-- An interpreter whose loader accepts every chunk and in which every
function returns its arguments. -/
def sample_interp : Interp where
  number_tostring := fun b => b
  loadbuffer := fun b => .function b
  pcall := fun _ args g => (0, args, g)

/-- An open transport before any negotiation, with the given unread input. -/
def fresh_transport (inp : List Byte) : Transport where
  is_open := true
  loc_little := 0
  net_little := 0
  lnum_bytes := 0
  loc_intnum := 0
  net_intnum := 0
  mode := .stop
  inp := inp
  out := []

/-- An open transport with the given negotiated attributes. -/
def linked_transport (loc_little net_little lnum_bytes loc_intnum net_intnum : Byte)
    (inp : List Byte) : Transport where
  is_open := true
  loc_little := loc_little
  net_little := net_little
  lnum_bytes := lnum_bytes
  loc_intnum := loc_intnum
  net_intnum := net_intnum
  mode := .stop
  inp := inp
  out := []

/-- An interpreter state with the given stack, no globals and no error
handler, around a transport. -/
def state_of (tpt : Transport) (stack : List LVal) : RpcState where
  tpt := tpt
  stack := stack
  globals := .empty
  global_error_handler := none

/-- A transport that is not open. -/
def closed_transport : Transport where
  is_open := false
  loc_little := 0
  net_little := 0
  lnum_bytes := 0
  loc_intnum := 0
  net_intnum := 0
  mode := .stop
  inp := []
  out := []

/-- A server handle with an open listener, the given accepted transport and
error count, an empty interpreter stack, and the given octets waiting at the
listener. -/
def server_of (atpt : Transport) (link_errs : Int) (incoming : List Byte) : ServerState where
  ltpt := fresh_transport []
  link_errs := link_errs
  st := state_of atpt []
  incoming := incoming

/-! ## Running the monad -/

section run
variable {α β : Type}

@[simp] theorem run_pure (a : α) (s : RpcState) : (pure a : RPC α) s = (.ok a, s) := rfl

@[simp] theorem run_bind (x : RPC α) (f : α → RPC β) (s : RpcState) :
    (x >>= f) s = RPC.bind x f s := rfl

@[simp] theorem run_Throw (e : exception) (s : RpcState) :
    (Throw e : RPC α) s = (.throw e, s) := rfl

@[simp] theorem run_luaL_error (e : LuaError) (s : RpcState) :
    (luaL_error e : RPC α) s = (.error e, s) := rfl

@[simp] theorem run_out_of_fuel (s : RpcState) :
    (out_of_fuel : RPC α) s = (.timeout, s) := rfl

@[simp] theorem run_get_tpt (s : RpcState) : get_tpt s = (.ok s.tpt, s) := rfl

@[simp] theorem run_modify_tpt (f : Transport → Transport) (s : RpcState) :
    modify_tpt f s = (.ok (), { s with tpt := f s.tpt }) := rfl

@[simp] theorem run_get_stack (s : RpcState) : get_stack s = (.ok s.stack, s) := rfl

@[simp] theorem run_modify_stack (f : List LVal → List LVal) (s : RpcState) :
    modify_stack f s = (.ok (), { s with stack := f s.stack }) := rfl

@[simp] theorem run_undefined (s : RpcState) :
    (undefined : RPC α) s = (.undefined, s) := rfl

@[simp] theorem run_ite (c : Prop) [Decidable c] (x y : RPC α) (s : RpcState) :
    (if c then x else y) s = if c then x s else y s := by
  split <;> rfl

theorem bind_eq (x : RPC α) (f : α → RPC β) (s : RpcState) :
    RPC.bind x f s = match x s with
      | (.ok a, s1) => f a s1
      | (.throw e, s1) => (.throw e, s1)
      | (.error msg, s1) => (.error msg, s1)
      | (.undefined, s1) => (.undefined, s1)
      | (.timeout, s1) => (.timeout, s1) := rfl

theorem bind_ok {x : RPC α} {f : α → RPC β} {s s1 : RpcState} {a : α}
    (hx : x s = (.ok a, s1)) : RPC.bind x f s = f a s1 := by
  simp [RPC.bind, hx]

end run

theorem run_transport_set_mode (m : Mode) (s : RpcState) :
    transport_set_mode m s = (.ok (), { s with tpt := { s.tpt with mode := m } }) := rfl

theorem run_transport_read_string (h : Host) (n : Nat) (s : RpcState) :
    transport_read_string h (n : Int) s =
      if n ≤ s.tpt.inp.length then
        (.ok (s.tpt.inp.take n),
          { s with tpt := { s.tpt with mode := .reading, inp := s.tpt.inp.drop n } })
      else (.throw ⟨h.ERR_EOF, .nonfatal⟩, { s with tpt := { s.tpt with mode := .reading } }) := by
  have hn : ¬ ((n : Int) < 0) := by omega
  simp only [transport_read_string, run_bind, RPC.bind, TRANSPORT_VERIFY_READ, transport_set_mode,
    transport_read_buffer, run_modify_tpt, hn, if_false, Int.toNat_ofNat]

theorem run_transport_read_header (h : Host) (s : RpcState) :
    transport_read_string h 8 s =
      if 8 ≤ s.tpt.inp.length then
        (.ok (s.tpt.inp.take 8),
          { s with tpt := { s.tpt with mode := .reading, inp := s.tpt.inp.drop 8 } })
      else (.throw ⟨h.ERR_EOF, .nonfatal⟩, { s with tpt := { s.tpt with mode := .reading } }) :=
  run_transport_read_string h 8 s

theorem run_transport_read_negative (h : Host) (n : Int) (hn : n < 0) (s : RpcState) :
    transport_read_string h n s =
      (.undefined, { s with tpt := { s.tpt with mode := .reading } }) := by
  simp only [transport_read_string, run_bind, RPC.bind, TRANSPORT_VERIFY_READ, transport_set_mode,
    run_modify_tpt, hn, if_true, undefined]

theorem run_transport_write_string (b : List Byte) (n : Nat) (s : RpcState) :
    transport_write_string b (n : Int) s =
      (.ok (), { s with tpt := { s.tpt with mode := .writing, out := s.tpt.out ++ b } }) := by
  have hn : ¬ ((n : Int) < 0) := by omega
  simp only [transport_write_string, run_bind, RPC.bind, TRANSPORT_VERIFY_WRITE,
    transport_set_mode, transport_write_buffer, run_modify_tpt, hn, if_false]

theorem run_transport_write_header (b : List Byte) (s : RpcState) :
    transport_write_string b 8 s =
      (.ok (), { s with tpt := { s.tpt with mode := .writing, out := s.tpt.out ++ b } }) :=
  run_transport_write_string b 8 s

theorem run_transport_write_dot (b : List Byte) (s : RpcState) :
    transport_write_string b 1 s =
      (.ok (), { s with tpt := { s.tpt with mode := .writing, out := s.tpt.out ++ b } }) :=
  run_transport_write_string b 1 s

theorem run_transport_write_negative (b : List Byte) (n : Int) (hn : n < 0) (s : RpcState) :
    transport_write_string b n s =
      (.undefined, { s with tpt := { s.tpt with mode := .writing } }) := by
  simp only [transport_write_string, run_bind, RPC.bind, TRANSPORT_VERIFY_WRITE,
    transport_set_mode, run_modify_tpt, hn, if_true, undefined]

theorem u32_to_int_small (n : Nat) (hn : n < 2 ^ 31) : u32_to_int n = (n : Int) := by
  simp only [u32_to_int, hn, if_true]

theorem u32_to_int_negative (n : Nat) (hn : 2 ^ 31 ≤ n) (hm : n < 2 ^ 32) : u32_to_int n < 0 := by
  have h1 : ¬ n < 2 ^ 31 := by omega
  simp only [u32_to_int, h1, if_false]
  omega

/-- Within the room of the stack and the range of `int`, the three statements
around `alloca` read the string as `transport_read_string` does. -/
theorem run_alloca_read_string (h : Host) (len : Nat) (hl : len < 2 ^ 31)
    (hr : len + 1 ≤ h.alloca_room) :
    alloca_read_string h len = transport_read_string h (len : Int) := by
  have h1 : (len + 1) % 2 ^ 32 = len + 1 := Nat.mod_eq_of_lt (by omega)
  have h2 : ¬ h.alloca_room < len + 1 := by omega
  have h3 : ¬ len + 1 ≤ len := by omega
  funext s
  simp only [alloca_read_string, h1, h2, h3, if_false, u32_to_int_small len hl, bind_eq]
  rcases hx : transport_read_string h (len : Int) s with ⟨r, s1⟩
  cases r <;> simp [RPC.bind, hx, run_pure]

theorem run_transport_write_u8 (h : Host) (x : Byte) (s : RpcState) :
    transport_write_u8 h x s =
      if s.tpt.is_open then
        (.ok (), { s with tpt := { s.tpt with mode := .writing, out := s.tpt.out ++ [x] } })
      else (.throw ⟨h.ERR_CLOSED, .nonfatal⟩, s) := by
  by_cases ho : s.tpt.is_open = true <;>
    simp [transport_write_u8, bind_eq, TRANSPORT_VERIFY_OPEN, TRANSPORT_VERIFY_WRITE,
      transport_set_mode, transport_write_buffer, ho]

theorem run_transport_read_u8 (h : Host) (s : RpcState) :
    transport_read_u8 h s =
      if s.tpt.is_open then
        if 1 ≤ s.tpt.inp.length then
          (.ok (s.tpt.inp.headD 0),
            { s with tpt := { s.tpt with mode := .reading, inp := s.tpt.inp.drop 1 } })
        else (.throw ⟨h.ERR_EOF, .nonfatal⟩, { s with tpt := { s.tpt with mode := .reading } })
      else (.throw ⟨h.ERR_CLOSED, .nonfatal⟩, s) := by
  by_cases ho : s.tpt.is_open = true <;> by_cases hl : 1 ≤ s.tpt.inp.length <;>
    simp [transport_read_u8, bind_eq, TRANSPORT_VERIFY_OPEN, TRANSPORT_VERIFY_READ,
      transport_set_mode, transport_read_buffer, ho, hl]
  cases hi : s.tpt.inp <;> simp_all

theorem run_transport_write_u32 (h : Host) (x : Nat) (s : RpcState) :
    transport_write_u32 h x s =
      if s.tpt.is_open then
        (.ok (), { s with tpt := { s.tpt with mode := .writing, out := s.tpt.out ++
          (if s.tpt.net_little ≠ s.tpt.loc_little then
            swap_bytes (int_to_mem h.little_endian 4 (x % 2 ^ 32)) 4
          else int_to_mem h.little_endian 4 (x % 2 ^ 32)) } })
      else (.throw ⟨h.ERR_CLOSED, .nonfatal⟩, s) := by
  by_cases ho : s.tpt.is_open = true <;>
    simp [transport_write_u32, bind_eq, TRANSPORT_VERIFY_OPEN, TRANSPORT_VERIFY_WRITE,
      transport_set_mode, transport_write_buffer, ho]

theorem run_transport_read_u32 (h : Host) (s : RpcState) :
    transport_read_u32 h s =
      if s.tpt.is_open then
        if 4 ≤ s.tpt.inp.length then
          (.ok (mem_to_nat h.little_endian
              (if s.tpt.net_little ≠ s.tpt.loc_little then swap_bytes (s.tpt.inp.take 4) 4
                else s.tpt.inp.take 4)),
            { s with tpt := { s.tpt with mode := .reading, inp := s.tpt.inp.drop 4 } })
        else (.throw ⟨h.ERR_EOF, .nonfatal⟩, { s with tpt := { s.tpt with mode := .reading } })
      else (.throw ⟨h.ERR_CLOSED, .nonfatal⟩, s) := by
  by_cases ho : s.tpt.is_open = true <;> by_cases hl : 4 ≤ s.tpt.inp.length <;>
    simp [transport_read_u32, bind_eq, TRANSPORT_VERIFY_OPEN, TRANSPORT_VERIFY_READ,
      transport_set_mode, transport_read_buffer, ho, hl]

/-! ## Octet arithmetic -/

theorem byte_val (n : Nat) : (byte n).val = n % 256 := rfl

theorem byte_of_val (b : Byte) : byte b.val = b := by
  apply Fin.ext
  simp [byte, Nat.mod_eq_of_lt b.isLt]

theorem swap_bytes_four (a b c d : Byte) : swap_bytes [a, b, c, d] 4 = [d, c, b, a] := rfl

theorem swap_bytes_two (a b : Byte) : swap_bytes [a, b] 2 = [b, a] := rfl

theorem swap_bytes_eight (a b c d e f g k : Byte) :
    swap_bytes [a, b, c, d, e, f, g, k] 8 = [k, g, f, e, d, c, b, a] := rfl

theorem le_bytes_four (x : Nat) :
    le_bytes 4 x = [byte x, byte (x / 256), byte (x / 256 / 256), byte (x / 256 / 256 / 256)] :=
  rfl

theorem le_value_four (a b c d : Byte) :
    le_value [a, b, c, d] = a.val + 256 * (b.val + 256 * (c.val + 256 * (d.val + 256 * 0))) :=
  rfl

theorem le_value_le_bytes (w x : Nat) : le_value (le_bytes w x) = x % 2 ^ (8 * w) := by
  induction w generalizing x with
  | zero => simp [le_bytes, le_value, Nat.mod_one]
  | succ w ih =>
    simp only [le_bytes, le_value, ih, byte_val]
    have h2 : 2 ^ (8 * (w + 1)) = 256 * 2 ^ (8 * w) := by
      rw [Nat.mul_succ, Nat.pow_add]; norm_num [Nat.mul_comm]
    rw [h2, Nat.mod_mul]

theorem char_val_small (h : Host) (b : Byte) (hb : b.val < 128) : char_val h b = (b.val : Int) := by
  unfold char_val
  split
  · rename_i hc
    simp at hc
    omega
  · rfl

theorem char_val_le (h : Host) (b : Byte) : char_val h b ≤ (b.val : Int) := by
  unfold char_val
  split <;> omega

theorem char_val_eq_nonneg (h : Host) (b c : Byte) (hc : char_val h b = (c.val : Int)) : b = c := by
  unfold char_val at hc
  apply Fin.ext
  split at hc
  · have := b.isLt
    omega
  · omega

theorem flag_val_lt (b : Bool) : (flag b).val < 128 := by
  cases b <;> decide


/-! ## Session negotiation -/

theorem header_mismatch_iff (h : Host) (b0 b1 b2 b3 b4 b5 b6 b7 : Byte) :
    header_mismatch h [b0, b1, b2, b3, b4, b5, b6, b7] = false ↔
      b0 = 76 ∧ b1 = 82 ∧ b2 = 80 ∧ b3 = 67 ∧ b4 = 3 := by
  have e0 : char_val h b0 = 76 ↔ b0 = 76 :=
    ⟨fun hc => char_val_eq_nonneg h b0 76 hc, fun hc => by subst hc; exact char_val_small h 76 (by decide)⟩
  have e1 : char_val h b1 = 82 ↔ b1 = 82 :=
    ⟨fun hc => char_val_eq_nonneg h b1 82 hc, fun hc => by subst hc; exact char_val_small h 82 (by decide)⟩
  have e2 : char_val h b2 = 80 ↔ b2 = 80 :=
    ⟨fun hc => char_val_eq_nonneg h b2 80 hc, fun hc => by subst hc; exact char_val_small h 80 (by decide)⟩
  have e3 : char_val h b3 = 67 ↔ b3 = 67 :=
    ⟨fun hc => char_val_eq_nonneg h b3 67 hc, fun hc => by subst hc; exact char_val_small h 67 (by decide)⟩
  have e4 : char_val h b4 = 3 ↔ b4 = 3 :=
    ⟨fun hc => char_val_eq_nonneg h b4 3 hc, fun hc => by subst hc; exact char_val_small h 3 (by decide)⟩
  simp [header_mismatch, RPC_PROTOCOL_VERSION, e0, e1, e2, e3, e4, and_assoc]

theorem header_mismatch_client_header (h h2 : Host) :
    header_mismatch h (client_header h2) = false :=
  (header_mismatch_iff h _ _ _ _ _ _ _ _).2 ⟨rfl, rfl, rfl, rfl, rfl⟩

/-- Closed form of `server_negotiate` on a header that passes the check. -/
theorem server_negotiate_ok (h : Host) (s : RpcState) (b0 b1 b2 b3 b4 b5 b6 b7 : Byte)
    (rest : List Byte)
    (hinp : s.tpt.inp = [b0, b1, b2, b3, b4, b5, b6, b7] ++ rest)
    (hm : header_mismatch h [b0, b1, b2, b3, b4, b5, b6, b7] = false) :
    server_negotiate h s = (.ok (), { s with tpt :=
      { is_open := s.tpt.is_open
        loc_little := flag h.little_endian
        net_little :=
          if char_val h b5 = ((flag h.little_endian).val : Int) then flag h.little_endian else 0
        lnum_bytes :=
          if ((byte h.sizeof_lua_Number).val : Int) < char_val h b6 then byte h.sizeof_lua_Number
          else if char_val h b6 < ((byte h.sizeof_lua_Number).val : Int) then b6
          else byte h.sizeof_lua_Number
        loc_intnum := flag h.lua_Number_integral
        net_intnum :=
          if char_val h b7 = ((flag h.lua_Number_integral).val : Int) then
            flag h.lua_Number_integral else 1
        mode := .stop
        inp := rest
        out := s.tpt.out ++ [b0, b1, b2, b3, b4,
          if char_val h b5 = ((flag h.little_endian).val : Int) then b5 else 0,
          if ((byte h.sizeof_lua_Number).val : Int) < char_val h b6 then byte h.sizeof_lua_Number
          else b6,
          if char_val h b7 = ((flag h.lua_Number_integral).val : Int) then b7 else 1] } }) := by
  obtain ⟨tpt, stack, globals, geh⟩ := s
  simp only at hinp
  have hlen : (8 ≤ (b0 :: b1 :: b2 :: b3 :: b4 :: b5 :: b6 :: b7 :: rest).length) = True := by
    simp
  by_cases c6 : ((byte h.sizeof_lua_Number).val : Int) < char_val h b6
  · by_cases c6c : char_val h (byte h.sizeof_lua_Number) < ((byte h.sizeof_lua_Number).val : Int) <;>
    by_cases c5 : char_val h b5 = ((flag h.little_endian).val : Int) <;>
    by_cases c7 : char_val h b7 = ((flag h.lua_Number_integral).val : Int) <;>
    simp only [server_negotiate, bind_eq, run_transport_read_header, run_transport_write_header,
      TRANSPORT_START_READING, TRANSPORT_START_WRITING, TRANSPORT_STOP, run_bind,
      run_modify_tpt, run_pure, transport_set_mode, hinp, hm, run_ite, hlen,
      List.cons_append, List.nil_append, List.take_succ_cons, List.take_zero,
      List.drop_succ_cons, List.drop_zero, run_get_tpt, c5, c6, c7, c6c, List.getD_cons_succ,
      List.getD_cons_zero, List.set_cons_succ, List.set_cons_zero, ne_eq, not_true_eq_false,
      not_false_eq_true, if_false, if_true, gt_iff_lt, run_Throw, Bool.false_eq_true]
  · by_cases c6b : char_val h b6 < ((byte h.sizeof_lua_Number).val : Int) <;>
    by_cases c5 : char_val h b5 = ((flag h.little_endian).val : Int) <;>
    by_cases c7 : char_val h b7 = ((flag h.lua_Number_integral).val : Int) <;>
    simp only [server_negotiate, bind_eq, run_transport_read_header, run_transport_write_header,
      TRANSPORT_START_READING, TRANSPORT_START_WRITING, TRANSPORT_STOP, run_bind,
      run_modify_tpt, run_pure, transport_set_mode, hinp, hm, run_ite, hlen,
      List.cons_append, List.nil_append, List.take_succ_cons, List.take_zero,
      List.drop_succ_cons, List.drop_zero, run_get_tpt, c5, c6, c7, c6b, List.getD_cons_succ,
      List.getD_cons_zero, List.set_cons_succ, List.set_cons_zero, ne_eq, not_true_eq_false,
      not_false_eq_true, if_false, if_true, gt_iff_lt, run_Throw, Bool.false_eq_true]

theorem server_negotiate_mismatch (h : Host) (s : RpcState) (b0 b1 b2 b3 b4 b5 b6 b7 : Byte)
    (rest : List Byte)
    (hinp : s.tpt.inp = [b0, b1, b2, b3, b4, b5, b6, b7] ++ rest)
    (hm : header_mismatch h [b0, b1, b2, b3, b4, b5, b6, b7] = true) :
    server_negotiate h s = (.throw ⟨h.ERR_HEADER, .nonfatal⟩, { s with tpt :=
      { is_open := s.tpt.is_open
        loc_little := flag h.little_endian
        net_little := flag h.little_endian
        lnum_bytes := byte h.sizeof_lua_Number
        loc_intnum := flag h.lua_Number_integral
        net_intnum := flag h.lua_Number_integral
        mode := .reading
        inp := rest
        out := s.tpt.out } }) := by
  obtain ⟨tpt, stack, globals, geh⟩ := s
  simp only at hinp
  have hlen : (8 ≤ (b0 :: b1 :: b2 :: b3 :: b4 :: b5 :: b6 :: b7 :: rest).length) = True := by
    simp
  simp only [server_negotiate, bind_eq, run_transport_read_header,
    TRANSPORT_START_READING, run_bind, run_modify_tpt, transport_set_mode, hinp, hm, run_ite, hlen,
    List.cons_append, List.nil_append, List.take_succ_cons, List.take_zero,
    List.drop_succ_cons, List.drop_zero, if_true, run_Throw]

theorem client_negotiate_ok (h : Host) (s : RpcState) (b0 b1 b2 b3 b4 b5 b6 b7 : Byte)
    (rest : List Byte)
    (hinp : s.tpt.inp = [b0, b1, b2, b3, b4, b5, b6, b7] ++ rest)
    (hm : header_mismatch h [b0, b1, b2, b3, b4, b5, b6, b7] = false) :
    client_negotiate h s = (.ok (), { s with tpt :=
      { is_open := s.tpt.is_open
        loc_little := flag h.little_endian
        net_little := b5
        lnum_bytes := b6
        loc_intnum := flag h.lua_Number_integral
        net_intnum := b7
        mode := .stop
        inp := rest
        out := s.tpt.out ++ client_header h } }) := by
  obtain ⟨tpt, stack, globals, geh⟩ := s
  simp only at hinp
  have hlen : (8 ≤ (b0 :: b1 :: b2 :: b3 :: b4 :: b5 :: b6 :: b7 :: rest).length) = True := by
    simp
  simp only [client_negotiate, bind_eq, run_transport_read_header, run_transport_write_header,
    TRANSPORT_START_READING, TRANSPORT_START_WRITING, TRANSPORT_STOP, run_bind,
    run_modify_tpt, run_pure, transport_set_mode, hinp, hm, run_ite, hlen,
    List.cons_append, List.nil_append, List.take_succ_cons, List.take_zero,
    List.drop_succ_cons, List.drop_zero, run_get_tpt, List.getD_cons_succ,
    List.getD_cons_zero, if_false, if_true, Bool.false_eq_true, client_header]
  rfl

theorem client_negotiate_mismatch (h : Host) (s : RpcState) (b0 b1 b2 b3 b4 b5 b6 b7 : Byte)
    (rest : List Byte)
    (hinp : s.tpt.inp = [b0, b1, b2, b3, b4, b5, b6, b7] ++ rest)
    (hm : header_mismatch h [b0, b1, b2, b3, b4, b5, b6, b7] = true) :
    client_negotiate h s = (.throw ⟨h.ERR_HEADER, .nonfatal⟩, { s with tpt :=
      { is_open := s.tpt.is_open
        loc_little := flag h.little_endian
        net_little := s.tpt.net_little
        lnum_bytes := byte h.sizeof_lua_Number
        loc_intnum := flag h.lua_Number_integral
        net_intnum := s.tpt.net_intnum
        mode := .reading
        inp := rest
        out := s.tpt.out ++ client_header h } }) := by
  obtain ⟨tpt, stack, globals, geh⟩ := s
  simp only at hinp
  have hlen : (8 ≤ (b0 :: b1 :: b2 :: b3 :: b4 :: b5 :: b6 :: b7 :: rest).length) = True := by
    simp
  simp only [client_negotiate, bind_eq, run_transport_read_header, run_transport_write_header,
    TRANSPORT_START_READING, TRANSPORT_START_WRITING, run_bind,
    run_modify_tpt, transport_set_mode, hinp, hm, run_ite, hlen,
    List.cons_append, List.nil_append, List.take_succ_cons, List.take_zero,
    List.drop_succ_cons, List.drop_zero, run_get_tpt, if_true, run_Throw, client_header]
  rfl

theorem client_negotiate_out (h : Host) (s : RpcState) :
    (client_negotiate h s).2.tpt.out = s.tpt.out ++ client_header h := by
  obtain ⟨tpt, stack, globals, geh⟩ := s
  by_cases hl : 8 ≤ tpt.inp.length <;>
  by_cases hm : header_mismatch h (List.take 8 tpt.inp) = true <;>
  simp only [client_negotiate, bind_eq, run_transport_read_header, run_transport_write_header,
    TRANSPORT_START_READING, TRANSPORT_START_WRITING, TRANSPORT_STOP, run_bind,
    run_modify_tpt, run_pure, transport_set_mode, run_ite, hl, hm, run_get_tpt, if_false, if_true,
    run_Throw, client_header] <;> rfl

theorem reconcile_width (h : Host) (na nb : Nat) (ha : na < 128) (hb : nb < 128) :
    (if ((byte nb).val : Int) < char_val h (byte na) then byte nb
      else if char_val h (byte na) < ((byte nb).val : Int) then byte na else byte nb)
      = byte (min na nb) := by
  have hva : (byte na).val = na := by simp [byte_val]; omega
  have hvb : (byte nb).val = nb := by simp [byte_val]; omega
  rw [char_val_small h (byte na) (by omega), hva, hvb]
  by_cases h1 : (nb : Int) < (na : Int)
  · rw [if_pos h1, Nat.min_eq_right (by omega)]
  · rw [if_neg h1]
    by_cases h2 : (na : Int) < (nb : Int)
    · rw [if_pos h2, Nat.min_eq_left (by omega)]
    · rw [if_neg h2, Nat.min_eq_right (by omega)]

theorem reconcile_width_header (h : Host) (na nb : Nat) (ha : na < 128) (hb : nb < 128) :
    (if ((byte nb).val : Int) < char_val h (byte na) then byte nb else byte na)
      = byte (min na nb) := by
  have hva : (byte na).val = na := by simp [byte_val]; omega
  have hvb : (byte nb).val = nb := by simp [byte_val]; omega
  rw [char_val_small h (byte na) (by omega), hva, hvb]
  by_cases h1 : (nb : Int) < (na : Int)
  · rw [if_pos h1, Nat.min_eq_right (by omega)]
  · rw [if_neg h1, Nat.min_eq_left (by omega)]

theorem reconcile_flag (h : Host) (a b : Bool) :
    (if char_val h (flag a) = ((flag b).val : Int) then flag b else 0) = flag (a && b) := by
  rw [char_val_small h _ (flag_val_lt a)]
  cases a <;> cases b <;> decide

theorem reconcile_flag_header (h : Host) (a b : Bool) :
    (if char_val h (flag a) = ((flag b).val : Int) then flag a else 0) = flag (a && b) := by
  rw [char_val_small h _ (flag_val_lt a)]
  cases a <;> cases b <;> decide

theorem reconcile_intnum (h : Host) (a b : Bool) :
    (if char_val h (flag a) = ((flag b).val : Int) then flag b else 1) = flag (a || b) := by
  rw [char_val_small h _ (flag_val_lt a)]
  cases a <;> cases b <;> decide

theorem reconcile_intnum_header (h : Host) (a b : Bool) :
    (if char_val h (flag a) = ((flag b).val : Int) then flag a else 1) = flag (a || b) := by
  rw [char_val_small h _ (flag_val_lt a)]
  cases a <;> cases b <;> decide

/-! ## C2: handshake convergence -/

/-- C2. For every client header with valid magic and version that carries
`(la, na, ia)` and every server host `(lb, nb, ib)`, with the flags 0 or 1 and
the widths among 1, 2, 4, 8, `server_negotiate` returns normally, commits
`net_little = la AND lb`, `lnum_bytes = min(na, nb)`, `net_intnum = ia OR ib`
to its transport, and the reply header it writes carries the same three values
in octets 5, 6 and 7. -/
theorem server_negotiate_converges (h : Host) (s : RpcState) (la ia : Bool) (na : Nat)
    (rest : List Byte)
    (hna : na = 1 ∨ na = 2 ∨ na = 4 ∨ na = 8)
    (hnb : h.sizeof_lua_Number = 1 ∨ h.sizeof_lua_Number = 2 ∨ h.sizeof_lua_Number = 4 ∨
      h.sizeof_lua_Number = 8)
    (hinp : s.tpt.inp = [76, 82, 80, 67, 3, flag la, byte na, flag ia] ++ rest) :
    (server_negotiate h s).1 = .ok () ∧
    (server_negotiate h s).2.tpt.net_little = flag (la && h.little_endian) ∧
    (server_negotiate h s).2.tpt.lnum_bytes = byte (min na h.sizeof_lua_Number) ∧
    (server_negotiate h s).2.tpt.net_intnum = flag (ia || h.lua_Number_integral) ∧
    (server_negotiate h s).2.tpt.out = s.tpt.out ++
      [76, 82, 80, 67, 3, flag (la && h.little_endian), byte (min na h.sizeof_lua_Number),
        flag (ia || h.lua_Number_integral)] := by
  have hm : header_mismatch h [76, 82, 80, 67, 3, flag la, byte na, flag ia] = false :=
    (header_mismatch_iff h _ _ _ _ _ _ _ _).2 ⟨rfl, rfl, rfl, rfl, rfl⟩
  have ha : na < 128 := by omega
  have hb : h.sizeof_lua_Number < 128 := by omega
  rw [server_negotiate_ok h s _ _ _ _ _ _ _ _ rest hinp hm]
  simp only [reconcile_width h na _ ha hb, reconcile_width_header h na _ ha hb, reconcile_flag,
    reconcile_flag_header, reconcile_intnum, reconcile_intnum_header, and_self]

/-- Witness for C2: a little-endian client with 4-octet integers meets a
little-endian server with 8-octet doubles. -/
theorem server_negotiate_converges_witness :
    (server_negotiate host_le_double
        (state_of (fresh_transport [76, 82, 80, 67, 3, 1, 4, 1]) [])).1 = .ok () ∧
    (server_negotiate host_le_double
        (state_of (fresh_transport [76, 82, 80, 67, 3, 1, 4, 1]) [])).2.tpt.net_little = 1 ∧
    (server_negotiate host_le_double
        (state_of (fresh_transport [76, 82, 80, 67, 3, 1, 4, 1]) [])).2.tpt.lnum_bytes = 4 ∧
    (server_negotiate host_le_double
        (state_of (fresh_transport [76, 82, 80, 67, 3, 1, 4, 1]) [])).2.tpt.net_intnum = 1 ∧
    (server_negotiate host_le_double
        (state_of (fresh_transport [76, 82, 80, 67, 3, 1, 4, 1]) [])).2.tpt.out =
      [76, 82, 80, 67, 3, 1, 4, 1] :=
  server_negotiate_converges host_le_double
    (state_of (fresh_transport [76, 82, 80, 67, 3, 1, 4, 1]) []) true true 4 []
    (by decide) (by decide) (by rfl)

/-! ## C3: handshake agreement -/

/-- C3. Two ends of one connection: the server reads what the client wrote
during `client_negotiate`, the client reads what the server wrote during
`server_negotiate`. Then, for every pair of hosts, both negotiations return
normally and the client has committed the same `net_little`, `lnum_bytes` and
`net_intnum` as the server. -/
theorem handshake_agreement (hc hs : Host) (c sv : RpcState) (rest_s rest_c : List Byte)
    (hs_in : sv.tpt.inp =
      (client_negotiate hc c).2.tpt.out.drop c.tpt.out.length ++ rest_s)
    (hc_in : c.tpt.inp =
      (server_negotiate hs sv).2.tpt.out.drop sv.tpt.out.length ++ rest_c) :
    (client_negotiate hc c).1 = .ok () ∧ (server_negotiate hs sv).1 = .ok () ∧
    (client_negotiate hc c).2.tpt.net_little = (server_negotiate hs sv).2.tpt.net_little ∧
    (client_negotiate hc c).2.tpt.lnum_bytes = (server_negotiate hs sv).2.tpt.lnum_bytes ∧
    (client_negotiate hc c).2.tpt.net_intnum = (server_negotiate hs sv).2.tpt.net_intnum := by
  rw [client_negotiate_out, List.drop_left] at hs_in
  have hm : header_mismatch hs (client_header hc) = false := header_mismatch_client_header hs hc
  have hsv := server_negotiate_ok hs sv _ _ _ _ _ _ _ _ rest_s hs_in hm
  rw [hsv] at hc_in ⊢
  simp only [List.drop_left] at hc_in
  have hm2 := (header_mismatch_iff hc 76 82 80 67 3
    (if char_val hs (flag hc.little_endian) = ((flag hs.little_endian).val : Int) then
      flag hc.little_endian else 0)
    (if ((byte hs.sizeof_lua_Number).val : Int) < char_val hs (byte hc.sizeof_lua_Number) then
      byte hs.sizeof_lua_Number else byte hc.sizeof_lua_Number)
    (if char_val hs (flag hc.lua_Number_integral) = ((flag hs.lua_Number_integral).val : Int) then
      flag hc.lua_Number_integral else 1)).2 ⟨rfl, rfl, rfl, rfl, rfl⟩
  rw [client_negotiate_ok hc c _ _ _ _ _ _ _ _ rest_c hc_in hm2]
  refine ⟨rfl, rfl, ?_, ?_, ?_⟩
  · show (if _ then _ else _) = (if _ then _ else _)
    by_cases c5 : char_val hs (flag hc.little_endian) = ((flag hs.little_endian).val : Int)
    · rw [if_pos c5, if_pos c5]
      exact char_val_eq_nonneg hs _ _ c5
    · rw [if_neg c5, if_neg c5]
  · show (if _ then _ else _) = (if _ then _ else _)
    by_cases c6 : ((byte hs.sizeof_lua_Number).val : Int) < char_val hs (byte hc.sizeof_lua_Number)
    · rw [if_pos c6, if_pos c6]
    · rw [if_neg c6, if_neg c6]
      by_cases c6b : char_val hs (byte hc.sizeof_lua_Number) < ((byte hs.sizeof_lua_Number).val : Int)
      · rw [if_pos c6b]
      · rw [if_neg c6b]
        exact char_val_eq_nonneg hs _ _ (by omega)
  · show (if _ then _ else _) = (if _ then _ else _)
    by_cases c7 : char_val hs (flag hc.lua_Number_integral) = ((flag hs.lua_Number_integral).val : Int)
    · rw [if_pos c7, if_pos c7]
      exact char_val_eq_nonneg hs _ _ c7
    · rw [if_neg c7, if_neg c7]

/-- Witness for C3: a big-endian 4-octet-integer client and a little-endian
8-octet-double server. -/
theorem handshake_agreement_witness :
    (client_negotiate host_be_int32
        (state_of (fresh_transport [76, 82, 80, 67, 3, 0, 4, 1]) [])).1 = .ok () ∧
    (server_negotiate host_le_double
        (state_of (fresh_transport [76, 82, 80, 67, 3, 0, 4, 1]) [])).1 = .ok () ∧
    (client_negotiate host_be_int32
        (state_of (fresh_transport [76, 82, 80, 67, 3, 0, 4, 1]) [])).2.tpt.net_little =
      (server_negotiate host_le_double
        (state_of (fresh_transport [76, 82, 80, 67, 3, 0, 4, 1]) [])).2.tpt.net_little ∧
    (client_negotiate host_be_int32
        (state_of (fresh_transport [76, 82, 80, 67, 3, 0, 4, 1]) [])).2.tpt.lnum_bytes =
      (server_negotiate host_le_double
        (state_of (fresh_transport [76, 82, 80, 67, 3, 0, 4, 1]) [])).2.tpt.lnum_bytes ∧
    (client_negotiate host_be_int32
        (state_of (fresh_transport [76, 82, 80, 67, 3, 0, 4, 1]) [])).2.tpt.net_intnum =
      (server_negotiate host_le_double
        (state_of (fresh_transport [76, 82, 80, 67, 3, 0, 4, 1]) [])).2.tpt.net_intnum :=
  handshake_agreement host_be_int32 host_le_double
    (state_of (fresh_transport [76, 82, 80, 67, 3, 0, 4, 1]) [])
    (state_of (fresh_transport [76, 82, 80, 67, 3, 0, 4, 1]) []) [] []
    (by decide) (by decide)

/-! ## C4: header validation -/

/-- C4. For every 8-octet header received, `server_negotiate` fails with the
nonfatal exception `ERR_HEADER` exactly when octets 0..3 differ from
`'L','R','P','C'` or octet 4 differs from 3 (otherwise it returns normally);
when it fails it has written nothing; `client_negotiate` fails with the same
exception under the same condition on the reply it reads. -/
theorem header_validation (h : Host) (s : RpcState) (b0 b1 b2 b3 b4 b5 b6 b7 : Byte)
    (rest : List Byte) (hinp : s.tpt.inp = [b0, b1, b2, b3, b4, b5, b6, b7] ++ rest) :
    ((server_negotiate h s).1 = .throw ⟨h.ERR_HEADER, .nonfatal⟩ ↔
      ¬(b0 = 76 ∧ b1 = 82 ∧ b2 = 80 ∧ b3 = 67 ∧ b4 = 3)) ∧
    ((server_negotiate h s).1 = .ok () ↔ (b0 = 76 ∧ b1 = 82 ∧ b2 = 80 ∧ b3 = 67 ∧ b4 = 3)) ∧
    ((server_negotiate h s).1 = .throw ⟨h.ERR_HEADER, .nonfatal⟩ →
      (server_negotiate h s).2.tpt.out = s.tpt.out) ∧
    ((client_negotiate h s).1 = .throw ⟨h.ERR_HEADER, .nonfatal⟩ ↔
      ¬(b0 = 76 ∧ b1 = 82 ∧ b2 = 80 ∧ b3 = 67 ∧ b4 = 3)) ∧
    ((client_negotiate h s).1 = .ok () ↔ (b0 = 76 ∧ b1 = 82 ∧ b2 = 80 ∧ b3 = 67 ∧ b4 = 3)) := by
  cases hm : header_mismatch h [b0, b1, b2, b3, b4, b5, b6, b7]
  · have hv := (header_mismatch_iff h b0 b1 b2 b3 b4 b5 b6 b7).1 hm
    rw [server_negotiate_ok h s _ _ _ _ _ _ _ _ rest hinp hm,
      client_negotiate_ok h s _ _ _ _ _ _ _ _ rest hinp hm]
    simp [hv]
  · have hv : ¬(b0 = 76 ∧ b1 = 82 ∧ b2 = 80 ∧ b3 = 67 ∧ b4 = 3) := fun hv => by
      rw [(header_mismatch_iff h b0 b1 b2 b3 b4 b5 b6 b7).2 hv] at hm
      exact Bool.noConfusion hm
    rw [server_negotiate_mismatch h s _ _ _ _ _ _ _ _ rest hinp hm,
      client_negotiate_mismatch h s _ _ _ _ _ _ _ _ rest hinp hm]
    simp [hv]

/-- Witness for C4: a header with protocol version 2. -/
theorem header_validation_witness :
    ((server_negotiate host_le_double
        (state_of (fresh_transport [76, 82, 80, 67, 2, 1, 8, 0]) [])).1 =
          .throw ⟨host_le_double.ERR_HEADER, .nonfatal⟩ ↔
      ¬((76 : Byte) = 76 ∧ (82 : Byte) = 82 ∧ (80 : Byte) = 80 ∧ (67 : Byte) = 67 ∧
        (2 : Byte) = 3)) ∧
    ((server_negotiate host_le_double
        (state_of (fresh_transport [76, 82, 80, 67, 2, 1, 8, 0]) [])).1 = .ok () ↔
      ((76 : Byte) = 76 ∧ (82 : Byte) = 82 ∧ (80 : Byte) = 80 ∧ (67 : Byte) = 67 ∧
        (2 : Byte) = 3)) ∧
    ((server_negotiate host_le_double
        (state_of (fresh_transport [76, 82, 80, 67, 2, 1, 8, 0]) [])).1 =
          .throw ⟨host_le_double.ERR_HEADER, .nonfatal⟩ →
      (server_negotiate host_le_double
        (state_of (fresh_transport [76, 82, 80, 67, 2, 1, 8, 0]) [])).2.tpt.out = []) ∧
    ((client_negotiate host_le_double
        (state_of (fresh_transport [76, 82, 80, 67, 2, 1, 8, 0]) [])).1 =
          .throw ⟨host_le_double.ERR_HEADER, .nonfatal⟩ ↔
      ¬((76 : Byte) = 76 ∧ (82 : Byte) = 82 ∧ (80 : Byte) = 80 ∧ (67 : Byte) = 67 ∧
        (2 : Byte) = 3)) ∧
    ((client_negotiate host_le_double
        (state_of (fresh_transport [76, 82, 80, 67, 2, 1, 8, 0]) [])).1 = .ok () ↔
      ((76 : Byte) = 76 ∧ (82 : Byte) = 82 ∧ (80 : Byte) = 80 ∧ (67 : Byte) = 67 ∧
        (2 : Byte) = 3)) :=
  header_validation host_le_double (state_of (fresh_transport [76, 82, 80, 67, 2, 1, 8, 0]) [])
    76 82 80 67 2 1 8 0 [] (by decide)

/-! ## C5: identical echo -/

/-- C5. On a little-endian host with an 8-octet floating `lua_Number`,
`client_negotiate` writes exactly `4C 52 50 43 03 01 08 00`; and whenever the
three configuration octets of a valid received header equal the server's local
values, `server_negotiate` returns normally and the header it writes back is
the header it received. -/
theorem identical_echo (hc hs : Host) (c sv : RpcState) (b5 b6 b7 : Byte) (rest : List Byte) :
    (hc.little_endian = true → hc.sizeof_lua_Number = 8 → hc.lua_Number_integral = false →
      (client_negotiate hc c).2.tpt.out =
        c.tpt.out ++ [0x4C, 0x52, 0x50, 0x43, 0x03, 0x01, 0x08, 0x00]) ∧
    (sv.tpt.inp = [0x4C, 0x52, 0x50, 0x43, 0x03, b5, b6, b7] ++ rest →
      b5 = flag hs.little_endian → b6 = byte hs.sizeof_lua_Number →
      b7 = flag hs.lua_Number_integral →
      (server_negotiate hs sv).1 = .ok () ∧
      (server_negotiate hs sv).2.tpt.out =
        sv.tpt.out ++ [0x4C, 0x52, 0x50, 0x43, 0x03, b5, b6, b7]) := by
  constructor
  · intro hle h8 hfl
    rw [client_negotiate_out, client_header, hle, h8, hfl]
    rfl
  · intro hin h5 h6 h7
    have hm : header_mismatch hs [0x4C, 0x52, 0x50, 0x43, 0x03, b5, b6, b7] = false :=
      (header_mismatch_iff hs _ _ _ _ _ _ _ _).2 ⟨rfl, rfl, rfl, rfl, rfl⟩
    rw [server_negotiate_ok hs sv _ _ _ _ _ _ _ _ rest hin hm]
    refine ⟨rfl, ?_⟩
    have c5 : char_val hs b5 = ((flag hs.little_endian).val : Int) := by
      rw [h5, char_val_small hs _ (flag_val_lt _)]
    have c7 : char_val hs b7 = ((flag hs.lua_Number_integral).val : Int) := by
      rw [h7, char_val_small hs _ (flag_val_lt _)]
    have c6 : ¬ ((byte hs.sizeof_lua_Number).val : Int) < char_val hs b6 := by
      rw [h6]
      have := char_val_le hs (byte hs.sizeof_lua_Number)
      omega
    simp only [if_pos c5, if_pos c7, if_neg c6]

/-- Witness for C5: client and server are both little-endian hosts with
8-octet doubles. -/
theorem identical_echo_witness :
    (client_negotiate host_le_double (state_of (fresh_transport []) [])).2.tpt.out =
      [0x4C, 0x52, 0x50, 0x43, 0x03, 0x01, 0x08, 0x00] ∧
    (server_negotiate host_le_double
        (state_of (fresh_transport [0x4C, 0x52, 0x50, 0x43, 0x03, 0x01, 0x08, 0x00]) [])).1
      = .ok () ∧
    (server_negotiate host_le_double
        (state_of (fresh_transport [0x4C, 0x52, 0x50, 0x43, 0x03, 0x01, 0x08, 0x00]) [])).2.tpt.out
      = [0x4C, 0x52, 0x50, 0x43, 0x03, 0x01, 0x08, 0x00] :=
  ⟨(identical_echo host_le_double host_le_double (state_of (fresh_transport []) [])
      (state_of (fresh_transport [0x4C, 0x52, 0x50, 0x43, 0x03, 0x01, 0x08, 0x00]) [])
      1 8 0 []).1 rfl rfl rfl,
   (identical_echo host_le_double host_le_double (state_of (fresh_transport []) [])
      (state_of (fresh_transport [0x4C, 0x52, 0x50, 0x43, 0x03, 0x01, 0x08, 0x00]) [])
      1 8 0 []).2 rfl rfl rfl rfl⟩

/-! ## C6: wire order of `u32` -/

theorem le_value_le_bytes_four (x : Nat) (hx : x < 2 ^ 32) :
    le_value [byte x, byte (x / 256), byte (x / 65536), byte (x / 16777216)] = x := by
  simp only [le_value, byte_val]
  omega

theorem le_bytes_four_eq (x : Nat) :
    le_bytes 4 x = [byte x, byte (x / 256), byte (x / 65536), byte (x / 16777216)] := by
  rw [le_bytes_four, Nat.div_div_eq_div_mul, Nat.div_div_eq_div_mul]

/-- C6. On an open transport whose `loc_little` is the host's endianness and
whose `net_little` is a handshake outcome (`loc_little AND peer_little`),
`transport_write_u32` emits the four octets of `x` least significant first when
`net_little = 1` and most significant first when `net_little = 0`, and
`transport_read_u32` on a transport with the same attributes that receives
those octets returns `x` and consumes exactly them. -/
theorem u32_wire_order (h : Host) (s r : RpcState) (peer_little : Bool) (x : Nat)
    (rest : List Byte) (hx : x < 2 ^ 32)
    (hso : s.tpt.is_open = true) (hsl : s.tpt.loc_little = flag h.little_endian)
    (hsn : s.tpt.net_little = flag (h.little_endian && peer_little))
    (hro : r.tpt.is_open = true) (hrl : r.tpt.loc_little = s.tpt.loc_little)
    (hrn : r.tpt.net_little = s.tpt.net_little)
    (hrin : r.tpt.inp = (transport_write_u32 h x s).2.tpt.out.drop s.tpt.out.length ++ rest) :
    (transport_write_u32 h x s).1 = .ok () ∧
    (transport_write_u32 h x s).2.tpt.out = s.tpt.out ++
      (if s.tpt.net_little = 1 then [byte x, byte (x / 256), byte (x / 65536), byte (x / 16777216)]
        else [byte (x / 16777216), byte (x / 65536), byte (x / 256), byte x]) ∧
    (transport_read_u32 h r).1 = .ok x ∧
    (transport_read_u32 h r).2.tpt.inp = rest := by
  have hmod : x % 2 ^ 32 = x := Nat.mod_eq_of_lt hx
  have hv := le_value_le_bytes_four x hx
  rw [run_transport_write_u32, if_pos hso] at hrin ⊢
  rw [run_transport_read_u32, if_pos hro]
  simp only [List.drop_left, hmod] at hrin
  simp only [hrin, hmod, hrl, hrn, hsl, hsn, int_to_mem, mem_to_nat, le_bytes_four_eq]
  cases h.little_endian <;> cases peer_little <;>
    simp [flag, swap_bytes_four, hv]

/-- Witness for C6: a little-endian host talking to a big-endian peer sends
`0x01020304` most significant octet first. -/
theorem u32_wire_order_witness :
    (transport_write_u32 host_le_double 0x01020304
      (state_of (linked_transport 1 0 8 0 0 []) [])).1 = .ok () ∧
    (transport_write_u32 host_le_double 0x01020304
      (state_of (linked_transport 1 0 8 0 0 []) [])).2.tpt.out = [1, 2, 3, 4] ∧
    (transport_read_u32 host_le_double
      (state_of (linked_transport 1 0 8 0 0 [1, 2, 3, 4, 9]) [])).1 = .ok 0x01020304 ∧
    (transport_read_u32 host_le_double
      (state_of (linked_transport 1 0 8 0 0 [1, 2, 3, 4, 9]) [])).2.tpt.inp = [9] :=
  u32_wire_order host_le_double (state_of (linked_transport 1 0 8 0 0 []) [])
    (state_of (linked_transport 1 0 8 0 0 [1, 2, 3, 4, 9]) []) false 0x01020304 [9]
    (by decide) rfl rfl rfl rfl rfl rfl (by decide)

/-! ## C7 and C8: native numbers -/

theorem le_bytes_length (w x : Nat) : (le_bytes w x).length = w := by
  induction w generalizing x with
  | zero => rfl
  | succ w ih => simp [le_bytes, ih]

theorem mem_read_self (x : List Byte) : mem_read x x.length = x := by
  simp [mem_read]

theorem swap_bytes_le_bytes (w t : Nat) (hw : w = 1 ∨ w = 2 ∨ w = 4 ∨ w = 8) :
    swap_bytes (le_bytes w t) w = (le_bytes w t).reverse := by
  rcases hw with rfl | rfl | rfl | rfl <;> rfl

theorem swap_bytes_le_bytes_reverse (w t : Nat) (hw : w = 1 ∨ w = 2 ∨ w = 4 ∨ w = 8) :
    swap_bytes (le_bytes w t).reverse w = le_bytes w t := by
  rcases hw with rfl | rfl | rfl | rfl <;> rfl

theorem of_bits_to_bits (w : Nat) (x : Int) (hw : 0 < w)
    (hlo : -(2 : Int) ^ (8 * w - 1) ≤ x) (hhi : x < (2 : Int) ^ (8 * w - 1)) :
    of_bits w (to_bits w x % 2 ^ (8 * w)) = x := by
  have hp : (2 : Int) ^ (8 * w) = 2 * 2 ^ (8 * w - 1) := by
    rw [← pow_succ']
    congr 1
    omega
  have hpn : (2 : Nat) ^ (8 * w) = 2 * 2 ^ (8 * w - 1) := by
    rw [← pow_succ']
    congr 1
    omega
  have hpos : (0 : Int) < 2 ^ (8 * w - 1) := by positivity
  unfold of_bits to_bits
  have hnn : 0 ≤ x % (2 : Int) ^ (8 * w) := Int.emod_nonneg _ (by positivity)
  have hlt : x % (2 : Int) ^ (8 * w) < 2 ^ (8 * w) := Int.emod_lt_of_pos _ (by positivity)
  have hcast : ((x % (2 : Int) ^ (8 * w)).toNat : Int) = x % (2 : Int) ^ (8 * w) :=
    Int.toNat_of_nonneg hnn
  have hltn : (x % (2 : Int) ^ (8 * w)).toNat < 2 ^ (8 * w) := by
    have : ((x % (2 : Int) ^ (8 * w)).toNat : Int) < ((2 ^ (8 * w) : Nat) : Int) := by
      rw [hcast]; push_cast; exact hlt
    exact_mod_cast this
  rw [Nat.mod_eq_of_lt hltn]
  by_cases hx : 0 ≤ x
  · have hm : x % (2 : Int) ^ (8 * w) = x := Int.emod_eq_of_lt hx (by omega)
    have hsmall : (x % (2 : Int) ^ (8 * w)).toNat < 2 ^ (8 * w - 1) := by
      have : ((x % (2 : Int) ^ (8 * w)).toNat : Int) < ((2 ^ (8 * w - 1) : Nat) : Int) := by
        rw [hcast, hm]; push_cast; exact hhi
      exact_mod_cast this
    rw [if_pos hsmall, hcast, hm]
  · have hm : x % (2 : Int) ^ (8 * w) = x + 2 ^ (8 * w) := by
      rw [← Int.add_emod_self]
      exact Int.emod_eq_of_lt (by omega) (by omega)
    have hbig : ¬ (x % (2 : Int) ^ (8 * w)).toNat < 2 ^ (8 * w - 1) := by
      intro hc
      have : ((x % (2 : Int) ^ (8 * w)).toNat : Int) < ((2 ^ (8 * w - 1) : Nat) : Int) := by
        exact_mod_cast hc
      rw [hcast, hm] at this
      push_cast at this
      omega
    rw [if_neg hbig, hcast, hm]
    omega

theorem int_to_mem_length (l : Bool) (w t : Nat) : (int_to_mem l w t).length = w := by
  cases l <;> simp [int_to_mem, le_bytes_length]

theorem mem_read_int_to_mem (l : Bool) (w t : Nat) :
    mem_read (int_to_mem l w t) w = int_to_mem l w t := by
  have := mem_read_self (int_to_mem l w t)
  rwa [int_to_mem_length] at this

theorem mem_to_nat_int_to_mem (l : Bool) (w t : Nat) :
    mem_to_nat l (int_to_mem l w t) = t % 2 ^ (8 * w) := by
  cases l <;> simp [mem_to_nat, int_to_mem, le_value_le_bytes]

theorem swap_bytes_int_to_mem (l : Bool) (w t : Nat) (hw : w = 1 ∨ w = 2 ∨ w = 4 ∨ w = 8) :
    swap_bytes (int_to_mem l w t) w = int_to_mem (!l) w t := by
  cases l
  · simp [int_to_mem, swap_bytes_le_bytes_reverse w t hw]
  · simp [int_to_mem, swap_bytes_le_bytes w t hw]

/-- Closed form of the integer branch of `transport_write_number`. -/
theorem run_transport_write_number_int (h : Host) (x : LNum) (s : RpcState) (w : Nat)
    (hw : w = 1 ∨ w = 2 ∨ w = 4 ∨ w = 8) (hopen : s.tpt.is_open = true)
    (hint : s.tpt.net_intnum ≠ 0) (hl : s.tpt.lnum_bytes.val = w) :
    transport_write_number h x s =
      (.ok (), { s with tpt := { s.tpt with mode := .writing, out := s.tpt.out ++
        (int_to_mem (if s.tpt.net_little ≠ s.tpt.loc_little then !h.little_endian
          else h.little_endian) w (to_bits w (h.number_to_integer x))) } }) := by
  by_cases hd : s.tpt.net_little = s.tpt.loc_little <;>
  rcases hw with rfl | rfl | rfl | rfl <;>
  simp [transport_write_number, bind_eq, TRANSPORT_VERIFY_OPEN, TRANSPORT_VERIFY_WRITE,
    transport_set_mode, transport_write_buffer, hopen, hint, hl, hd, mem_read_int_to_mem,
    swap_bytes_int_to_mem]
  · -- one octet is never swapped
    cases h.little_endian <;> rfl

/-- Closed form of the integer branch of `transport_read_number`. -/
theorem run_transport_read_number_int (h : Host) (s : RpcState) (w : Nat) (b rest : List Byte)
    (hw : w = 1 ∨ w = 2 ∨ w = 4 ∨ w = 8) (hopen : s.tpt.is_open = true)
    (hint : s.tpt.net_intnum ≠ s.tpt.loc_intnum) (hl : s.tpt.lnum_bytes.val = w)
    (hb : b.length = w) (hinp : s.tpt.inp = b ++ rest) :
    transport_read_number h s =
      (.ok (h.integer_to_number (of_bits w (mem_to_nat h.little_endian
          (mem_read (if s.tpt.net_little ≠ s.tpt.loc_little then swap_bytes b w else b) w)))),
        { s with tpt := { s.tpt with mode := .reading, inp := rest } }) := by
  have hlen : w ≤ s.tpt.inp.length := by simp [hinp, hb]
  have htake : List.take w s.tpt.inp = b := by simp [hinp, ← hb]
  have hdrop : List.drop w s.tpt.inp = rest := by simp [hinp, ← hb]
  by_cases hd : s.tpt.net_little = s.tpt.loc_little <;>
  rcases hw with rfl | rfl | rfl | rfl <;>
  simp [transport_read_number, bind_eq, TRANSPORT_VERIFY_OPEN, TRANSPORT_VERIFY_READ,
    transport_set_mode, transport_read_buffer, hopen, hint, hl, hd, hlen, htake, hdrop]

/-- C7 (evaluation at the failing input). A link between two float hosts that
negotiated `lnum_bytes = 4`, `net_intnum = 0`: `transport_write_number` on the
little-endian double host writes all eight octets of the double 42.0, while
`transport_read_number` with the same attributes consumes four octets of
them. -/
theorem number_width_float_mode :
    (transport_write_number host_le_double [0, 0, 0, 0, 0, 0, 0x45, 0x40]
      (state_of (linked_transport 1 1 4 0 0 []) [])).2.tpt.out
        = [0, 0, 0, 0, 0, 0, 0x45, 0x40] ∧
    (transport_read_number host_le_double
      (state_of (linked_transport 1 1 4 0 0 [0, 0, 0, 0, 0, 0, 0x45, 0x40]) [])).2.tpt.inp
        = [0, 0, 0x45, 0x40] := by
  constructor <;> rfl

/-- C8. Integer wire mode with width `w` among 1, 2, 4, 8, writer host `hw`,
reader host `hr` that is float-local, `net_little` the AND of both
endiannesses. For a `lua_Number` whose integer value `x` fits `w` octets,
`transport_write_number` emits the `w`-octet two-complement pattern of `x`,
least significant octet first when `net_little = 1` and most significant first
otherwise, and `transport_read_number` on the reader decodes these octets to
the integer `x`, which it then converts to its `lua_Number`. -/
theorem mixed_integrality_transfer (hw hr : Host) (sw sr : RpcState) (w : Nat) (n : LNum)
    (x : Int) (rest : List Byte)
    (hwidth : w = 1 ∨ w = 2 ∨ w = 4 ∨ w = 8)
    (hlo : -(2 : Int) ^ (8 * w - 1) ≤ x) (hhi : x < (2 : Int) ^ (8 * w - 1))
    (hn : hw.number_to_integer n = x)
    (hwo : sw.tpt.is_open = true) (hwl : sw.tpt.loc_little = flag hw.little_endian)
    (hwn : sw.tpt.net_little = flag (hw.little_endian && hr.little_endian))
    (hww : sw.tpt.lnum_bytes = byte w) (hwi : sw.tpt.net_intnum = 1)
    (hro : sr.tpt.is_open = true) (hrl : sr.tpt.loc_little = flag hr.little_endian)
    (hrn : sr.tpt.net_little = flag (hw.little_endian && hr.little_endian))
    (hrw : sr.tpt.lnum_bytes = byte w) (hri : sr.tpt.net_intnum = 1)
    (hrf : hr.lua_Number_integral = false)
    (hrli : sr.tpt.loc_intnum = flag hr.lua_Number_integral)
    (hrin : sr.tpt.inp =
      (transport_write_number hw n sw).2.tpt.out.drop sw.tpt.out.length ++ rest) :
    (transport_write_number hw n sw).1 = .ok () ∧
    (transport_write_number hw n sw).2.tpt.out = sw.tpt.out ++
      (if sw.tpt.net_little = 1 then
        le_bytes w (if 0 ≤ x then x.toNat else (x + 2 ^ (8 * w)).toNat)
      else (le_bytes w (if 0 ≤ x then x.toNat else (x + 2 ^ (8 * w)).toNat)).reverse) ∧
    (transport_read_number hr sr).1 = .ok (hr.integer_to_number x) ∧
    (transport_read_number hr sr).2.tpt.inp = rest := by
  have hw0 : 0 < w := by omega
  have hbv : (byte w).val = w := by
    rw [byte_val]; exact Nat.mod_eq_of_lt (by omega)
  have hpos : (0 : Int) < 2 ^ (8 * w - 1) := by positivity
  have hp : (2 : Int) ^ (8 * w) = 2 * 2 ^ (8 * w - 1) := by
    rw [← pow_succ']
    congr 1
    omega
  -- the bit pattern the writer stores is the two-complement pattern of `x`
  have hbits : to_bits w x = if 0 ≤ x then x.toNat else (x + 2 ^ (8 * w)).toNat := by
    unfold to_bits
    split
    · rw [Int.emod_eq_of_lt (by assumption) (by omega)]
    · rw [← Int.add_emod_self, Int.emod_eq_of_lt (by omega) (by omega)]
  have hwint : sw.tpt.net_intnum ≠ 0 := by rw [hwi]; decide
  have hrint : sr.tpt.net_intnum ≠ sr.tpt.loc_intnum := by
    rw [hri, hrli, hrf]; decide
  have hwrite := run_transport_write_number_int hw n sw w hwidth hwo hwint (by rw [hww, hbv])
  rw [hwrite] at hrin ⊢
  simp only [List.drop_left] at hrin
  have hread := run_transport_read_number_int hr sr w _ rest hwidth hro hrint (by rw [hrw, hbv])
    (int_to_mem_length _ _ _) hrin
  rw [hread, hn, ← hbits]
  refine ⟨rfl, ?_, ?_, rfl⟩
  · show sw.tpt.out ++ _ = _
    congr 1
    rw [hwn, hwl]
    cases hw.little_endian <;> cases hr.little_endian <;> simp [flag, int_to_mem]
  · show Res.ok _ = Res.ok _
    congr 2
    rw [hwn, hwl, hrn, hrl]
    have key : ∀ l : Bool, of_bits w (mem_to_nat l (mem_read (int_to_mem l w (to_bits w x)) w))
        = x := by
      intro l
      rw [mem_read_int_to_mem, mem_to_nat_int_to_mem]
      exact of_bits_to_bits w x hw0 hlo hhi
    cases hw.little_endian <;> cases hr.little_endian <;>
      simp [flag, swap_bytes_int_to_mem _ _ _ hwidth, key]

/-- Witness for C8: the little-endian double host sends -2 (the double
`C0 00 00 00 00 00 00 00`, stored least significant octet first) as a 2-octet
integer to a big-endian float-local reader; the wire carries `FF FE`. -/
theorem mixed_integrality_transfer_witness :
    (transport_write_number host_le_double [0, 0, 0, 0, 0, 0, 0, 0xC0]
      (state_of (linked_transport 1 0 2 0 1 []) [])).1 = .ok () ∧
    (transport_write_number host_le_double [0, 0, 0, 0, 0, 0, 0, 0xC0]
      (state_of (linked_transport 1 0 2 0 1 []) [])).2.tpt.out = [0xFF, 0xFE] ∧
    (transport_read_number host_be_double
      (state_of (linked_transport 0 0 2 0 1 [0xFF, 0xFE, 7]) [])).1 =
        .ok (host_be_double.integer_to_number (-2)) ∧
    (transport_read_number host_be_double
      (state_of (linked_transport 0 0 2 0 1 [0xFF, 0xFE, 7]) [])).2.tpt.inp = [7] :=
  have t := mixed_integrality_transfer host_le_double host_be_double
    (state_of (linked_transport 1 0 2 0 1 []) [])
    (state_of (linked_transport 0 0 2 0 1 [0xFF, 0xFE, 7]) []) 2 [0, 0, 0, 0, 0, 0, 0, 0xC0]
    (-2) [7] (by decide) (by decide) (by decide) (by decide) rfl rfl rfl rfl rfl rfl rfl rfl rfl
    rfl rfl rfl (by decide)
  ⟨t.1, t.2.1.trans (by decide), t.2.2.1, t.2.2.2⟩

/-! ## C1: round trip of the value codec -/

theorem state_eta (s : RpcState) :
    ({ s with tpt := { s.tpt with mode := s.tpt.mode, out := s.tpt.out } } : RpcState) = s := rfl

/-- Closed form of the string arm of `write_variable` on an open transport,
for a length that is not negative as an `int`. -/
theorem run_write_string_value (h : Host) (s : List Byte) (st : RpcState)
    (hopen : st.tpt.is_open = true) (hl : s.length % 2 ^ 32 < 2 ^ 31) :
    write_string_value h s st =
      (.ok (), { st with tpt := { st.tpt with mode := .writing, out := st.tpt.out ++
        (RPC_STRING :: (wire_u32 h.little_endian (decide (st.tpt.net_little ≠ st.tpt.loc_little))
          (s.length % 2 ^ 32) ++ s.take (s.length % 2 ^ 32))) } }) := by
  have hn : ¬ (u32_to_int (s.length % 4294967296) < 0) := by
    show ¬ (u32_to_int (s.length % 2 ^ 32) < 0)
    rw [u32_to_int_small _ hl]
    omega
  by_cases hd : st.tpt.net_little = st.tpt.loc_little <;>
  simp [write_string_value, bind_eq, run_transport_write_u8, run_transport_write_u32,
    transport_write_string, TRANSPORT_VERIFY_WRITE, transport_set_mode, transport_write_buffer,
    run_modify_tpt, hn, hopen, hd, wire_u32]

/-- The string arm of `write_variable` for a length that is negative as an
`int`: tag and length are written, the content is not. -/
theorem run_write_string_value_long (h : Host) (s : List Byte) (st : RpcState)
    (hopen : st.tpt.is_open = true) (hl : 2 ^ 31 ≤ s.length % 2 ^ 32) :
    write_string_value h s st =
      (.undefined, { st with tpt := { st.tpt with mode := .writing, out := st.tpt.out ++
        (RPC_STRING :: wire_u32 h.little_endian (decide (st.tpt.net_little ≠ st.tpt.loc_little))
          (s.length % 2 ^ 32)) } }) := by
  have hneg : u32_to_int (s.length % 4294967296) < 0 :=
    u32_to_int_negative (s.length % 2 ^ 32) hl (Nat.mod_lt _ (by decide))
  by_cases hd : st.tpt.net_little = st.tpt.loc_little <;>
  simp [write_string_value, bind_eq, run_transport_write_u8, run_transport_write_u32,
    transport_write_string, TRANSPORT_VERIFY_WRITE, transport_set_mode, undefined,
    run_modify_tpt, hneg, hopen, hd, wire_u32]

mutual
theorem write_variable_plain (h : Host) (n : Nat) (v : LVal) (st : RpcState)
    (hv : v.plain n = true) (hn : n ≤ 2 ^ 31) (hopen : st.tpt.is_open = true) :
    write_variable h v st =
      (.ok (), { st with tpt := { st.tpt with mode := .writing, out := st.tpt.out ++
        (wire_value h.little_endian (decide (st.tpt.net_little ≠ st.tpt.loc_little)) v) } }) := by
  match v with
  | .nil => simp [write_variable, run_transport_write_u8, hopen, wire_value]
  | .boolean b =>
    simp [write_variable, bind_eq, run_transport_write_u8, hopen, wire_value]
  | .string s =>
    have hs : s.length < n := by simpa [LVal.plain] using hv
    have hm : s.length % 2 ^ 32 = s.length := Nat.mod_eq_of_lt (by omega)
    rw [write_variable, run_write_string_value h s st hopen (by omega), hm, List.take_length]
    rfl
  | .table t =>
    have ht : t.plain n = true := by simpa [LVal.plain] using hv
    obtain ⟨⟨o, ll, nl, lb, li, ni, md, inp, out⟩, stack, globals, geh⟩ := st
    simp only at hopen
    subst hopen
    have := write_table_plain h n t
      ⟨⟨true, ll, nl, lb, li, ni, .writing, inp, out ++ [RPC_TABLE]⟩, stack, globals, geh⟩ ht
      hn rfl rfl
    dsimp only at this
    simp only [write_variable, run_bind, bind_eq, run_transport_write_u8, if_true, this,
      wire_value, List.append_assoc, List.singleton_append]
    rfl
  | .number _ => simp [LVal.plain] at hv
  | .function _ => simp [LVal.plain] at hv
  | .helper _ => simp [LVal.plain] at hv
  | .userdata => simp [LVal.plain] at hv
  | .thread => simp [LVal.plain] at hv
  | .lightuserdata => simp [LVal.plain] at hv
theorem write_table_plain (h : Host) (n : Nat) (t : LTable) (st : RpcState)
    (ht : t.plain n = true) (hn : n ≤ 2 ^ 31)
    (hopen : st.tpt.is_open = true) (hmode : st.tpt.mode = .writing) :
    write_table h t st =
      (.ok (), { st with tpt := { st.tpt with out := st.tpt.out ++
        (wire_table h.little_endian (decide (st.tpt.net_little ≠ st.tpt.loc_little)) t) } }) := by
  match t with
  | .empty =>
    simp [write_table, wire_table]
  | .entry k v rest =>
    simp only [LTable.plain, Bool.and_eq_true] at ht
    obtain ⟨⟨⟨⟨⟨hk, hv⟩, _⟩, _⟩, _⟩, hr⟩ := ht
    obtain ⟨⟨o, ll, nl, lb, li, ni, md, inp, out⟩, stack, globals, geh⟩ := st
    simp only at hopen hmode
    subst hopen hmode
    have h1 := write_variable_plain h n k
      ⟨⟨true, ll, nl, lb, li, ni, .writing, inp, out⟩, stack, globals, geh⟩ hk hn rfl
    have h2 := write_variable_plain h n v
      ⟨⟨true, ll, nl, lb, li, ni, .writing, inp,
        out ++ wire_value h.little_endian (decide (nl ≠ ll)) k⟩, stack, globals, geh⟩ hv hn rfl
    have h3 := write_table_plain h n rest
      ⟨⟨true, ll, nl, lb, li, ni, .writing, inp,
        out ++ wire_value h.little_endian (decide (nl ≠ ll)) k ++
          wire_value h.little_endian (decide (nl ≠ ll)) v⟩, stack, globals, geh⟩ hr hn rfl rfl
    dsimp only at h1 h2 h3
    simp only [write_table, run_bind, bind_eq, h1, h2, h3, wire_table]
    simp only [List.append_assoc]
end

theorem emitted_write_variable_plain (h : Host) (n : Nat) (v : LVal) (st : RpcState)
    (hv : v.plain n = true) (hn : n ≤ 2 ^ 31) (hopen : st.tpt.is_open = true) :
    emitted (write_variable h v) st =
      wire_value h.little_endian (decide (st.tpt.net_little ≠ st.tpt.loc_little)) v := by
  simp [emitted, write_variable_plain h n v st hv hn hopen]

theorem string_limit_le (h : Host) : string_limit h ≤ 2 ^ 31 := Nat.min_le_left _ _

theorem string_limit_room (h : Host) (n : Nat) (hn : n < string_limit h) :
    n < 2 ^ 31 ∧ n + 1 ≤ h.alloca_room := by
  have := lt_min_iff.mp hn
  exact ⟨this.1, this.2⟩


theorem wire_u32_length (little swap : Bool) (x : Nat) : (wire_u32 little swap x).length = 4 := by
  cases swap
  · simp [wire_u32, int_to_mem_length]
  · simp only [wire_u32, if_true]
    rw [swap_bytes_int_to_mem _ _ _ (Or.inr (Or.inr (Or.inl rfl))), int_to_mem_length]

/-- Reading back a length that `transport_write_u32` has written with the same
byte-swap setting. -/
theorem run_transport_read_u32_wire (h : Host) (s : RpcState) (x : Nat) (rest : List Byte)
    (hx : x < 2 ^ 32) (hopen : s.tpt.is_open = true)
    (hinp : s.tpt.inp =
      wire_u32 h.little_endian (decide (s.tpt.net_little ≠ s.tpt.loc_little)) x ++ rest) :
    transport_read_u32 h s =
      (.ok x, { s with tpt := { s.tpt with mode := .reading, inp := rest } }) := by
  have hlen := wire_u32_length h.little_endian (decide (s.tpt.net_little ≠ s.tpt.loc_little)) x
  have h4 : 4 ≤ s.tpt.inp.length := by rw [hinp, List.length_append, hlen]; omega
  have htake : List.take 4 s.tpt.inp =
      wire_u32 h.little_endian (decide (s.tpt.net_little ≠ s.tpt.loc_little)) x := by
    rw [hinp, ← hlen, List.take_left]
  have hdrop : List.drop 4 s.tpt.inp = rest := by
    rw [hinp, ← hlen, List.drop_left]
  have hw : (1 : Nat) = 1 ∨ (4 : Nat) = 2 ∨ (4 : Nat) = 4 ∨ (4 : Nat) = 8 := Or.inl rfl
  rw [run_transport_read_u32, if_pos hopen, if_pos h4, htake, hdrop]
  have hval : mem_to_nat h.little_endian
      (if s.tpt.net_little ≠ s.tpt.loc_little then
        swap_bytes (wire_u32 h.little_endian (decide (s.tpt.net_little ≠ s.tpt.loc_little)) x) 4
      else wire_u32 h.little_endian (decide (s.tpt.net_little ≠ s.tpt.loc_little)) x) = x := by
    by_cases hd : s.tpt.net_little = s.tpt.loc_little
    · simp only [hd, ne_eq, not_true_eq_false, if_false, wire_u32, decide_False,
        Bool.false_eq_true, mem_to_nat_int_to_mem]
      exact Nat.mod_eq_of_lt hx
    · simp only [ne_eq, hd, not_false_eq_true, if_true, wire_u32, decide_True]
      rw [swap_bytes_int_to_mem _ _ _ (Or.inr (Or.inr (Or.inl rfl))),
        swap_bytes_int_to_mem _ _ _ (Or.inr (Or.inr (Or.inl rfl))), Bool.not_not,
        mem_to_nat_int_to_mem]
      exact Nat.mod_eq_of_lt hx
  rw [hval]

theorem LTable.append_empty : (t : LTable) → t.append .empty = t
  | .empty => rfl
  | .entry k v rest => by simp [LTable.append, LTable.append_empty rest]

theorem LTable.append_assoc (b c : LTable) :
    (a : LTable) → (a.append b).append c = a.append (b.append c)
  | .empty => rfl
  | .entry k v rest => by simp [LTable.append, LTable.append_assoc b c rest]

theorem LTable.insert_fresh (k v : LVal) :
    (acc : LTable) → acc.contains k = false → acc.insert k v = acc.append (.entry k v .empty)
  | .empty, _ => rfl
  | .entry k1 v1 rest, hk => by
    simp only [LTable.contains, Bool.or_eq_false_iff] at hk
    simp [LTable.insert, LTable.append, hk.1, LTable.insert_fresh k v rest hk.2]

theorem LTable.contains_append (b : LTable) (key : LVal) :
    (a : LTable) → (a.append b).contains key = (a.contains key || b.contains key)
  | .empty => by simp [LTable.append, LTable.contains]
  | .entry k v rest => by
    simp [LTable.append, LTable.contains, LTable.contains_append b key rest, Bool.or_assoc]

theorem LTable.apart_snoc (acc : LTable) (k v : LVal) :
    (rest : LTable) → LTable.apart acc rest = true → LTable.unhit k rest = true →
      LTable.apart (acc.append (.entry k v .empty)) rest = true
  | .empty, _, _ => rfl
  | .entry k1 v1 r, ha, hu => by
    simp only [LTable.apart, LTable.unhit, Bool.and_eq_true, Bool.not_eq_true'] at ha hu ⊢
    refine ⟨?_, LTable.apart_snoc acc k v r ha.2 hu.2⟩
    simp [LTable.contains_append, LTable.contains, ha.1, hu.1]

theorem LTable.apart_empty : (t : LTable) → LTable.apart .empty t = true
  | .empty => rfl
  | .entry k v rest => by simp [LTable.apart, LTable.contains, LTable.apart_empty rest]

theorem LTable.set_fresh (acc : LTable) (k v : LVal) (hk : acc.contains k = false)
    (hv : v.isnil = false) : acc.set k v = acc.append (.entry k v .empty) := by
  simp [LTable.set, hv, LTable.insert_fresh k v acc hk]

theorem getD_append_add {α : Type} (pre l : List α) (i : Nat) (d : α) :
    (pre ++ l).getD (pre.length + i) d = l.getD i d := by
  induction pre with
  | nil => simp
  | cons a pre ih =>
    simp only [List.cons_append, List.length_cons]
    rw [show pre.length + 1 + i = (pre.length + i) + 1 by omega, List.getD_cons_succ, ih]

theorem set_append_add {α : Type} (pre l : List α) (i : Nat) (x : α) :
    (pre ++ l).set (pre.length + i) x = pre ++ l.set i x := by
  induction pre with
  | nil => simp
  | cons a pre ih =>
    simp only [List.cons_append, List.length_cons]
    rw [show pre.length + 1 + i = (pre.length + i) + 1 by omega, List.set_cons_succ, ih]

theorem take_append_add {α : Type} (pre l : List α) (i : Nat) :
    (pre ++ l).take (pre.length + i) = pre ++ l.take i := by
  induction pre with
  | nil => simp
  | cons a pre ih =>
    simp only [List.cons_append, List.length_cons]
    rw [show pre.length + 1 + i = (pre.length + i) + 1 by omega, List.take_succ_cons, ih]

/-- The effect of `lua_rawset` when the table is directly below key and value. -/
theorem run_lua_rawset (s : RpcState) (pre : List LVal) (acc : LTable) (k v : LVal)
    (hs : s.stack = pre ++ [.table acc, k, v]) (hk : k.isnil = false) :
    lua_rawset (pre.length + 1) s =
      (.ok (), { s with stack := pre ++ [.table (acc.set k v)] }) := by
  obtain ⟨tpt, stack, globals, geh⟩ := s
  simp only at hs
  subst hs
  have e1 : (pre ++ [LVal.table acc, k, v]).getD (pre.length + 3 - 1) .nil = v :=
    getD_append_add pre [LVal.table acc, k, v] 2 .nil
  have e2 : (pre ++ [LVal.table acc, k, v]).getD (pre.length + 3 - 2) .nil = k :=
    getD_append_add pre [LVal.table acc, k, v] 1 .nil
  have e3 : (pre ++ [LVal.table acc, k, v]).getD (pre.length + 1 - 1) .nil = .table acc :=
    getD_append_add pre [LVal.table acc, k, v] 0 .nil
  have e4 : ((pre ++ [LVal.table acc, k, v]).set (pre.length + 1 - 1)
      (.table (acc.set k v))).take (pre.length + 3 - 2) = pre ++ [.table (acc.set k v)] := by
    have := set_append_add pre [LVal.table acc, k, v] 0 (.table (acc.set k v))
    simp only [Nat.add_zero] at this
    rw [Nat.add_sub_cancel, this]
    exact take_append_add pre _ 1
  simp only [lua_rawset, run_bind, bind_eq, run_get_stack, List.length_append, List.length_cons,
    List.length_nil, Nat.zero_add, Nat.reduceAdd, e1, e2, e3, e4, hk, run_ite, run_modify_stack,
    Bool.false_eq_true, if_false]


theorem run_read_u8_cons (h : Host) (s : RpcState) (b : Byte) (rest : List Byte)
    (hopen : s.tpt.is_open = true) (hinp : s.tpt.inp = b :: rest) :
    transport_read_u8 h s =
      (.ok b, { s with tpt := { s.tpt with mode := .reading, inp := rest } }) := by
  rw [run_transport_read_u8, if_pos hopen, hinp]
  simp

theorem run_read_string_append (h : Host) (s : RpcState) (b rest : List Byte)
    (hinp : s.tpt.inp = b ++ rest) :
    transport_read_string h b.length s =
      (.ok b, { s with tpt := { s.tpt with mode := .reading, inp := rest } }) := by
  rw [run_transport_read_string, hinp]
  simp

/-- A string below the limit of the host is read whole through `alloca`. -/
theorem run_alloca_read_append (h : Host) (s : RpcState) (b rest : List Byte)
    (hb : b.length < string_limit h) (hinp : s.tpt.inp = b ++ rest) :
    alloca_read_string h b.length s =
      (.ok b, { s with tpt := { s.tpt with mode := .reading, inp := rest } }) := by
  obtain ⟨h1, h2⟩ := string_limit_room h _ hb
  rw [run_alloca_read_string h _ h1 h2]
  exact run_read_string_append h s b rest hinp

/-- A length beyond the room of the stack: the program leaves the stack before
an octet of the string is read. -/
theorem run_alloca_read_no_room (h : Host) (len : Nat) (s : RpcState)
    (hr : h.alloca_room < (len + 1) % 2 ^ 32) :
    alloca_read_string h len s = (.undefined, s) := by
  simp only [alloca_read_string, hr, if_true, undefined]

/-- A length from 2^31 on, with room on the stack: the length is negative for
`transport_read_string`. -/
theorem run_alloca_read_negative (h : Host) (len : Nat) (s : RpcState)
    (hl : 2 ^ 31 ≤ len) (hm : len < 2 ^ 32) (hr : ¬ h.alloca_room < (len + 1) % 2 ^ 32) :
    alloca_read_string h len s =
      (.undefined, { s with tpt := { s.tpt with mode := .reading } }) := by
  simp only [alloca_read_string, hr, if_false, run_bind, bind_eq,
    run_transport_read_negative h _ (u32_to_int_negative len hl hm)]

mutual
theorem read_variable_plain (h : Host) (ip : Interp) (v : LVal) (fuel : Nat) (sr : RpcState)
    (rest : List Byte) (hv : v.plain (string_limit h) = true) (hf : v.cost ≤ fuel)
    (hopen : sr.tpt.is_open = true)
    (hinp : sr.tpt.inp = wire_value h.little_endian
      (decide (sr.tpt.net_little ≠ sr.tpt.loc_little)) v ++ rest) :
    read_variable h ip fuel sr =
      (.ok 1, { sr with tpt := { sr.tpt with mode := .reading, inp := rest },
                        stack := sr.stack ++ [v] }) := by
  obtain ⟨⟨o, ll, nl, lb, li, ni, md, inp, out⟩, stack, globals, geh⟩ := sr
  dsimp only at hopen hinp
  subst hopen hinp
  match v, fuel with
  | .nil, f + 1 =>
    simp only [read_variable, run_bind, bind_eq, wire_value, List.cons_append, List.nil_append]
    rw [run_read_u8_cons h _ RPC_NIL rest rfl rfl]
    rfl
  | .boolean b, f + 1 =>
    simp only [read_variable, run_bind, bind_eq, wire_value, List.cons_append, List.nil_append]
    rw [run_read_u8_cons h _ RPC_BOOLEAN (flag b :: rest) rfl rfl]
    simp only [RPC_BOOLEAN, run_bind, bind_eq]
    rw [run_read_u8_cons h _ (flag b) rest rfl rfl]
    cases b <;> rfl
  | .string s, f + 1 =>
    have hs : s.length < string_limit h := by simpa [LVal.plain] using hv
    have hs32 : s.length < 2 ^ 32 := by have := string_limit_le h; omega
    simp only [read_variable, run_bind, bind_eq, wire_value, List.cons_append, List.append_assoc]
    rw [run_read_u8_cons h _ RPC_STRING _ rfl rfl]
    simp only [RPC_STRING, run_bind, bind_eq]
    rw [run_transport_read_u32_wire h _ s.length (s ++ rest) hs32 rfl rfl]
    simp only [run_pure]
    rw [run_alloca_read_append h _ s rest hs rfl]
    rfl
  | .table t, f + 2 =>
    have ht : t.plain (string_limit h) = true := by simpa [LVal.plain] using hv
    have hc : t.cost ≤ f := by simp only [LVal.cost] at hf; omega
    simp only [read_variable, read_table, run_bind, bind_eq, wire_value, List.cons_append,
      List.append_assoc, List.nil_append]
    rw [run_read_u8_cons h _ RPC_TABLE _ rfl rfl]
    simp only [RPC_TABLE, run_bind, bind_eq, lua_push, lua_gettop, run_modify_stack,
      run_get_stack, run_pure, List.length_append, List.length_cons, List.length_nil,
      Nat.zero_add]
    have hloop := read_table_loop_plain h ip t f
      ⟨⟨true, ll, nl, lb, li, ni, .reading, wire_table h.little_endian (decide (nl ≠ ll)) t ++
        RPC_TABLE_END :: rest, out⟩, stack ++ [.table .empty], globals, geh⟩
      rest stack .empty ht (LTable.apart_empty t) hc rfl rfl rfl
    dsimp only at hloop
    rw [hloop]
    rfl
  | .table t, 0 => simp only [LVal.cost] at hf; omega
  | .table t, 1 => simp only [LVal.cost] at hf; omega
  | .nil, 0 => simp only [LVal.cost] at hf; omega
  | .boolean _, 0 => simp only [LVal.cost] at hf; omega
  | .string _, 0 => simp only [LVal.cost] at hf; omega
  | .number _, _ => simp [LVal.plain] at hv
  | .function _, _ => simp [LVal.plain] at hv
  | .helper _, _ => simp [LVal.plain] at hv
  | .userdata, _ => simp [LVal.plain] at hv
  | .thread, _ => simp [LVal.plain] at hv
  | .lightuserdata, _ => simp [LVal.plain] at hv
theorem read_table_loop_plain (h : Host) (ip : Interp) (t : LTable) (fuel : Nat) (sr : RpcState)
    (rest : List Byte) (pre : List LVal) (acc : LTable) (ht : t.plain (string_limit h) = true)
    (ha : LTable.apart acc t = true) (hf : t.cost ≤ fuel)
    (hopen : sr.tpt.is_open = true) (hstack : sr.stack = pre ++ [.table acc])
    (hinp : sr.tpt.inp = wire_table h.little_endian
      (decide (sr.tpt.net_little ≠ sr.tpt.loc_little)) t ++ RPC_TABLE_END :: rest) :
    read_table_loop h ip (pre.length + 1) fuel sr =
      (.ok (), { sr with tpt := { sr.tpt with mode := .reading, inp := rest },
                         stack := pre ++ [.table (acc.append t)] }) := by
  obtain ⟨⟨o, ll, nl, lb, li, ni, md, inp, out⟩, stack, globals, geh⟩ := sr
  dsimp only at hopen hinp hstack
  subst hopen hinp hstack
  match t, fuel with
  | .empty, f + 2 =>
    simp only [read_table_loop, read_variable, run_bind, bind_eq, wire_table, List.nil_append]
    rw [run_read_u8_cons h _ RPC_TABLE_END rest rfl rfl]
    simp only [RPC_TABLE_END, run_pure, LTable.append_empty]
    rfl
  | .entry k v r, f + 1 =>
    simp only [LTable.plain, Bool.and_eq_true, Bool.not_eq_true'] at ht
    obtain ⟨⟨⟨⟨⟨hk, hv⟩, hkn⟩, hvn⟩, hu⟩, hr⟩ := ht
    simp only [LTable.apart, Bool.and_eq_true, Bool.not_eq_true'] at ha
    simp only [LTable.cost] at hf
    have h1 := read_variable_plain h ip k f
      ⟨⟨true, ll, nl, lb, li, ni, md, wire_value h.little_endian (decide (nl ≠ ll)) k ++
        (wire_value h.little_endian (decide (nl ≠ ll)) v ++
          (wire_table h.little_endian (decide (nl ≠ ll)) r ++ RPC_TABLE_END :: rest)), out⟩,
        pre ++ [.table acc], globals, geh⟩ _ hk (by omega) rfl rfl
    have h2 := read_variable_plain h ip v f
      ⟨⟨true, ll, nl, lb, li, ni, .reading, wire_value h.little_endian (decide (nl ≠ ll)) v ++
          (wire_table h.little_endian (decide (nl ≠ ll)) r ++ RPC_TABLE_END :: rest), out⟩,
        pre ++ [.table acc] ++ [k], globals, geh⟩ _ hv (by omega) rfl rfl
    have h3 := run_lua_rawset
      ⟨⟨true, ll, nl, lb, li, ni, .reading,
          wire_table h.little_endian (decide (nl ≠ ll)) r ++ RPC_TABLE_END :: rest, out⟩,
        pre ++ [.table acc] ++ [k] ++ [v], globals, geh⟩ pre acc k v (by simp) hkn
    have h4 := read_table_loop_plain h ip r f
      ⟨⟨true, ll, nl, lb, li, ni, .reading,
          wire_table h.little_endian (decide (nl ≠ ll)) r ++ RPC_TABLE_END :: rest, out⟩,
        pre ++ [.table (acc.append (.entry k v .empty))], globals, geh⟩ rest pre
      (acc.append (.entry k v .empty)) hr (LTable.apart_snoc acc k v r ha.2 hu) (by omega)
      rfl rfl rfl
    rw [LTable.set_fresh acc k v ha.1 hvn] at h3
    dsimp only at h1 h2 h3 h4
    simp only [read_table_loop, run_bind, bind_eq, wire_table, List.append_assoc, h1]
    simp only [List.append_assoc] at h2 h3
    simp only [Nat.one_ne_zero, if_false, run_ite, run_bind, bind_eq, h2, h3, h4,
      LTable.append_assoc, LTable.append]
  | .empty, 0 => simp only [LTable.cost] at hf; omega
  | .empty, 1 => simp only [LTable.cost] at hf; omega
  | .entry k v r, 0 => simp only [LTable.cost] at hf; omega
end

/-- C1 (as stated, refuted). Three strings on a little-endian host with a stack
of 8 MiB. A string of 2^32 octets: `write_variable` converts the length to
`u32`, so it emits the tag, the length 0 and no content octets; `read_variable`
on these octets returns 1 and pushes the empty string, which is not the value
that was written. A string of 2^31 octets: its length is negative as the `int`
parameter of `transport_write_string`, and `write_variable` does not return
normally. A string of 2^24 octets: on the octets `03 00 00 00 01` that announce
it `read_variable` asks `alloca` for more than the stack holds and does not
return either. -/
theorem codec_round_trip_long_string :
    emitted (write_variable host_le_double (.string (List.replicate (2 ^ 32) 0)))
      (state_of (linked_transport 1 1 8 0 0 []) []) = [3, 0, 0, 0, 0] ∧
    (read_variable host_le_double sample_interp 1
      (state_of (linked_transport 1 1 8 0 0 [3, 0, 0, 0, 0]) [])).1 = .ok 1 ∧
    (read_variable host_le_double sample_interp 1
      (state_of (linked_transport 1 1 8 0 0 [3, 0, 0, 0, 0]) [])).2.stack = [.string []] ∧
    LVal.string [] ≠ LVal.string (List.replicate (2 ^ 32) 0) ∧
    (write_variable host_le_double (.string (List.replicate (2 ^ 31) 0))
      (state_of (linked_transport 1 1 8 0 0 []) [])).1 = .undefined ∧
    (read_variable host_le_double sample_interp 1
      (state_of (linked_transport 1 1 8 0 0 [3, 0, 0, 0, 1]) [])).1 = .undefined := by
  refine ⟨?_, rfl, rfl, ?_, ?_, by decide!⟩
  · have hw := run_write_string_value host_le_double (List.replicate (2 ^ 32) 0)
      (state_of (linked_transport 1 1 8 0 0 []) []) rfl
      (by rw [List.length_replicate, Nat.mod_self]; decide)
    simp only [List.length_replicate, Nat.mod_self, List.take_zero] at hw
    rw [emitted, write_variable, hw]
    rfl
  · intro he
    have hl := congrArg List.length (LVal.string.inj he)
    rw [List.length_replicate] at hl
    exact absurd hl (by decide)
  · rw [write_variable, run_write_string_value_long host_le_double (List.replicate (2 ^ 31) 0)
      (state_of (linked_transport 1 1 8 0 0 []) []) rfl
      (by rw [List.length_replicate]; decide)]

/-- C1 (amended). For every value that is nil, a boolean, a string below the
limit of the host (fewer than 2^31 octets, and room on the stack for the string
and a terminating octet; NUL octets allowed) or a table built from such
values, on an open transport: `write_variable` returns normally, and
`read_variable`, on a transport with the same `net_little` and `loc_little`
that receives the emitted octets followed by any further octets, returns 1 with
enough nesting budget, pushes exactly that value on top of the stack (tables:
the same pairs), and leaves exactly the further octets unread. -/
theorem codec_round_trip (h : Host) (ip : Interp) (v : LVal) (fuel : Nat) (sw sr : RpcState)
    (rest : List Byte) (hv : v.plain (string_limit h) = true) (hf : v.cost ≤ fuel)
    (hwo : sw.tpt.is_open = true) (hro : sr.tpt.is_open = true)
    (hnet : sr.tpt.net_little = sw.tpt.net_little)
    (hloc : sr.tpt.loc_little = sw.tpt.loc_little)
    (hinp : sr.tpt.inp = emitted (write_variable h v) sw ++ rest) :
    (write_variable h v sw).1 = .ok () ∧
    read_variable h ip fuel sr =
      (.ok 1, { sr with tpt := { sr.tpt with mode := .reading, inp := rest },
                        stack := sr.stack ++ [v] }) := by
  constructor
  · rw [write_variable_plain h _ v sw hv (string_limit_le h) hwo]
  · rw [emitted_write_variable_plain h _ v sw hv (string_limit_le h) hwo, ← hnet, ← hloc] at hinp
    exact read_variable_plain h ip v fuel sr rest hv hf hro hinp

/-- Witness for C1: the table `{ ["h\0i"] = true, [false] = {} }` on a
little-endian link. -/
theorem codec_round_trip_witness :
    (write_variable host_le_double
      (.table (.entry (.string [104, 0, 105]) (.boolean true)
        (.entry (.boolean false) (.table .empty) .empty)))
      (state_of (linked_transport 1 1 8 0 0 []) [])).1 = .ok () ∧
    read_variable host_le_double sample_interp 13
      (state_of (linked_transport 1 1 8 0 0
        [4, 3, 3, 0, 0, 0, 104, 0, 105, 2, 1, 2, 0, 4, 5, 5, 7, 7]) [.nil]) =
      (.ok 1, { state_of (linked_transport 1 1 8 0 0
        [4, 3, 3, 0, 0, 0, 104, 0, 105, 2, 1, 2, 0, 4, 5, 5, 7, 7]) [.nil] with
          tpt := { linked_transport 1 1 8 0 0
            [4, 3, 3, 0, 0, 0, 104, 0, 105, 2, 1, 2, 0, 4, 5, 5, 7, 7] with
              mode := .reading, inp := [7, 7] },
          stack := [.nil, .table (.entry (.string [104, 0, 105]) (.boolean true)
            (.entry (.boolean false) (.table .empty) .empty))] }) :=
  codec_round_trip host_le_double sample_interp
    (.table (.entry (.string [104, 0, 105]) (.boolean true)
      (.entry (.boolean false) (.table .empty) .empty))) 13
    (state_of (linked_transport 1 1 8 0 0 []) [])
    (state_of (linked_transport 1 1 8 0 0
      [4, 3, 3, 0, 0, 0, 104, 0, 105, 2, 1, 2, 0, 4, 5, 5, 7, 7]) [.nil]) [7, 7]
    (by decide!) (by decide) rfl rfl rfl rfl (by decide!)

/-! ## Code that only writes -/

theorem blank_blank (s : RpcState) : blank (blank s) = blank s := rfl

theorem blank_mode (s : RpcState) : (blank s).tpt.mode = s.tpt.mode := rfl

theorem blank_out_update (s : RpcState) (o : List Byte) :
    blank { s with tpt := { s.tpt with out := o } } = blank s := rfl

theorem frame_pure {α : Type} (a : α) : Frame (pure a : RPC α) := by
  intro s _
  obtain ⟨⟨o, ll, nl, lb, li, ni, md, inp, out⟩, stack, globals, geh⟩ := s
  simp [run_pure, blank]

theorem frame_Throw {α : Type} (e : exception) : Frame (Throw e : RPC α) := by
  intro s _
  obtain ⟨⟨o, ll, nl, lb, li, ni, md, inp, out⟩, stack, globals, geh⟩ := s
  simp [run_Throw, blank]

theorem frame_luaL_error {α : Type} (e : LuaError) : Frame (luaL_error e : RPC α) := by
  intro s _
  obtain ⟨⟨o, ll, nl, lb, li, ni, md, inp, out⟩, stack, globals, geh⟩ := s
  simp [run_luaL_error, blank]

theorem frame_undefined {α : Type} : Frame (undefined : RPC α) := by
  intro s _
  obtain ⟨⟨o, ll, nl, lb, li, ni, md, inp, out⟩, stack, globals, geh⟩ := s
  simp [run_undefined, blank]

theorem frame_ite {α : Type} (c : Prop) [Decidable c] {x y : RPC α} (hx : Frame x)
    (hy : Frame y) : Frame (if c then x else y) := by
  by_cases hc : c
  · simpa [hc] using hx
  · simpa [hc] using hy

theorem frame_bind {α β : Type} {x : RPC α} {f : α → RPC β} (hx : Frame x)
    (hf : ∀ a, Frame (f a)) : Frame (x >>= f) := by
  intro s hm
  have e1 := hx s hm
  have e2 := hx (blank s) hm
  rw [blank_blank] at e2
  simp only [run_bind, bind_eq]
  generalize x (blank s) = r at e1 e2
  obtain ⟨r1, sb⟩ := r
  dsimp only at e1 e2
  rw [e1]
  cases r1 with
  | ok a =>
    dsimp only
    have hsb : sb = { blank s with tpt := { (blank s).tpt with out := sb.tpt.out } } := by
      have := congrArg Prod.snd e2
      simpa [blank] using this
    have e3 := hf a { s with tpt := { s.tpt with out := s.tpt.out ++ sb.tpt.out } } hm
    have e4 := hf a sb (by rw [hsb]; exact hm)
    have hb : blank sb = blank s := by rw [hsb]; rfl
    rw [hb] at e4
    rw [blank_out_update] at e3
    rw [e3, e4]
    simp [List.append_assoc]
  | throw e => rfl
  | error m => rfl
  | undefined => rfl
  | timeout => rfl

theorem frame_transport_write_buffer (b : List Byte) : Frame (transport_write_buffer b) := by
  intro s _
  obtain ⟨⟨o, ll, nl, lb, li, ni, md, inp, out⟩, stack, globals, geh⟩ := s
  simp [LuaRpc.transport_write_buffer, blank]

theorem frame_transport_write_string (b : List Byte) (n : Int) :
    Frame (transport_write_string b n) := by
  intro s hm
  obtain ⟨⟨o, ll, nl, lb, li, ni, md, inp, out⟩, stack, globals, geh⟩ := s
  dsimp only at hm
  subst hm
  by_cases hn : n < 0
  · simp [run_transport_write_negative b n hn, blank]
  · obtain ⟨k, rfl⟩ := Int.eq_ofNat_of_zero_le (not_lt.mp hn)
    simp [run_transport_write_string, blank]

theorem frame_transport_write_u8 (h : Host) (x : Byte) : Frame (transport_write_u8 h x) := by
  intro s hm
  obtain ⟨⟨o, ll, nl, lb, li, ni, md, inp, out⟩, stack, globals, geh⟩ := s
  dsimp only at hm
  subst hm
  cases o <;> simp [run_transport_write_u8, blank]

theorem frame_transport_write_u32 (h : Host) (x : Nat) : Frame (transport_write_u32 h x) := by
  intro s hm
  obtain ⟨⟨o, ll, nl, lb, li, ni, md, inp, out⟩, stack, globals, geh⟩ := s
  dsimp only at hm
  subst hm
  cases o <;> simp [run_transport_write_u32, blank]

theorem frame_TRANSPORT_VERIFY_OPEN (h : Host) : Frame (TRANSPORT_VERIFY_OPEN h) := by
  intro s _
  obtain ⟨⟨o, ll, nl, lb, li, ni, md, inp, out⟩, stack, globals, geh⟩ := s
  cases o <;> simp [LuaRpc.TRANSPORT_VERIFY_OPEN, blank]

theorem frame_TRANSPORT_VERIFY_WRITE : Frame TRANSPORT_VERIFY_WRITE := by
  intro s hm
  obtain ⟨⟨o, ll, nl, lb, li, ni, md, inp, out⟩, stack, globals, geh⟩ := s
  dsimp only at hm
  subst hm
  simp [LuaRpc.TRANSPORT_VERIFY_WRITE, transport_set_mode, blank]

theorem frame_transport_write_number (h : Host) (x : LNum) :
    Frame (transport_write_number h x) := by
  intro s hm
  obtain ⟨⟨o, ll, nl, lb, li, ni, md, inp, out⟩, stack, globals, geh⟩ := s
  dsimp only at hm
  subst hm
  cases o
  · simp [LuaRpc.transport_write_number, bind_eq, LuaRpc.TRANSPORT_VERIFY_OPEN, blank]
  · by_cases hi : ni = 0 <;> by_cases hd : nl = ll
    · simp [LuaRpc.transport_write_number, bind_eq, LuaRpc.TRANSPORT_VERIFY_OPEN,
        LuaRpc.TRANSPORT_VERIFY_WRITE, transport_set_mode, blank, hi, hd,
        LuaRpc.transport_write_buffer]
    · simp [LuaRpc.transport_write_number, bind_eq, LuaRpc.TRANSPORT_VERIFY_OPEN,
        LuaRpc.TRANSPORT_VERIFY_WRITE, transport_set_mode, blank, hi, hd,
        LuaRpc.transport_write_buffer]
    all_goals
      by_cases h1 : lb.val = 1
      · simp [LuaRpc.transport_write_number, bind_eq, LuaRpc.TRANSPORT_VERIFY_OPEN,
          LuaRpc.TRANSPORT_VERIFY_WRITE, transport_set_mode, blank, hi, hd, h1,
          LuaRpc.transport_write_buffer]
      by_cases h2 : lb.val = 2
      · simp [LuaRpc.transport_write_number, bind_eq, LuaRpc.TRANSPORT_VERIFY_OPEN,
          LuaRpc.TRANSPORT_VERIFY_WRITE, transport_set_mode, blank, hi, hd, h2,
          LuaRpc.transport_write_buffer]
      by_cases h4 : lb.val = 4
      · simp [LuaRpc.transport_write_number, bind_eq, LuaRpc.TRANSPORT_VERIFY_OPEN,
          LuaRpc.TRANSPORT_VERIFY_WRITE, transport_set_mode, blank, hi, hd, h4,
          LuaRpc.transport_write_buffer]
      by_cases h8 : lb.val = 8
      · simp [LuaRpc.transport_write_number, bind_eq, LuaRpc.TRANSPORT_VERIFY_OPEN,
          LuaRpc.TRANSPORT_VERIFY_WRITE, transport_set_mode, blank, hi, hd, h8,
          LuaRpc.transport_write_buffer]
      simp [LuaRpc.transport_write_number, bind_eq, LuaRpc.TRANSPORT_VERIFY_OPEN,
        LuaRpc.TRANSPORT_VERIFY_WRITE, transport_set_mode, blank, hi, hd, h1, h2, h4, h8]

theorem frame_replay_names : (ps : List Helper) → Frame (replay_names ps)
  | [] => frame_pure ()
  | p :: ps => by
    rw [LuaRpc.replay_names]
    exact frame_bind (frame_transport_write_string _ _) fun _ =>
      frame_bind (frame_transport_write_string _ _) fun _ => frame_replay_names ps

theorem frame_helper_remote_index (h : Host) (helper : Helper) :
    Frame (helper_remote_index h helper) := by
  unfold LuaRpc.helper_remote_index
  by_cases hn : helper.nparents > 0
  · simp only [hn, if_true]
    cases helper.parent with
    | none => exact frame_undefined
    | some parent =>
      dsimp only
      cases hstack_fill (helper.nparents - 1) parent with
      | none => exact frame_undefined
      | some r =>
        exact frame_bind (frame_transport_write_u32 _ _) fun _ =>
          frame_bind (frame_replay_names _) fun _ => frame_transport_write_string _ _
  · simp only [hn, if_false]
    exact frame_bind (frame_transport_write_u32 _ _) fun _ => frame_transport_write_string _ _

theorem frame_write_string_value (h : Host) (s : List Byte) :
    Frame (write_string_value h s) :=
  frame_bind (frame_transport_write_u8 _ _) fun _ =>
    frame_bind (frame_transport_write_u32 _ _) fun _ => frame_transport_write_string _ _

mutual
theorem frame_write_variable (h : Host) : (v : LVal) → Frame (write_variable h v)
  | .nil => by rw [LuaRpc.write_variable]; exact frame_transport_write_u8 _ _
  | .boolean b => by
    rw [LuaRpc.write_variable]
    exact frame_bind (frame_transport_write_u8 _ _) fun _ => frame_transport_write_u8 _ _
  | .number x => by
    rw [LuaRpc.write_variable]
    exact frame_bind (frame_transport_write_u8 _ _) fun _ => frame_transport_write_number _ _
  | .string s => by rw [LuaRpc.write_variable]; exact frame_write_string_value _ _
  | .table t => by
    rw [LuaRpc.write_variable]
    exact frame_bind (frame_transport_write_u8 _ _) fun _ =>
      frame_bind (frame_write_table h t) fun _ => frame_transport_write_u8 _ _
  | .function code => by
    rw [LuaRpc.write_variable]
    exact frame_bind (frame_transport_write_u8 _ _) fun _ =>
      frame_bind (frame_write_string_value _ _) fun _ => frame_transport_write_u8 _ _
  | .helper hp => by
    rw [LuaRpc.write_variable]
    exact frame_bind (frame_transport_write_u8 _ _) fun _ => frame_helper_remote_index _ _
  | .userdata => by rw [LuaRpc.write_variable]; exact frame_luaL_error _
  | .thread => by rw [LuaRpc.write_variable]; exact frame_luaL_error _
  | .lightuserdata => by rw [LuaRpc.write_variable]; exact frame_luaL_error _
theorem frame_write_table (h : Host) : (t : LTable) → Frame (write_table h t)
  | .empty => by rw [LuaRpc.write_table]; exact frame_pure ()
  | .entry k v rest => by
    rw [LuaRpc.write_table]
    exact frame_bind (frame_write_variable h k) fun _ =>
      frame_bind (frame_write_variable h v) fun _ => frame_write_table h rest
end

/-- What framed code emits depends on the state only through its blank part. -/
theorem frame_emitted {α : Type} {m : RPC α} (hm : Frame m) (s : RpcState)
    (hs : s.tpt.mode = .writing) : emitted m s = (m (blank s)).2.tpt.out := by
  rw [LuaRpc.emitted, hm s hs]
  simp

theorem frame_run {α : Type} {m : RPC α} (hm : Frame m) (s0 s : RpcState)
    (hs0 : s0.tpt.mode = .writing) (hs : s.tpt.mode = .writing) (hb : blank s = blank s0) :
    m s = ((m s0).1,
      { s with tpt := { s.tpt with out := s.tpt.out ++ LuaRpc.emitted m s0 } }) := by
  rw [frame_emitted hm s0 hs0, hm s hs, hb]
  congr 1
  rw [hm s0 hs0]

/-! ## Code that does not write -/

theorem nowrite_pure {α : Type} (a : α) : NoWrite (pure a : RPC α) := fun _ => rfl

theorem nowrite_Throw {α : Type} (e : exception) : NoWrite (Throw e : RPC α) := fun _ => rfl

theorem nowrite_luaL_error {α : Type} (e : LuaError) : NoWrite (luaL_error e : RPC α) :=
  fun _ => rfl

theorem nowrite_undefined {α : Type} : NoWrite (undefined : RPC α) := fun _ => rfl

theorem nowrite_out_of_fuel {α : Type} : NoWrite (out_of_fuel : RPC α) := fun _ => rfl

theorem nowrite_get_stack : NoWrite get_stack := fun _ => rfl

theorem nowrite_get_tpt : NoWrite get_tpt := fun _ => rfl

theorem nowrite_modify_stack (f : List LVal → List LVal) : NoWrite (modify_stack f) :=
  fun _ => rfl

theorem nowrite_transport_set_mode (m : Mode) : NoWrite (transport_set_mode m) := fun _ => rfl

theorem nowrite_transport_close : NoWrite transport_close := fun _ => rfl

theorem nowrite_lua_getglobal (name : List Byte) : NoWrite (lua_getglobal name) := fun _ => rfl

theorem nowrite_bind {α β : Type} {x : RPC α} {f : α → RPC β} (hx : NoWrite x)
    (hf : ∀ a, NoWrite (f a)) : NoWrite (x >>= f) := by
  intro s
  have e1 := hx s
  simp only [run_bind, bind_eq]
  generalize x s = r at e1
  obtain ⟨r1, s1⟩ := r
  cases r1 with
  | ok a => exact (hf a s1).trans e1
  | throw e => exact e1
  | error m => exact e1
  | undefined => exact e1
  | timeout => exact e1

theorem nowrite_ite {α : Type} (c : Prop) [Decidable c] {x y : RPC α} (hx : NoWrite x)
    (hy : NoWrite y) : NoWrite (if c then x else y) := by
  by_cases hc : c
  · simpa [hc] using hx
  · simpa [hc] using hy

theorem nowrite_Try {α : Type} {body : RPC α} {handler : exception → RPC α}
    (hb : NoWrite body) (hh : ∀ e, NoWrite (handler e)) : NoWrite (Try body handler) := by
  intro s
  have e1 := hb s
  unfold LuaRpc.Try
  generalize body s = r at e1
  obtain ⟨r1, s1⟩ := r
  cases r1 with
  | ok a => exact e1
  | throw e => exact (hh e s1).trans e1
  | error m => exact e1
  | undefined => exact e1
  | timeout => exact e1

theorem nowrite_TRANSPORT_VERIFY_OPEN (h : Host) : NoWrite (TRANSPORT_VERIFY_OPEN h) := by
  intro s
  unfold LuaRpc.TRANSPORT_VERIFY_OPEN
  split <;> rfl

theorem nowrite_transport_read_buffer (h : Host) (n : Nat) :
    NoWrite (transport_read_buffer h n) := by
  intro s
  unfold LuaRpc.transport_read_buffer
  split <;> rfl

theorem nowrite_transport_read_string (h : Host) (n : Int) :
    NoWrite (transport_read_string h n) :=
  nowrite_bind (nowrite_transport_set_mode _) fun _ =>
    nowrite_ite _ nowrite_undefined (nowrite_transport_read_buffer h _)

theorem nowrite_alloca_read_string (h : Host) (len : Nat) :
    NoWrite (alloca_read_string h len) :=
  nowrite_ite _ nowrite_undefined
    (nowrite_bind (nowrite_transport_read_string h _) fun _ =>
      nowrite_ite _ nowrite_undefined (nowrite_pure _))

theorem nowrite_transport_read_u8 (h : Host) : NoWrite (transport_read_u8 h) :=
  nowrite_bind (nowrite_TRANSPORT_VERIFY_OPEN h) fun _ =>
    nowrite_bind (nowrite_transport_set_mode _) fun _ =>
      nowrite_bind (nowrite_transport_read_buffer h 1) fun _ => nowrite_pure _

theorem nowrite_transport_read_u32 (h : Host) : NoWrite (transport_read_u32 h) :=
  nowrite_bind (nowrite_TRANSPORT_VERIFY_OPEN h) fun _ =>
    nowrite_bind (nowrite_transport_set_mode _) fun _ =>
      nowrite_bind (nowrite_transport_read_buffer h 4) fun _ =>
        nowrite_bind nowrite_get_tpt fun _ => nowrite_pure _

theorem nowrite_transport_read_number (h : Host) : NoWrite (transport_read_number h) := by
  unfold LuaRpc.transport_read_number
  refine nowrite_bind (nowrite_TRANSPORT_VERIFY_OPEN h) fun _ =>
    nowrite_bind (nowrite_transport_set_mode _) fun _ =>
      nowrite_bind nowrite_get_tpt fun tpt =>
        nowrite_bind (nowrite_transport_read_buffer h _) fun b => ?_
  dsimp only
  refine nowrite_ite _ ?_ (nowrite_pure _)
  split <;> exact nowrite_pure _

theorem nowrite_lua_push (v : LVal) : NoWrite (lua_push v) := fun _ => rfl

theorem nowrite_lua_gettop : NoWrite lua_gettop :=
  nowrite_bind nowrite_get_stack fun _ => nowrite_pure _

theorem nowrite_lua_rawset (i : Nat) : NoWrite (lua_rawset i) := by
  unfold LuaRpc.lua_rawset
  refine nowrite_bind nowrite_get_stack fun stack => ?_
  dsimp only
  refine nowrite_ite _ (nowrite_luaL_error _) ?_
  split <;> exact nowrite_modify_stack _

theorem nowrite_load_top (ip : Interp) : NoWrite (load_top ip) := by
  unfold LuaRpc.load_top
  refine nowrite_bind nowrite_get_stack fun stack => ?_
  split
  · exact nowrite_modify_stack _
  · exact nowrite_modify_stack _
  · exact nowrite_luaL_error _

theorem nowrite_lua_getfield_replace (t : List Byte) : NoWrite (lua_getfield_replace t) := by
  unfold LuaRpc.lua_getfield_replace
  refine nowrite_bind nowrite_get_stack fun stack => ?_
  split
  · exact nowrite_modify_stack _
  · exact nowrite_luaL_error _

theorem nowrite_resolve_fields : (ts : List (List Byte)) → NoWrite (resolve_fields ts)
  | [] => nowrite_pure ()
  | t :: ts => by
    rw [LuaRpc.resolve_fields]
    exact nowrite_bind (nowrite_lua_getfield_replace t) fun _ => nowrite_resolve_fields ts

theorem nowrite_resolve_path (f : List Byte) : NoWrite (resolve_path f) := by
  unfold LuaRpc.resolve_path
  split
  · exact nowrite_undefined
  · exact nowrite_bind (nowrite_lua_getglobal _) fun _ => nowrite_resolve_fields _

theorem nowrite_read_index (h : Host) : NoWrite (read_index h) :=
  nowrite_bind (nowrite_transport_read_u32 h) fun _ =>
    nowrite_bind (nowrite_alloca_read_string h _) fun _ => nowrite_resolve_path _

/-- The decoder never writes, whatever its nesting budget. -/
theorem nowrite_decoder (h : Host) (ip : Interp) (fuel : Nat) :
    NoWrite (read_variable h ip fuel) ∧ NoWrite (read_table h ip fuel) ∧
    (∀ i, NoWrite (read_table_loop h ip i fuel)) ∧ NoWrite (read_function h ip fuel) := by
  induction fuel with
  | zero =>
    refine ⟨?_, ?_, fun i => ?_, ?_⟩
    · rw [LuaRpc.read_variable]; exact nowrite_out_of_fuel
    · rw [LuaRpc.read_table]; exact nowrite_out_of_fuel
    · rw [LuaRpc.read_table_loop]; exact nowrite_out_of_fuel
    · rw [LuaRpc.read_function]; exact nowrite_out_of_fuel
  | succ f ih =>
    obtain ⟨hv, ht, hl, hfn⟩ := ih
    refine ⟨?_, ?_, fun i => ?_, ?_⟩
    · rw [LuaRpc.read_variable]
      refine nowrite_bind (nowrite_transport_read_u8 h) fun type => ?_
      split
      · exact nowrite_bind (nowrite_lua_push _) fun _ => nowrite_pure _
      · exact nowrite_bind (nowrite_transport_read_u8 h) fun _ =>
          nowrite_bind (nowrite_lua_push _) fun _ => nowrite_pure _
      · exact nowrite_bind (nowrite_transport_read_number h) fun _ =>
          nowrite_bind (nowrite_lua_push _) fun _ => nowrite_pure _
      · exact nowrite_bind (nowrite_transport_read_u32 h) fun _ =>
          nowrite_bind (nowrite_alloca_read_string h _) fun _ =>
            nowrite_bind (nowrite_lua_push _) fun _ => nowrite_pure _
      · exact nowrite_bind ht fun _ => nowrite_pure _
      · exact nowrite_pure _
      · exact nowrite_bind hfn fun _ => nowrite_pure _
      · exact nowrite_pure _
      · exact nowrite_bind (nowrite_read_index h) fun _ => nowrite_pure _
      · exact nowrite_Throw _
    · rw [LuaRpc.read_table]
      exact nowrite_bind (nowrite_lua_push _) fun _ =>
        nowrite_bind nowrite_lua_gettop fun _ => hl _
    · rw [LuaRpc.read_table_loop]
      refine nowrite_bind hv fun r => nowrite_ite _ (nowrite_pure _) ?_
      exact nowrite_bind hv fun _ => nowrite_bind (nowrite_lua_rawset _) fun _ => hl i
    · rw [LuaRpc.read_function]
      refine nowrite_bind hv fun r => nowrite_ite _ (nowrite_pure _) ?_
      exact nowrite_bind (nowrite_load_top ip) fun _ => hfn

theorem nowrite_read_results (h : Host) (ip : Interp) (fuel : Nat) :
    (n : Nat) → NoWrite (read_results h ip fuel n)
  | 0 => nowrite_pure ()
  | n + 1 => by
    rw [LuaRpc.read_results]
    exact nowrite_bind (nowrite_decoder h ip fuel).1 fun _ => nowrite_read_results h ip fuel n

theorem nowrite_deal_with_error (e : LuaError) : NoWrite (deal_with_error e) := by
  intro s
  unfold LuaRpc.deal_with_error
  split <;> rfl

theorem nowrite_generic_catch_handler (e : exception) : NoWrite (generic_catch_handler e) := by
  unfold LuaRpc.generic_catch_handler
  refine nowrite_bind (nowrite_deal_with_error _) fun _ => ?_
  split
  · exact nowrite_bind (nowrite_lua_push _) fun _ => nowrite_pure _
  · exact nowrite_bind nowrite_transport_close fun _ => nowrite_pure _

theorem nowrite_helper_call_response (h : Host) (ip : Interp) (fuel : Nat) :
    NoWrite (helper_call_response h ip fuel) := by
  unfold LuaRpc.helper_call_response
  refine nowrite_bind (nowrite_transport_set_mode _) fun _ =>
    nowrite_bind (nowrite_transport_read_u8 h) fun ret_code => ?_
  refine nowrite_ite _ ?_ ?_
  · exact nowrite_bind (nowrite_transport_read_u32 h) fun _ =>
      nowrite_bind (nowrite_read_results h ip fuel _) fun _ =>
        nowrite_bind (nowrite_pure _) fun _ =>
          nowrite_bind (nowrite_transport_set_mode _) fun _ => nowrite_pure _
  · exact nowrite_bind (nowrite_transport_read_u32 h) fun _ =>
      nowrite_bind (nowrite_transport_read_u32 h) fun _ =>
        nowrite_bind (nowrite_alloca_read_string h _) fun _ =>
          nowrite_bind (nowrite_deal_with_error _) fun _ =>
            nowrite_bind (nowrite_pure _) fun _ =>
              nowrite_bind (nowrite_transport_set_mode _) fun _ => nowrite_pure _

/-! ## C9 and C10: path serialisation and the CALL request -/

/-- C9 (evaluation at the failing input). For the chain `ab`, `c`, `d`
`helper_remote_index` writes the length 5 and then the six octets `ab.c.d`;
for the chain `a`, `b`, `c` it writes the length 5 and the five octets
`a.b.c`. -/
theorem helper_remote_index_length_slip :
    (helper_remote_index host_le_double
      (helper_append host_le_double (helper_append host_le_double
        (helper_create host_le_double [97, 98]) [99]) [100])
      (state_of (linked_transport 1 1 8 0 0 []) [])).2.tpt.out
        = [5, 0, 0, 0, 97, 98, 46, 99, 46, 100] ∧
    (helper_remote_index host_le_double
      (helper_append host_le_double (helper_append host_le_double
        (helper_create host_le_double [97]) [98]) [99])
      (state_of (linked_transport 1 1 8 0 0 []) [])).2.tpt.out
        = [5, 0, 0, 0, 97, 46, 98, 46, 99] := by
  constructor <;> decide!

theorem write_arguments_frame (h : Host) (s0 : RpcState) (hs0 : s0.tpt.mode = .writing) :
    (args : List LVal) → (s : RpcState) → s.tpt.mode = .writing → blank s = blank s0 →
      (∀ a ∈ args, (write_variable h a s0).1 = .ok ()) →
      write_arguments h args s = (.ok (), { s with tpt := { s.tpt with out := s.tpt.out ++
        (args.map fun a => emitted (write_variable h a) s0).flatten } })
  | [], s, _, _, _ => by
    obtain ⟨⟨o, ll, nl, lb, li, ni, md, inp, out⟩, stack, globals, geh⟩ := s
    simp [write_arguments]
  | a :: as, s, hs, hb, hok => by
    have h1 := frame_run (frame_write_variable h a) s0 s hs0 hs hb
    rw [hok a (List.mem_cons_self _ _)] at h1
    have h2 := write_arguments_frame h s0 hs0 as
      { s with tpt := { s.tpt with out := s.tpt.out ++ emitted (write_variable h a) s0 } }
      hs hb (fun b hb => hok b (List.mem_cons_of_mem _ hb))
    simp only [write_arguments, run_bind, bind_eq, h1, h2, List.map_cons, List.flatten_cons,
      List.append_assoc]

/-- The octets of a CALL request for the proxy `hp` and the arguments `args`, as
emitted on the transport of `s` in writing mode: command octet, serialised
path, argument count, arguments in order. -/
theorem helper_call_request_run (h : Host) (s : RpcState) (hp : Helper) (args : List LVal)
    (hstack : s.stack = .helper hp :: args)
    (hwait : h.HELPER_WAIT = false) (hopen : s.tpt.is_open = true)
    (hn : args.length < 2 ^ 32)
    (hpath : (helper_remote_index h hp (writing s)).1 = .ok ())
    (hargs : ∀ a ∈ args, (write_variable h a (writing s)).1 = .ok ()) :
    helper_call_request h hp args s =
      (.ok (), { s with tpt := { s.tpt with mode := .writing, out := s.tpt.out ++
        ([RPC_CMD_CALL] ++ emitted (helper_remote_index h hp) (writing s) ++
          wire_u32 h.little_endian (decide (s.tpt.net_little ≠ s.tpt.loc_little)) args.length ++
          (args.map fun a => emitted (write_variable h a) (writing s)).flatten) } }) := by
  obtain ⟨⟨o, ll, nl, lb, li, ni, md, inp, out⟩, stack, globals, geh⟩ := s
  dsimp only at hstack hopen
  subst hstack hopen
  have hmod : args.length % 2 ^ 32 = args.length := Nat.mod_eq_of_lt hn
  have h1 := frame_run (frame_helper_remote_index h hp)
    (writing ⟨⟨true, ll, nl, lb, li, ni, md, inp, out⟩, .helper hp :: args, globals, geh⟩)
    ⟨⟨true, ll, nl, lb, li, ni, .writing, inp, out ++ [RPC_CMD_CALL]⟩, .helper hp :: args,
      globals, geh⟩ rfl rfl rfl
  rw [hpath] at h1
  have h2 := write_arguments_frame h
    (writing ⟨⟨true, ll, nl, lb, li, ni, md, inp, out⟩, .helper hp :: args, globals, geh⟩) rfl
    args
    ⟨⟨true, ll, nl, lb, li, ni, .writing, inp, out ++ [RPC_CMD_CALL] ++
      emitted (helper_remote_index h hp)
        (writing ⟨⟨true, ll, nl, lb, li, ni, md, inp, out⟩, .helper hp :: args, globals, geh⟩) ++
      wire_u32 h.little_endian (decide (nl ≠ ll)) args.length⟩, .helper hp :: args, globals, geh⟩
    rfl rfl hargs
  dsimp only at h1 h2
  simp only [helper_call_request, helper_wait_ready, hwait, TRANSPORT_START_WRITING,
    transport_set_mode, run_bind, bind_eq, run_modify_tpt, Bool.false_eq_true, if_false,
    run_transport_write_u8, if_true, h1, lua_gettop, run_get_stack, run_pure, List.length_cons,
    Nat.add_sub_cancel, run_transport_write_u32, hmod]
  have hw : (if nl ≠ ll then swap_bytes (int_to_mem h.little_endian 4 args.length) 4
      else int_to_mem h.little_endian 4 args.length) =
      wire_u32 h.little_endian (decide (nl ≠ ll)) args.length := by
    by_cases hd : nl = ll <;> simp [wire_u32, hd]
  rw [hw, h2]
  simp only [List.append_assoc]

/-- C10. For every proxy whose leaf segment is not `get` and every list of
arguments that `write_variable` accepts (fewer than 2^32 of them), on an open
transport and in a build without `HELPER_WAIT`: the request half of
`helper_call` returns normally having appended exactly the octet 01, the
serialised path of the proxy, the argument count as `u32` and the octets of
`write_variable` for each argument in order, while the pending input is still
untouched; and these are all the octets `helper_call` has written when it
returns, whatever the response is. -/
theorem call_request_frame (h : Host) (ip : Interp) (fuel : Nat) (s : RpcState) (hp : Helper)
    (args : List LVal)
    (hstack : s.stack = .helper hp :: args)
    (hget : cstring hp.funcname ≠ [103, 101, 116])
    (hwait : h.HELPER_WAIT = false) (hopen : s.tpt.is_open = true)
    (hn : args.length < 2 ^ 32)
    (hpath : (helper_remote_index h hp (writing s)).1 = .ok ())
    (hargs : ∀ a ∈ args, (write_variable h a (writing s)).1 = .ok ()) :
    helper_call_request h hp args s =
      (.ok (), { s with tpt := { s.tpt with mode := .writing, out := s.tpt.out ++
        ([0x01] ++ emitted (helper_remote_index h hp) (writing s) ++
          wire_u32 h.little_endian (decide (s.tpt.net_little ≠ s.tpt.loc_little)) args.length ++
          (args.map fun a => emitted (write_variable h a) (writing s)).flatten) } }) ∧
    (helper_call h ip fuel s).2.tpt.out = s.tpt.out ++
        ([0x01] ++ emitted (helper_remote_index h hp) (writing s) ++
          wire_u32 h.little_endian (decide (s.tpt.net_little ≠ s.tpt.loc_little)) args.length ++
          (args.map fun a => emitted (write_variable h a) (writing s)).flatten) := by
  have hreq := helper_call_request_run h s hp args hstack hwait hopen hn hpath hargs
  refine ⟨hreq, ?_⟩
  have hdrop : List.drop 1 s.stack = args := by rw [hstack]; rfl
  have hcall : helper_call h ip fuel s =
      Try (helper_call_response h ip fuel) generic_catch_handler
        { s with tpt := { s.tpt with mode := .writing, out := s.tpt.out ++
          ([RPC_CMD_CALL] ++ emitted (helper_remote_index h hp) (writing s) ++
            wire_u32 h.little_endian (decide (s.tpt.net_little ≠ s.tpt.loc_little))
              args.length ++
            (args.map fun a => emitted (write_variable h a) (writing s)).flatten) } } := by
    simp only [helper_call, run_bind, bind_eq, run_get_stack, hstack, List.head?_cons, hget,
      if_false, run_ite, List.drop_succ_cons, List.drop_zero]
    rw [hstack] at hreq
    simp only [Try, run_bind, bind_eq, hreq]
  rw [hcall]
  exact (nowrite_Try (nowrite_helper_call_response h ip fuel)
    nowrite_generic_catch_handler) _

/-- Witness for C10: `handle.echo(42, "hi")` on a little-endian link with
8-octet doubles writes
`01 04 00 00 00 65 63 68 6F 02 00 00 00 01 <42.0> 03 02 00 00 00 68 69`. -/
theorem call_request_frame_witness :
    (helper_call_request host_le_double (helper_create host_le_double [101, 99, 104, 111])
      [.number [0, 0, 0, 0, 0, 0, 0x45, 0x40], .string [104, 105]]
      (state_of (linked_transport 1 1 8 0 0 [])
        [.helper (helper_create host_le_double [101, 99, 104, 111]),
          .number [0, 0, 0, 0, 0, 0, 0x45, 0x40], .string [104, 105]])).2.tpt.out =
      [0x01, 0x04, 0x00, 0x00, 0x00, 0x65, 0x63, 0x68, 0x6F, 0x02, 0x00, 0x00, 0x00,
        0x01, 0, 0, 0, 0, 0, 0, 0x45, 0x40, 0x03, 0x02, 0x00, 0x00, 0x00, 0x68, 0x69] ∧
    (helper_call host_le_double sample_interp 4
      (state_of (linked_transport 1 1 8 0 0 [])
        [.helper (helper_create host_le_double [101, 99, 104, 111]),
          .number [0, 0, 0, 0, 0, 0, 0x45, 0x40], .string [104, 105]])).2.tpt.out =
      [0x01, 0x04, 0x00, 0x00, 0x00, 0x65, 0x63, 0x68, 0x6F, 0x02, 0x00, 0x00, 0x00,
        0x01, 0, 0, 0, 0, 0, 0, 0x45, 0x40, 0x03, 0x02, 0x00, 0x00, 0x00, 0x68, 0x69] :=
  have t := call_request_frame host_le_double sample_interp 4
    (state_of (linked_transport 1 1 8 0 0 [])
      [.helper (helper_create host_le_double [101, 99, 104, 111]),
        .number [0, 0, 0, 0, 0, 0, 0x45, 0x40], .string [104, 105]])
    (helper_create host_le_double [101, 99, 104, 111])
    [.number [0, 0, 0, 0, 0, 0, 0x45, 0x40], .string [104, 105]]
    rfl (by decide) rfl rfl (by decide) rfl
    (by intro a ha
        simp only [List.mem_cons, List.mem_singleton, List.not_mem_nil, or_false] at ha
        rcases ha with rfl | rfl <;> rfl)
  ⟨(congrArg (fun r => r.2.tpt.out) t.1).trans (by decide!), t.2.trans (by decide!)⟩

/-! ## Equality of states by computation -/

theorem helper_eq_of_beq : (a b : Helper) → Helper.beq a b = true → a = b
  | .mk none n f, .mk none m g, h => by
    simp only [Helper.beq, Bool.and_eq_true, beq_iff_eq] at h
    rw [h.1, h.2]
  | .mk (some p) n f, .mk (some q) m g, h => by
    simp only [Helper.beq, Bool.and_eq_true, beq_iff_eq] at h
    rw [helper_eq_of_beq p q h.1.1, h.1.2, h.2]
  | .mk none _ _, .mk (some _) _ _, h => by simp [Helper.beq] at h
  | .mk (some _) _ _, .mk none _ _, h => by simp [Helper.beq] at h

mutual
theorem lval_eq_of_beq : (a b : LVal) → LVal.beq a b = true → a = b
  | .table a, .table b, h => by
    simp only [LVal.beq] at h
    rw [ltable_eq_of_beq a b h]
  | .helper a, .helper b, h => by
    simp only [LVal.beq] at h
    rw [helper_eq_of_beq a b h]
  | .nil, b, h => by cases b <;> simp_all [LVal.beq]
  | .boolean _, b, h => by cases b <;> simp_all [LVal.beq]
  | .number _, b, h => by cases b <;> simp_all [LVal.beq]
  | .string _, b, h => by cases b <;> simp_all [LVal.beq]
  | .function _, b, h => by cases b <;> simp_all [LVal.beq]
  | .userdata, b, h => by cases b <;> simp_all [LVal.beq]
  | .thread, b, h => by cases b <;> simp_all [LVal.beq]
  | .lightuserdata, b, h => by cases b <;> simp_all [LVal.beq]
  | .table _, .nil, h => by simp [LVal.beq] at h
  | .table _, .boolean _, h => by simp [LVal.beq] at h
  | .table _, .number _, h => by simp [LVal.beq] at h
  | .table _, .string _, h => by simp [LVal.beq] at h
  | .table _, .function _, h => by simp [LVal.beq] at h
  | .table _, .helper _, h => by simp [LVal.beq] at h
  | .table _, .userdata, h => by simp [LVal.beq] at h
  | .table _, .thread, h => by simp [LVal.beq] at h
  | .table _, .lightuserdata, h => by simp [LVal.beq] at h
  | .helper _, .nil, h => by simp [LVal.beq] at h
  | .helper _, .boolean _, h => by simp [LVal.beq] at h
  | .helper _, .number _, h => by simp [LVal.beq] at h
  | .helper _, .string _, h => by simp [LVal.beq] at h
  | .helper _, .function _, h => by simp [LVal.beq] at h
  | .helper _, .table _, h => by simp [LVal.beq] at h
  | .helper _, .userdata, h => by simp [LVal.beq] at h
  | .helper _, .thread, h => by simp [LVal.beq] at h
  | .helper _, .lightuserdata, h => by simp [LVal.beq] at h
theorem ltable_eq_of_beq : (a b : LTable) → LTable.beq a b = true → a = b
  | .empty, .empty, _ => rfl
  | .entry k v r, .entry k2 v2 r2, h => by
    simp only [LTable.beq, Bool.and_eq_true] at h
    rw [lval_eq_of_beq k k2 h.1.1, lval_eq_of_beq v v2 h.1.2, ltable_eq_of_beq r r2 h.2]
  | .empty, .entry _ _ _, h => by simp [LTable.beq] at h
  | .entry _ _ _, .empty, h => by simp [LTable.beq] at h
end

theorem lval_list_eq_of_beq : (a b : List LVal) → LVal.beq_list a b = true → a = b
  | [], [], _ => rfl
  | x :: xs, y :: ys, h => by
    simp only [LVal.beq_list, Bool.and_eq_true] at h
    rw [lval_eq_of_beq x y h.1, lval_list_eq_of_beq xs ys h.2]
  | [], _ :: _, h => by simp [LVal.beq_list] at h
  | _ :: _, [], h => by simp [LVal.beq_list] at h

theorem state_eq_of_beq (a b : RpcState) (h : RpcState.beq a b = true) : a = b := by
  obtain ⟨t1, s1, g1, e1⟩ := a
  obtain ⟨t2, s2, g2, e2⟩ := b
  simp only [RpcState.beq, Bool.and_eq_true, decide_eq_true_eq] at h
  obtain ⟨⟨⟨ht, hs⟩, hg⟩, he⟩ := h
  have hs' := lval_list_eq_of_beq s1 s2 hs
  have hg' := ltable_eq_of_beq g1 g2 hg
  have he' : e1 = e2 := by
    cases e1 <;> cases e2 <;> simp_all
    exact lval_eq_of_beq _ _ he
  subst ht hs' hg' he'
  rfl

/-- Two outcomes are equal when their results are and their states compare
equal. -/
theorem run_eq_of_beq {α : Type} (x y : Res α × RpcState) (h1 : x.1 = y.1)
    (h2 : RpcState.beq x.2 y.2 = true) : x = y :=
  Prod.ext h1 (state_eq_of_beq _ _ h2)

/-! ## C11 and C12: the CALL command on the server -/

theorem nowrite_read_arguments (h : Host) (ip : Interp) (fuel : Nat) :
    (n : Nat) → NoWrite (read_arguments h ip fuel n)
  | 0 => nowrite_pure ()
  | n + 1 => by
    rw [LuaRpc.read_arguments]
    exact nowrite_bind (nowrite_decoder h ip fuel).1 fun _ => nowrite_read_arguments h ip fuel n

theorem nowrite_read_cmd_call_request (h : Host) (ip : Interp) (fuel : Nat) :
    NoWrite (read_cmd_call_request h ip fuel) := by
  unfold LuaRpc.read_cmd_call_request
  exact nowrite_bind (nowrite_transport_read_u32 h) fun _ =>
    nowrite_bind (nowrite_alloca_read_string h _) fun _ =>
      nowrite_bind (nowrite_resolve_path _) fun _ =>
        nowrite_bind nowrite_lua_gettop fun _ =>
          nowrite_bind nowrite_get_stack fun _ =>
            nowrite_bind (nowrite_transport_read_u32 h) fun _ =>
              nowrite_bind (nowrite_read_arguments h ip fuel _) fun _ => nowrite_pure _

/-- C12 (evaluation at the failing input). The global `a` is an empty table and
the CALL frame carries the path `a.b` and no arguments: `read_cmd_call` answers
1, `LUA_ERRRUN`, the length 23 and the message `undefined function: a\0b`, in
which the dot of the received path is a NUL. For the path `f` of an undefined
global the message is `undefined function: f`. -/
theorem call_undefined_function_message :
    (read_cmd_call host_le_double sample_interp 1
      ⟨linked_transport 1 1 8 0 0 [3, 0, 0, 0, 97, 46, 98, 0, 0, 0, 0], [],
        .entry (.string [97]) (.table .empty) .empty, none⟩).2.tpt.out =
      [1, 2, 0, 0, 0, 23, 0, 0, 0,
        117, 110, 100, 101, 102, 105, 110, 101, 100, 32, 102, 117, 110, 99, 116, 105, 111,
        110, 58, 32, 97, 0, 98] ∧
    (read_cmd_call host_le_double sample_interp 1
      (state_of (linked_transport 1 1 8 0 0 [1, 0, 0, 0, 102, 0, 0, 0, 0]) [])).2.tpt.out =
      [1, 2, 0, 0, 0, 21, 0, 0, 0,
        117, 110, 100, 101, 102, 105, 110, 101, 100, 32, 102, 117, 110, 99, 116, 105, 111,
        110, 58, 32, 102] := by
  constructor <;> decide!

/-- The response of `read_cmd_call` after a successful protected call. -/
theorem read_cmd_call_respond_ok (h : Host) (ip : Interp) (s1 : RpcState) (len : Nat)
    (funcname : List Byte) (sp na : Nat) (rs : List LVal) (g : LTable)
    (hopen : s1.tpt.is_open = true)
    (hlen : s1.stack.length = sp + 1 + na)
    (hcall : ip.pcall (s1.stack.getD sp .nil) (s1.stack.drop (sp + 1)) s1.globals = (0, rs, g))
    (hrs : rs.length < 2 ^ 32)
    (hok : ∀ a ∈ rs, (write_variable h a (writing s1)).1 = .ok ()) :
    read_cmd_call_respond h ip (len, funcname, (sp : Int), true, (na : Int)) s1 =
      (.ok (), { s1 with
        tpt := { s1.tpt with mode := .writing, out := s1.tpt.out ++
          ([0x00] ++
            wire_u32 h.little_endian (decide (s1.tpt.net_little ≠ s1.tpt.loc_little)) rs.length ++
            (rs.map fun a => emitted (write_variable h a) (writing s1)).flatten) },
        stack := [],
        globals := g }) := by
  obtain ⟨⟨o, ll, nl, lb, li, ni, md, inp, out⟩, stack, globals, geh⟩ := s1
  dsimp only at hopen hlen hcall
  subst hopen
  have hc : ¬ ((na : Int) < 0 ∨ ((stack.length : Nat) : Int) < (na : Int) + 1) := by omega
  have hk : stack.length - (na : Int).toNat - 1 = sp := by
    rw [Int.toNat_ofNat]; omega
  have htake : (stack.take sp).length = sp := by
    rw [List.length_take]; omega
  have htop : ((stack.take sp ++ rs).length : Int) - (sp : Int) = (rs.length : Int) := by
    rw [List.length_append, htake]; push_cast; ring
  have hmod : ((rs.length : Int) % 2 ^ 32).toNat = rs.length := by
    have : (rs.length : Int) % 2 ^ 32 = (rs.length : Int) :=
      Int.emod_eq_of_lt (by positivity) (by exact_mod_cast hrs)
    rw [this, Int.toNat_ofNat]
  have hdrop : ((stack.take sp ++ rs).drop (sp : Int).toNat).take (rs.length : Int).toNat = rs := by
    rw [Int.toNat_ofNat, Int.toNat_ofNat]
    have := @List.drop_left' LVal (stack.take sp) rs sp htake
    rw [this, List.take_length]
  have hw := write_arguments_frame h
    (writing ⟨⟨true, ll, nl, lb, li, ni, md, inp, out⟩, stack, globals, geh⟩) rfl rs
    ⟨⟨true, ll, nl, lb, li, ni, .writing, inp, out ++ [0x00] ++
      wire_u32 h.little_endian (decide (nl ≠ ll)) rs.length⟩, stack.take sp ++ rs, g, geh⟩
    rfl rfl hok
  have hwire : (if nl ≠ ll then swap_bytes (int_to_mem h.little_endian 4 rs.length) 4
      else int_to_mem h.little_endian 4 rs.length) =
      wire_u32 h.little_endian (decide (nl ≠ ll)) rs.length := by
    by_cases hd : nl = ll <;> simp [wire_u32, hd]
  have hm2 : rs.length % 2 ^ 32 = rs.length := Nat.mod_eq_of_lt hrs
  dsimp only at hw
  simp only [ne_eq, List.append_assoc] at hw
  simp only [read_cmd_call_respond, if_true, run_bind, bind_eq, lua_pcall, hc, if_false, hk,
    hcall, TRANSPORT_START_WRITING, transport_set_mode, run_modify_tpt, ne_eq,
    not_true_eq_false, run_ite, run_transport_write_u8, lua_gettop, run_get_stack, run_pure,
    htop, hmod, run_transport_write_u32, hm2, hwire, hdrop, hw, lua_settop, run_modify_stack,
    List.take_zero, Nat.zero_sub, List.replicate_zero, List.append_nil, List.append_assoc]

/-- C11. Whenever `read_cmd_call` has read a request whose path resolved to a
callable value (`good_function`), every argument has pushed one value, and the
protected call returns the status 0 leaving the values `rs`, none of which
`write_variable` refuses: `read_cmd_call` returns normally, and what it has
written, all of it after the request was read, is exactly the octet 0, the
number of values in `rs` as `u32` (whatever the number of arguments was) and
the octets of `write_variable` for each value of `rs` in order; afterwards the
stack is empty. -/
theorem call_success_response (h : Host) (ip : Interp) (fuel : Nat) (s s1 : RpcState)
    (len : Nat) (funcname : List Byte) (sp na : Nat) (rs : List LVal) (g : LTable)
    (hreq : read_cmd_call_request h ip fuel s =
      (.ok (len, funcname, (sp : Int), true, (na : Int)), s1))
    (hopen : s1.tpt.is_open = true)
    (hlen : s1.stack.length = sp + 1 + na)
    (hcall : ip.pcall (s1.stack.getD sp .nil) (s1.stack.drop (sp + 1)) s1.globals = (0, rs, g))
    (hrs : rs.length < 2 ^ 32)
    (hok : ∀ a ∈ rs, (write_variable h a (writing s1)).1 = .ok ()) :
    read_cmd_call h ip fuel s =
      (.ok (), { s1 with
        tpt := { s1.tpt with mode := .writing, out := s1.tpt.out ++
          ([0x00] ++
            wire_u32 h.little_endian (decide (s1.tpt.net_little ≠ s1.tpt.loc_little)) rs.length ++
            (rs.map fun a => emitted (write_variable h a) (writing s1)).flatten) },
        stack := [],
        globals := g }) ∧
    s1.tpt.out = s.tpt.out := by
  constructor
  · have hresp := read_cmd_call_respond_ok h ip s1 len funcname sp na rs g hopen hlen hcall hrs hok
    simp only [read_cmd_call, run_bind, bind_eq, hreq, hresp]
  · have := nowrite_read_cmd_call_request h ip fuel s
    rw [hreq] at this
    exact this

/-- Witness for C11: the global `echo` is a function, every function of the
sample interpreter returns its arguments, and the request is the one of
`handle.echo(42, "hi")`; the response is
`00 02 00 00 00 01 <42.0> 03 02 00 00 00 68 69`. -/
theorem call_success_response_witness :
    (read_cmd_call host_le_double sample_interp 1
      ⟨linked_transport 1 1 8 0 0
        [0x04, 0x00, 0x00, 0x00, 0x65, 0x63, 0x68, 0x6F, 0x02, 0x00, 0x00, 0x00,
          0x01, 0, 0, 0, 0, 0, 0, 0x45, 0x40, 0x03, 0x02, 0x00, 0x00, 0x00, 0x68, 0x69],
        [], .entry (.string [0x65, 0x63, 0x68, 0x6F]) (.function [27, 76]) .empty,
        none⟩).2.tpt.out =
      [0x00, 0x02, 0x00, 0x00, 0x00, 0x01, 0, 0, 0, 0, 0, 0, 0x45, 0x40,
        0x03, 0x02, 0x00, 0x00, 0x00, 0x68, 0x69] ∧
    (read_cmd_call host_le_double sample_interp 1
      ⟨linked_transport 1 1 8 0 0
        [0x04, 0x00, 0x00, 0x00, 0x65, 0x63, 0x68, 0x6F, 0x02, 0x00, 0x00, 0x00,
          0x01, 0, 0, 0, 0, 0, 0, 0x45, 0x40, 0x03, 0x02, 0x00, 0x00, 0x00, 0x68, 0x69],
        [], .entry (.string [0x65, 0x63, 0x68, 0x6F]) (.function [27, 76]) .empty,
        none⟩).2.stack = [] :=
  have t := call_success_response host_le_double sample_interp 1
    ⟨linked_transport 1 1 8 0 0
      [0x04, 0x00, 0x00, 0x00, 0x65, 0x63, 0x68, 0x6F, 0x02, 0x00, 0x00, 0x00,
        0x01, 0, 0, 0, 0, 0, 0, 0x45, 0x40, 0x03, 0x02, 0x00, 0x00, 0x00, 0x68, 0x69],
      [], .entry (.string [0x65, 0x63, 0x68, 0x6F]) (.function [27, 76]) .empty, none⟩
    ⟨{ linked_transport 1 1 8 0 0 [] with mode := .reading },
      [.function [27, 76], .number [0, 0, 0, 0, 0, 0, 0x45, 0x40], .string [0x68, 0x69]],
      .entry (.string [0x65, 0x63, 0x68, 0x6F]) (.function [27, 76]) .empty, none⟩
    4 [0x65, 0x63, 0x68, 0x6F] 0 2
    [.number [0, 0, 0, 0, 0, 0, 0x45, 0x40], .string [0x68, 0x69]]
    (.entry (.string [0x65, 0x63, 0x68, 0x6F]) (.function [27, 76]) .empty)
    (run_eq_of_beq _ _ (by decide!) (by decide!)) rfl rfl rfl (by decide!)
    (by intro a ha
        simp only [List.mem_cons, List.mem_singleton, List.not_mem_nil, or_false] at ha
        rcases ha with rfl | rfl <;> decide!)
  ⟨(congrArg (fun r => r.2.tpt.out) t.1).trans (by decide!), congrArg (fun r => r.2.stack) t.1⟩

/-! ## C13: the reserved name `get` -/

/-- The request of `helper_get` on an open transport in a build without
`HELPER_WAIT`: what remains to run is the response part, on a state whose
output has grown by the GET octet and the serialised path. -/
theorem helper_get_run (h : Host) (ip : Interp) (fuel : Nat) (s : RpcState) (p : Helper)
    (hwait : h.HELPER_WAIT = false) (hopen : s.tpt.is_open = true)
    (hpath : (helper_remote_index h p (writing s)).1 = .ok ()) :
    helper_get h ip fuel p s =
      Try (do
          let _ ← read_variable h ip fuel
          TRANSPORT_STOP
          pure 1)
        generic_catch_handler
        { s with tpt := { s.tpt with mode := .reading, out := s.tpt.out ++
          ([0x02] ++ emitted (helper_remote_index h p) (writing s)) } } := by
  obtain ⟨⟨o, ll, nl, lb, li, ni, md, inp, out⟩, stack, globals, geh⟩ := s
  dsimp only at hopen
  subst hopen
  have h1 := frame_run (frame_helper_remote_index h p)
    (writing ⟨⟨true, ll, nl, lb, li, ni, md, inp, out⟩, stack, globals, geh⟩)
    ⟨⟨true, ll, nl, lb, li, ni, .writing, inp, out ++ [0x02]⟩, stack, globals, geh⟩
    rfl rfl rfl
  rw [hpath] at h1
  dsimp only at h1
  simp only [helper_get, Try, helper_wait_ready, hwait, TRANSPORT_START_WRITING,
    TRANSPORT_START_READING, transport_set_mode, run_bind, bind_eq, run_modify_tpt,
    Bool.false_eq_true, if_false, run_transport_write_u8, if_true, h1, List.append_assoc,
    RPC_CMD_GET]

/-- A final `pure` changes nothing in the state. -/
theorem state_bind_pure {α β : Type} (x : RPC α) (b : β) (s : RpcState) :
    ((x >>= fun _ => (pure b : RPC β)) s).2 = (x s).2 := by
  simp only [run_bind, bind_eq]
  generalize x s = r
  obtain ⟨r1, s1⟩ := r
  cases r1 <;> rfl



/-- C13. For every proxy whose leaf segment is `get` and whose parent is the
proxy `p`, on an open transport in a build without `HELPER_WAIT`: all that
`helper_call` writes is the octet 02 followed by the serialised path of `p` (so
the command octet is never 01), whatever the response is; and when
`read_variable` decodes the response, `helper_call` returns 1 with the stack
the decoder has left, so the value returned is the decoded one. On a
little-endian link `handle.x.get()` writes `02 01 00 00 00 78` and
`handle.t.k.get()` writes `02 03 00 00 00 74 2E 6B`. -/
theorem get_interception (h : Host) (ip : Interp) (fuel : Nat) (s : RpcState) (hp p : Helper)
    (hstack : s.stack.head? = some (.helper hp))
    (hget : cstring hp.funcname = [103, 101, 116])
    (hparent : hp.parent = some p)
    (hwait : h.HELPER_WAIT = false) (hopen : s.tpt.is_open = true)
    (hpath : (helper_remote_index h p (writing s)).1 = .ok ()) :
    (helper_call h ip fuel s).2.tpt.out =
      s.tpt.out ++ ([0x02] ++ emitted (helper_remote_index h p) (writing s)) ∧
    (∀ r s2, read_variable h ip fuel
        { s with tpt := { s.tpt with mode := .reading, out := s.tpt.out ++
          ([0x02] ++ emitted (helper_remote_index h p) (writing s)) } } = (.ok r, s2) →
      helper_call h ip fuel s = (.ok 1, { s2 with tpt := { s2.tpt with mode := .stop } })) ∧
    (helper_call host_le_double sample_interp 2
      (state_of (linked_transport 1 1 8 0 0 [2, 1])
        [.helper (helper_append host_le_double (helper_create host_le_double [120])
          [103, 101, 116])])).2.tpt.out = [0x02, 0x01, 0x00, 0x00, 0x00, 0x78] ∧
    (helper_call host_le_double sample_interp 2
      (state_of (linked_transport 1 1 8 0 0 [2, 1])
        [.helper (helper_append host_le_double
          (helper_append host_le_double (helper_create host_le_double [116]) [107])
          [103, 101, 116])])).2.tpt.out = [0x02, 0x03, 0x00, 0x00, 0x00, 0x74, 0x2E, 0x6B] := by
  have hrun := helper_get_run h ip fuel s p hwait hopen hpath
  have hcall : helper_call h ip fuel s =
      (helper_get h ip fuel p >>= fun _ => pure 1) s := by
    cases hs : s.stack with
    | nil => rw [hs] at hstack; simp at hstack
    | cons v vs =>
      rw [hs] at hstack
      simp only [List.head?_cons, Option.some.injEq] at hstack
      subst hstack
      simp only [helper_call, run_bind, bind_eq, run_get_stack, hs, List.head?_cons, hget,
        if_true, hparent]
  refine ⟨?_, ?_, by decide!, by decide!⟩
  · rw [hcall, state_bind_pure, hrun]
    exact (nowrite_Try
      (nowrite_bind (nowrite_decoder h ip fuel).1 fun _ =>
        nowrite_bind (nowrite_transport_set_mode _) fun _ => nowrite_pure _)
      nowrite_generic_catch_handler) _
  · intro r s2 hr
    rw [hcall]
    simp only [run_bind, bind_eq, hrun, Try, hr, TRANSPORT_STOP, transport_set_mode,
      run_modify_tpt, run_pure]


/-- Witness for C13: `handle.t.k.get()` when the server answers `02 01`
(the boolean true). -/
theorem get_interception_witness :
    (helper_call host_le_double sample_interp 2
      (state_of (linked_transport 1 1 8 0 0 [2, 1])
        [.helper (helper_append host_le_double
          (helper_append host_le_double (helper_create host_le_double [116]) [107])
          [103, 101, 116])])).2.tpt.out = [0x02, 0x03, 0x00, 0x00, 0x00, 0x74, 0x2E, 0x6B] ∧
    (helper_call host_le_double sample_interp 2
      (state_of (linked_transport 1 1 8 0 0 [2, 1])
        [.helper (helper_append host_le_double
          (helper_append host_le_double (helper_create host_le_double [116]) [107])
          [103, 101, 116])])).1 = .ok 1 :=
  have t := get_interception host_le_double sample_interp 2
    (state_of (linked_transport 1 1 8 0 0 [2, 1])
      [.helper (helper_append host_le_double
        (helper_append host_le_double (helper_create host_le_double [116]) [107])
        [103, 101, 116])])
    (helper_append host_le_double
      (helper_append host_le_double (helper_create host_le_double [116]) [107])
      [103, 101, 116])
    (helper_append host_le_double (helper_create host_le_double [116]) [107])
    rfl (by decide) rfl rfl rfl (by decide!)
  ⟨t.1.trans (by decide!), by decide!⟩

/-! ## C14 to C16: remote assignment, client side -/

/-- The octets of a NEWINDEX request for the proxy `hp`, the key `key` and the
value `val`, as emitted on the transport of `s`. -/
theorem helper_newindex_request_run (h : Host) (s : RpcState) (hp : Helper) (key val : LVal)
    (hwait : h.HELPER_WAIT = false) (hopen : s.tpt.is_open = true)
    (hpath : (helper_remote_index h hp (writing s)).1 = .ok ())
    (hkey : (write_variable h key (writing s)).1 = .ok ())
    (hval : (write_variable h val (writing s)).1 = .ok ()) :
    helper_newindex_request h hp key val s =
      (.ok (), { s with tpt := { s.tpt with mode := .writing, out := s.tpt.out ++
        ([0x04] ++ emitted (helper_remote_index h hp) (writing s) ++
          emitted (write_variable h key) (writing s) ++
          emitted (write_variable h val) (writing s)) } }) := by
  obtain ⟨⟨o, ll, nl, lb, li, ni, md, inp, out⟩, stack, globals, geh⟩ := s
  dsimp only at hopen
  subst hopen
  have h1 := frame_run (frame_helper_remote_index h hp)
    (writing ⟨⟨true, ll, nl, lb, li, ni, md, inp, out⟩, stack, globals, geh⟩)
    ⟨⟨true, ll, nl, lb, li, ni, .writing, inp, out ++ [0x04]⟩, stack, globals, geh⟩
    rfl rfl rfl
  rw [hpath] at h1
  have h2 := frame_run (frame_write_variable h key)
    (writing ⟨⟨true, ll, nl, lb, li, ni, md, inp, out⟩, stack, globals, geh⟩)
    ⟨⟨true, ll, nl, lb, li, ni, .writing, inp, out ++ [0x04] ++
      emitted (helper_remote_index h hp)
        (writing ⟨⟨true, ll, nl, lb, li, ni, md, inp, out⟩, stack, globals, geh⟩)⟩,
      stack, globals, geh⟩
    rfl rfl rfl
  rw [hkey] at h2
  have h3 := frame_run (frame_write_variable h val)
    (writing ⟨⟨true, ll, nl, lb, li, ni, md, inp, out⟩, stack, globals, geh⟩)
    ⟨⟨true, ll, nl, lb, li, ni, .writing, inp, out ++ [0x04] ++
      emitted (helper_remote_index h hp)
        (writing ⟨⟨true, ll, nl, lb, li, ni, md, inp, out⟩, stack, globals, geh⟩) ++
      emitted (write_variable h key)
        (writing ⟨⟨true, ll, nl, lb, li, ni, md, inp, out⟩, stack, globals, geh⟩)⟩,
      stack, globals, geh⟩
    rfl rfl rfl
  rw [hval] at h3
  dsimp only at h1 h2 h3
  simp only [helper_newindex_request, helper_wait_ready, hwait, TRANSPORT_START_WRITING,
    transport_set_mode, run_bind, bind_eq, run_modify_tpt, Bool.false_eq_true, if_false,
    run_transport_write_u8, if_true, RPC_CMD_NEWINDEX, h1, h2, h3]
  simp only [List.append_assoc]

/-- The three values on top of a stack. -/
theorem getD_top_three {α : Type} (pre : List α) (a b c d : α) :
    (pre ++ [a, b, c]).getD ((pre ++ [a, b, c]).length - 3) d = a ∧
    (pre ++ [a, b, c]).getD ((pre ++ [a, b, c]).length - 2) d = b ∧
    (pre ++ [a, b, c]).getD ((pre ++ [a, b, c]).length - 1) d = c := by
  have e : (pre ++ [a, b, c]).length = pre.length + 3 := by simp
  rw [e]
  exact ⟨getD_append_add pre [a, b, c] 0 d, getD_append_add pre [a, b, c] 1 d,
    getD_append_add pre [a, b, c] 2 d⟩

theorem nowrite_helper_newindex_response (h : Host) : NoWrite (helper_newindex_response h) := by
  unfold LuaRpc.helper_newindex_response
  refine nowrite_bind (nowrite_transport_set_mode _) fun _ =>
    nowrite_bind (nowrite_transport_read_u8 h) fun ret_code => ?_
  dsimp only
  refine nowrite_ite _ ?_ ?_
  · exact nowrite_bind (nowrite_transport_read_u32 h) fun _ =>
      nowrite_bind (nowrite_transport_read_u32 h) fun _ =>
        nowrite_bind (nowrite_alloca_read_string h _) fun _ =>
          nowrite_bind (nowrite_deal_with_error _) fun _ =>
            nowrite_bind (nowrite_transport_set_mode _) fun _ => nowrite_pure _
  · exact nowrite_bind (nowrite_pure _) fun _ =>
      nowrite_bind (nowrite_transport_set_mode _) fun _ => nowrite_pure _

/-- What `helper_newindex` does after the request is written. -/
theorem helper_newindex_run (h : Host) (s : RpcState) (pre : List LVal) (hp : Helper)
    (k : List Byte) (v : LVal)
    (hstack : s.stack = pre ++ [.helper hp, .string k, v])
    (hwait : h.HELPER_WAIT = false) (hopen : s.tpt.is_open = true)
    (hpath : (helper_remote_index h hp (writing s)).1 = .ok ())
    (hkey : (write_variable h (.string k) (writing s)).1 = .ok ())
    (hval : (write_variable h v (writing s)).1 = .ok ()) :
    helper_newindex h s =
      Try (helper_newindex_response h) generic_catch_handler
        { s with tpt := { s.tpt with mode := .writing, out := s.tpt.out ++
          ([0x04] ++ emitted (helper_remote_index h hp) (writing s) ++
            emitted (write_variable h (.string k)) (writing s) ++
            emitted (write_variable h v) (writing s)) } } := by
  have hreq := helper_newindex_request_run h s hp (.string k) v hwait hopen hpath hkey hval
  have h3 := getD_top_three pre (.helper hp) (.string k) v .nil
  have hlen : ¬ (pre ++ [LVal.helper hp, LVal.string k, v]).length < 3 := by simp
  simp only [helper_newindex, run_bind, bind_eq, run_get_stack, hstack, hlen, if_false,
    h3.1, h3.2.1, h3.2.2]
  rw [hstack] at hreq
  simp only [Try, run_bind, bind_eq, hreq]

/-- All that `helper_newindex` writes is its request. -/
theorem helper_newindex_out (h : Host) (s : RpcState) (pre : List LVal) (hp : Helper)
    (k : List Byte) (v : LVal)
    (hstack : s.stack = pre ++ [.helper hp, .string k, v])
    (hwait : h.HELPER_WAIT = false) (hopen : s.tpt.is_open = true)
    (hpath : (helper_remote_index h hp (writing s)).1 = .ok ())
    (hkey : (write_variable h (.string k) (writing s)).1 = .ok ())
    (hval : (write_variable h v (writing s)).1 = .ok ()) :
    (helper_newindex h s).2.tpt.out = s.tpt.out ++
      ([0x04] ++ emitted (helper_remote_index h hp) (writing s) ++
        emitted (write_variable h (.string k)) (writing s) ++
        emitted (write_variable h v) (writing s)) := by
  rw [helper_newindex_run h s pre hp k v hstack hwait hopen hpath hkey hval]
  exact (nowrite_Try (nowrite_helper_newindex_response h) nowrite_generic_catch_handler) _

/-- When `write_variable` does not take the key, `helper_newindex` ends there:
the value is not written and no response is read. -/
theorem helper_newindex_key_refused (h : Host) (s : RpcState) (pre : List LVal) (hp : Helper)
    (k : List Byte) (v : LVal)
    (hstack : s.stack = pre ++ [.helper hp, .string k, v])
    (hwait : h.HELPER_WAIT = false) (hopen : s.tpt.is_open = true)
    (hpath : (helper_remote_index h hp (writing s)).1 = .ok ())
    (hkey : (write_variable h (.string k) (writing s)).1 = .undefined) :
    helper_newindex h s =
      (.undefined, { s with tpt := { s.tpt with mode := .writing, out := s.tpt.out ++
        ([0x04] ++ emitted (helper_remote_index h hp) (writing s) ++
          emitted (write_variable h (.string k)) (writing s)) } }) := by
  have h3 := getD_top_three pre (.helper hp) (.string k) v .nil
  have hlen : ¬ (pre ++ [LVal.helper hp, LVal.string k, v]).length < 3 := by simp
  obtain ⟨⟨o, ll, nl, lb, li, ni, md, inp, out⟩, stack, globals, geh⟩ := s
  dsimp only at hopen hstack
  subst hopen hstack
  have h1 := frame_run (frame_helper_remote_index h hp)
    (writing ⟨⟨true, ll, nl, lb, li, ni, md, inp, out⟩,
      pre ++ [.helper hp, .string k, v], globals, geh⟩)
    ⟨⟨true, ll, nl, lb, li, ni, .writing, inp, out ++ [0x04]⟩,
      pre ++ [.helper hp, .string k, v], globals, geh⟩
    rfl rfl rfl
  rw [hpath] at h1
  have h2 := frame_run (frame_write_variable h (.string k))
    (writing ⟨⟨true, ll, nl, lb, li, ni, md, inp, out⟩,
      pre ++ [.helper hp, .string k, v], globals, geh⟩)
    ⟨⟨true, ll, nl, lb, li, ni, .writing, inp, out ++ [0x04] ++
      emitted (helper_remote_index h hp)
        (writing ⟨⟨true, ll, nl, lb, li, ni, md, inp, out⟩,
          pre ++ [.helper hp, .string k, v], globals, geh⟩)⟩,
      pre ++ [.helper hp, .string k, v], globals, geh⟩
    rfl rfl rfl
  rw [hkey] at h2
  dsimp only at h1 h2
  simp only [helper_newindex, run_bind, bind_eq, run_get_stack, hlen, if_false,
    h3.1, h3.2.1, h3.2.2]
  simp only [Try, helper_newindex_request, helper_wait_ready, hwait, TRANSPORT_START_WRITING,
    transport_set_mode, run_bind, bind_eq, run_modify_tpt, Bool.false_eq_true, if_false,
    run_transport_write_u8, if_true, RPC_CMD_NEWINDEX, h1, h2]
  simp only [List.append_assoc]

/-- C14 (as stated, refuted). A string key of 2^31 octets: its length is
negative as the `int` parameter of `transport_write_string`, so after the
command octet, the path `t` and the tag and length of the key `helper_newindex`
does not go on: the octets of the key and the value are not written and no
status octet is read. -/
theorem newindex_key_not_written :
    (helper_newindex host_le_double
      (state_of (linked_transport 1 1 8 0 0 [0])
        [.helper (helper_create host_le_double [116]), .string (List.replicate (2 ^ 31) 120),
          .boolean true])).1 = .undefined ∧
    (helper_newindex host_le_double
      (state_of (linked_transport 1 1 8 0 0 [0])
        [.helper (helper_create host_le_double [116]), .string (List.replicate (2 ^ 31) 120),
          .boolean true])).2.tpt.out =
      [0x04, 0x01, 0x00, 0x00, 0x00, 0x74, 0x03, 0x00, 0x00, 0x00, 0x80] ∧
    (helper_newindex host_le_double
      (state_of (linked_transport 1 1 8 0 0 [0])
        [.helper (helper_create host_le_double [116]), .string (List.replicate (2 ^ 31) 120),
          .boolean true])).2.tpt.inp = [0] := by
  have hw := run_write_string_value_long host_le_double (List.replicate (2 ^ 31) 120)
    (writing (state_of (linked_transport 1 1 8 0 0 [0])
      [.helper (helper_create host_le_double [116]), .string (List.replicate (2 ^ 31) 120),
        .boolean true])) rfl (by rw [List.length_replicate]; decide)
  rw [List.length_replicate] at hw
  have hrun := helper_newindex_key_refused host_le_double
    (state_of (linked_transport 1 1 8 0 0 [0])
      [.helper (helper_create host_le_double [116]), .string (List.replicate (2 ^ 31) 120),
        .boolean true]) [] (helper_create host_le_double [116]) (List.replicate (2 ^ 31) 120)
    (.boolean true) rfl rfl rfl (by decide!) (by rw [write_variable, hw])
  rw [hrun, emitted, emitted, write_variable, hw]
  refine ⟨rfl, ?_, rfl⟩
  decide!

/-- C14 (amended). For every proxy `hp`, string key `k` and value `v`, key and
value being accepted by `write_variable`, on an open transport in a build without
`HELPER_WAIT`: all that `helper_newindex` writes is the octet 04, the
serialised path of `hp`, the octets of `write_variable` for `k` and those for
`v`, whatever the response is; and when the next octet of the input is the
status 0, exactly that octet is read and `helper_newindex` returns 0, that is,
no values. -/
theorem newindex_request_frame (h : Host) (s : RpcState) (pre : List LVal) (hp : Helper)
    (k : List Byte) (v : LVal)
    (hstack : s.stack = pre ++ [.helper hp, .string k, v])
    (hwait : h.HELPER_WAIT = false) (hopen : s.tpt.is_open = true)
    (hpath : (helper_remote_index h hp (writing s)).1 = .ok ())
    (hkey : (write_variable h (.string k) (writing s)).1 = .ok ())
    (hval : (write_variable h v (writing s)).1 = .ok ()) :
    (helper_newindex h s).2.tpt.out = s.tpt.out ++
      ([0x04] ++ emitted (helper_remote_index h hp) (writing s) ++
        emitted (write_variable h (.string k)) (writing s) ++
        emitted (write_variable h v) (writing s)) ∧
    (∀ rest, s.tpt.inp = 0 :: rest →
      helper_newindex h s =
        (.ok 0, { s with tpt := { s.tpt with mode := .stop, inp := rest, out := s.tpt.out ++
          ([0x04] ++ emitted (helper_remote_index h hp) (writing s) ++
            emitted (write_variable h (.string k)) (writing s) ++
            emitted (write_variable h v) (writing s)) } })) := by
  have hrun := helper_newindex_run h s pre hp k v hstack hwait hopen hpath hkey hval
  constructor
  · exact helper_newindex_out h s pre hp k v hstack hwait hopen hpath hkey hval
  · intro rest hinp
    rw [hrun]
    obtain ⟨⟨o, ll, nl, lb, li, ni, md, inp, out⟩, stack, globals, geh⟩ := s
    dsimp only at hopen hinp
    subst hopen hinp
    simp only [Try, helper_newindex_response, TRANSPORT_START_READING, TRANSPORT_STOP,
      transport_set_mode, run_bind, bind_eq, run_modify_tpt]
    rw [run_read_u8_cons h _ 0 rest rfl rfl]
    simp only [ne_eq, not_true_eq_false, if_false, run_bind, bind_eq, run_pure, run_modify_tpt]

/-- Witness for C14: `t.k = true` on the proxy `t`, answered with status 0. -/
theorem newindex_request_frame_witness :
    helper_newindex host_le_double
      (state_of (linked_transport 1 1 8 0 0 [0, 9])
        [.helper (helper_create host_le_double [116]), .string [107], .boolean true]) =
      (.ok 0, { state_of (linked_transport 1 1 8 0 0 [0, 9])
        [.helper (helper_create host_le_double [116]), .string [107], .boolean true] with
        tpt := { linked_transport 1 1 8 0 0 [0, 9] with
          mode := .stop, inp := [9],
          out := [0x04, 0x01, 0x00, 0x00, 0x00, 0x74, 0x03, 0x01, 0x00, 0x00, 0x00, 0x6B,
            0x02, 0x01] } }) :=
  have t := newindex_request_frame host_le_double
    (state_of (linked_transport 1 1 8 0 0 [0, 9])
      [.helper (helper_create host_le_double [116]), .string [107], .boolean true]) []
    (helper_create host_le_double [116]) [107] (.boolean true) rfl rfl rfl (by decide!)
    (by decide!) (by decide!)
  (t.2 [9] rfl).trans (by
    have e : ([] : List Byte) ++ ([0x04] ++ emitted (helper_remote_index host_le_double
        (helper_create host_le_double [116]))
          (writing (state_of (linked_transport 1 1 8 0 0 [0, 9])
            [.helper (helper_create host_le_double [116]), .string [107], .boolean true])) ++
        emitted (write_variable host_le_double (.string [107]))
          (writing (state_of (linked_transport 1 1 8 0 0 [0, 9])
            [.helper (helper_create host_le_double [116]), .string [107], .boolean true])) ++
        emitted (write_variable host_le_double (.boolean true))
          (writing (state_of (linked_transport 1 1 8 0 0 [0, 9])
            [.helper (helper_create host_le_double [116]), .string [107], .boolean true]))) =
        [0x04, 0x01, 0x00, 0x00, 0x00, 0x74, 0x03, 0x01, 0x00, 0x00, 0x00, 0x6B, 0x02, 0x01] := by
      decide!
    exact congrArg (fun o => ((Res.ok 0 : Res Int), ({ state_of (linked_transport 1 1 8 0 0 [0, 9])
        [.helper (helper_create host_le_double [116]), .string [107], .boolean true] with
        tpt := { linked_transport 1 1 8 0 0 [0, 9] with
          mode := .stop, inp := [9], out := o } } : RpcState))) e)

theorem cstring_no_zero (s : List Byte) : ∀ c ∈ cstring s, c ≠ 0 := by
  intro c hc
  have := List.mem_takeWhile_imp hc
  simpa using this

theorem cstring_append_zeros (k : Nat) :
    (a : List Byte) → (∀ c ∈ a, c ≠ 0) → cstring (a ++ List.replicate k 0) = a
  | [], _ => by
    cases k with
    | zero => rfl
    | succ k => simp [cstring, List.replicate_succ]
  | c :: cs, ha => by
    have hc : c ≠ 0 := ha c (List.mem_cons_self _ _)
    have ih := cstring_append_zeros k cs fun d hd => ha d (List.mem_cons_of_mem _ hd)
    simp only [cstring] at ih ⊢
    simp [List.takeWhile_cons, hc, ih]

theorem strlen_le_length (s : List Byte) : strlen s ≤ s.length := by
  unfold strlen cstring
  exact (List.takeWhile_sublist _).length_le

/-- A name that fits the array is stored whole by `strncpy`. -/
theorem cstring_strncpy (s : List Byte) (n : Nat) (hs : strlen s ≤ n) :
    cstring (strncpy s n) = cstring s := by
  unfold strncpy
  rw [List.take_of_length_le hs]
  exact cstring_append_zeros _ _ (cstring_no_zero s)

theorem size_to_int_small (n : Nat) (hn : n < 2 ^ 31) : size_to_int n = (n : Int) := by
  rw [size_to_int, Nat.mod_eq_of_lt (by omega)]
  exact u32_to_int_small n hn

/-- Closed form of `helper_remote_index` for a proxy without parents whose name
has a length in the range of `int`. -/
theorem run_helper_remote_index_root (h : Host) (hp : Helper) (s : RpcState)
    (hn : hp.nparents = 0) (hopen : s.tpt.is_open = true)
    (hlen : strlen hp.funcname < 2 ^ 31) :
    helper_remote_index h hp s =
      (.ok (), { s with tpt := { s.tpt with mode := .writing, out := s.tpt.out ++
        (wire_u32 h.little_endian (decide (s.tpt.net_little ≠ s.tpt.loc_little))
          (strlen hp.funcname % 2 ^ 32) ++ cstring hp.funcname) } }) := by
  have hi := size_to_int_small _ hlen
  by_cases hd : s.tpt.net_little = s.tpt.loc_little <;>
  simp [helper_remote_index, hn, bind_eq, run_transport_write_u32, hi,
    run_transport_write_string, hopen, hd, wire_u32]

/-- C15 (as stated, refuted). For `handle.t.k = true` on a little-endian link
the octets `helper_newindex` writes are not the sixteen octets of the scenario,
which carry the path `t.k`. -/
theorem newindex_scenario_claimed_bytes :
    (helper_newindex host_le_double
      (state_of (linked_transport 1 1 8 0 0 [0])
        [.helper (helper_create host_le_double [116]), .string [107],
          .boolean true])).2.tpt.out ≠
      [0x04, 0x03, 0x00, 0x00, 0x00, 0x74, 0x2E, 0x6B, 0x03, 0x01, 0x00, 0x00, 0x00, 0x6B,
        0x02, 0x01] := by
  decide!

/-- C15 (amended). On a little-endian host that does not swap, in a build
without `HELPER_WAIT` whose name array holds at least two octets:
`handle_index` turns `handle.t` into the proxy with the one segment `t`, and the
assignment of `true` to its key `k` makes `helper_newindex` write exactly
`04 01 00 00 00 74 03 01 00 00 00 6B 02 01`: the command, the path `t` of
length 1, the key string `k`, the boolean true. -/
theorem newindex_scenario_bytes (h : Host) (s : RpcState) (handle : LVal)
    (hle : h.little_endian = true) (hnum : 2 ≤ h.NUM_FUNCNAME_CHARS)
    (hwait : h.HELPER_WAIT = false) (hopen : s.tpt.is_open = true)
    (hnet : s.tpt.net_little = s.tpt.loc_little)
    (hstack : s.stack = [.helper (helper_create h [116]), .string [107], .boolean true]) :
    handle_index h { s with stack := [handle, .string [116]] } =
      (.ok 1, { s with stack := [handle, .string [116], .helper (helper_create h [116])] }) ∧
    (helper_newindex h s).2.tpt.out =
      s.tpt.out ++ [0x04, 0x01, 0x00, 0x00, 0x00, 0x74, 0x03, 0x01, 0x00, 0x00, 0x00, 0x6B,
        0x02, 0x01] := by
  have hlen : strlen ([116] : List Byte) = 1 := by decide!
  constructor
  · have hc : ¬ (1 > h.NUM_FUNCNAME_CHARS - 1) := by omega
    simp [handle_index, bind_eq, hlen, hc, lua_push]
  · have hfn : cstring (helper_create h [116]).funcname = [116] := by
      have := cstring_strncpy [116] h.NUM_FUNCNAME_CHARS (by rw [hlen]; omega)
      simpa [helper_create, Helper.funcname] using this
    have hroot := run_helper_remote_index_root h (helper_create h [116]) (writing s) rfl hopen
      (by rw [strlen, hfn]; decide)
    have hw : wire_u32 true false 1 = [1, 0, 0, 0] := by decide!
    have hd : decide (s.tpt.net_little ≠ s.tpt.loc_little) = false := by simp [hnet]
    simp only [strlen, hfn, List.length_singleton, Nat.one_mod_two_pow, hle] at hroot
    have h2 : (2 : Nat) ≤ 2 ^ 31 := by norm_num
    have hout := helper_newindex_out h s [] (helper_create h [116]) [107] (.boolean true)
      hstack hwait hopen (by rw [hroot])
      (by rw [write_variable_plain h 2 (.string [107]) (writing s) (by decide) h2 hopen])
      (by rw [write_variable_plain h 2 (.boolean true) (writing s) rfl h2 hopen])
    rw [hout, emitted, hroot,
      emitted_write_variable_plain h 2 (.string [107]) (writing s) (by decide) h2 hopen,
      emitted_write_variable_plain h 2 (.boolean true) (writing s) rfl h2 hopen]
    simp [writing, hd, hle, hw, wire_value, RPC_STRING, RPC_BOOLEAN, flag]

/-- Witness for C15: the scenario on the sample little-endian host. -/
theorem newindex_scenario_bytes_witness :
    (helper_newindex host_le_double
      (state_of (linked_transport 1 1 8 0 0 [0])
        [.helper (helper_create host_le_double [116]), .string [107],
          .boolean true])).2.tpt.out =
      (state_of (linked_transport 1 1 8 0 0 [0])
        [.helper (helper_create host_le_double [116]), .string [107],
          .boolean true]).tpt.out ++
        [0x04, 0x01, 0x00, 0x00, 0x00, 0x74, 0x03, 0x01, 0x00, 0x00, 0x00, 0x6B, 0x02, 0x01] :=
  (newindex_scenario_bytes host_le_double
    (state_of (linked_transport 1 1 8 0 0 [0])
      [.helper (helper_create host_le_double [116]), .string [107], .boolean true])
    .userdata rfl (by decide!) rfl rfl rfl rfl).2

theorem frame_fst {α : Type} {m : RPC α} (hm : Frame m) (s : RpcState)
    (hs : s.tpt.mode = .writing) : (m s).1 = (m (blank s)).1 := by
  rw [hm s hs]

theorem wire_u32_zero (little swap : Bool) : wire_u32 little swap 0 = [0, 0, 0, 0] := by
  cases little <;> cases swap <;> decide!

/-- C16 (as stated, refuted). For `handle.x = true` on a little-endian link
`handle_newindex` does not write the frame whose path is the segment `x`; the
path it writes is empty: `04 00 00 00 00`, then the key `x` and the value. -/
theorem handle_newindex_claimed_path :
    (handle_newindex host_le_double
      (state_of (linked_transport 1 1 8 0 0 [0])
        [.userdata, .string [120], .boolean true])).2.tpt.out ≠
      [0x04, 0x01, 0x00, 0x00, 0x00, 0x78, 0x03, 0x01, 0x00, 0x00, 0x00, 0x78, 0x02, 0x01] ∧
    (handle_newindex host_le_double
      (state_of (linked_transport 1 1 8 0 0 [0])
        [.userdata, .string [120], .boolean true])).2.tpt.out =
      [0x04, 0x00, 0x00, 0x00, 0x00, 0x03, 0x01, 0x00, 0x00, 0x00, 0x78, 0x02, 0x01] := by
  constructor <;> decide!

/-- C16 (amended). For every string `name` of at most `NUM_FUNCNAME_CHARS - 1`
octets and every value `v` that `write_variable` accepts, on an open transport
in a build without `HELPER_WAIT` whose `NUM_FUNCNAME_CHARS` is at most 2^31 (the
length of a name is then in the range of `int`): all that `handle_newindex`
writes for `handle.name = v` is the octet 04, the empty path (the length 0 as
`u32` and no path octets), the octets of `write_variable` for the key `name`
and those for `v`. -/
theorem handle_newindex_frame (h : Host) (s : RpcState) (handle : LVal) (name : List Byte)
    (v : LVal)
    (hstack : s.stack = [handle, .string name, v])
    (hname : name.length ≤ h.NUM_FUNCNAME_CHARS - 1)
    (hnum : h.NUM_FUNCNAME_CHARS ≤ 2 ^ 31)
    (hwait : h.HELPER_WAIT = false) (hopen : s.tpt.is_open = true)
    (hval : (write_variable h v (writing s)).1 = .ok ()) :
    (handle_newindex h s).2.tpt.out = s.tpt.out ++
      ([0x04, 0x00, 0x00, 0x00, 0x00] ++ emitted (write_variable h (.string name)) (writing s) ++
        emitted (write_variable h v) (writing s)) := by
  have hc : ¬ (strlen name > h.NUM_FUNCNAME_CHARS - 1) := by
    have := strlen_le_length name
    omega
  have hrun : handle_newindex h s =
      (helper_newindex h >>= fun _ => pure 0)
        { s with stack := [.helper (helper_create h []), .string name, v] } := by
    simp only [handle_newindex, run_bind, bind_eq, run_get_stack, hstack, List.length_cons,
      List.length_nil, Nat.zero_add, Nat.reduceAdd, ne_eq, not_true_eq_false, if_false,
      List.getD_cons_succ, List.getD_cons_zero, hc, run_modify_stack, List.set_cons_zero,
      run_ite]
  have hfn : cstring (helper_create h []).funcname = [] := by
    have := cstring_strncpy [] h.NUM_FUNCNAME_CHARS (Nat.zero_le _)
    simpa [helper_create, Helper.funcname] using this
  have hroot := run_helper_remote_index_root h (helper_create h [])
    (writing { s with stack := [.helper (helper_create h []), .string name, v] }) rfl hopen
    (by rw [strlen, hfn]; decide)
  simp only [strlen, hfn, List.length_nil, Nat.zero_mod, wire_u32_zero, List.append_nil]
    at hroot
  have hval2 : (write_variable h v
      (writing { s with stack := [.helper (helper_create h []), .string name, v] })).1 =
      .ok () := by
    rw [frame_fst (frame_write_variable h v) _ rfl]
    rw [frame_fst (frame_write_variable h v) _ rfl] at hval
    exact hval
  have hkey2 : (write_variable h (.string name)
      (writing { s with stack := [.helper (helper_create h []), .string name, v] })).1 =
      .ok () := by
    rw [write_variable, run_write_string_value h name
      (writing { s with stack := [.helper (helper_create h []), .string name, v] }) hopen
      (by omega)]
  have hout := helper_newindex_out h
    { s with stack := [.helper (helper_create h []), .string name, v] }
    [] (helper_create h []) name v rfl hwait hopen (by rw [hroot]) hkey2 hval2
  rw [hrun, state_bind_pure, hout, emitted, hroot,
    frame_emitted (frame_write_variable h (.string name)) _ rfl,
    frame_emitted (frame_write_variable h v) _ rfl,
    frame_emitted (frame_write_variable h (.string name)) (writing s) rfl,
    frame_emitted (frame_write_variable h v) (writing s) rfl]
  simp [writing, blank]

/-- Witness for C16: `handle.x = true` on the sample little-endian host. -/
theorem handle_newindex_frame_witness :
    (handle_newindex host_le_double
      (state_of (linked_transport 1 1 8 0 0 [0])
        [.userdata, .string [120], .boolean true])).2.tpt.out =
      [0x04, 0x00, 0x00, 0x00, 0x00, 0x03, 0x01, 0x00, 0x00, 0x00, 0x78, 0x02, 0x01] :=
  (handle_newindex_frame host_le_double
    (state_of (linked_transport 1 1 8 0 0 [0]) [.userdata, .string [120], .boolean true])
    .userdata [120] (.boolean true) rfl (by decide!) (by decide) rfl rfl (by decide!)).trans
    (by decide!)

/-! ## C17 and C18: remote assignment, server side -/

theorem LVal.rawequal_eq (a b : LVal) (hab : a.rawequal b = true) : a = b := by
  cases a <;> cases b <;> simp_all [LVal.rawequal]

theorem LVal.rawequal_string_self (k : List Byte) :
    (LVal.string k).rawequal (.string k) = true := by
  simp [LVal.rawequal]

theorem LVal.rawequal_symm (a b : LVal) : a.rawequal b = b.rawequal a := by
  cases a <;> cases b <;> simp [LVal.rawequal, eq_comm]

theorem LVal.rawequal_ne (a b : LVal) (hab : a ≠ b) : a.rawequal b = false := by
  cases hr : a.rawequal b
  · rfl
  · exact absurd (LVal.rawequal_eq a b hr) hab

theorem LTable.get_of_unhit (key : LVal) :
    (t : LTable) → LTable.unhit key t = true → t.get key = .nil
  | .empty, _ => rfl
  | .entry k v rest, hu => by
    simp only [LTable.unhit, Bool.and_eq_true, Bool.not_eq_true'] at hu
    have hk : k.rawequal key = false := by rw [LVal.rawequal_symm]; exact hu.1
    simp [LTable.get, hk, LTable.get_of_unhit key rest hu.2]

theorem LTable.get_remove_self (key : LVal) :
    (t : LTable) → t.nodup = true → (t.remove key).get key = .nil
  | .empty, _ => rfl
  | .entry k v rest, hn => by
    simp only [LTable.nodup, Bool.and_eq_true] at hn
    cases hk : k.rawequal key
    · simp [LTable.remove, LTable.get, hk, LTable.get_remove_self key rest hn.2]
    · have hkk := LVal.rawequal_eq k key hk
      subst hkk
      simp [LTable.remove, hk, LTable.get_of_unhit k rest hn.1]

theorem LTable.get_remove_other (key other : LVal) (ho : other ≠ key) :
    (t : LTable) → (t.remove key).get other = t.get other
  | .empty => rfl
  | .entry k v rest => by
    cases hk : k.rawequal key
    · simp [LTable.remove, LTable.get, hk, LTable.get_remove_other key other ho rest]
    · have hkk := LVal.rawequal_eq k key hk
      subst hkk
      have : k.rawequal other = false := LVal.rawequal_ne k other (Ne.symm ho)
      simp [LTable.remove, LTable.get, hk, this]

theorem LTable.get_insert_self (k : List Byte) (v : LVal) :
    (t : LTable) → (t.insert (.string k) v).get (.string k) = v
  | .empty => by simp [LTable.insert, LTable.get, LVal.rawequal_string_self]
  | .entry k0 v0 rest => by
    cases hk : k0.rawequal (.string k)
    · simp [LTable.insert, LTable.get, hk, LTable.get_insert_self k v rest]
    · simp [LTable.insert, LTable.get, hk]

theorem LTable.get_insert_other (key other v : LVal) (ho : other ≠ key) :
    (t : LTable) → (t.insert key v).get other = t.get other
  | .empty => by
    have : key.rawequal other = false := LVal.rawequal_ne key other (Ne.symm ho)
    simp [LTable.insert, LTable.get, this]
  | .entry k0 v0 rest => by
    cases hk : k0.rawequal key
    · simp [LTable.insert, LTable.get, hk, LTable.get_insert_other key other v ho rest]
    · have hkk := LVal.rawequal_eq k0 key hk
      subst hkk
      have : k0.rawequal other = false := LVal.rawequal_ne k0 other (Ne.symm ho)
      simp [LTable.insert, LTable.get, hk, this]

/-- Reading a global after the assignment of `v` to it gives `v`. -/
theorem LTable.get_set_self (t : LTable) (k : List Byte) (v : LVal) (hn : t.nodup = true) :
    (t.set (.string k) v).get (.string k) = v := by
  unfold LTable.set
  cases hv : v.isnil
  · simp [LTable.get_insert_self]
  · have : v = .nil := by cases v <;> simp_all [LVal.isnil]
    subst this
    simp [LTable.get_remove_self _ t hn]

/-- An assignment leaves every other key as it was. -/
theorem LTable.get_set_other (t : LTable) (key other v : LVal) (ho : other ≠ key) :
    (t.set key v).get other = t.get other := by
  unfold LTable.set
  cases hv : v.isnil
  · simp [LTable.get_insert_other key other v ho]
  · simp [LTable.get_remove_other key other ho]

theorem cstring_of_no_zero : (k : List Byte) → (∀ c ∈ k, c ≠ 0) → cstring k = k
  | [], _ => rfl
  | c :: cs, hk => by
    have hc : c ≠ 0 := hk c (List.mem_cons_self _ _)
    have ih := cstring_of_no_zero cs fun d hd => hk d (List.mem_cons_of_mem _ hd)
    simp only [cstring] at ih ⊢
    simp [List.takeWhile_cons, hc, ih]

/-- The two values on top of a stack. -/
theorem getD_top_two {α : Type} (pre : List α) (a b d : α) :
    (pre ++ [a, b]).getD ((pre ++ [a, b]).length - 2) d = a ∧
    (pre ++ [a, b]).getD ((pre ++ [a, b]).length - 1) d = b ∧
    (pre ++ [a, b]).take ((pre ++ [a, b]).length - 1) = pre ++ [a] := by
  have e : (pre ++ [a, b]).length = pre.length + 2 := by simp
  rw [e]
  refine ⟨getD_append_add pre [a, b] 0 d, getD_append_add pre [a, b] 1 d, ?_⟩
  exact take_append_add pre [a, b] 1

/-- What `read_cmd_newindex` does with a frame whose path is empty. -/
theorem read_cmd_newindex_empty_run (h : Host) (ip : Interp) (fuel : Nat) (s : RpcState)
    (k vbytes rest : List Byte) (v : LVal) (r : Nat)
    (hopen : s.tpt.is_open = true) (hkl : k.length < string_limit h)
    (hf : 1 ≤ fuel)
    (hinp : s.tpt.inp = [0, 0, 0, 0] ++
      wire_value h.little_endian (decide (s.tpt.net_little ≠ s.tpt.loc_little)) (.string k) ++
      vbytes)
    (hv : read_variable h ip fuel
        { s with tpt := { s.tpt with mode := .reading, inp := vbytes },
                 stack := s.stack ++ [.string k] } =
      (.ok r, { s with tpt := { s.tpt with mode := .reading, inp := rest },
                       stack := s.stack ++ [.string k, v] })) :
    read_cmd_newindex h ip fuel s =
      (.ok (), { s with
        tpt := { s.tpt with mode := .writing, inp := rest, out := s.tpt.out ++ [0x00] },
        stack := [],
        globals := s.globals.set (.string (cstring k)) v }) := by
  obtain ⟨⟨o, ll, nl, lb, li, ni, md, inp, out⟩, stack, globals, geh⟩ := s
  dsimp only at hopen hinp hv
  subst hopen hinp
  have h1 := run_transport_read_u32_wire h
    ⟨⟨true, ll, nl, lb, li, ni, md, [0, 0, 0, 0] ++
      wire_value h.little_endian (decide (nl ≠ ll)) (.string k) ++ vbytes, out⟩,
      stack, globals, geh⟩ 0
    (wire_value h.little_endian (decide (nl ≠ ll)) (.string k) ++ vbytes) (by decide) rfl
    (by simp [wire_u32_zero])
  have h2 := run_alloca_read_append h
    ⟨⟨true, ll, nl, lb, li, ni, .reading,
      wire_value h.little_endian (decide (nl ≠ ll)) (.string k) ++ vbytes, out⟩,
      stack, globals, geh⟩ []
    (wire_value h.little_endian (decide (nl ≠ ll)) (.string k) ++ vbytes)
    (Nat.lt_of_le_of_lt (Nat.zero_le _) hkl) rfl
  have h3 := read_variable_plain h ip (.string k) fuel
    ⟨⟨true, ll, nl, lb, li, ni, .reading,
      wire_value h.little_endian (decide (nl ≠ ll)) (.string k) ++ vbytes, out⟩,
      stack, globals, geh⟩ vbytes (by simpa [LVal.plain] using hkl)
    (by simpa [LVal.cost] using hf) rfl rfl
  have h4 := getD_top_two stack (.string k) v .nil
  have hlen : ¬ (stack ++ [LVal.string k, v]).length < 2 := by simp
  have hs0 : ¬ (strlen ([] : List Byte) > 0) := by decide
  dsimp only at h1 h2 h3
  simp only [List.length_nil] at h2
  simp only [read_cmd_newindex, run_bind, bind_eq, h1, h2, hs0, if_false, run_ite, h3, hv]
  simp only [lua_setglobal_tostring, hlen, if_false, h4.1, h4.2.1, h4.2.2,
    TRANSPORT_START_WRITING, transport_set_mode, run_modify_tpt,
    run_transport_write_u8, if_true, lua_settop, run_modify_stack, List.take_zero,
    Nat.zero_sub, List.replicate_zero, List.append_nil]

/-- C17 (what the code does). For every string key `k` below the limit of the
host (NUL octets allowed) and every value `v` that `read_variable` decodes from
the octets after the key, on an open transport whose globals are a table: for
the frame with path length 0, `k` and `v`, `read_cmd_newindex` returns
normally, has consumed the frame, written exactly the status octet 0, emptied
the stack and assigned `v` to the global whose name is the C string of `k`,
that is `k` cut at its first NUL octet. That name is `k` exactly when `k` has
no NUL octet. The global of that name then reads as `v`, and every other key of
the globals, a key `k` with a NUL octet among them, reads as before. -/
theorem newindex_empty_path (h : Host) (ip : Interp) (fuel : Nat) (s : RpcState)
    (k vbytes rest : List Byte) (v : LVal) (r : Nat)
    (hopen : s.tpt.is_open = true) (hkl : k.length < string_limit h)
    (hf : 1 ≤ fuel) (hnodup : s.globals.nodup = true)
    (hinp : s.tpt.inp = [0, 0, 0, 0] ++
      wire_value h.little_endian (decide (s.tpt.net_little ≠ s.tpt.loc_little)) (.string k) ++
      vbytes)
    (hv : read_variable h ip fuel
        { s with tpt := { s.tpt with mode := .reading, inp := vbytes },
                 stack := s.stack ++ [.string k] } =
      (.ok r, { s with tpt := { s.tpt with mode := .reading, inp := rest },
                       stack := s.stack ++ [.string k, v] })) :
    read_cmd_newindex h ip fuel s =
      (.ok (), { s with
        tpt := { s.tpt with mode := .writing, inp := rest, out := s.tpt.out ++ [0x00] },
        stack := [],
        globals := s.globals.set (.string (cstring k)) v }) ∧
    (cstring k = k ↔ ∀ c ∈ k, c ≠ 0) ∧
    (s.globals.set (.string (cstring k)) v).get (.string (cstring k)) = v ∧
    ∀ other : LVal, other ≠ .string (cstring k) →
      (s.globals.set (.string (cstring k)) v).get other = s.globals.get other :=
  ⟨read_cmd_newindex_empty_run h ip fuel s k vbytes rest v r hopen hkl hf hinp hv,
    ⟨fun he => he ▸ cstring_no_zero k, cstring_of_no_zero k⟩,
    LTable.get_set_self s.globals (cstring k) v hnodup,
    fun other ho => LTable.get_set_other s.globals (.string (cstring k)) other v ho⟩

/-- Witness for C17: the frame `00 00 00 00`, key `a\0b`, value true on the
sample little-endian host. The global `a` is set, the global `a\0b` reads as
before. -/
theorem newindex_empty_path_witness :
    (read_cmd_newindex host_le_double sample_interp 1
      (state_of (linked_transport 1 1 8 0 0 [0, 0, 0, 0, 3, 3, 0, 0, 0, 97, 0, 98, 2, 1])
        [])).1 = .ok () ∧
    (read_cmd_newindex host_le_double sample_interp 1
      (state_of (linked_transport 1 1 8 0 0 [0, 0, 0, 0, 3, 3, 0, 0, 0, 97, 0, 98, 2, 1])
        [])).2.tpt.out = [0x00] ∧
    (read_cmd_newindex host_le_double sample_interp 1
      (state_of (linked_transport 1 1 8 0 0 [0, 0, 0, 0, 3, 3, 0, 0, 0, 97, 0, 98, 2, 1])
        [])).2.globals = LTable.empty.set (.string [97]) (.boolean true) ∧
    (LTable.empty.set (.string (cstring [97, 0, 98])) (.boolean true)).get
      (.string (cstring [97, 0, 98])) = .boolean true ∧
    (LTable.empty.set (.string (cstring [97, 0, 98])) (.boolean true)).get
      (.string [97, 0, 98]) = LTable.empty.get (.string [97, 0, 98]) :=
  have t := newindex_empty_path host_le_double sample_interp 1
    (state_of (linked_transport 1 1 8 0 0 [0, 0, 0, 0, 3, 3, 0, 0, 0, 97, 0, 98, 2, 1]) [])
    [97, 0, 98] [2, 1] [] (.boolean true) 1 rfl (by decide!) (Nat.le_refl 1) rfl
    (by decide!)
    (read_variable_plain host_le_double sample_interp (.boolean true) 1
      { state_of (linked_transport 1 1 8 0 0
          [0, 0, 0, 0, 3, 3, 0, 0, 0, 97, 0, 98, 2, 1]) [] with
        tpt := { linked_transport 1 1 8 0 0 [0, 0, 0, 0, 3, 3, 0, 0, 0, 97, 0, 98, 2, 1] with
          mode := .reading, inp := [2, 1] },
        stack := [.string [97, 0, 98]] }
      [] rfl (Nat.le_refl 1) rfl rfl)
  ⟨congrArg Prod.fst t.1, (congrArg (fun r => r.2.tpt.out) t.1).trans (by decide!),
    congrArg (fun r => r.2.globals) t.1, t.2.2.1,
    t.2.2.2 (.string [97, 0, 98]) fun he => absurd (LVal.string.inj he) (by decide)⟩

theorem split_at_sep_none (sep : Byte) :
    (k : List Byte) → (∀ c ∈ k, c ≠ sep) → split_at_sep sep k = [k]
  | [], _ => rfl
  | c :: cs, hk => by
    have hc : c ≠ sep := hk c (List.mem_cons_self _ _)
    have ih := split_at_sep_none sep cs fun d hd => hk d (List.mem_cons_of_mem _ hd)
    simp [split_at_sep, hc, ih]

/-- A name without dots and NUL octets is its own single token. -/
theorem strtok_all_single (k : List Byte) (hne : k ≠ []) (hnul : ∀ c ∈ k, c ≠ 0)
    (hdot : ∀ c ∈ k, c ≠ 46) : strtok_all k = [k] := by
  unfold strtok_all
  rw [cstring_of_no_zero k hnul, split_at_sep_none 46 k hdot]
  cases k with
  | nil => exact absurd rfl hne
  | cons c cs => simp

/-- What remains of `read_cmd_newindex` for a frame whose path is the single
name `k`, after path, key and value are read: the assignment and the answer,
on a stack that holds the resolved global, the key and the value. -/
theorem read_cmd_newindex_path_run (h : Host) (ip : Interp) (fuel : Nat) (s : RpcState)
    (k vbytes rest : List Byte) (v : LVal) (r : Nat)
    (hopen : s.tpt.is_open = true) (hkl : k.length < string_limit h) (hne : k ≠ [])
    (hnul : ∀ c ∈ k, c ≠ 0) (hdot : ∀ c ∈ k, c ≠ 46) (hf : 1 ≤ fuel)
    (hinp : s.tpt.inp =
      wire_u32 h.little_endian (decide (s.tpt.net_little ≠ s.tpt.loc_little)) k.length ++ k ++
      wire_value h.little_endian (decide (s.tpt.net_little ≠ s.tpt.loc_little)) (.string k) ++
      vbytes)
    (hv : read_variable h ip fuel
        { s with tpt := { s.tpt with mode := .reading, inp := vbytes },
                 stack := s.stack ++ [s.globals.get (.string k), .string k] } =
      (.ok r, { s with tpt := { s.tpt with mode := .reading, inp := rest },
                       stack := s.stack ++ [s.globals.get (.string k), .string k, v] })) :
    read_cmd_newindex h ip fuel s =
      (do
        lua_settable (s.stack.length + 1) [k]
        TRANSPORT_START_WRITING
        transport_write_u8 h 0
        lua_settop 0)
        { s with tpt := { s.tpt with mode := .reading, inp := rest },
                 stack := s.stack ++ [s.globals.get (.string k), .string k, v] } := by
  obtain ⟨⟨o, ll, nl, lb, li, ni, md, inp, out⟩, stack, globals, geh⟩ := s
  dsimp only at hopen hinp hv
  subst hopen hinp
  have h1 := run_transport_read_u32_wire h
    ⟨⟨true, ll, nl, lb, li, ni, md,
      wire_u32 h.little_endian (decide (nl ≠ ll)) k.length ++ k ++
      wire_value h.little_endian (decide (nl ≠ ll)) (.string k) ++ vbytes, out⟩,
      stack, globals, geh⟩ k.length
    (k ++ (wire_value h.little_endian (decide (nl ≠ ll)) (.string k) ++ vbytes))
    (Nat.lt_of_lt_of_le hkl (Nat.le_trans (string_limit_le h) (by norm_num))) rfl
    (by simp [List.append_assoc])
  have h2 := run_alloca_read_append h
    ⟨⟨true, ll, nl, lb, li, ni, .reading,
      k ++ (wire_value h.little_endian (decide (nl ≠ ll)) (.string k) ++ vbytes), out⟩,
      stack, globals, geh⟩ k
    (wire_value h.little_endian (decide (nl ≠ ll)) (.string k) ++ vbytes) hkl rfl
  have h3 := read_variable_plain h ip (.string k) fuel
    ⟨⟨true, ll, nl, lb, li, ni, .reading,
      wire_value h.little_endian (decide (nl ≠ ll)) (.string k) ++ vbytes, out⟩,
      stack ++ [globals.get (.string k)], globals, geh⟩ vbytes
    (by simpa [LVal.plain] using hkl) (by simpa [LVal.cost] using hf) rfl rfl
  have hpos : 0 < k.length := List.length_pos.mpr hne
  dsimp only at h1 h2 h3
  simp only [List.append_assoc, List.singleton_append] at h3 hv
  simp only [read_cmd_newindex, run_bind, bind_eq, h1, h2, strlen,
    cstring_of_no_zero k hnul, gt_iff_lt, hpos, if_true, run_ite, resolve_path,
    strtok_all_single k hne hnul hdot, lua_getglobal, resolve_fields, run_pure, lua_gettop,
    run_get_stack, List.length_append, List.length_singleton, h3, hv]

/-- C18 (as stated, refuted). With no global `x`, the frame with
path `x`, key `x` and value true makes `read_cmd_newindex` raise a Lua error: it
writes no status octet and sets nothing; the frame with the empty path sets the
global `x` to true and answers 0. When the global `x` is a table, the frame
with path `x` answers 0, and the global `x` is still that table, now with the
field `x`. And a key of 2^24 octets is read in neither form on a host with a
stack of 8 MiB: after the octets that announce it, as path or as key,
`read_cmd_newindex` asks `alloca` for more than the stack holds. -/
theorem newindex_forms_differ :
    (read_cmd_newindex host_le_double sample_interp 1
      (state_of (linked_transport 1 1 8 0 0 [1, 0, 0, 0, 120, 3, 1, 0, 0, 0, 120, 2, 1])
        [])).1 = .error .not_indexable ∧
    (read_cmd_newindex host_le_double sample_interp 1
      (state_of (linked_transport 1 1 8 0 0 [1, 0, 0, 0, 120, 3, 1, 0, 0, 0, 120, 2, 1])
        [])).2.tpt.out = [] ∧
    ((read_cmd_newindex host_le_double sample_interp 1
      (state_of (linked_transport 1 1 8 0 0 [1, 0, 0, 0, 120, 3, 1, 0, 0, 0, 120, 2, 1])
        [])).2.globals.get (.string [120])).isnil = true ∧
    (read_cmd_newindex host_le_double sample_interp 1
      (state_of (linked_transport 1 1 8 0 0 [0, 0, 0, 0, 3, 1, 0, 0, 0, 120, 2, 1])
        [])).1 = .ok () ∧
    (read_cmd_newindex host_le_double sample_interp 1
      (state_of (linked_transport 1 1 8 0 0 [0, 0, 0, 0, 3, 1, 0, 0, 0, 120, 2, 1])
        [])).2.tpt.out = [0x00] ∧
    ((read_cmd_newindex host_le_double sample_interp 1
      (state_of (linked_transport 1 1 8 0 0 [0, 0, 0, 0, 3, 1, 0, 0, 0, 120, 2, 1])
        [])).2.globals.get (.string [120])).rawequal (.boolean true) = true ∧
    (read_cmd_newindex host_le_double sample_interp 1
      ⟨linked_transport 1 1 8 0 0 [1, 0, 0, 0, 120, 3, 1, 0, 0, 0, 120, 2, 1], [],
        .entry (.string [120]) (.table .empty) .empty, none⟩).2.tpt.out = [0x00] ∧
    (match (read_cmd_newindex host_le_double sample_interp 1
      ⟨linked_transport 1 1 8 0 0 [1, 0, 0, 0, 120, 3, 1, 0, 0, 0, 120, 2, 1], [],
        .entry (.string [120]) (.table .empty) .empty, none⟩).2.globals.get (.string [120]) with
      | .table t => (t.get (.string [120])).rawequal (.boolean true)
      | _ => false) = true ∧
    (read_cmd_newindex host_le_double sample_interp 1
      (state_of (linked_transport 1 1 8 0 0 [0, 0, 0, 1]) [])).1 = .undefined ∧
    (read_cmd_newindex host_le_double sample_interp 1
      (state_of (linked_transport 1 1 8 0 0 [0, 0, 0, 0, 3, 0, 0, 0, 1]) [])).1 =
      .undefined := by
  refine ⟨?_, ?_, ?_, ?_, ?_, ?_, ?_, ?_, ?_, ?_⟩ <;> decide!

/-- C18 (amended). The two forms are both read but do different things. For
every non-empty string key `k` without NUL octets and dots, below the limit of
the host (fewer than 2^31 octets, and room on the stack for the string and a
terminating octet), and every value `v` that `read_variable` decodes from the
octets after the key: given the empty path, `k` and `v`, `read_cmd_newindex` assigns `v` to
the global `k` and answers with the status octet 0; given the path `k`, `k` and
`v`, it assigns `v` to the field `k` of the table that the global `k` holds, so
that the global `k` is still a table, and answers 0; and when the global `k`
holds no table it raises a Lua error, having written nothing and changed no
global. -/
theorem newindex_two_forms (h : Host) (ip : Interp) (fuel : Nat) (s0 s : RpcState)
    (k vbytes rest : List Byte) (v : LVal) (r0 r : Nat)
    (hopen0 : s0.tpt.is_open = true) (hopen : s.tpt.is_open = true)
    (hkl : k.length < string_limit h) (hne : k ≠ [])
    (hnul : ∀ c ∈ k, c ≠ 0) (hdot : ∀ c ∈ k, c ≠ 46) (hf : 1 ≤ fuel)
    (hinp0 : s0.tpt.inp = [0, 0, 0, 0] ++
      wire_value h.little_endian (decide (s0.tpt.net_little ≠ s0.tpt.loc_little)) (.string k) ++
      vbytes)
    (hv0 : read_variable h ip fuel
        { s0 with tpt := { s0.tpt with mode := .reading, inp := vbytes },
                  stack := s0.stack ++ [.string k] } =
      (.ok r0, { s0 with tpt := { s0.tpt with mode := .reading, inp := rest },
                         stack := s0.stack ++ [.string k, v] }))
    (hinp : s.tpt.inp =
      wire_u32 h.little_endian (decide (s.tpt.net_little ≠ s.tpt.loc_little)) k.length ++ k ++
      wire_value h.little_endian (decide (s.tpt.net_little ≠ s.tpt.loc_little)) (.string k) ++
      vbytes)
    (hv : read_variable h ip fuel
        { s with tpt := { s.tpt with mode := .reading, inp := vbytes },
                 stack := s.stack ++ [s.globals.get (.string k), .string k] } =
      (.ok r, { s with tpt := { s.tpt with mode := .reading, inp := rest },
                       stack := s.stack ++ [s.globals.get (.string k), .string k, v] })) :
    read_cmd_newindex h ip fuel s0 =
      (.ok (), { s0 with
        tpt := { s0.tpt with mode := .writing, inp := rest, out := s0.tpt.out ++ [0x00] },
        stack := [],
        globals := s0.globals.set (.string k) v }) ∧
    (∀ t, s.globals.get (.string k) = .table t →
      read_cmd_newindex h ip fuel s =
        (.ok (), { s with
          tpt := { s.tpt with mode := .writing, inp := rest, out := s.tpt.out ++ [0x00] },
          stack := [],
          globals := s.globals.set (.string k) (.table (t.set (.string k) v)) })) ∧
    ((∀ t, s.globals.get (.string k) ≠ .table t) →
      read_cmd_newindex h ip fuel s =
        (.error .not_indexable,
          { s with tpt := { s.tpt with mode := .reading, inp := rest },
                   stack := s.stack ++ [s.globals.get (.string k), .string k, v] })) := by
  refine ⟨?_, ?_, ?_⟩
  · have h0 := read_cmd_newindex_empty_run h ip fuel s0 k vbytes rest v r0 hopen0 hkl hf
      hinp0 hv0
    rw [cstring_of_no_zero k hnul] at h0
    exact h0
  all_goals
    have hrun := read_cmd_newindex_path_run h ip fuel s k vbytes rest v r hopen hkl hne hnul
      hdot hf hinp hv
    have h3 := getD_top_three s.stack (s.globals.get (.string k)) (.string k) v .nil
    have hlen : ¬ (s.stack ++ [s.globals.get (.string k), LVal.string k, v]).length < 3 := by
      simp
    have hlen2 : (s.stack ++ [s.globals.get (.string k), LVal.string k, v]).length - 2 =
        s.stack.length + 1 := by simp
  · intro t ht
    rw [ht] at hrun h3 hlen hlen2
    rw [hrun]
    simp only [run_bind, bind_eq, lua_settable, hlen, if_false, h3.1, h3.2.1, h3.2.2]
    simp only [hlen2, if_true, ht, LVal.isnil, Bool.false_eq_true, if_false, LTable.store_at,
      TRANSPORT_START_WRITING, transport_set_mode, run_modify_tpt, run_transport_write_u8,
      hopen, if_true, lua_settop, run_modify_stack, List.take_zero, Nat.zero_sub,
      List.replicate_zero, List.append_nil]
  · intro hnt
    rw [hrun]
    simp only [run_bind, bind_eq, lua_settable, hlen, if_false, h3.1]

/-- Witness for C18: the key `x` and the value true; for the form with the
path `x` the global `x` holds an empty table. -/
theorem newindex_two_forms_witness :
    (read_cmd_newindex host_le_double sample_interp 1
      (state_of (linked_transport 1 1 8 0 0 [0, 0, 0, 0, 3, 1, 0, 0, 0, 120, 2, 1])
        [])).2.tpt.out = [0x00] ∧
    (read_cmd_newindex host_le_double sample_interp 1
      ⟨linked_transport 1 1 8 0 0 [1, 0, 0, 0, 120, 3, 1, 0, 0, 0, 120, 2, 1], [],
        .entry (.string [120]) (.table .empty) .empty, none⟩).2.globals =
      LTable.set (.entry (.string [120]) (.table .empty) .empty) (.string [120])
        (.table (LTable.empty.set (.string [120]) (.boolean true))) :=
  have t := newindex_two_forms host_le_double sample_interp 1
    (state_of (linked_transport 1 1 8 0 0 [0, 0, 0, 0, 3, 1, 0, 0, 0, 120, 2, 1]) [])
    ⟨linked_transport 1 1 8 0 0 [1, 0, 0, 0, 120, 3, 1, 0, 0, 0, 120, 2, 1], [],
      .entry (.string [120]) (.table .empty) .empty, none⟩
    [120] [2, 1] [] (.boolean true) 1 1 rfl rfl (by decide!) (by decide!) (by decide!)
    (by decide!) (Nat.le_refl 1) (by decide!)
    (run_eq_of_beq _ _ (by decide!) (by decide!))
    (by decide!)
    (run_eq_of_beq _ _ (by decide!) (by decide!))
  ⟨(congrArg (fun r => r.2.tpt.out) t.1).trans (by decide!),
    congrArg (fun r => r.2.globals) (t.2.1 .empty rfl)⟩

/-! ## C19 and C20: strings and unknown tags -/

/-- C19 (as stated, refuted). A string of 2^31 octets, which is fewer than
2^32: `write_variable` writes the tag 03 and the length `00 00 00 80`, the
length is negative as the `int` parameter of `transport_write_string`, and
`write_variable` does not return normally; no octet of the string has been
written. -/
theorem string_encoding_negative_length :
    (List.replicate (2 ^ 31) (0 : Byte)).length < 2 ^ 32 ∧
    (write_variable host_le_double (.string (List.replicate (2 ^ 31) 0))
      (state_of (linked_transport 1 1 8 0 0 []) [])).1 = .undefined ∧
    (write_variable host_le_double (.string (List.replicate (2 ^ 31) 0))
      (state_of (linked_transport 1 1 8 0 0 []) [])).2.tpt.out =
      [0x03, 0x00, 0x00, 0x00, 0x80] := by
  have hw := run_write_string_value_long host_le_double (List.replicate (2 ^ 31) 0)
    (state_of (linked_transport 1 1 8 0 0 []) []) rfl (by rw [List.length_replicate]; decide)
  rw [List.length_replicate] at hw
  refine ⟨by rw [List.length_replicate]; decide, ?_, ?_⟩
  · rw [write_variable, hw]
  · rw [write_variable, hw]
    decide!

/-- C19 (amended). For every string of fewer than 2^31 octets (NUL octets
allowed), on an open transport, `write_variable` returns normally and appends
exactly the octet 03, the length of the whole string as the four octets
`transport_write_u32` emits for it, and then the octets of the string
themselves, with nothing after them. The length octets come least significant
first exactly when the host is little-endian and does not swap, or is
big-endian and swaps. -/
theorem string_encoding (h : Host) (s : List Byte) (st : RpcState)
    (hn : s.length < 2 ^ 31) (hopen : st.tpt.is_open = true) :
    write_variable h (.string s) st =
      (.ok (), { st with tpt := { st.tpt with mode := .writing, out := st.tpt.out ++
        ([0x03] ++ emitted (transport_write_u32 h s.length) st ++ s) } }) ∧
    emitted (transport_write_u32 h s.length) st =
      (if decide (st.tpt.net_little = st.tpt.loc_little) = h.little_endian then
        [byte s.length, byte (s.length / 256), byte (s.length / 65536),
          byte (s.length / 16777216)]
      else
        [byte (s.length / 16777216), byte (s.length / 65536), byte (s.length / 256),
          byte s.length]) := by
  have hm : s.length % 2 ^ 32 = s.length := Nat.mod_eq_of_lt (by omega)
  have he : emitted (transport_write_u32 h s.length) st =
      wire_u32 h.little_endian (decide (st.tpt.net_little ≠ st.tpt.loc_little)) s.length := by
    rw [emitted, run_transport_write_u32, if_pos hopen, hm]
    by_cases hd : st.tpt.net_little = st.tpt.loc_little <;> simp [wire_u32, hd]
  constructor
  · rw [write_variable, run_write_string_value h s st hopen (by omega), hm, List.take_length,
      he]
    rfl
  · rw [he]
    by_cases hd : st.tpt.net_little = st.tpt.loc_little <;> cases hl : h.little_endian <;>
      simp [wire_u32, hd, int_to_mem, le_bytes_four_eq, swap_bytes_four]

/-- Witness for C19: the string `h\0i` on a little-endian link. -/
theorem string_encoding_witness :
    (write_variable host_le_double (.string [104, 0, 105])
      (state_of (linked_transport 1 1 8 0 0 []) [])).2.tpt.out =
      [0x03, 0x03, 0x00, 0x00, 0x00, 0x68, 0x00, 0x69] :=
  (congrArg (fun r => r.2.tpt.out)
    (string_encoding host_le_double [104, 0, 105]
      (state_of (linked_transport 1 1 8 0 0 []) []) (by decide) rfl).1).trans (by decide!)

/-- C20 (evaluation). For every tag octet above 8, on an open transport,
`read_variable` throws an exception of kind fatal whose error number is the
value of the tag octet itself, having consumed the tag and pushed nothing. -/
theorem unknown_tag_errnum (h : Host) (ip : Interp) (fuel : Nat) (s : RpcState) (tag : Byte)
    (rest : List Byte) (hopen : s.tpt.is_open = true) (hinp : s.tpt.inp = tag :: rest)
    (ht : 8 < tag.val) :
    read_variable h ip (fuel + 1) s =
      (.throw ⟨(tag.val : Int), .fatal⟩,
        { s with tpt := { s.tpt with mode := .reading, inp := rest } }) := by
  obtain ⟨v, hv⟩ := tag
  obtain ⟨n, rfl⟩ : ∃ n, v = n + 9 := ⟨v - 9, by simp at ht; omega⟩
  simp only [read_variable, run_bind, bind_eq]
  rw [run_read_u8_cons h s _ rest hopen hinp]
  rfl

/-- Witness for C20: the tag 9 on a host whose `ERR_PROTOCOL` is 2147483545. -/
theorem unknown_tag_errnum_witness :
    read_variable host_le_double sample_interp 1
      (state_of (linked_transport 1 1 8 0 0 [9, 7]) [.nil]) =
      (.throw ⟨9, .fatal⟩,
        { state_of (linked_transport 1 1 8 0 0 [9, 7]) [.nil] with
          tpt := { linked_transport 1 1 8 0 0 [9, 7] with mode := .reading, inp := [7] } }) ∧
    host_le_double.ERR_PROTOCOL ≠ 9 :=
  ⟨unknown_tag_errnum host_le_double sample_interp 0
    (state_of (linked_transport 1 1 8 0 0 [9, 7]) [.nil]) 9 [7] rfl rfl (by decide),
   by decide⟩

/-! ## Code that neither opens nor closes the transport -/

theorem keeps_open_pure {α : Type} (a : α) : KeepsOpen (pure a : RPC α) := fun _ => rfl

theorem keeps_open_Throw {α : Type} (e : exception) : KeepsOpen (Throw e : RPC α) :=
  fun _ => rfl

theorem keeps_open_luaL_error {α : Type} (e : LuaError) : KeepsOpen (luaL_error e : RPC α) :=
  fun _ => rfl

theorem keeps_open_undefined {α : Type} : KeepsOpen (undefined : RPC α) := fun _ => rfl

theorem keeps_open_out_of_fuel {α : Type} : KeepsOpen (out_of_fuel : RPC α) := fun _ => rfl

theorem keeps_open_get_stack : KeepsOpen get_stack := fun _ => rfl

theorem keeps_open_get_tpt : KeepsOpen get_tpt := fun _ => rfl

theorem keeps_open_modify_stack (f : List LVal → List LVal) : KeepsOpen (modify_stack f) :=
  fun _ => rfl

theorem keeps_open_transport_set_mode (m : Mode) : KeepsOpen (transport_set_mode m) :=
  fun _ => rfl

theorem keeps_open_lua_getglobal (name : List Byte) : KeepsOpen (lua_getglobal name) :=
  fun _ => rfl

theorem keeps_open_bind {α β : Type} {x : RPC α} {f : α → RPC β} (hx : KeepsOpen x)
    (hf : ∀ a, KeepsOpen (f a)) : KeepsOpen (x >>= f) := by
  intro s
  have e1 := hx s
  simp only [run_bind, bind_eq]
  generalize x s = r at e1
  obtain ⟨r1, s1⟩ := r
  cases r1 with
  | ok a => exact (hf a s1).trans e1
  | throw e => exact e1
  | error m => exact e1
  | undefined => exact e1
  | timeout => exact e1

theorem keeps_open_ite {α : Type} (c : Prop) [Decidable c] {x y : RPC α} (hx : KeepsOpen x)
    (hy : KeepsOpen y) : KeepsOpen (if c then x else y) := by
  by_cases hc : c
  · simpa [hc] using hx
  · simpa [hc] using hy

theorem keeps_open_TRANSPORT_VERIFY_OPEN (h : Host) : KeepsOpen (TRANSPORT_VERIFY_OPEN h) := by
  intro s
  unfold LuaRpc.TRANSPORT_VERIFY_OPEN
  split <;> rfl

theorem keeps_open_transport_read_buffer (h : Host) (n : Nat) :
    KeepsOpen (transport_read_buffer h n) := by
  intro s
  unfold LuaRpc.transport_read_buffer
  split <;> rfl

theorem keeps_open_transport_write_buffer (b : List Byte) :
    KeepsOpen (transport_write_buffer b) := fun _ => rfl

theorem keeps_open_transport_read_string (h : Host) (n : Int) :
    KeepsOpen (transport_read_string h n) :=
  keeps_open_bind (keeps_open_transport_set_mode _) fun _ =>
    keeps_open_ite _ keeps_open_undefined (keeps_open_transport_read_buffer h _)

theorem keeps_open_alloca_read_string (h : Host) (len : Nat) :
    KeepsOpen (alloca_read_string h len) :=
  keeps_open_ite _ keeps_open_undefined
    (keeps_open_bind (keeps_open_transport_read_string h _) fun _ =>
      keeps_open_ite _ keeps_open_undefined (keeps_open_pure _))

theorem keeps_open_transport_write_string (b : List Byte) (n : Int) :
    KeepsOpen (transport_write_string b n) :=
  keeps_open_bind (keeps_open_transport_set_mode _) fun _ =>
    keeps_open_ite _ keeps_open_undefined (keeps_open_transport_write_buffer b)

theorem keeps_open_transport_read_u8 (h : Host) : KeepsOpen (transport_read_u8 h) :=
  keeps_open_bind (keeps_open_TRANSPORT_VERIFY_OPEN h) fun _ =>
    keeps_open_bind (keeps_open_transport_set_mode _) fun _ =>
      keeps_open_bind (keeps_open_transport_read_buffer h 1) fun _ => keeps_open_pure _

theorem keeps_open_transport_write_u8 (h : Host) (x : Byte) :
    KeepsOpen (transport_write_u8 h x) :=
  keeps_open_bind (keeps_open_TRANSPORT_VERIFY_OPEN h) fun _ =>
    keeps_open_bind (keeps_open_transport_set_mode _) fun _ =>
      keeps_open_transport_write_buffer _

theorem keeps_open_transport_read_u32 (h : Host) : KeepsOpen (transport_read_u32 h) :=
  keeps_open_bind (keeps_open_TRANSPORT_VERIFY_OPEN h) fun _ =>
    keeps_open_bind (keeps_open_transport_set_mode _) fun _ =>
      keeps_open_bind (keeps_open_transport_read_buffer h 4) fun _ =>
        keeps_open_bind keeps_open_get_tpt fun _ => keeps_open_pure _

theorem keeps_open_transport_write_u32 (h : Host) (x : Nat) :
    KeepsOpen (transport_write_u32 h x) :=
  keeps_open_bind (keeps_open_TRANSPORT_VERIFY_OPEN h) fun _ =>
    keeps_open_bind (keeps_open_transport_set_mode _) fun _ =>
      keeps_open_bind keeps_open_get_tpt fun _ => keeps_open_transport_write_buffer _

theorem keeps_open_transport_read_number (h : Host) : KeepsOpen (transport_read_number h) := by
  unfold LuaRpc.transport_read_number
  refine keeps_open_bind (keeps_open_TRANSPORT_VERIFY_OPEN h) fun _ =>
    keeps_open_bind (keeps_open_transport_set_mode _) fun _ =>
      keeps_open_bind keeps_open_get_tpt fun tpt =>
        keeps_open_bind (keeps_open_transport_read_buffer h _) fun b => ?_
  dsimp only
  refine keeps_open_ite _ ?_ (keeps_open_pure _)
  split <;> exact keeps_open_pure _

theorem keeps_open_transport_write_number (h : Host) (x : LNum) :
    KeepsOpen (transport_write_number h x) := by
  unfold LuaRpc.transport_write_number
  refine keeps_open_bind (keeps_open_TRANSPORT_VERIFY_OPEN h) fun _ =>
    keeps_open_bind (keeps_open_transport_set_mode _) fun _ =>
      keeps_open_bind keeps_open_get_tpt fun tpt => ?_
  refine keeps_open_ite _ ?_ (keeps_open_transport_write_buffer _)
  split
  · exact keeps_open_transport_write_buffer _
  · exact keeps_open_transport_write_buffer _
  · exact keeps_open_transport_write_buffer _
  · exact keeps_open_transport_write_buffer _
  · exact keeps_open_pure _

theorem keeps_open_lua_push (v : LVal) : KeepsOpen (lua_push v) := fun _ => rfl

theorem keeps_open_lua_gettop : KeepsOpen lua_gettop :=
  keeps_open_bind keeps_open_get_stack fun _ => keeps_open_pure _

theorem keeps_open_lua_settop (n : Nat) : KeepsOpen (lua_settop n) := fun _ => rfl

theorem keeps_open_lua_rawset (i : Nat) : KeepsOpen (lua_rawset i) := by
  unfold LuaRpc.lua_rawset
  refine keeps_open_bind keeps_open_get_stack fun stack => ?_
  dsimp only
  refine keeps_open_ite _ (keeps_open_luaL_error _) ?_
  split <;> exact keeps_open_modify_stack _

theorem keeps_open_load_top (ip : Interp) : KeepsOpen (load_top ip) := by
  unfold LuaRpc.load_top
  refine keeps_open_bind keeps_open_get_stack fun stack => ?_
  split
  · exact keeps_open_modify_stack _
  · exact keeps_open_modify_stack _
  · exact keeps_open_luaL_error _

theorem keeps_open_lua_getfield_replace (t : List Byte) :
    KeepsOpen (lua_getfield_replace t) := by
  unfold LuaRpc.lua_getfield_replace
  refine keeps_open_bind keeps_open_get_stack fun stack => ?_
  split
  · exact keeps_open_modify_stack _
  · exact keeps_open_luaL_error _

theorem keeps_open_resolve_fields : (ts : List (List Byte)) → KeepsOpen (resolve_fields ts)
  | [] => keeps_open_pure ()
  | t :: ts => by
    rw [LuaRpc.resolve_fields]
    exact keeps_open_bind (keeps_open_lua_getfield_replace t) fun _ =>
      keeps_open_resolve_fields ts

theorem keeps_open_resolve_path (f : List Byte) : KeepsOpen (resolve_path f) := by
  unfold LuaRpc.resolve_path
  split
  · exact keeps_open_undefined
  · exact keeps_open_bind (keeps_open_lua_getglobal _) fun _ => keeps_open_resolve_fields _

theorem keeps_open_read_index (h : Host) : KeepsOpen (read_index h) :=
  keeps_open_bind (keeps_open_transport_read_u32 h) fun _ =>
    keeps_open_bind (keeps_open_alloca_read_string h _) fun _ => keeps_open_resolve_path _

/-- The decoder neither opens nor closes the transport. -/
theorem keeps_open_decoder (h : Host) (ip : Interp) (fuel : Nat) :
    KeepsOpen (read_variable h ip fuel) ∧ KeepsOpen (read_table h ip fuel) ∧
    (∀ i, KeepsOpen (read_table_loop h ip i fuel)) ∧ KeepsOpen (read_function h ip fuel) := by
  induction fuel with
  | zero =>
    refine ⟨?_, ?_, fun i => ?_, ?_⟩
    · rw [LuaRpc.read_variable]; exact keeps_open_out_of_fuel
    · rw [LuaRpc.read_table]; exact keeps_open_out_of_fuel
    · rw [LuaRpc.read_table_loop]; exact keeps_open_out_of_fuel
    · rw [LuaRpc.read_function]; exact keeps_open_out_of_fuel
  | succ f ih =>
    obtain ⟨hv, ht, hl, hfn⟩ := ih
    refine ⟨?_, ?_, fun i => ?_, ?_⟩
    · rw [LuaRpc.read_variable]
      refine keeps_open_bind (keeps_open_transport_read_u8 h) fun type => ?_
      split
      · exact keeps_open_bind (keeps_open_lua_push _) fun _ => keeps_open_pure _
      · exact keeps_open_bind (keeps_open_transport_read_u8 h) fun _ =>
          keeps_open_bind (keeps_open_lua_push _) fun _ => keeps_open_pure _
      · exact keeps_open_bind (keeps_open_transport_read_number h) fun _ =>
          keeps_open_bind (keeps_open_lua_push _) fun _ => keeps_open_pure _
      · exact keeps_open_bind (keeps_open_transport_read_u32 h) fun _ =>
          keeps_open_bind (keeps_open_alloca_read_string h _) fun _ =>
            keeps_open_bind (keeps_open_lua_push _) fun _ => keeps_open_pure _
      · exact keeps_open_bind ht fun _ => keeps_open_pure _
      · exact keeps_open_pure _
      · exact keeps_open_bind hfn fun _ => keeps_open_pure _
      · exact keeps_open_pure _
      · exact keeps_open_bind (keeps_open_read_index h) fun _ => keeps_open_pure _
      · exact keeps_open_Throw _
    · rw [LuaRpc.read_table]
      exact keeps_open_bind (keeps_open_lua_push _) fun _ =>
        keeps_open_bind keeps_open_lua_gettop fun _ => hl _
    · rw [LuaRpc.read_table_loop]
      refine keeps_open_bind hv fun r => keeps_open_ite _ (keeps_open_pure _) ?_
      exact keeps_open_bind hv fun _ => keeps_open_bind (keeps_open_lua_rawset _) fun _ => hl i
    · rw [LuaRpc.read_function]
      refine keeps_open_bind hv fun r => keeps_open_ite _ (keeps_open_pure _) ?_
      exact keeps_open_bind (keeps_open_load_top ip) fun _ => hfn

theorem keeps_open_replay_names : (ps : List Helper) → KeepsOpen (replay_names ps)
  | [] => keeps_open_pure ()
  | p :: ps => by
    rw [LuaRpc.replay_names]
    exact keeps_open_bind (keeps_open_transport_write_string _ _) fun _ =>
      keeps_open_bind (keeps_open_transport_write_string _ _) fun _ => keeps_open_replay_names ps

theorem keeps_open_helper_remote_index (h : Host) (helper : Helper) :
    KeepsOpen (helper_remote_index h helper) := by
  unfold LuaRpc.helper_remote_index
  by_cases hn : helper.nparents > 0
  · simp only [hn, if_true]
    cases helper.parent with
    | none => exact keeps_open_undefined
    | some parent =>
      dsimp only
      cases hstack_fill (helper.nparents - 1) parent with
      | none => exact keeps_open_undefined
      | some r =>
        exact keeps_open_bind (keeps_open_transport_write_u32 _ _) fun _ =>
          keeps_open_bind (keeps_open_replay_names _) fun _ =>
            keeps_open_transport_write_string _ _
  · simp only [hn, if_false]
    exact keeps_open_bind (keeps_open_transport_write_u32 _ _) fun _ =>
      keeps_open_transport_write_string _ _

theorem keeps_open_write_string_value (h : Host) (s : List Byte) :
    KeepsOpen (write_string_value h s) :=
  keeps_open_bind (keeps_open_transport_write_u8 _ _) fun _ =>
    keeps_open_bind (keeps_open_transport_write_u32 _ _) fun _ =>
      keeps_open_transport_write_string _ _

mutual
theorem keeps_open_write_variable (h : Host) : (v : LVal) → KeepsOpen (write_variable h v)
  | .nil => by rw [LuaRpc.write_variable]; exact keeps_open_transport_write_u8 _ _
  | .boolean b => by
    rw [LuaRpc.write_variable]
    exact keeps_open_bind (keeps_open_transport_write_u8 _ _) fun _ =>
      keeps_open_transport_write_u8 _ _
  | .number x => by
    rw [LuaRpc.write_variable]
    exact keeps_open_bind (keeps_open_transport_write_u8 _ _) fun _ =>
      keeps_open_transport_write_number _ _
  | .string s => by rw [LuaRpc.write_variable]; exact keeps_open_write_string_value _ _
  | .table t => by
    rw [LuaRpc.write_variable]
    exact keeps_open_bind (keeps_open_transport_write_u8 _ _) fun _ =>
      keeps_open_bind (keeps_open_write_table h t) fun _ => keeps_open_transport_write_u8 _ _
  | .function code => by
    rw [LuaRpc.write_variable]
    exact keeps_open_bind (keeps_open_transport_write_u8 _ _) fun _ =>
      keeps_open_bind (keeps_open_write_string_value _ _) fun _ =>
        keeps_open_transport_write_u8 _ _
  | .helper hp => by
    rw [LuaRpc.write_variable]
    exact keeps_open_bind (keeps_open_transport_write_u8 _ _) fun _ =>
      keeps_open_helper_remote_index _ _
  | .userdata => by rw [LuaRpc.write_variable]; exact keeps_open_luaL_error _
  | .thread => by rw [LuaRpc.write_variable]; exact keeps_open_luaL_error _
  | .lightuserdata => by rw [LuaRpc.write_variable]; exact keeps_open_luaL_error _
theorem keeps_open_write_table (h : Host) : (t : LTable) → KeepsOpen (write_table h t)
  | .empty => by rw [LuaRpc.write_table]; exact keeps_open_pure ()
  | .entry k v rest => by
    rw [LuaRpc.write_table]
    exact keeps_open_bind (keeps_open_write_variable h k) fun _ =>
      keeps_open_bind (keeps_open_write_variable h v) fun _ => keeps_open_write_table h rest
end

theorem keeps_open_write_arguments (h : Host) : (as : List LVal) →
    KeepsOpen (write_arguments h as)
  | [] => keeps_open_pure ()
  | a :: as => by
    rw [LuaRpc.write_arguments]
    exact keeps_open_bind (keeps_open_write_variable h a) fun _ =>
      keeps_open_write_arguments h as

theorem keeps_open_read_arguments (h : Host) (ip : Interp) (fuel : Nat) :
    (n : Nat) → KeepsOpen (read_arguments h ip fuel n)
  | 0 => keeps_open_pure ()
  | n + 1 => by
    rw [LuaRpc.read_arguments]
    exact keeps_open_bind (keeps_open_decoder h ip fuel).1 fun _ =>
      keeps_open_read_arguments h ip fuel n

theorem keeps_open_lua_pcall (ip : Interp) (nargs : Int) : KeepsOpen (lua_pcall ip nargs) := by
  intro s
  unfold LuaRpc.lua_pcall
  dsimp only
  split <;> rfl

theorem keeps_open_lua_settable (target : Nat) (tokens : List (List Byte)) :
    KeepsOpen (lua_settable target tokens) := by
  intro s
  unfold LuaRpc.lua_settable
  dsimp only
  split
  · rfl
  · split
    · split <;> rfl
    · rfl

theorem keeps_open_lua_setglobal_tostring (ip : Interp) :
    KeepsOpen (lua_setglobal_tostring ip) := by
  intro s
  unfold LuaRpc.lua_setglobal_tostring
  dsimp only
  split
  · rfl
  · split <;> rfl

theorem keeps_open_modify_tpt (f : Transport → Transport)
    (hf : ∀ t, (f t).is_open = t.is_open) : KeepsOpen (modify_tpt f) := fun s => hf s.tpt

theorem keeps_open_server_negotiate (h : Host) : KeepsOpen (server_negotiate h) := by
  unfold LuaRpc.server_negotiate
  refine keeps_open_bind (keeps_open_transport_set_mode _) fun _ =>
    keeps_open_bind (keeps_open_modify_tpt _ fun _ => rfl) fun _ =>
      keeps_open_bind (keeps_open_modify_tpt _ fun _ => rfl) fun _ =>
        keeps_open_bind (keeps_open_modify_tpt _ fun _ => rfl) fun _ =>
          keeps_open_bind (keeps_open_transport_read_string h 8) fun header => ?_
  refine keeps_open_ite _ (keeps_open_Throw _) ?_
  refine keeps_open_bind keeps_open_get_tpt fun tpt => ?_
  dsimp only
  have hend : ∀ y : List Byte, KeepsOpen (do
      TRANSPORT_START_WRITING
      transport_write_string y 8
      TRANSPORT_STOP : RPC Unit) := fun _ =>
    keeps_open_bind (keeps_open_transport_set_mode _) fun _ =>
      keeps_open_bind (keeps_open_transport_write_string _ _) fun _ =>
        keeps_open_transport_set_mode _
  refine keeps_open_ite _
    (keeps_open_bind (keeps_open_modify_tpt _ fun _ => rfl) fun _ =>
      keeps_open_bind (keeps_open_pure _) fun y => ?_)
    (keeps_open_bind (keeps_open_pure _) fun y => ?_)
  all_goals
    refine keeps_open_bind keeps_open_get_tpt fun tpt => keeps_open_ite _
      (keeps_open_bind (keeps_open_modify_tpt _ fun _ => rfl) fun _ => ?_)
      (keeps_open_bind (keeps_open_pure _) fun _ => ?_)
  all_goals
    exact keeps_open_bind keeps_open_get_tpt fun _ => keeps_open_ite _
      (keeps_open_bind (keeps_open_modify_tpt _ fun _ => rfl) fun _ =>
        keeps_open_bind (keeps_open_pure _) fun y => hend y)
      (keeps_open_bind (keeps_open_pure _) fun y => hend y)

theorem keeps_open_read_cmd_call_request (h : Host) (ip : Interp) (fuel : Nat) :
    KeepsOpen (read_cmd_call_request h ip fuel) := by
  unfold LuaRpc.read_cmd_call_request
  exact keeps_open_bind (keeps_open_transport_read_u32 h) fun _ =>
    keeps_open_bind (keeps_open_alloca_read_string h _) fun _ =>
      keeps_open_bind (keeps_open_resolve_path _) fun _ =>
        keeps_open_bind keeps_open_lua_gettop fun _ =>
          keeps_open_bind keeps_open_get_stack fun _ =>
            keeps_open_bind (keeps_open_transport_read_u32 h) fun _ =>
              keeps_open_bind (keeps_open_read_arguments h ip fuel _) fun _ =>
                keeps_open_pure _

theorem keeps_open_read_cmd_call_respond (h : Host) (ip : Interp)
    (r : Nat × List Byte × Int × Bool × Int) : KeepsOpen (read_cmd_call_respond h ip r) := by
  obtain ⟨len, funcname, stackpos, good_function, nargs⟩ := r
  unfold LuaRpc.read_cmd_call_respond
  dsimp only
  have herr : ∀ (ec : Nat) (msg : List Byte), KeepsOpen (do
      transport_write_u8 h 1
      transport_write_u32 h ec
      transport_write_u32 h msg.length
      transport_write_string msg (size_to_int msg.length)
      lua_settop 0 : RPC Unit) := fun _ _ =>
    keeps_open_bind (keeps_open_transport_write_u8 _ _) fun _ =>
      keeps_open_bind (keeps_open_transport_write_u32 _ _) fun _ =>
        keeps_open_bind (keeps_open_transport_write_u32 _ _) fun _ =>
          keeps_open_bind (keeps_open_transport_write_string _ _) fun _ => keeps_open_lua_settop 0
  refine keeps_open_ite _ ?_ ?_
  · refine keeps_open_bind (keeps_open_lua_pcall ip nargs) fun ec =>
      keeps_open_bind (keeps_open_transport_set_mode _) fun _ => ?_
    dsimp only
    refine keeps_open_ite _ ?_ ?_
    · refine keeps_open_bind keeps_open_get_stack fun stack => ?_
      split
      · exact herr _ _
      · exact herr _ _
      · exact keeps_open_bind keeps_open_undefined fun _ => keeps_open_lua_settop 0
    · exact keeps_open_bind (keeps_open_transport_write_u8 _ _) fun _ =>
        keeps_open_bind keeps_open_lua_gettop fun _ =>
          keeps_open_bind (keeps_open_transport_write_u32 _ _) fun _ =>
            keeps_open_bind keeps_open_get_stack fun _ =>
              keeps_open_bind (keeps_open_write_arguments _ _) fun _ => keeps_open_lua_settop 0
  · exact keeps_open_bind (keeps_open_transport_write_u8 _ _) fun _ =>
      keeps_open_bind (keeps_open_transport_write_u32 _ _) fun _ =>
        keeps_open_bind (keeps_open_transport_write_u32 _ _) fun _ =>
          keeps_open_bind (keeps_open_transport_write_string _ _) fun _ =>
            keeps_open_bind (keeps_open_transport_write_string _ _) fun _ =>
              keeps_open_lua_settop 0

theorem keeps_open_read_cmd_call (h : Host) (ip : Interp) (fuel : Nat) :
    KeepsOpen (read_cmd_call h ip fuel) :=
  keeps_open_bind (keeps_open_read_cmd_call_request h ip fuel) fun r =>
    keeps_open_read_cmd_call_respond h ip r

theorem keeps_open_read_cmd_get (h : Host) : KeepsOpen (read_cmd_get h) := by
  unfold LuaRpc.read_cmd_get
  exact keeps_open_bind (keeps_open_transport_read_u32 h) fun _ =>
    keeps_open_bind (keeps_open_alloca_read_string h _) fun _ =>
      keeps_open_bind (keeps_open_resolve_path _) fun _ =>
        keeps_open_bind (keeps_open_transport_set_mode _) fun _ =>
          keeps_open_bind keeps_open_get_stack fun _ =>
            keeps_open_bind (keeps_open_write_variable h _) fun _ => keeps_open_lua_settop 0

theorem keeps_open_read_cmd_newindex (h : Host) (ip : Interp) (fuel : Nat) :
    KeepsOpen (read_cmd_newindex h ip fuel) := by
  unfold LuaRpc.read_cmd_newindex
  refine keeps_open_bind (keeps_open_transport_read_u32 h) fun _ =>
    keeps_open_bind (keeps_open_alloca_read_string h _) fun funcname => ?_
  have hv := (keeps_open_decoder h ip fuel).1
  have htail : KeepsOpen (do
      TRANSPORT_START_WRITING
      transport_write_u8 h 0
      lua_settop 0 : RPC Unit) :=
    keeps_open_bind (keeps_open_transport_set_mode _) fun _ =>
      keeps_open_bind (keeps_open_transport_write_u8 _ _) fun _ => keeps_open_lua_settop 0
  dsimp only
  refine keeps_open_ite _ ?_ ?_
  · exact keeps_open_bind (keeps_open_resolve_path _) fun _ =>
      keeps_open_bind keeps_open_lua_gettop fun _ =>
        keeps_open_bind hv fun _ => keeps_open_bind hv fun _ =>
          keeps_open_bind (keeps_open_lua_settable _ _) fun _ => htail
  · exact keeps_open_bind hv fun _ => keeps_open_bind hv fun _ =>
      keeps_open_bind (keeps_open_lua_setglobal_tostring ip) fun _ => htail

theorem keeps_open_helper_wait_reply (h : Host) (x : Byte) :
    KeepsOpen (helper_wait_reply h x) := by
  unfold LuaRpc.helper_wait_reply
  split
  · exact keeps_open_transport_write_u8 h x
  · exact keeps_open_pure ()

/-- Reading and serving one command neither opens nor closes the accepted
transport. -/
theorem keeps_open_dispatch_command (h : Host) (ip : Interp) (fuel : Nat) :
    KeepsOpen (dispatch_command h ip fuel) := by
  unfold LuaRpc.dispatch_command
  refine keeps_open_bind (keeps_open_transport_set_mode _) fun _ =>
    keeps_open_bind (keeps_open_transport_read_u8 h) fun cmd => ?_
  split
  · exact keeps_open_bind (keeps_open_helper_wait_reply _ _) fun _ =>
      keeps_open_read_cmd_call h ip fuel
  · exact keeps_open_bind (keeps_open_helper_wait_reply _ _) fun _ => keeps_open_read_cmd_get h
  · exact keeps_open_server_negotiate h
  · exact keeps_open_bind (keeps_open_helper_wait_reply _ _) fun _ =>
      keeps_open_read_cmd_newindex h ip fuel
  · exact keeps_open_bind (keeps_open_helper_wait_reply _ _) fun _ => keeps_open_Throw _

/-! ## C21 to C25: the dispatcher -/

theorem arrive_is_open (a : List Byte) (σ : ServerState) :
    (arrive a σ).st.tpt.is_open = σ.st.tpt.is_open := rfl

theorem arrive_link_errs (a : List Byte) (σ : ServerState) :
    (arrive a σ).link_errs = σ.link_errs := rfl

theorem arrive_ltpt (a : List Byte) (σ : ServerState) : (arrive a σ).ltpt = σ.ltpt := rfl

/-- The outcome of `rpc_dispatch_helper` when the body of its outer `Try` ends
in a nonfatal exception. -/
theorem rpc_dispatch_helper_nonfatal (h : Host) (ip : Interp) (fuel : Nat) (σ σ1 : ServerState)
    (e : exception) (he : e.type = .nonfatal)
    (hb : dispatch_body h ip fuel σ = (.throw e, σ1)) :
    rpc_dispatch_helper h ip fuel σ = (.ok (), { σ1 with st := (transport_close σ1.st).2 }) := by
  unfold LuaRpc.rpc_dispatch_helper
  rw [hb]
  simp only [he]

/-- The outcome of `rpc_dispatch_helper` when the body of its outer `Try` ends
in a fatal exception. -/
theorem rpc_dispatch_helper_fatal (h : Host) (ip : Interp) (fuel : Nat) (σ σ1 : ServerState)
    (e : exception) (he : e.type = .fatal)
    (hb : dispatch_body h ip fuel σ = (.throw e, σ1)) :
    rpc_dispatch_helper h ip fuel σ =
      on_atpt (deal_with_error (.rpc e.errnum)) (server_handle_shutdown σ1) := by
  unfold LuaRpc.rpc_dispatch_helper
  rw [hb]
  simp only [he]

/-- The outcome of `rpc_dispatch_helper` when the body of its outer `Try`
completes. -/
theorem rpc_dispatch_helper_ok (h : Host) (ip : Interp) (fuel : Nat) (σ σ1 : ServerState)
    (hb : dispatch_body h ip fuel σ = (.ok (), σ1)) :
    rpc_dispatch_helper h ip fuel σ = (.ok (), σ1) := by
  unfold LuaRpc.rpc_dispatch_helper
  rw [hb]

/-- A nonfatal exception of the command below the threshold is counted and
swallowed by the inner handler. -/
theorem dispatch_body_counted (h : Host) (ip : Interp) (fuel : Nat) (σ : ServerState)
    (e : exception) (s1 : RpcState) (hopen : σ.st.tpt.is_open = true)
    (hc : dispatch_command h ip fuel σ.st = (.throw e, s1)) (he : e.type = .nonfatal)
    (hn : σ.link_errs + 1 ≤ (h.MAX_LINK_ERRS : Int)) :
    dispatch_body h ip fuel σ =
      (.ok (), { σ with link_errs := σ.link_errs + 1, st := s1 }) := by
  unfold LuaRpc.dispatch_body LuaRpc.dispatch_open
  rw [if_pos hopen, hc]
  simp only [he]
  rw [if_neg (not_lt.mpr hn)]

/-- A nonfatal exception of the command above the threshold is thrown again by
the inner handler, with the count reset. -/
theorem dispatch_body_rethrown (h : Host) (ip : Interp) (fuel : Nat) (σ : ServerState)
    (e : exception) (s1 : RpcState) (hopen : σ.st.tpt.is_open = true)
    (hc : dispatch_command h ip fuel σ.st = (.throw e, s1)) (he : e.type = .nonfatal)
    (hn : σ.link_errs + 1 > (h.MAX_LINK_ERRS : Int)) :
    dispatch_body h ip fuel σ = (.throw e, { σ with link_errs := 0, st := s1 }) := by
  unfold LuaRpc.dispatch_body LuaRpc.dispatch_open
  rw [if_pos hopen, hc]
  simp only [he]
  rw [if_pos hn]

/-- A command that completes resets the count. -/
theorem dispatch_body_completed (h : Host) (ip : Interp) (fuel : Nat) (σ : ServerState)
    (s1 : RpcState) (hopen : σ.st.tpt.is_open = true)
    (hc : dispatch_command h ip fuel σ.st = (.ok (), s1)) :
    dispatch_body h ip fuel σ =
      (.ok (), { σ with link_errs := 0, st := (TRANSPORT_STOP s1).2 }) := by
  unfold LuaRpc.dispatch_body LuaRpc.dispatch_open
  rw [if_pos hopen, hc]

theorem res_nonfatal_iff {α : Type} (r : Res α) :
    r.nonfatal = true ↔ ∃ e, r = .throw e ∧ e.type = .nonfatal := by
  cases r with
  | throw e => simp [Res.nonfatal]
  | ok a => simp [Res.nonfatal]
  | error m => simp [Res.nonfatal]
  | undefined => simp [Res.nonfatal]
  | timeout => simp [Res.nonfatal]

/-- One dispatch on an open accepted transport whose command ends in a
nonfatal exception, below the threshold. -/
theorem step_counted (h : Host) (ip : Interp) (fuel : Nat) (σ : ServerState)
    (hopen : σ.st.tpt.is_open = true)
    (hnf : (dispatch_command h ip fuel σ.st).1.nonfatal = true)
    (hn : σ.link_errs + 1 ≤ (h.MAX_LINK_ERRS : Int)) :
    (rpc_dispatch_helper h ip fuel σ).1 = .ok () ∧
    (rpc_dispatch_helper h ip fuel σ).2.link_errs = σ.link_errs + 1 ∧
    (rpc_dispatch_helper h ip fuel σ).2.st.tpt.is_open = true ∧
    (rpc_dispatch_helper h ip fuel σ).2.ltpt = σ.ltpt := by
  obtain ⟨e, hr, he⟩ := (res_nonfatal_iff _).mp hnf
  have hc : dispatch_command h ip fuel σ.st = (.throw e, (dispatch_command h ip fuel σ.st).2) :=
    Prod.ext hr rfl
  have hk := keeps_open_dispatch_command h ip fuel σ.st
  rw [rpc_dispatch_helper_ok h ip fuel σ _ (dispatch_body_counted h ip fuel σ e _ hopen hc he hn)]
  exact ⟨rfl, rfl, hk.trans hopen, rfl⟩

/-- One dispatch on an open accepted transport whose command ends in a
nonfatal exception, above the threshold. -/
theorem step_rethrown (h : Host) (ip : Interp) (fuel : Nat) (σ : ServerState)
    (hopen : σ.st.tpt.is_open = true)
    (hnf : (dispatch_command h ip fuel σ.st).1.nonfatal = true)
    (hn : σ.link_errs + 1 > (h.MAX_LINK_ERRS : Int)) :
    (dispatch_body h ip fuel σ).1 = (dispatch_command h ip fuel σ.st).1 ∧
    (rpc_dispatch_helper h ip fuel σ).1 = .ok () ∧
    (rpc_dispatch_helper h ip fuel σ).2.link_errs = 0 ∧
    (rpc_dispatch_helper h ip fuel σ).2.st.tpt.is_open = false ∧
    (rpc_dispatch_helper h ip fuel σ).2.ltpt = σ.ltpt := by
  obtain ⟨e, hr, he⟩ := (res_nonfatal_iff _).mp hnf
  have hc : dispatch_command h ip fuel σ.st = (.throw e, (dispatch_command h ip fuel σ.st).2) :=
    Prod.ext hr rfl
  have hb := dispatch_body_rethrown h ip fuel σ e _ hopen hc he hn
  rw [rpc_dispatch_helper_nonfatal h ip fuel σ _ e he hb, hb, hr]
  exact ⟨rfl, rfl, rfl, rfl, rfl⟩

/-- The first command on an accepted connection: the command octet is read, and
either `server_negotiate` runs or a nonfatal `ERR_COMMAND` is thrown. -/
theorem run_dispatch_first (h : Host) (s : RpcState) (c : Byte) (rest : List Byte)
    (hopen : s.tpt.is_open = true) (hinp : s.tpt.inp = c :: rest) :
    dispatch_first h s =
      if c.val = 3 then
        server_negotiate h { s with tpt := { s.tpt with mode := .reading, inp := rest } }
      else
        (.throw ⟨h.ERR_COMMAND, .nonfatal⟩,
          { s with tpt := { s.tpt with mode := .reading, inp := rest } }) := by
  have hr := run_read_u8_cons h (TRANSPORT_START_READING s).2 c rest hopen hinp
  have hs : TRANSPORT_START_READING s = (.ok (), (TRANSPORT_START_READING s).2) := rfl
  unfold LuaRpc.dispatch_first
  rw [run_bind, bind_ok hs, run_bind, bind_ok hr]
  by_cases hc : c.val = 3
  · simp only [hc, if_true]
    rfl
  · simp only [hc, if_false]
    rfl

/-- The body of the outer `Try` on a handle whose accepted transport is closed:
the connection is accepted, the command octet is read, and either
`server_negotiate` runs or a nonfatal `ERR_COMMAND` is thrown. -/
theorem dispatch_body_accept (h : Host) (ip : Interp) (fuel : Nat) (σ : ServerState)
    (c : Byte) (rest : List Byte) (hclosed : σ.st.tpt.is_open = false)
    (hin : σ.incoming = c :: rest) :
    dispatch_body h ip fuel σ =
      if c.val = 3 then
        on_atpt (server_negotiate h)
          { σ with
            st := { σ.st with tpt :=
              { σ.st.tpt with is_open := true, mode := .reading, inp := rest, out := [] } }
            incoming := [] }
      else
        (.throw ⟨h.ERR_COMMAND, .nonfatal⟩,
          { σ with
            st := { σ.st with tpt :=
              { σ.st.tpt with is_open := true, mode := .reading, inp := rest, out := [] } }
            incoming := [] }) := by
  unfold LuaRpc.dispatch_body
  rw [hclosed]
  simp only [Bool.false_eq_true, if_false]
  unfold LuaRpc.on_atpt
  rw [run_dispatch_first h (transport_accept σ).st c rest rfl (by simp [transport_accept, hin])]
  by_cases hc : c.val = 3
  · simp only [hc, if_true]
    rfl
  · simp only [hc, if_false]
    rfl

/-- On an open transport an unknown command octet makes the command end in a
nonfatal `ERR_COMMAND`. -/
theorem run_dispatch_command_unknown (h : Host) (ip : Interp) (fuel : Nat) (s : RpcState)
    (c : Byte) (rest : List Byte) (hopen : s.tpt.is_open = true) (hinp : s.tpt.inp = c :: rest)
    (hc : c.val ≠ 1 ∧ c.val ≠ 2 ∧ c.val ≠ 3 ∧ c.val ≠ 4) :
    (dispatch_command h ip fuel s).1 = .throw ⟨h.ERR_COMMAND, .nonfatal⟩ := by
  have hr := run_read_u8_cons h (TRANSPORT_START_READING s).2 c rest hopen hinp
  have hs : TRANSPORT_START_READING s = (.ok (), (TRANSPORT_START_READING s).2) := rfl
  unfold LuaRpc.dispatch_command
  rw [run_bind, bind_ok hs, run_bind, bind_ok hr]
  obtain ⟨h1, h2, h3, h4⟩ := hc
  simp only [h1, h2, h3, h4]
  unfold LuaRpc.helper_wait_reply
  cases h.HELPER_WAIT with
  | false => rfl
  | true =>
    simp only [if_true, run_bind, bind_eq, run_transport_write_u8]
    rw [if_pos (by exact hopen)]
    rfl

theorem dispatch_all_append (h : Host) (ip : Interp) (fuel : Nat) (as bs : List (List Byte)) :
    ∀ σ : ServerState, dispatch_all h ip fuel (as ++ bs) σ =
      dispatch_all h ip fuel bs (dispatch_all h ip fuel as σ) := by
  induction as with
  | nil => intro σ; rfl
  | cons a as ih => intro σ; exact ih _

theorem all_nonfatal_append (h : Host) (ip : Interp) (fuel : Nat) (as bs : List (List Byte)) :
    ∀ σ : ServerState, all_nonfatal h ip fuel (as ++ bs) σ =
      (all_nonfatal h ip fuel as σ && all_nonfatal h ip fuel bs (dispatch_all h ip fuel as σ)) := by
  induction as with
  | nil => intro σ; simp [all_nonfatal, dispatch_all]
  | cons a as ih =>
    intro σ
    show ((dispatch_command h ip fuel (arrive a σ).st).1.nonfatal &&
      all_nonfatal h ip fuel (as ++ bs) (rpc_dispatch_helper h ip fuel (arrive a σ)).2) = _
    rw [ih, ← Bool.and_assoc]
    rfl

/-- Consecutive nonfatal errors below the threshold are counted and leave the
accepted transport open. -/
theorem dispatch_all_counted (h : Host) (ip : Interp) (fuel : Nat) (as : List (List Byte)) :
    ∀ σ : ServerState, σ.st.tpt.is_open = true → all_nonfatal h ip fuel as σ = true →
      σ.link_errs + (as.length : Int) ≤ (h.MAX_LINK_ERRS : Int) →
      (dispatch_all h ip fuel as σ).st.tpt.is_open = true ∧
      (dispatch_all h ip fuel as σ).link_errs = σ.link_errs + (as.length : Int) ∧
      (dispatch_all h ip fuel as σ).ltpt = σ.ltpt := by
  induction as with
  | nil => intro σ hopen _ _; simp [dispatch_all, hopen]
  | cons a as ih =>
    intro σ hopen hall hn
    simp only [all_nonfatal, Bool.and_eq_true] at hall
    simp only [List.length_cons, Nat.cast_add, Nat.cast_one] at hn
    obtain ⟨_, h2, h3, h4⟩ := step_counted h ip fuel (arrive a σ) hopen hall.1
      (by rw [arrive_link_errs]; omega)
    obtain ⟨i1, i2, i3⟩ := ih _ h3 hall.2 (by rw [h2, arrive_link_errs]; omega)
    simp only [dispatch_all, List.length_cons, Nat.cast_add, Nat.cast_one]
    refine ⟨i1, ?_, ?_⟩
    · rw [i2, h2, arrive_link_errs]; omega
    · rw [i3, h4, arrive_ltpt]

theorem header_version_two (h : Host) (b5 b6 b7 : Byte) :
    header_mismatch h [76, 82, 80, 67, 2, b5, b6, b7] = true := by
  have h4 : ([76, 82, 80, 67, 2, b5, b6, b7] : List Byte).getD 4 0 = 2 := rfl
  have hv : (char_val h 2 != (RPC_PROTOCOL_VERSION : Int)) = true := by
    unfold LuaRpc.char_val
    cases h.char_signed <;> decide
  unfold LuaRpc.header_mismatch
  rw [h4, hv]
  simp

/-- C21, counterexample. The accepted transport is closed, the first octet of
the new connection is CON (3), and after `rpc_dispatch_helper` the accepted
transport is closed: the header that follows CON has a wrong magic. -/
theorem first_command_con_closes :
    (server_of closed_transport 0 [3, 0, 0, 0, 0, 0, 0, 0, 0]).st.tpt.is_open = false ∧
    (server_of closed_transport 0 [3, 0, 0, 0, 0, 0, 0, 0, 0]).incoming.head? = some 3 ∧
    (rpc_dispatch_helper host_le_double sample_interp 1
      (server_of closed_transport 0 [3, 0, 0, 0, 0, 0, 0, 0, 0])).2.st.tpt.is_open = false :=
  ⟨rfl, rfl, by decide!⟩

/-- C21. When the accepted transport is closed, the listener is open and the
connection that is accepted starts with the octet `c`: if `c` is not CON (3),
the body of `rpc_dispatch_helper` throws a nonfatal `ERR_COMMAND`, and
`rpc_dispatch_helper` returns with the accepted transport closed and the
listener open; if `c` is CON, the body is `server_negotiate` run on the accepted
transport after the command octet, and when it returns without raising,
`rpc_dispatch_helper` returns with the accepted transport open and the listener
open. -/
theorem first_command_fresh_connection (h : Host) (ip : Interp) (fuel : Nat) (σ : ServerState)
    (c : Byte) (rest : List Byte) (hclosed : σ.st.tpt.is_open = false)
    (hl : σ.ltpt.is_open = true) (hin : σ.incoming = c :: rest) :
    (c.val ≠ 3 →
      (dispatch_body h ip fuel σ).1 = .throw ⟨h.ERR_COMMAND, .nonfatal⟩ ∧
      (rpc_dispatch_helper h ip fuel σ).1 = .ok () ∧
      (rpc_dispatch_helper h ip fuel σ).2.st.tpt.is_open = false ∧
      (rpc_dispatch_helper h ip fuel σ).2.ltpt.is_open = true) ∧
    (c.val = 3 →
      dispatch_body h ip fuel σ =
        on_atpt (server_negotiate h)
          (on_atpt (TRANSPORT_START_READING >>= fun _ => transport_read_u8 h)
            (transport_accept σ)).2 ∧
      ((dispatch_body h ip fuel σ).1 = .ok () →
        (rpc_dispatch_helper h ip fuel σ).1 = .ok () ∧
        (rpc_dispatch_helper h ip fuel σ).2.st.tpt.is_open = true ∧
        (rpc_dispatch_helper h ip fuel σ).2.ltpt.is_open = true)) := by
  have hb := dispatch_body_accept h ip fuel σ c rest hclosed hin
  refine ⟨fun hc => ?_, fun hc => ?_⟩
  · rw [if_neg hc] at hb
    rw [rpc_dispatch_helper_nonfatal h ip fuel σ _ _ rfl hb, hb]
    exact ⟨rfl, rfl, rfl, hl⟩
  · rw [if_pos hc] at hb
    have hr := run_read_u8_cons h (TRANSPORT_START_READING (transport_accept σ).st).2 c rest
      rfl (by simp [TRANSPORT_START_READING, run_transport_set_mode, transport_accept, hin])
    have hs : TRANSPORT_START_READING (transport_accept σ).st =
        (.ok (), (TRANSPORT_START_READING (transport_accept σ).st).2) := rfl
    have hacc : (on_atpt (TRANSPORT_START_READING >>= fun _ => transport_read_u8 h)
        (transport_accept σ)).2 =
        { σ with
          st := { σ.st with tpt :=
            { σ.st.tpt with is_open := true, mode := .reading, inp := rest, out := [] } }
          incoming := [] } := by
      unfold LuaRpc.on_atpt
      rw [run_bind, bind_ok hs, hr]
      rfl
    rw [hacc]
    refine ⟨hb, fun hok => ?_⟩
    have hk := keeps_open_server_negotiate h
      { σ.st with tpt :=
        { σ.st.tpt with is_open := true, mode := .reading, inp := rest, out := [] } }
    have hb2 : dispatch_body h ip fuel σ = (.ok (), (dispatch_body h ip fuel σ).2) :=
      Prod.ext hok rfl
    rw [rpc_dispatch_helper_ok h ip fuel σ _ hb2, hb]
    exact ⟨rfl, hk, hl⟩

/-- Witness for C21: a connection that starts with the octet 05, and one that
starts with CON and a valid header. -/
theorem first_command_fresh_connection_witness :
    ((rpc_dispatch_helper host_le_double sample_interp 1
        (server_of closed_transport 0 [5])).1 = .ok () ∧
      (rpc_dispatch_helper host_le_double sample_interp 1
        (server_of closed_transport 0 [5])).2.st.tpt.is_open = false) ∧
    ((rpc_dispatch_helper host_le_double sample_interp 1
        (server_of closed_transport 0 [3, 76, 82, 80, 67, 3, 1, 8, 0])).1 = .ok () ∧
      (rpc_dispatch_helper host_le_double sample_interp 1
        (server_of closed_transport 0 [3, 76, 82, 80, 67, 3, 1, 8, 0])).2.st.tpt.is_open = true ∧
      (rpc_dispatch_helper host_le_double sample_interp 1
        (server_of closed_transport 0 [3, 76, 82, 80, 67, 3, 1, 8, 0])).2.ltpt.is_open = true) :=
  ⟨⟨((first_command_fresh_connection host_le_double sample_interp 1
      (server_of closed_transport 0 [5]) 5 [] rfl rfl rfl).1 (by decide)).2.1,
    ((first_command_fresh_connection host_le_double sample_interp 1
      (server_of closed_transport 0 [5]) 5 [] rfl rfl rfl).1 (by decide)).2.2.1⟩,
   ((first_command_fresh_connection host_le_double sample_interp 1
      (server_of closed_transport 0 [3, 76, 82, 80, 67, 3, 1, 8, 0]) 3
      [76, 82, 80, 67, 3, 1, 8, 0] rfl rfl rfl).2 rfl).2 (by decide!)⟩

/-- C22. On a handle whose accepted transport and listener are open, with
`link_errs = n`: when the command ends in a nonfatal exception and
`n + 1 <= MAX_LINK_ERRS`, `rpc_dispatch_helper` returns with `link_errs = n + 1`
and the accepted transport open; when `n + 1 > MAX_LINK_ERRS`, the inner handler
throws the exception again, and `rpc_dispatch_helper` returns with the accepted
transport closed, the listener open and `link_errs = 0`; when the command
completes, `link_errs` is 0 afterwards and the accepted transport is open. An
unknown command octet (one other than 1, 2, 3, 4, such as 05) makes the command
end in a nonfatal `ERR_COMMAND`. The count is an unbounded integer here. -/
theorem link_error_counting (h : Host) (ip : Interp) (fuel : Nat) (σ : ServerState)
    (hopen : σ.st.tpt.is_open = true) (hl : σ.ltpt.is_open = true) :
    ((dispatch_command h ip fuel σ.st).1.nonfatal = true →
      σ.link_errs + 1 ≤ (h.MAX_LINK_ERRS : Int) →
        (rpc_dispatch_helper h ip fuel σ).1 = .ok () ∧
        (rpc_dispatch_helper h ip fuel σ).2.link_errs = σ.link_errs + 1 ∧
        (rpc_dispatch_helper h ip fuel σ).2.st.tpt.is_open = true ∧
        (rpc_dispatch_helper h ip fuel σ).2.ltpt.is_open = true) ∧
    ((dispatch_command h ip fuel σ.st).1.nonfatal = true →
      σ.link_errs + 1 > (h.MAX_LINK_ERRS : Int) →
        (dispatch_body h ip fuel σ).1 = (dispatch_command h ip fuel σ.st).1 ∧
        (rpc_dispatch_helper h ip fuel σ).1 = .ok () ∧
        (rpc_dispatch_helper h ip fuel σ).2.link_errs = 0 ∧
        (rpc_dispatch_helper h ip fuel σ).2.st.tpt.is_open = false ∧
        (rpc_dispatch_helper h ip fuel σ).2.ltpt.is_open = true) ∧
    ((dispatch_command h ip fuel σ.st).1 = .ok () →
        (rpc_dispatch_helper h ip fuel σ).1 = .ok () ∧
        (rpc_dispatch_helper h ip fuel σ).2.link_errs = 0 ∧
        (rpc_dispatch_helper h ip fuel σ).2.st.tpt.is_open = true ∧
        (rpc_dispatch_helper h ip fuel σ).2.ltpt.is_open = true) ∧
    (∀ (c : Byte) (rest : List Byte), σ.st.tpt.inp = c :: rest →
      c.val ≠ 1 ∧ c.val ≠ 2 ∧ c.val ≠ 3 ∧ c.val ≠ 4 →
        (dispatch_command h ip fuel σ.st).1 = .throw ⟨h.ERR_COMMAND, .nonfatal⟩) := by
  refine ⟨fun hnf hn => ?_, fun hnf hn => ?_, fun hok => ?_, fun c rest hinp hc => ?_⟩
  · obtain ⟨h1, h2, h3, h4⟩ := step_counted h ip fuel σ hopen hnf hn
    exact ⟨h1, h2, h3, h4 ▸ hl⟩
  · obtain ⟨h0, h1, h2, h3, h4⟩ := step_rethrown h ip fuel σ hopen hnf hn
    exact ⟨h0, h1, h2, h3, h4 ▸ hl⟩
  · have hc : dispatch_command h ip fuel σ.st = (.ok (), (dispatch_command h ip fuel σ.st).2) :=
      Prod.ext hok rfl
    rw [rpc_dispatch_helper_ok h ip fuel σ _ (dispatch_body_completed h ip fuel σ _ hopen hc)]
    exact ⟨rfl, rfl, (keeps_open_dispatch_command h ip fuel σ.st).trans hopen, hl⟩
  · exact run_dispatch_command_unknown h ip fuel σ.st c rest hopen hinp hc

/-- Witness for C22: the unknown command octet 05 at `link_errs = 1` and at
`link_errs = 2` with `MAX_LINK_ERRS = 2`, and a renegotiation that completes. -/
theorem link_error_counting_witness :
    ((rpc_dispatch_helper host_le_double sample_interp 1
        (server_of (fresh_transport [5]) 1 [])).2.link_errs = 1 + 1 ∧
      (rpc_dispatch_helper host_le_double sample_interp 1
        (server_of (fresh_transport [5]) 1 [])).2.st.tpt.is_open = true) ∧
    ((rpc_dispatch_helper host_le_double sample_interp 1
        (server_of (fresh_transport [5]) 2 [])).2.link_errs = 0 ∧
      (rpc_dispatch_helper host_le_double sample_interp 1
        (server_of (fresh_transport [5]) 2 [])).2.st.tpt.is_open = false ∧
      (rpc_dispatch_helper host_le_double sample_interp 1
        (server_of (fresh_transport [5]) 2 [])).2.ltpt.is_open = true) ∧
    ((rpc_dispatch_helper host_le_double sample_interp 1
        (server_of (fresh_transport [3, 76, 82, 80, 67, 3, 1, 8, 0]) 2 [])).2.link_errs = 0) :=
  ⟨⟨((link_error_counting host_le_double sample_interp 1
        (server_of (fresh_transport [5]) 1 []) rfl rfl).1 (by decide!) (by decide)).2.1,
    ((link_error_counting host_le_double sample_interp 1
        (server_of (fresh_transport [5]) 1 []) rfl rfl).1 (by decide!) (by decide)).2.2.1⟩,
   (((link_error_counting host_le_double sample_interp 1
        (server_of (fresh_transport [5]) 2 []) rfl rfl).2.1 (by decide!) (by decide)).2.2),
   ((link_error_counting host_le_double sample_interp 1
        (server_of (fresh_transport [3, 76, 82, 80, 67, 3, 1, 8, 0]) 2 []) rfl rfl).2.2.1
        (by decide!)).2.1⟩

/-- C23, counterexample. On a host with `MAX_LINK_ERRS = 2`, three consecutive
dispatches that each read the unknown command octet 05 and so each end in a
nonfatal error, starting from `link_errs = 0` on an open accepted transport:
after the third (the `(MAX_LINK_ERRS + 1)`-th) the accepted transport is closed,
and the exception that leaves the body in that dispatch is of kind nonfatal. -/
theorem third_error_closes :
    host_le_double.MAX_LINK_ERRS + 1 = 3 ∧
    (server_of (fresh_transport []) 0 []).link_errs = 0 ∧
    all_nonfatal host_le_double sample_interp 1 [[5], [5], [5]]
      (server_of (fresh_transport []) 0 []) = true ∧
    (dispatch_all host_le_double sample_interp 1 [[5], [5], [5]]
      (server_of (fresh_transport []) 0 [])).st.tpt.is_open = false ∧
    (dispatch_body host_le_double sample_interp 1 (arrive [5]
      (dispatch_all host_le_double sample_interp 1 [[5], [5]]
        (server_of (fresh_transport []) 0 [])))).1 =
      .throw ⟨host_le_double.ERR_COMMAND, .nonfatal⟩ :=
  ⟨rfl, rfl, by decide!, by decide!, by decide!⟩

/-- C23. Starting from `link_errs = 0` on an open accepted transport with the
listener open, when every one of `MAX_LINK_ERRS + 1` successive dispatches has
its command end in a nonfatal exception: after each of the first
`MAX_LINK_ERRS` of them the accepted transport is open and `link_errs` is the
number of errors so far; in the next one (the `(MAX_LINK_ERRS + 1)`-th) the
exception leaves the body of `rpc_dispatch_helper` still of kind nonfatal, and
afterwards the accepted transport is closed, the listener is open and
`link_errs` is 0. -/
theorem escalation_threshold (h : Host) (ip : Interp) (fuel : Nat) (σ : ServerState)
    (as : List (List Byte)) (a : List Byte) (hopen : σ.st.tpt.is_open = true)
    (hl : σ.ltpt.is_open = true) (h0 : σ.link_errs = 0)
    (hall : all_nonfatal h ip fuel (as ++ [a]) σ = true)
    (hlen : as.length = h.MAX_LINK_ERRS) :
    (∀ k, k ≤ as.length →
      (dispatch_all h ip fuel (as.take k) σ).st.tpt.is_open = true ∧
      (dispatch_all h ip fuel (as.take k) σ).link_errs = (k : Int)) ∧
    (dispatch_body h ip fuel (arrive a (dispatch_all h ip fuel as σ))).1.nonfatal = true ∧
    (dispatch_all h ip fuel (as ++ [a]) σ).st.tpt.is_open = false ∧
    (dispatch_all h ip fuel (as ++ [a]) σ).ltpt.is_open = true ∧
    (dispatch_all h ip fuel (as ++ [a]) σ).link_errs = 0 := by
  rw [all_nonfatal_append, Bool.and_eq_true] at hall
  obtain ⟨hall1, hall2⟩ := hall
  simp only [all_nonfatal, Bool.and_true] at hall2
  refine ⟨fun k hk => ?_, ?_⟩
  · have hsplit := all_nonfatal_append h ip fuel (as.take k) (as.drop k) σ
    rw [List.take_append_drop, hall1] at hsplit
    have ht : all_nonfatal h ip fuel (as.take k) σ = true := by
      have := hsplit.symm
      rw [Bool.and_eq_true] at this
      exact this.1
    have hlk : (as.take k).length = k := List.length_take_of_le hk
    obtain ⟨i1, i2, _⟩ := dispatch_all_counted h ip fuel (as.take k) σ hopen ht
      (by rw [h0, hlk]; omega)
    exact ⟨i1, by rw [i2, h0, hlk]; omega⟩
  · obtain ⟨i1, i2, i3⟩ := dispatch_all_counted h ip fuel as σ hopen hall1
      (by rw [h0, hlen]; omega)
    obtain ⟨j0, _, j2, j3, j4⟩ := step_rethrown h ip fuel (arrive a (dispatch_all h ip fuel as σ))
      i1 hall2 (by rw [arrive_link_errs, i2, h0, hlen]; omega)
    rw [dispatch_all_append]
    simp only [dispatch_all]
    refine ⟨by rw [j0]; exact hall2, j3, ?_, j2⟩
    rw [j4, arrive_ltpt, i3]
    exact hl

/-- Witness for C23: three times the unknown command octet 05 with
`MAX_LINK_ERRS = 2`. -/
theorem escalation_threshold_witness :
    (∀ k, k ≤ [[5], [5]].length →
      (dispatch_all host_le_double sample_interp 1 (([[5], [5]] : List (List Byte)).take k)
        (server_of (fresh_transport []) 0 [])).st.tpt.is_open = true ∧
      (dispatch_all host_le_double sample_interp 1 (([[5], [5]] : List (List Byte)).take k)
        (server_of (fresh_transport []) 0 [])).link_errs = (k : Int)) ∧
    (dispatch_body host_le_double sample_interp 1 (arrive [5]
      (dispatch_all host_le_double sample_interp 1 [[5], [5]]
        (server_of (fresh_transport []) 0 [])))).1.nonfatal = true ∧
    (dispatch_all host_le_double sample_interp 1 ([[5], [5]] ++ [[5]])
      (server_of (fresh_transport []) 0 [])).st.tpt.is_open = false ∧
    (dispatch_all host_le_double sample_interp 1 ([[5], [5]] ++ [[5]])
      (server_of (fresh_transport []) 0 [])).ltpt.is_open = true ∧
    (dispatch_all host_le_double sample_interp 1 ([[5], [5]] ++ [[5]])
      (server_of (fresh_transport []) 0 [])).link_errs = 0 :=
  escalation_threshold host_le_double sample_interp 1 (server_of (fresh_transport []) 0 [])
    [[5], [5]] [5] rfl rfl rfl (by decide!) rfl

/-- C24. Whenever the body of `rpc_dispatch_helper` ends in an exception of
kind fatal, `rpc_dispatch_helper` is `deal_with_error` run on the handle that
`server_handle_shutdown` has left: the listener and the accepted transport are
closed when the error is reported, and closed afterwards. -/
theorem fatal_shutdown (h : Host) (ip : Interp) (fuel : Nat) (σ : ServerState) (e : exception)
    (hb : (dispatch_body h ip fuel σ).1 = .throw e) (he : e.type = .fatal) :
    rpc_dispatch_helper h ip fuel σ =
      on_atpt (deal_with_error (.rpc e.errnum))
        (server_handle_shutdown (dispatch_body h ip fuel σ).2) ∧
    (server_handle_shutdown (dispatch_body h ip fuel σ).2).ltpt.is_open = false ∧
    (server_handle_shutdown (dispatch_body h ip fuel σ).2).st.tpt.is_open = false ∧
    (rpc_dispatch_helper h ip fuel σ).2.ltpt.is_open = false ∧
    (rpc_dispatch_helper h ip fuel σ).2.st.tpt.is_open = false := by
  have hb2 : dispatch_body h ip fuel σ = (.throw e, (dispatch_body h ip fuel σ).2) :=
    Prod.ext hb rfl
  have hr := rpc_dispatch_helper_fatal h ip fuel σ _ e he hb2
  refine ⟨hr, rfl, rfl, ?_, ?_⟩
  · rw [hr]; rfl
  · rw [hr]
    unfold LuaRpc.on_atpt LuaRpc.deal_with_error
    dsimp only
    split <;> rfl

/-- Witness for C24: a CALL of `f` with one argument whose tag octet is 9. -/
theorem fatal_shutdown_witness :
    rpc_dispatch_helper host_le_double sample_interp 1
        (server_of (fresh_transport [1, 1, 0, 0, 0, 102, 1, 0, 0, 0, 9]) 0 []) =
      on_atpt (deal_with_error (.rpc (⟨9, .fatal⟩ : exception).errnum))
        (server_handle_shutdown (dispatch_body host_le_double sample_interp 1
          (server_of (fresh_transport [1, 1, 0, 0, 0, 102, 1, 0, 0, 0, 9]) 0 [])).2) ∧
    (server_handle_shutdown (dispatch_body host_le_double sample_interp 1
      (server_of (fresh_transport [1, 1, 0, 0, 0, 102, 1, 0, 0, 0, 9]) 0 [])).2).ltpt.is_open
      = false ∧
    (server_handle_shutdown (dispatch_body host_le_double sample_interp 1
      (server_of (fresh_transport [1, 1, 0, 0, 0, 102, 1, 0, 0, 0, 9]) 0 [])).2).st.tpt.is_open
      = false ∧
    (rpc_dispatch_helper host_le_double sample_interp 1
      (server_of (fresh_transport [1, 1, 0, 0, 0, 102, 1, 0, 0, 0, 9]) 0 [])).2.ltpt.is_open
      = false ∧
    (rpc_dispatch_helper host_le_double sample_interp 1
      (server_of (fresh_transport [1, 1, 0, 0, 0, 102, 1, 0, 0, 0, 9]) 0 [])).2.st.tpt.is_open
      = false :=
  fatal_shutdown host_le_double sample_interp 1
    (server_of (fresh_transport [1, 1, 0, 0, 0, 102, 1, 0, 0, 0, 9]) 0 []) ⟨9, .fatal⟩
    (by decide!) rfl

/-- C25. When the accepted transport is closed, the listener is open and the
connection that is accepted sends CON followed by a header with the magic
`4C 52 50 43` and version 2: the body of `rpc_dispatch_helper` ends in a
nonfatal `ERR_HEADER`, and `rpc_dispatch_helper` returns with the accepted
transport closed, the listener open, and nothing written on the accepted
transport. -/
theorem header_mismatch_on_connect (h : Host) (ip : Interp) (fuel : Nat) (σ : ServerState)
    (b5 b6 b7 : Byte) (rest : List Byte) (hclosed : σ.st.tpt.is_open = false)
    (hl : σ.ltpt.is_open = true)
    (hin : σ.incoming = 3 :: 76 :: 82 :: 80 :: 67 :: 2 :: b5 :: b6 :: b7 :: rest) :
    (dispatch_body h ip fuel σ).1 = .throw ⟨h.ERR_HEADER, .nonfatal⟩ ∧
    (rpc_dispatch_helper h ip fuel σ).1 = .ok () ∧
    (rpc_dispatch_helper h ip fuel σ).2.st.tpt.is_open = false ∧
    (rpc_dispatch_helper h ip fuel σ).2.ltpt.is_open = true ∧
    (rpc_dispatch_helper h ip fuel σ).2.st.tpt.out = [] := by
  have hb := dispatch_body_accept h ip fuel σ 3 _ hclosed hin
  rw [if_pos (show ((3 : Byte).val = 3) from rfl)] at hb
  unfold LuaRpc.on_atpt at hb
  dsimp only at hb
  rw [server_negotiate_mismatch h _ 76 82 80 67 2 b5 b6 b7 rest rfl
    (header_version_two h b5 b6 b7)] at hb
  rw [rpc_dispatch_helper_nonfatal h ip fuel σ _ _ rfl hb, hb]
  exact ⟨rfl, rfl, rfl, hl, rfl⟩

/-- Witness for C25: CON followed by `4C 52 50 43 02 01 08 00`. -/
theorem header_mismatch_on_connect_witness :
    (dispatch_body host_le_double sample_interp 1
      (server_of closed_transport 0 [3, 76, 82, 80, 67, 2, 1, 8, 0])).1 =
      .throw ⟨host_le_double.ERR_HEADER, .nonfatal⟩ ∧
    (rpc_dispatch_helper host_le_double sample_interp 1
      (server_of closed_transport 0 [3, 76, 82, 80, 67, 2, 1, 8, 0])).1 = .ok () ∧
    (rpc_dispatch_helper host_le_double sample_interp 1
      (server_of closed_transport 0 [3, 76, 82, 80, 67, 2, 1, 8, 0])).2.st.tpt.is_open = false ∧
    (rpc_dispatch_helper host_le_double sample_interp 1
      (server_of closed_transport 0 [3, 76, 82, 80, 67, 2, 1, 8, 0])).2.ltpt.is_open = true ∧
    (rpc_dispatch_helper host_le_double sample_interp 1
      (server_of closed_transport 0 [3, 76, 82, 80, 67, 2, 1, 8, 0])).2.st.tpt.out = [] :=
  header_mismatch_on_connect host_le_double sample_interp 1
    (server_of closed_transport 0 [3, 76, 82, 80, 67, 2, 1, 8, 0]) 1 8 0 [] rfl rfl rfl

/-! ## C26: the bound on the length of a name -/

/-- The array that `strncpy` fills from a NUL-free name which leaves room for
the terminator: the name followed by NUL octets. -/
theorem strncpy_of_no_zero (name : List Byte) (n : Nat) (hnul : ∀ c ∈ name, c ≠ 0)
    (hlen : name.length ≤ n) :
    strncpy name n = name ++ List.replicate (n - name.length) 0 := by
  unfold LuaRpc.strncpy
  rw [cstring_of_no_zero name hnul, List.take_of_length_le hlen]

/-- C26, counterexample. On a host with `NUM_FUNCNAME_CHARS = 20`, the name of
32 octets `a`, NUL, then thirty `b` is longer than `NUM_FUNCNAME_CHARS - 1`, yet
`handle_index` accepts it (it returns 1 with a new proxy pushed), and the
segment the proxy stores is `a`, not the name. -/
theorem long_name_with_nul_accepted :
    (97 :: 0 :: List.replicate 30 98 : List Byte).length >
      host_le_double.NUM_FUNCNAME_CHARS - 1 ∧
    (handle_index host_le_double (state_of (fresh_transport [])
      [.userdata, .string (97 :: 0 :: List.replicate 30 98)])).1 = .ok 1 ∧
    (handle_index host_le_double (state_of (fresh_transport [])
      [.userdata, .string (97 :: 0 :: List.replicate 30 98)])).2.stack.length = 3 ∧
    cstring (helper_create host_le_double (97 :: 0 :: List.replicate 30 98)).funcname = [97] :=
  ⟨by decide, by decide!, by decide!, by decide!⟩

/-- C26. For every string `name` without a NUL octet, on a host whose array
`funcname` has at least one element: when `name` has at most
`NUM_FUNCNAME_CHARS - 1` octets, `handle_index` and `helper_index` return 1
with a new proxy pushed, `handle_newindex` goes on to `helper_newindex`, and
the array of the new proxy holds `name` followed by at least one NUL; when
`name` is longer, all three raise the error of `ERR_LONGFNAME` and leave the
state as it was, so that no proxy is created. -/
theorem segment_length_bound (h : Host) (s : RpcState) (x : LVal) (name : List Byte)
    (hnum : 0 < h.NUM_FUNCNAME_CHARS) (hnul : ∀ c ∈ name, c ≠ 0) :
    (name.length ≤ h.NUM_FUNCNAME_CHARS - 1 →
      (s.stack = [x, .string name] →
        handle_index h s =
          (.ok 1, { s with stack := [x, .string name, .helper (helper_create h name)] })) ∧
      (∀ parent : Helper, s.stack = [.helper parent, .string name] →
        helper_index h s =
          (.ok 1, { s with stack :=
            [.helper parent, .string name, .helper (helper_append h parent name)] })) ∧
      (∀ v : LVal, s.stack = [x, .string name, v] →
        handle_newindex h s =
          (helper_newindex h >>= fun _ => pure 0)
            { s with stack := [.helper (helper_create h []), .string name, v] }) ∧
      (helper_create h name).funcname =
        name ++ List.replicate (h.NUM_FUNCNAME_CHARS - name.length) 0 ∧
      (∀ parent : Helper, (helper_append h parent name).funcname =
        name ++ List.replicate (h.NUM_FUNCNAME_CHARS - name.length) 0) ∧
      0 < h.NUM_FUNCNAME_CHARS - name.length) ∧
    (name.length > h.NUM_FUNCNAME_CHARS - 1 →
      (s.stack = [x, .string name] →
        handle_index h s = (.error (.rpc h.ERR_LONGFNAME), s) ∧
        helper_index h s = (.error (.rpc h.ERR_LONGFNAME), s)) ∧
      (∀ v : LVal, s.stack = [x, .string name, v] →
        handle_newindex h s = (.error (.rpc h.ERR_LONGFNAME), s))) := by
  have hstr : strlen name = name.length := by
    unfold LuaRpc.strlen
    rw [cstring_of_no_zero name hnul]
  refine ⟨fun hle => ?_, fun hgt => ?_⟩
  · have hc : ¬ (strlen name > h.NUM_FUNCNAME_CHARS - 1) := by rw [hstr]; omega
    have hfit : name.length ≤ h.NUM_FUNCNAME_CHARS := by omega
    refine ⟨fun hstack => ?_, fun parent hstack => ?_, fun v hstack => ?_,
      strncpy_of_no_zero name _ hnul hfit, fun _ => strncpy_of_no_zero name _ hnul hfit,
      by omega⟩
    · obtain ⟨tpt, stack, globals, geh⟩ := s
      dsimp only at hstack
      subst hstack
      simp only [handle_index, run_bind, bind_eq, run_get_stack, List.length_cons,
        List.length_nil, Nat.zero_add, Nat.reduceAdd, ne_eq, not_true_eq_false, if_false,
        List.getD_cons_succ, List.getD_cons_zero, hc, lua_push, run_modify_stack, run_ite,
        run_pure, List.cons_append, List.nil_append]
    · obtain ⟨tpt, stack, globals, geh⟩ := s
      dsimp only at hstack
      subst hstack
      simp only [helper_index, run_bind, bind_eq, run_get_stack, List.length_cons,
        List.length_nil, Nat.zero_add, Nat.reduceAdd, ne_eq, not_true_eq_false, if_false,
        List.getD_cons_succ, List.getD_cons_zero, hc, lua_push, run_modify_stack, run_ite,
        run_pure, List.cons_append, List.nil_append]
    · obtain ⟨tpt, stack, globals, geh⟩ := s
      dsimp only at hstack
      subst hstack
      simp only [handle_newindex, run_bind, bind_eq, run_get_stack, List.length_cons,
        List.length_nil, Nat.zero_add, Nat.reduceAdd, ne_eq, not_true_eq_false, if_false,
        List.getD_cons_succ, List.getD_cons_zero, hc, run_modify_stack, List.set_cons_zero,
        run_ite]
  · have hc : strlen name > h.NUM_FUNCNAME_CHARS - 1 := by rw [hstr]; exact hgt
    refine ⟨fun hstack => ⟨?_, ?_⟩, fun v hstack => ?_⟩
    · simp only [handle_index, run_bind, bind_eq, run_get_stack, hstack, List.length_cons,
        List.length_nil, Nat.zero_add, Nat.reduceAdd, ne_eq, not_true_eq_false, if_false,
        List.getD_cons_succ, List.getD_cons_zero, hc, if_true, run_ite, run_luaL_error]
    · simp only [helper_index, run_bind, bind_eq, run_get_stack, hstack, List.length_cons,
        List.length_nil, Nat.zero_add, Nat.reduceAdd, ne_eq, not_true_eq_false, if_false,
        List.getD_cons_succ, List.getD_cons_zero, hc, if_true, run_ite, run_luaL_error]
    · simp only [handle_newindex, run_bind, bind_eq, run_get_stack, hstack, List.length_cons,
        List.length_nil, Nat.zero_add, Nat.reduceAdd, ne_eq, not_true_eq_false, if_false,
        List.getD_cons_succ, List.getD_cons_zero, hc, if_true, run_ite, run_luaL_error]

/-- Witness for C26: the name `x` and a name of twenty `x` on a host with
`NUM_FUNCNAME_CHARS = 20`. -/
theorem segment_length_bound_witness :
    (helper_create host_le_double [120]).funcname =
      [120] ++ List.replicate (host_le_double.NUM_FUNCNAME_CHARS - [120].length) 0 ∧
    handle_index host_le_double
        (state_of (fresh_transport []) [.userdata, .string (List.replicate 20 120)]) =
      (.error (.rpc host_le_double.ERR_LONGFNAME),
        state_of (fresh_transport []) [.userdata, .string (List.replicate 20 120)]) :=
  ⟨((segment_length_bound host_le_double (state_of (fresh_transport []) [.userdata, .string [120]])
      .userdata [120] (by decide) (by decide!)).1 (by decide)).2.2.2.1,
   (((segment_length_bound host_le_double
      (state_of (fresh_transport []) [.userdata, .string (List.replicate 20 120)])
      .userdata (List.replicate 20 120) (by decide) (by decide!)).2 (by decide)).1 rfl).1⟩

/-! ## C27: what the client does with a caught failure -/

/-- C27 (evaluation). The handler `generic_catch_handler` reports before it
looks at the kind of the failure: without a global error handler it raises the
Lua error and does nothing else, whatever the kind; with one installed, a
nonfatal failure pushes nil and returns 1 and a fatal one closes the transport
and returns 0. So `helper_get` on a response that starts with the unknown tag
09, a fatal failure, leaves the transport open when no global handler is
installed and closes it when one is. -/
theorem client_failure_reported_first :
    (∀ (e : exception) (s : RpcState),
      generic_catch_handler e s =
        match s.global_error_handler with
        | none => (.error (.rpc e.errnum), s)
        | some _ =>
          match e.type with
          | .nonfatal => (.ok 1, { s with stack := s.stack ++ [.nil] })
          | .fatal => (.ok 0, { s with tpt := { s.tpt with is_open := false } })) ∧
    (helper_get host_le_double sample_interp 1 (helper_create host_le_double [120])
      (state_of (linked_transport 1 1 8 0 0 [9]) [])).1 = .error (.rpc 9) ∧
    (helper_get host_le_double sample_interp 1 (helper_create host_le_double [120])
      (state_of (linked_transport 1 1 8 0 0 [9]) [])).2.tpt.is_open = true ∧
    (helper_get host_le_double sample_interp 1 (helper_create host_le_double [120])
      ⟨linked_transport 1 1 8 0 0 [9], [], .empty, some (.function [])⟩).1 = .ok 0 ∧
    (helper_get host_le_double sample_interp 1 (helper_create host_le_double [120])
      ⟨linked_transport 1 1 8 0 0 [9], [], .empty, some (.function [])⟩).2.tpt.is_open
      = false := by
  refine ⟨fun e s => ?_, by decide!, by decide!, by decide!, by decide!⟩
  obtain ⟨en, et⟩ := e
  obtain ⟨tpt, stack, globals, geh⟩ := s
  cases geh <;> cases et <;> rfl

/-! ## C28: the result of `rpc_peek` -/

/-- C28 (evaluation). For a server handle as the only argument, whatever the
probe `transport_readable` of the back end answers: when the transport that
`rpc_peek` probes (the accepted one when it is open, otherwise the listener
when that is open) is open and not readable, `rpc_peek` pushes nil, not 0, and
returns one result. -/
theorem peek_unreadable_pushes_nil (h : Host) (readable : Transport → Bool) (σ : ServerState)
    (hstack : σ.st.stack = [.userdata])
    (hprobe : (σ.st.tpt.is_open = true ∧ readable σ.st.tpt = false) ∨
      (σ.st.tpt.is_open = false ∧ σ.ltpt.is_open = true ∧ readable σ.ltpt = false)) :
    (rpc_peek h readable σ).1 = .ok 1 ∧
    (rpc_peek h readable σ).2.st.stack = [.userdata, .nil] := by
  unfold LuaRpc.rpc_peek
  rcases hprobe with ⟨ho, hr⟩ | ⟨ho, hlo, hr⟩
  · simp [hstack, ho, hr, on_atpt, lua_push, bind_eq]
  · simp [hstack, ho, hlo, hr, on_atpt, lua_push, bind_eq]

/-- Witness for C28: an open accepted transport without unread input, probed
for unread input. -/
theorem peek_unreadable_pushes_nil_witness :
    (rpc_peek host_le_double (fun t => !t.inp.isEmpty)
      ⟨fresh_transport [], 0, state_of (fresh_transport []) [.userdata], []⟩).1 = .ok 1 ∧
    (rpc_peek host_le_double (fun t => !t.inp.isEmpty)
      ⟨fresh_transport [], 0, state_of (fresh_transport []) [.userdata], []⟩).2.st.stack =
      [.userdata, .nil] :=
  peek_unreadable_pushes_nil host_le_double (fun t => !t.inp.isEmpty)
    ⟨fresh_transport [], 0, state_of (fresh_transport []) [.userdata], []⟩ rfl
    (Or.inl ⟨rfl, rfl⟩)

/-! ## C29: the domain of the negotiated width -/

/-- C29 (evaluation). The client header `4C 52 50 43 03 01 03 00` passes the
validation; on a server whose `lua_Number` has 8 octets `server_negotiate`
completes with `lnum_bytes = 3` and with 3 as octet 6 of the reply header. For
the width 3 the integer branches of `transport_write_number` and
`transport_read_number` have no case, only `default: lua_assert( 0 )`: after
the header `4C 52 50 43 03 01 03 01`, which makes the link carry integers of
width 3, `transport_write_number` writes no octet for the number 1.0. -/
theorem negotiated_width_three :
    header_mismatch host_le_double [76, 82, 80, 67, 3, 1, 3, 0] = false ∧
    (server_negotiate host_le_double
      (state_of (fresh_transport [76, 82, 80, 67, 3, 1, 3, 0]) [])).1 = .ok () ∧
    (server_negotiate host_le_double
      (state_of (fresh_transport [76, 82, 80, 67, 3, 1, 3, 0]) [])).2.tpt.lnum_bytes = 3 ∧
    (server_negotiate host_le_double
      (state_of (fresh_transport [76, 82, 80, 67, 3, 1, 3, 0]) [])).2.tpt.out =
      [76, 82, 80, 67, 3, 1, 3, 0] ∧
    (server_negotiate host_le_double
      (state_of (fresh_transport [76, 82, 80, 67, 3, 1, 3, 1]) [])).1 = .ok () ∧
    (server_negotiate host_le_double
      (state_of (fresh_transport [76, 82, 80, 67, 3, 1, 3, 1]) [])).2.tpt.lnum_bytes = 3 ∧
    (server_negotiate host_le_double
      (state_of (fresh_transport [76, 82, 80, 67, 3, 1, 3, 1]) [])).2.tpt.net_intnum = 1 ∧
    (transport_write_number host_le_double [0, 0, 0, 0, 0, 0, 0xF0, 0x3F]
      (server_negotiate host_le_double
        (state_of (fresh_transport [76, 82, 80, 67, 3, 1, 3, 1]) [])).2).1 = .ok () ∧
    (transport_write_number host_le_double [0, 0, 0, 0, 0, 0, 0xF0, 0x3F]
      (server_negotiate host_le_double
        (state_of (fresh_transport [76, 82, 80, 67, 3, 1, 3, 1]) [])).2).2.tpt.out =
      (server_negotiate host_le_double
        (state_of (fresh_transport [76, 82, 80, 67, 3, 1, 3, 1]) [])).2.tpt.out := by
  refine ⟨by decide!, by decide!, by decide!, by decide!, by decide!, by decide!, by decide!,
    by decide!, by decide!⟩

/-- When the negotiated width is one the number transfer has a case for. On a
host whose `lua_Number` has 1, 2, 4 or 8 octets, for every client header that
passes the validation and whose octet 6 is 1, 2, 4 or 8 or, as a `char`,
greater than the width of the host: `server_negotiate` completes, and the
`lnum_bytes` of the transport and octet 6 of the reply header are the same and
one of 1, 2, 4, 8. -/
theorem negotiated_width_domain (h : Host) (s : RpcState) (b0 b1 b2 b3 b4 b5 b6 b7 : Byte)
    (rest : List Byte)
    (hinp : s.tpt.inp = [b0, b1, b2, b3, b4, b5, b6, b7] ++ rest)
    (hm : header_mismatch h [b0, b1, b2, b3, b4, b5, b6, b7] = false)
    (hsz : h.sizeof_lua_Number = 1 ∨ h.sizeof_lua_Number = 2 ∨ h.sizeof_lua_Number = 4 ∨
      h.sizeof_lua_Number = 8)
    (hb6 : (b6.val = 1 ∨ b6.val = 2 ∨ b6.val = 4 ∨ b6.val = 8) ∨
      (h.sizeof_lua_Number : Int) < char_val h b6) :
    (server_negotiate h s).1 = .ok () ∧
    ((server_negotiate h s).2.tpt.lnum_bytes.val = 1 ∨
      (server_negotiate h s).2.tpt.lnum_bytes.val = 2 ∨
      (server_negotiate h s).2.tpt.lnum_bytes.val = 4 ∨
      (server_negotiate h s).2.tpt.lnum_bytes.val = 8) ∧
    ((server_negotiate h s).2.tpt.out.drop s.tpt.out.length).getD 6 0 =
      (server_negotiate h s).2.tpt.lnum_bytes := by
  rw [server_negotiate_ok h s b0 b1 b2 b3 b4 b5 b6 b7 rest hinp hm]
  have hbyte : ((byte h.sizeof_lua_Number).val : Int) = (h.sizeof_lua_Number : Int) := by
    rcases hsz with e | e | e | e <;> rw [e] <;> rfl
  have hbv : (byte h.sizeof_lua_Number).val = 1 ∨ (byte h.sizeof_lua_Number).val = 2 ∨
      (byte h.sizeof_lua_Number).val = 4 ∨ (byte h.sizeof_lua_Number).val = 8 := by
    rcases hsz with e | e | e | e <;> rw [e] <;> decide
  dsimp only
  refine ⟨rfl, ?_, ?_⟩
  · by_cases c1 : ((byte h.sizeof_lua_Number).val : Int) < char_val h b6
    · rw [if_pos c1]; exact hbv
    · rw [if_neg c1]
      rcases hb6 with hb | hb
      · by_cases c2 : char_val h b6 < ((byte h.sizeof_lua_Number).val : Int)
        · rw [if_pos c2]; exact hb
        · rw [if_neg c2]; exact hbv
      · rw [hbyte] at c1
        exact absurd hb c1
  · rw [List.drop_left]
    simp only [List.getD_cons_succ, List.getD_cons_zero]
    by_cases c1 : ((byte h.sizeof_lua_Number).val : Int) < char_val h b6
    · rw [if_pos c1, if_pos c1]
    · rw [if_neg c1, if_neg c1]
      by_cases c2 : char_val h b6 < ((byte h.sizeof_lua_Number).val : Int)
      · rw [if_pos c2]
      · rw [if_neg c2]
        have hle : char_val h b6 = ((byte h.sizeof_lua_Number).val : Int) := by omega
        unfold LuaRpc.char_val at hle
        split at hle
        · rename_i hs
          simp only [Bool.and_eq_true, decide_eq_true_eq] at hs
          omega
        · exact Fin.ext (by exact_mod_cast hle)

/-- A client of 4-octet numbers at a server of 8-octet numbers. -/
theorem negotiated_width_domain_witness :
    (server_negotiate host_le_double
      (state_of (fresh_transport [76, 82, 80, 67, 3, 1, 4, 0]) [])).1 = .ok () ∧
    ((server_negotiate host_le_double
        (state_of (fresh_transport [76, 82, 80, 67, 3, 1, 4, 0]) [])).2.tpt.lnum_bytes.val = 1 ∨
      (server_negotiate host_le_double
        (state_of (fresh_transport [76, 82, 80, 67, 3, 1, 4, 0]) [])).2.tpt.lnum_bytes.val = 2 ∨
      (server_negotiate host_le_double
        (state_of (fresh_transport [76, 82, 80, 67, 3, 1, 4, 0]) [])).2.tpt.lnum_bytes.val = 4 ∨
      (server_negotiate host_le_double
        (state_of (fresh_transport [76, 82, 80, 67, 3, 1, 4, 0]) [])).2.tpt.lnum_bytes.val = 8) ∧
    ((server_negotiate host_le_double
        (state_of (fresh_transport [76, 82, 80, 67, 3, 1, 4, 0]) [])).2.tpt.out.drop
        (state_of (fresh_transport [76, 82, 80, 67, 3, 1, 4, 0]) []).tpt.out.length).getD 6 0 =
      (server_negotiate host_le_double
        (state_of (fresh_transport [76, 82, 80, 67, 3, 1, 4, 0]) [])).2.tpt.lnum_bytes :=
  negotiated_width_domain host_le_double
    (state_of (fresh_transport [76, 82, 80, 67, 3, 1, 4, 0]) []) 76 82 80 67 3 1 4 0 [] rfl
    (by decide!) (Or.inr (Or.inr (Or.inr rfl))) (Or.inl (Or.inr (Or.inr (Or.inl rfl))))

/-! ## C30: the stack effect of `read_variable` -/

/-- C30 (evaluation). On the FUNCTION frame without a bytecode string, `06 07`,
`read_variable` returns 1 and has pushed nothing; on the FUNCTION frame with
the two strings `A` and `B` before FUNCTION_END it returns 1 and has pushed two
values. -/
theorem function_frame_stack_effect :
    (read_variable host_le_double sample_interp 3
      (state_of (linked_transport 1 1 8 0 0 [6, 7]) [])).1 = .ok 1 ∧
    (read_variable host_le_double sample_interp 3
      (state_of (linked_transport 1 1 8 0 0 [6, 7]) [])).2.stack.length = 0 ∧
    (read_variable host_le_double sample_interp 5
      (state_of (linked_transport 1 1 8 0 0 [6, 3, 1, 0, 0, 0, 65, 3, 1, 0, 0, 0, 66, 7])
        [])).1 = .ok 1 ∧
    (read_variable host_le_double sample_interp 5
      (state_of (linked_transport 1 1 8 0 0 [6, 3, 1, 0, 0, 0, 65, 3, 1, 0, 0, 0, 66, 7])
        [])).2.stack.length = 2 := by
  refine ⟨by decide!, by decide!, by decide!, by decide!⟩

/-! ## C31: the loop of `read_table` -/

/-- What a sequence returns is what its last part returns. -/
theorem returns_bind {α β : Type} {P : β → Prop} (x : RPC α) {f : α → RPC β}
    (hf : ∀ a, Returns P (f a)) : Returns P (x >>= f) := by
  intro s r hr
  simp only [run_bind, bind_eq] at hr
  generalize x s = q at hr
  obtain ⟨q1, s1⟩ := q
  cases q1 with
  | ok a => exact hf a s1 r hr
  | throw e => exact Res.noConfusion hr
  | error m => exact Res.noConfusion hr
  | undefined => exact Res.noConfusion hr
  | timeout => exact Res.noConfusion hr

theorem returns_pure {β : Type} {P : β → Prop} (b : β) (hb : P b) :
    Returns P (pure b : RPC β) := by
  intro s r hr
  cases hr
  exact hb

theorem returns_Throw {β : Type} {P : β → Prop} (e : exception) :
    Returns P (Throw e : RPC β) := fun _ _ hr => Res.noConfusion hr

/-- On an end marker, `TABLE_END` or `FUNCTION_END`, `read_variable` returns 0
with the marker consumed and nothing pushed. -/
theorem read_variable_end_marker (h : Host) (ip : Interp) (f : Nat) (s : RpcState) (c : Byte)
    (rest : List Byte) (hopen : s.tpt.is_open = true) (hinp : s.tpt.inp = c :: rest)
    (hc : c.val = 5 ∨ c.val = 7) :
    read_variable h ip (f + 1) s =
      (.ok 0, { s with tpt := { s.tpt with mode := .reading, inp := rest } }) := by
  rw [LuaRpc.read_variable, run_bind, bind_ok (run_read_u8_cons h s c rest hopen hinp)]
  rcases hc with hc | hc <;> simp only [hc] <;> rfl

/-- When `read_variable` returns 0, the tag it has read is an end marker. -/
theorem read_variable_zero_marker (h : Host) (ip : Interp) (f : Nat) (s : RpcState) (c : Byte)
    (rest : List Byte) (hinp : s.tpt.inp = c :: rest)
    (hr : (read_variable h ip f s).1 = .ok 0) : c.val = 5 ∨ c.val = 7 := by
  cases f with
  | zero => rw [LuaRpc.read_variable] at hr; exact Res.noConfusion hr
  | succ f =>
    rw [LuaRpc.read_variable, run_bind, bind_eq, run_transport_read_u8] at hr
    by_cases ho : s.tpt.is_open = true
    · rw [if_pos ho, hinp, if_pos (by simp)] at hr
      dsimp only at hr
      have one : (1 : Nat) = 0 → (c.val = 5 ∨ c.val = 7) := fun h1 => absurd h1 (by decide)
      revert hr
      generalize ({ s with tpt := { s.tpt with mode := .reading, inp := (c :: rest).drop 1 } } :
        RpcState) = s1
      simp only [List.headD_cons]
      intro hr
      refine (?_ : Returns (fun r => r = 0 → (c.val = 5 ∨ c.val = 7)) _) s1 0 hr rfl
      split
      · exact returns_bind _ fun _ => returns_pure 1 one
      · exact returns_bind _ fun _ => returns_bind _ fun _ => returns_pure 1 one
      · exact returns_bind _ fun _ => returns_bind _ fun _ => returns_pure 1 one
      · exact returns_bind _ fun _ => returns_bind _ fun _ =>
          returns_bind _ fun _ => returns_pure 1 one
      · exact returns_bind _ fun _ => returns_pure 1 one
      · rename_i h5
        exact returns_pure 0 fun _ => Or.inl h5
      · exact returns_bind _ fun _ => returns_pure 1 one
      · rename_i h7
        exact returns_pure 0 fun _ => Or.inr h7
      · exact returns_bind _ fun _ => returns_pure 1 one
      · exact returns_Throw _
    · rw [if_neg ho] at hr
      exact Res.noConfusion hr

/-- Two sequences with the same first part agree where their second parts
agree on what the first part returns. -/
theorem bind_congr_at {α β : Type} (x : RPC α) (k k' : α → RPC β) (s : RpcState)
    (hk : ∀ a s1, x s = (.ok a, s1) → k' a s1 = k a s1) : (x >>= k') s = (x >>= k) s := by
  simp only [run_bind, bind_eq]
  generalize hq : x s = q at hk
  obtain ⟨q1, s1⟩ := q
  cases q1 with
  | ok a => exact hk a s1 rfl
  | throw e => rfl
  | error m => rfl
  | undefined => rfl
  | timeout => rfl

/-- The loop of `read_table` on the pairs of a plain table, its strings below
the limit of the host, that are followed by an end marker, `TABLE_END` or
`FUNCTION_END`. -/
theorem read_table_loop_marker (h : Host) (ip : Interp) (m : Byte) (hm : m.val = 5 ∨ m.val = 7) :
    (t : LTable) → (fuel : Nat) → (sr : RpcState) → (rest : List Byte) → (pre : List LVal) →
    (acc : LTable) → t.plain (string_limit h) = true → LTable.apart acc t = true →
    t.cost ≤ fuel →
    sr.tpt.is_open = true → sr.stack = pre ++ [.table acc] →
    sr.tpt.inp = wire_table h.little_endian
      (decide (sr.tpt.net_little ≠ sr.tpt.loc_little)) t ++ m :: rest →
    read_table_loop h ip (pre.length + 1) fuel sr =
      (.ok (), { sr with tpt := { sr.tpt with mode := .reading, inp := rest },
                         stack := pre ++ [.table (acc.append t)] })
  | .empty, f + 2, sr, rest, pre, acc, _, _, _, hopen, hstack, hinp => by
    obtain ⟨⟨o, ll, nl, lb, li, ni, md, inp, out⟩, stack, globals, geh⟩ := sr
    dsimp only at hopen hinp hstack
    subst hopen hinp hstack
    rw [LuaRpc.read_table_loop, run_bind,
      bind_ok (read_variable_end_marker h ip f _ m rest rfl rfl hm)]
    simp only [if_true, LTable.append_empty]
    rfl
  | .entry k v r, f + 1, sr, rest, pre, acc, ht, ha, hf, hopen, hstack, hinp => by
    obtain ⟨⟨o, ll, nl, lb, li, ni, md, inp, out⟩, stack, globals, geh⟩ := sr
    dsimp only at hopen hinp hstack
    subst hopen hinp hstack
    simp only [LTable.plain, Bool.and_eq_true, Bool.not_eq_true'] at ht
    obtain ⟨⟨⟨⟨⟨hk, hv⟩, hkn⟩, hvn⟩, hu⟩, hr⟩ := ht
    simp only [LTable.apart, Bool.and_eq_true, Bool.not_eq_true'] at ha
    simp only [LTable.cost] at hf
    have h1 := read_variable_plain h ip k f
      ⟨⟨true, ll, nl, lb, li, ni, md, wire_value h.little_endian (decide (nl ≠ ll)) k ++
        (wire_value h.little_endian (decide (nl ≠ ll)) v ++
          (wire_table h.little_endian (decide (nl ≠ ll)) r ++ m :: rest)), out⟩,
        pre ++ [.table acc], globals, geh⟩ _ hk (by omega) rfl rfl
    have h2 := read_variable_plain h ip v f
      ⟨⟨true, ll, nl, lb, li, ni, .reading, wire_value h.little_endian (decide (nl ≠ ll)) v ++
          (wire_table h.little_endian (decide (nl ≠ ll)) r ++ m :: rest), out⟩,
        pre ++ [.table acc] ++ [k], globals, geh⟩ _ hv (by omega) rfl rfl
    have h3 := run_lua_rawset
      ⟨⟨true, ll, nl, lb, li, ni, .reading,
          wire_table h.little_endian (decide (nl ≠ ll)) r ++ m :: rest, out⟩,
        pre ++ [.table acc] ++ [k] ++ [v], globals, geh⟩ pre acc k v (by simp) hkn
    have h4 := read_table_loop_marker h ip m hm r f
      ⟨⟨true, ll, nl, lb, li, ni, .reading,
          wire_table h.little_endian (decide (nl ≠ ll)) r ++ m :: rest, out⟩,
        pre ++ [.table (acc.append (.entry k v .empty))], globals, geh⟩ rest pre
      (acc.append (.entry k v .empty)) hr (LTable.apart_snoc acc k v r ha.2 hu) (by omega)
      rfl rfl rfl
    rw [LTable.set_fresh acc k v ha.1 hvn] at h3
    dsimp only at h1 h2 h3 h4
    simp only [read_table_loop, run_bind, bind_eq, wire_table, List.append_assoc, h1]
    simp only [List.append_assoc] at h2 h3
    simp only [Nat.one_ne_zero, if_false, run_ite, run_bind, bind_eq, h2, h3, h4,
      LTable.append_assoc, LTable.append]
  | .empty, 0, _, _, _, _, _, _, hf, _, _, _ => by simp only [LTable.cost] at hf; omega
  | .empty, 1, _, _, _, _, _, _, hf, _, _, _ => by simp only [LTable.cost] at hf; omega
  | .entry k v r, 0, _, _, _, _, _, _, hf, _, _, _ => by simp only [LTable.cost] at hf; omega

/-- `read_table` pushes an empty table and runs its loop on it. -/
theorem run_read_table (h : Host) (ip : Interp) (f : Nat) (s : RpcState) :
    read_table h ip (f + 1) s =
      read_table_loop h ip (s.stack.length + 1) f
        { s with stack := s.stack ++ [.table .empty] } := by
  simp only [read_table, run_bind, bind_eq, lua_push, lua_gettop, run_modify_stack,
    run_get_stack, run_pure, List.length_append, List.length_cons, List.length_nil,
    Nat.zero_add]

/-- C31, counterexample. On the stream `04 07 05` `read_variable` returns 1
with the empty table pushed and the octet 05 left unread: the FUNCTION_END at
the first key position has ended the table. And on a host with a stack of
8 MiB a key that is a string of 2^24 octets is not read: on `04 03 00 00 00 01`
the loop asks `alloca` for more than the stack holds, and no pair is stored. -/
theorem function_end_ends_table :
    (read_variable host_le_double sample_interp 4
      (state_of (fresh_transport [4, 7, 5]) [])).1 = .ok 1 ∧
    (read_variable host_le_double sample_interp 4
      (state_of (fresh_transport [4, 7, 5]) [])).2.stack = [.table .empty] ∧
    (read_variable host_le_double sample_interp 4
      (state_of (fresh_transport [4, 7, 5]) [])).2.tpt.inp = [5] ∧
    (read_variable host_le_double sample_interp 4
      (state_of (linked_transport 1 1 8 0 0 [4, 3, 0, 0, 0, 1]) [])).1 = .undefined :=
  ⟨by decide!, lval_list_eq_of_beq _ _ (by decide!), by decide!, by decide!⟩

/-- C31. `read_table` pushes an empty table and runs its loop on it. At each
key position, on an open transport with the tag `c` next: when `c` is
TABLE_END (05) or FUNCTION_END (07) the loop returns, the tag consumed; for any
other tag the loop is: `read_variable` for the key, `read_variable` for the
value, `lua_rawset`, and the loop again. So for the pairs of a plain table (no
nil key or value, no key twice, every string below the limit of the host:
fewer than 2^31 octets, and room on the stack for the string and a terminating
octet) followed by either end marker and further octets, `read_table` returns
with exactly that table pushed and the further octets unread. -/
theorem table_decode_loop (h : Host) (ip : Interp) :
    (∀ (f : Nat) (s : RpcState),
      read_table h ip (f + 1) s =
        read_table_loop h ip (s.stack.length + 1) f
          { s with stack := s.stack ++ [.table .empty] }) ∧
    (∀ (i f : Nat) (s : RpcState) (c : Byte) (rest : List Byte), s.tpt.is_open = true →
      s.tpt.inp = c :: rest →
      ((c.val = 5 ∨ c.val = 7) →
        read_table_loop h ip i (f + 2) s =
          (.ok (), { s with tpt := { s.tpt with mode := .reading, inp := rest } })) ∧
      (c.val ≠ 5 → c.val ≠ 7 →
        read_table_loop h ip i (f + 1) s =
          (do
            let _ ← read_variable h ip f
            let _ ← read_variable h ip f
            lua_rawset i
            read_table_loop h ip i f) s)) ∧
    (∀ (t : LTable) (m : Byte) (fuel : Nat) (sr : RpcState) (rest : List Byte),
      t.plain (string_limit h) = true → (m.val = 5 ∨ m.val = 7) → t.cost ≤ fuel →
      sr.tpt.is_open = true →
      sr.tpt.inp = wire_table h.little_endian
        (decide (sr.tpt.net_little ≠ sr.tpt.loc_little)) t ++ m :: rest →
      read_table h ip (fuel + 1) sr =
        (.ok (), { sr with tpt := { sr.tpt with mode := .reading, inp := rest },
                           stack := sr.stack ++ [.table t] })) := by
  refine ⟨run_read_table h ip, fun i f s c rest hopen hinp => ⟨fun hc => ?_, fun h5 h7 => ?_⟩,
    fun t m fuel sr rest ht hm hf hopen hinp => ?_⟩
  · rw [LuaRpc.read_table_loop, run_bind,
      bind_ok (read_variable_end_marker h ip f s c rest hopen hinp hc)]
    rfl
  · rw [LuaRpc.read_table_loop]
    refine bind_congr_at _ _ _ s fun r s1 heq => ?_
    have hr : r ≠ 0 := by
      intro h0
      subst h0
      rcases read_variable_zero_marker h ip f s c rest hinp (by rw [heq]) with hc | hc
      · exact h5 hc
      · exact h7 hc
    simp only [hr, if_false]
  · have hl := read_table_loop_marker h ip m hm t fuel
      { sr with stack := sr.stack ++ [.table .empty] } rest sr.stack .empty ht
      (LTable.apart_empty t) hf hopen rfl hinp
    rw [run_read_table, hl]
    rfl

/-- Witness for C31: the pair `k = true` followed by FUNCTION_END and the octet
99, and the loop at the tags 07 and 02. -/
theorem table_decode_loop_witness :
    read_table host_le_double sample_interp (5 + 1)
        (state_of (linked_transport 1 1 8 0 0 [3, 1, 0, 0, 0, 107, 2, 1, 7, 99]) []) =
      (.ok (), ⟨⟨true, 1, 1, 8, 0, 0, .reading, [99], []⟩,
        [.table (.entry (.string [107]) (.boolean true) .empty)], .empty, none⟩) ∧
    read_table_loop host_le_double sample_interp 1 (0 + 2)
        (state_of (linked_transport 1 1 8 0 0 [7, 99]) [.table .empty]) =
      (.ok (), ⟨⟨true, 1, 1, 8, 0, 0, .reading, [99], []⟩, [.table .empty], .empty, none⟩) :=
  ⟨(table_decode_loop host_le_double sample_interp).2.2
      (.entry (.string [107]) (.boolean true) .empty) 7 5
      (state_of (linked_transport 1 1 8 0 0 [3, 1, 0, 0, 0, 107, 2, 1, 7, 99]) []) [99]
      (by decide!) (Or.inr rfl) (by decide) rfl (by decide!),
   ((table_decode_loop host_le_double sample_interp).2.1 1 0
      (state_of (linked_transport 1 1 8 0 0 [7, 99]) [.table .empty]) 7 [99] rfl rfl).1
      (Or.inr rfl)⟩

/-! ## C32: the chain of parents -/

/-- On a chain made by indexing, `nparents` steps lead to the proxy without
parent, fewer steps lead to a proxy with parent, and every proxy on the way has
the handle the chain started from. -/
theorem indexed_chain (h : Host) (handle : Nat) (x : WithHandle.Helper)
    (hx : WithHandle.Indexed h handle x) :
    (∃ root, x.ancestor x.nparents = some root ∧ root.parent = none ∧ root.nparents = 0) ∧
    (∀ k, k < x.nparents → ∃ y, x.ancestor k = some y ∧ y.parent ≠ none) ∧
    (∀ k y, x.ancestor k = some y → y.handle = handle) ∧
    (∀ k, x.nparents < k → x.ancestor k = none) := by
  induction hx with
  | handle_index name =>
    refine ⟨⟨_, rfl, rfl, rfl⟩, fun k hk => absurd hk (Nat.not_lt_zero k), fun k y hy => ?_,
      fun k hk => ?_⟩
    · cases k with
      | zero =>
        simp only [WithHandle.Helper.ancestor, Option.some.injEq] at hy
        subst hy
        rfl
      | succ k => simp [WithHandle.Helper.ancestor, WithHandle.helper_create,
          WithHandle.Helper.parent] at hy
    · cases k with
      | zero => exact absurd hk (Nat.lt_irrefl _)
      | succ k => rfl
  | helper_index p name _ ih =>
    obtain ⟨⟨root, hr, hrp, hrn⟩, hlt, hhd, hgt⟩ := ih
    refine ⟨⟨root, hr, hrp, hrn⟩, fun k hk => ?_, fun k y hy => ?_, fun k hk => ?_⟩
    · cases k with
      | zero => exact ⟨_, rfl, by simp [WithHandle.helper_append, WithHandle.Helper.parent]⟩
      | succ k =>
        exact hlt k (by
          simp only [WithHandle.helper_append, WithHandle.Helper.nparents] at hk ⊢
          omega)
    · cases k with
      | zero =>
        simp only [WithHandle.Helper.ancestor, Option.some.injEq] at hy
        subst hy
        exact hhd 0 p rfl
      | succ k => exact hhd k y hy
    · cases k with
      | zero => exact absurd hk (Nat.not_lt_zero _)
      | succ k =>
        exact hgt k (by
          simp only [WithHandle.helper_append, WithHandle.Helper.nparents] at hk ⊢
          omega)

/-- When `handle_index` returns, it has pushed the proxy `helper_create` makes
for the name; when `helper_index` returns, it has pushed the proxy
`helper_append` makes from the indexed proxy. -/
theorem index_pushes (h : Host) (s : RpcState) (name : List Byte) :
    (∀ x : LVal, s.stack = [x, .string name] → (handle_index h s).1 = .ok 1 →
      (handle_index h s).2.stack = [x, .string name, .helper (helper_create h name)]) ∧
    (∀ parent : Helper, s.stack = [.helper parent, .string name] →
      (helper_index h s).1 = .ok 1 →
      (helper_index h s).2.stack =
        [.helper parent, .string name, .helper (helper_append h parent name)]) := by
  refine ⟨fun x hstack => ?_, fun parent hstack => ?_⟩
  · by_cases hc : strlen name > h.NUM_FUNCNAME_CHARS - 1
    · simp [handle_index, bind_eq, hstack, hc]
    · simp [handle_index, bind_eq, hstack, hc, lua_push]
  · by_cases hc : strlen name > h.NUM_FUNCNAME_CHARS - 1
    · simp [helper_index, bind_eq, hstack, hc]
    · simp [helper_index, bind_eq, hstack, hc, lua_push]

/-- C32. For every proxy that a finite sequence of `handle_index` and
`helper_index` calls produces from a handle: a proxy made by `helper_create`
has no parent, `nparents = 0` and the handle it was made for; a proxy made by
`helper_append` from `p` has the parent `p`, `nparents = p.nparents + 1` and the
handle of `p`; and following the parent pointers from the proxy reaches a proxy
without parent after exactly `nparents` steps (after fewer steps the proxy
reached has a parent), every proxy on the chain having the same handle. Without
the `handle` field the two functions are the `helper_create` and
`helper_append` whose proxies `handle_index` and `helper_index` push. -/
theorem helper_chain_invariant (h : Host) (handle : Nat) (x : WithHandle.Helper)
    (hx : WithHandle.Indexed h handle x) :
    (∀ name : List Byte,
      (WithHandle.helper_create h handle name).parent = none ∧
      (WithHandle.helper_create h handle name).nparents = 0 ∧
      (WithHandle.helper_create h handle name).handle = handle ∧
      (WithHandle.helper_create h handle name).forget = helper_create h name) ∧
    (∀ (p : WithHandle.Helper) (name : List Byte),
      (WithHandle.helper_append h p name).parent = some p ∧
      (WithHandle.helper_append h p name).nparents = p.nparents + 1 ∧
      (WithHandle.helper_append h p name).handle = p.handle ∧
      (WithHandle.helper_append h p name).forget = helper_append h p.forget name) ∧
    (∀ (s : RpcState) (v : LVal) (name : List Byte), s.stack = [v, .string name] →
      (handle_index h s).1 = .ok 1 →
      (handle_index h s).2.stack = [v, .string name, .helper (helper_create h name)]) ∧
    (∀ (s : RpcState) (parent : LuaRpc.Helper) (name : List Byte),
      s.stack = [.helper parent, .string name] → (helper_index h s).1 = .ok 1 →
      (helper_index h s).2.stack =
        [.helper parent, .string name, .helper (helper_append h parent name)]) ∧
    (∃ root, x.ancestor x.nparents = some root ∧ root.parent = none ∧ root.nparents = 0) ∧
    (∀ k, k < x.nparents → ∃ y, x.ancestor k = some y ∧ y.parent ≠ none) ∧
    (∀ k y, x.ancestor k = some y → y.handle = handle) := by
  obtain ⟨c1, c2, c3, _⟩ := indexed_chain h handle x hx
  refine ⟨fun name => ⟨rfl, rfl, rfl, rfl⟩, fun p name => ⟨rfl, rfl, rfl, ?_⟩,
    fun s v name => (index_pushes h s name).1 v,
    fun s parent name => (index_pushes h s name).2 parent, c1, c2, c3⟩
  cases p with
  | mk hd par n f => cases par <;> rfl

/-- Witness for C32: the proxy of `handle.a.b.c` of the handle 7. -/
theorem helper_chain_invariant_witness :
    (∃ root,
      (WithHandle.helper_append host_le_double
        (WithHandle.helper_append host_le_double
          (WithHandle.helper_create host_le_double 7 [97]) [98]) [99]).ancestor
        (WithHandle.helper_append host_le_double
          (WithHandle.helper_append host_le_double
            (WithHandle.helper_create host_le_double 7 [97]) [98]) [99]).nparents = some root ∧
      root.parent = none ∧ root.nparents = 0) ∧
    (∀ k y,
      (WithHandle.helper_append host_le_double
        (WithHandle.helper_append host_le_double
          (WithHandle.helper_create host_le_double 7 [97]) [98]) [99]).ancestor k = some y →
      y.handle = 7) :=
  ⟨(helper_chain_invariant host_le_double 7 _
      (.helper_index _ [99] (.helper_index _ [98] (.handle_index [97])))).2.2.2.2.1,
   (helper_chain_invariant host_le_double 7 _
      (.helper_index _ [99] (.helper_index _ [98] (.handle_index [97])))).2.2.2.2.2.2⟩

/-! ## C33: the transport mode when a client operation ends -/

/-- One call of `rpc_dispatch_helper` keeps `link_errs` between 0 and
`MAX_LINK_ERRS`. -/
theorem link_errs_step (h : Host) (ip : Interp) (fuel : Nat) (σ : ServerState)
    (h0 : 0 ≤ σ.link_errs) (h1 : σ.link_errs ≤ (h.MAX_LINK_ERRS : Int)) :
    0 ≤ (rpc_dispatch_helper h ip fuel σ).2.link_errs ∧
    (rpc_dispatch_helper h ip fuel σ).2.link_errs ≤ (h.MAX_LINK_ERRS : Int) := by
  unfold LuaRpc.rpc_dispatch_helper LuaRpc.dispatch_body
  by_cases hopen : σ.st.tpt.is_open = true
  · rw [if_pos hopen]
    unfold LuaRpc.dispatch_open
    generalize dispatch_command h ip fuel σ.st = r
    obtain ⟨r1, s1⟩ := r
    cases r1 with
    | ok a => exact ⟨le_refl _, by simp⟩
    | throw e =>
      obtain ⟨en, et⟩ := e
      cases et with
      | fatal => exact ⟨h0, h1⟩
      | nonfatal =>
        dsimp only
        by_cases hn : σ.link_errs + 1 > (h.MAX_LINK_ERRS : Int)
        · rw [if_pos hn]
          exact ⟨le_refl _, by simp⟩
        · rw [if_neg hn]
          exact ⟨by dsimp only; omega, by dsimp only; omega⟩
    | error m => exact ⟨h0, h1⟩
    | undefined => exact ⟨h0, h1⟩
    | timeout => exact ⟨h0, h1⟩
  · rw [if_neg hopen]
    unfold LuaRpc.on_atpt
    generalize dispatch_first h (transport_accept σ).st = r
    obtain ⟨r1, s1⟩ := r
    cases r1 with
    | ok a => exact ⟨h0, h1⟩
    | throw e =>
      obtain ⟨en, et⟩ := e
      cases et with
      | fatal => exact ⟨h0, h1⟩
      | nonfatal => exact ⟨h0, h1⟩
    | error m => exact ⟨h0, h1⟩
    | undefined => exact ⟨h0, h1⟩
    | timeout => exact ⟨h0, h1⟩

/-- The bound on `link_errs` holds along every sequence of calls. -/
theorem link_errs_run (h : Host) (ip : Interp) (fuel : Nat) :
    (fs : List (ServerState → ServerState)) →
    (∀ f ∈ fs, ∀ σ : ServerState, (f σ).link_errs = σ.link_errs) →
    ∀ σ : ServerState, 0 ≤ σ.link_errs → σ.link_errs ≤ (h.MAX_LINK_ERRS : Int) →
      0 ≤ (dispatch_between h ip fuel fs σ).link_errs ∧
      (dispatch_between h ip fuel fs σ).link_errs ≤ (h.MAX_LINK_ERRS : Int)
  | [], _, σ, h0, h1 => ⟨h0, h1⟩
  | f :: fs, hfs, σ, h0, h1 => by
    have hf := hfs f (List.mem_cons_self _ _) σ
    obtain ⟨i0, i1⟩ := link_errs_step h ip fuel (f σ) (by rw [hf]; exact h0) (by rw [hf]; exact h1)
    exact link_errs_run h ip fuel fs (fun g hg => hfs g (List.mem_cons_of_mem _ hg)) _ i0 i1

/-- C34. On a handle made by `server_handle_create`, for every sequence of
calls of `rpc_dispatch_helper`, whatever happens to the handle between the
calls as long as it leaves `link_errs` alone (nothing but these two functions
writes it): after each call `0 <= link_errs <= MAX_LINK_ERRS`. And a call on an
open accepted transport whose command ends in a nonfatal exception that takes
the count above `MAX_LINK_ERRS` leaves the accepted transport closed and
`link_errs = 0`. -/
theorem link_errs_bound (h : Host) (ip : Interp) (fuel : Nat) (st : RpcState)
    (fs : List (ServerState → ServerState))
    (hfs : ∀ f ∈ fs, ∀ σ : ServerState, (f σ).link_errs = σ.link_errs) :
    (∀ k : Nat,
      0 ≤ (dispatch_between h ip fuel (fs.take k) (server_handle_create st)).link_errs ∧
      (dispatch_between h ip fuel (fs.take k) (server_handle_create st)).link_errs ≤
        (h.MAX_LINK_ERRS : Int)) ∧
    (∀ σ : ServerState, σ.st.tpt.is_open = true →
      (dispatch_command h ip fuel σ.st).1.nonfatal = true →
      σ.link_errs + 1 > (h.MAX_LINK_ERRS : Int) →
        (rpc_dispatch_helper h ip fuel σ).2.st.tpt.is_open = false ∧
        (rpc_dispatch_helper h ip fuel σ).2.link_errs = 0) := by
  refine ⟨fun k => ?_, fun σ hopen hnf hn => ?_⟩
  · exact link_errs_run h ip fuel (fs.take k)
      (fun f hf => hfs f (List.mem_of_mem_take hf)) (server_handle_create st)
      (le_refl _) (by simp [server_handle_create])
  · obtain ⟨_, _, j2, j3, _⟩ := step_rethrown h ip fuel σ hopen hnf hn
    exact ⟨j3, j2⟩

/-- Witness for C34: a peer connects and negotiates, then sends the unknown
command octet 05 three times, with `MAX_LINK_ERRS = 2`. -/
theorem link_errs_bound_witness :
    (∀ k : Nat,
      0 ≤ (dispatch_between host_le_double sample_interp 1
        (([connect [3, 76, 82, 80, 67, 3, 1, 8, 0], arrive [5], arrive [5], arrive [5]] :
          List (ServerState → ServerState)).take k)
        (server_handle_create (state_of (fresh_transport []) []))).link_errs ∧
      (dispatch_between host_le_double sample_interp 1
        (([connect [3, 76, 82, 80, 67, 3, 1, 8, 0], arrive [5], arrive [5], arrive [5]] :
          List (ServerState → ServerState)).take k)
        (server_handle_create (state_of (fresh_transport []) []))).link_errs ≤
        (host_le_double.MAX_LINK_ERRS : Int)) ∧
    (dispatch_between host_le_double sample_interp 1
      [connect [3, 76, 82, 80, 67, 3, 1, 8, 0], arrive [5], arrive [5]]
      (server_handle_create (state_of (fresh_transport []) []))).link_errs = 2 ∧
    (dispatch_between host_le_double sample_interp 1
      [connect [3, 76, 82, 80, 67, 3, 1, 8, 0], arrive [5], arrive [5], arrive [5]]
      (server_handle_create (state_of (fresh_transport []) []))).link_errs = 0 :=
  ⟨(link_errs_bound host_le_double sample_interp 1 (state_of (fresh_transport []) [])
      [connect [3, 76, 82, 80, 67, 3, 1, 8, 0], arrive [5], arrive [5], arrive [5]]
      (by
        intro f hf σ
        simp only [List.mem_cons, List.mem_singleton, List.not_mem_nil, or_false] at hf
        rcases hf with rfl | rfl | rfl | rfl <;> rfl)).1,
   by decide!, by decide!⟩

/-! ## Reading: no input is put back, and what is not the decoder always finishes -/

theorem nogrow_pure {α : Type} (a : α) : NoGrow (pure a : RPC α) := fun _ => le_refl _

theorem nogrow_Throw {α : Type} (e : exception) : NoGrow (Throw e : RPC α) :=
  fun _ => le_refl _

theorem nogrow_luaL_error {α : Type} (e : LuaError) : NoGrow (luaL_error e : RPC α) :=
  fun _ => le_refl _

theorem nogrow_undefined {α : Type} : NoGrow (undefined : RPC α) := fun _ => le_refl _

theorem nogrow_get_stack : NoGrow get_stack := fun _ => le_refl _

theorem nogrow_get_tpt : NoGrow get_tpt := fun _ => le_refl _

theorem nogrow_modify_stack (f : List LVal → List LVal) : NoGrow (modify_stack f) :=
  fun _ => le_refl _

theorem nogrow_transport_set_mode (m : Mode) : NoGrow (transport_set_mode m) :=
  fun _ => le_refl _

theorem nogrow_lua_getglobal (name : List Byte) : NoGrow (lua_getglobal name) :=
  fun _ => le_refl _

theorem nogrow_bind {α β : Type} {x : RPC α} {f : α → RPC β} (hx : NoGrow x)
    (hf : ∀ a, NoGrow (f a)) : NoGrow (x >>= f) := by
  intro s
  have e1 := hx s
  simp only [run_bind, bind_eq]
  generalize x s = r at e1
  obtain ⟨r1, s1⟩ := r
  cases r1 with
  | ok a => exact le_trans (hf a s1) e1
  | throw e => exact e1
  | error m => exact e1
  | undefined => exact e1
  | timeout => exact e1

theorem nogrow_ite {α : Type} (c : Prop) [Decidable c] {x y : RPC α} (hx : NoGrow x)
    (hy : NoGrow y) : NoGrow (if c then x else y) := by
  by_cases hc : c
  · simpa [hc] using hx
  · simpa [hc] using hy

theorem nogrow_TRANSPORT_VERIFY_OPEN (h : Host) : NoGrow (TRANSPORT_VERIFY_OPEN h) := by
  intro s
  unfold LuaRpc.TRANSPORT_VERIFY_OPEN
  split <;> simp

theorem nogrow_transport_read_buffer (h : Host) (n : Nat) :
    NoGrow (transport_read_buffer h n) := by
  intro s
  unfold LuaRpc.transport_read_buffer
  split <;> simp

theorem nogrow_transport_read_string (h : Host) (n : Int) :
    NoGrow (transport_read_string h n) :=
  nogrow_bind (nogrow_transport_set_mode _) fun _ =>
    nogrow_ite _ nogrow_undefined (nogrow_transport_read_buffer h _)

theorem nogrow_alloca_read_string (h : Host) (len : Nat) :
    NoGrow (alloca_read_string h len) :=
  nogrow_ite _ nogrow_undefined
    (nogrow_bind (nogrow_transport_read_string h _) fun _ =>
      nogrow_ite _ nogrow_undefined (nogrow_pure _))

theorem nogrow_transport_read_u8 (h : Host) : NoGrow (transport_read_u8 h) :=
  nogrow_bind (nogrow_TRANSPORT_VERIFY_OPEN h) fun _ =>
    nogrow_bind (nogrow_transport_set_mode _) fun _ =>
      nogrow_bind (nogrow_transport_read_buffer h 1) fun _ => nogrow_pure _

theorem nogrow_transport_read_u32 (h : Host) : NoGrow (transport_read_u32 h) :=
  nogrow_bind (nogrow_TRANSPORT_VERIFY_OPEN h) fun _ =>
    nogrow_bind (nogrow_transport_set_mode _) fun _ =>
      nogrow_bind (nogrow_transport_read_buffer h 4) fun _ =>
        nogrow_bind nogrow_get_tpt fun _ => nogrow_pure _

theorem nogrow_transport_read_number (h : Host) : NoGrow (transport_read_number h) := by
  unfold LuaRpc.transport_read_number
  refine nogrow_bind (nogrow_TRANSPORT_VERIFY_OPEN h) fun _ =>
    nogrow_bind (nogrow_transport_set_mode _) fun _ =>
      nogrow_bind nogrow_get_tpt fun tpt =>
        nogrow_bind (nogrow_transport_read_buffer h _) fun b => ?_
  dsimp only
  refine nogrow_ite _ ?_ (nogrow_pure _)
  split <;> exact nogrow_pure _

theorem nogrow_lua_push (v : LVal) : NoGrow (lua_push v) := fun _ => le_refl _

theorem nogrow_lua_gettop : NoGrow lua_gettop :=
  nogrow_bind nogrow_get_stack fun _ => nogrow_pure _

theorem nogrow_lua_rawset (i : Nat) : NoGrow (lua_rawset i) := by
  unfold LuaRpc.lua_rawset
  refine nogrow_bind nogrow_get_stack fun stack => ?_
  dsimp only
  refine nogrow_ite _ (nogrow_luaL_error _) ?_
  split <;> exact nogrow_modify_stack _

theorem nogrow_load_top (ip : Interp) : NoGrow (load_top ip) := by
  unfold LuaRpc.load_top
  refine nogrow_bind nogrow_get_stack fun stack => ?_
  split
  · exact nogrow_modify_stack _
  · exact nogrow_modify_stack _
  · exact nogrow_luaL_error _

theorem nogrow_lua_getfield_replace (t : List Byte) :
    NoGrow (lua_getfield_replace t) := by
  unfold LuaRpc.lua_getfield_replace
  refine nogrow_bind nogrow_get_stack fun stack => ?_
  split
  · exact nogrow_modify_stack _
  · exact nogrow_luaL_error _

theorem nogrow_resolve_fields : (ts : List (List Byte)) → NoGrow (resolve_fields ts)
  | [] => nogrow_pure ()
  | t :: ts => by
    rw [LuaRpc.resolve_fields]
    exact nogrow_bind (nogrow_lua_getfield_replace t) fun _ =>
      nogrow_resolve_fields ts

theorem nogrow_resolve_path (f : List Byte) : NoGrow (resolve_path f) := by
  unfold LuaRpc.resolve_path
  split
  · exact nogrow_undefined
  · exact nogrow_bind (nogrow_lua_getglobal _) fun _ => nogrow_resolve_fields _

theorem nogrow_read_index (h : Host) : NoGrow (read_index h) :=
  nogrow_bind (nogrow_transport_read_u32 h) fun _ =>
    nogrow_bind (nogrow_alloca_read_string h _) fun _ => nogrow_resolve_path _

theorem finishes_pure {α : Type} (a : α) : Finishes (pure a : RPC α) :=
  fun _ hr => Res.noConfusion hr

theorem finishes_Throw {α : Type} (e : exception) : Finishes (Throw e : RPC α) :=
  fun _ hr => Res.noConfusion hr

theorem finishes_luaL_error {α : Type} (e : LuaError) : Finishes (luaL_error e : RPC α) :=
  fun _ hr => Res.noConfusion hr

theorem finishes_undefined {α : Type} : Finishes (undefined : RPC α) :=
  fun _ hr => Res.noConfusion hr

theorem finishes_get_stack : Finishes get_stack := fun _ hr => Res.noConfusion hr

theorem finishes_get_tpt : Finishes get_tpt := fun _ hr => Res.noConfusion hr

theorem finishes_modify_stack (f : List LVal → List LVal) : Finishes (modify_stack f) :=
  fun _ hr => Res.noConfusion hr

theorem finishes_transport_set_mode (m : Mode) : Finishes (transport_set_mode m) :=
  fun _ hr => Res.noConfusion hr

theorem finishes_lua_getglobal (name : List Byte) : Finishes (lua_getglobal name) :=
  fun _ hr => Res.noConfusion hr

theorem finishes_bind {α β : Type} {x : RPC α} {f : α → RPC β} (hx : Finishes x)
    (hf : ∀ a, Finishes (f a)) : Finishes (x >>= f) := by
  intro s
  have e1 := hx s
  simp only [run_bind, bind_eq]
  generalize x s = r at e1
  obtain ⟨r1, s1⟩ := r
  cases r1 with
  | ok a => exact hf a s1
  | throw e => exact fun hr => Res.noConfusion hr
  | error m => exact fun hr => Res.noConfusion hr
  | undefined => exact fun hr => Res.noConfusion hr
  | timeout => exact absurd rfl e1

theorem finishes_ite {α : Type} (c : Prop) [Decidable c] {x y : RPC α} (hx : Finishes x)
    (hy : Finishes y) : Finishes (if c then x else y) := by
  by_cases hc : c
  · simpa [hc] using hx
  · simpa [hc] using hy

theorem finishes_TRANSPORT_VERIFY_OPEN (h : Host) : Finishes (TRANSPORT_VERIFY_OPEN h) := by
  intro s
  unfold LuaRpc.TRANSPORT_VERIFY_OPEN
  split <;> simp

theorem finishes_transport_read_buffer (h : Host) (n : Nat) :
    Finishes (transport_read_buffer h n) := by
  intro s
  unfold LuaRpc.transport_read_buffer
  split <;> simp

theorem finishes_transport_read_string (h : Host) (n : Int) :
    Finishes (transport_read_string h n) :=
  finishes_bind (finishes_transport_set_mode _) fun _ =>
    finishes_ite _ finishes_undefined (finishes_transport_read_buffer h _)

theorem finishes_alloca_read_string (h : Host) (len : Nat) :
    Finishes (alloca_read_string h len) :=
  finishes_ite _ finishes_undefined
    (finishes_bind (finishes_transport_read_string h _) fun _ =>
      finishes_ite _ finishes_undefined (finishes_pure _))

theorem finishes_transport_read_u8 (h : Host) : Finishes (transport_read_u8 h) :=
  finishes_bind (finishes_TRANSPORT_VERIFY_OPEN h) fun _ =>
    finishes_bind (finishes_transport_set_mode _) fun _ =>
      finishes_bind (finishes_transport_read_buffer h 1) fun _ => finishes_pure _

theorem finishes_transport_read_u32 (h : Host) : Finishes (transport_read_u32 h) :=
  finishes_bind (finishes_TRANSPORT_VERIFY_OPEN h) fun _ =>
    finishes_bind (finishes_transport_set_mode _) fun _ =>
      finishes_bind (finishes_transport_read_buffer h 4) fun _ =>
        finishes_bind finishes_get_tpt fun _ => finishes_pure _

theorem finishes_transport_read_number (h : Host) : Finishes (transport_read_number h) := by
  unfold LuaRpc.transport_read_number
  refine finishes_bind (finishes_TRANSPORT_VERIFY_OPEN h) fun _ =>
    finishes_bind (finishes_transport_set_mode _) fun _ =>
      finishes_bind finishes_get_tpt fun tpt =>
        finishes_bind (finishes_transport_read_buffer h _) fun b => ?_
  dsimp only
  refine finishes_ite _ ?_ (finishes_pure _)
  split <;> exact finishes_pure _

theorem finishes_lua_push (v : LVal) : Finishes (lua_push v) := fun _ hr => Res.noConfusion hr

theorem finishes_lua_gettop : Finishes lua_gettop :=
  finishes_bind finishes_get_stack fun _ => finishes_pure _

theorem finishes_lua_rawset (i : Nat) : Finishes (lua_rawset i) := by
  unfold LuaRpc.lua_rawset
  refine finishes_bind finishes_get_stack fun stack => ?_
  dsimp only
  refine finishes_ite _ (finishes_luaL_error _) ?_
  split <;> exact finishes_modify_stack _

theorem finishes_load_top (ip : Interp) : Finishes (load_top ip) := by
  unfold LuaRpc.load_top
  refine finishes_bind finishes_get_stack fun stack => ?_
  split
  · exact finishes_modify_stack _
  · exact finishes_modify_stack _
  · exact finishes_luaL_error _

theorem finishes_lua_getfield_replace (t : List Byte) :
    Finishes (lua_getfield_replace t) := by
  unfold LuaRpc.lua_getfield_replace
  refine finishes_bind finishes_get_stack fun stack => ?_
  split
  · exact finishes_modify_stack _
  · exact finishes_luaL_error _

theorem finishes_resolve_fields : (ts : List (List Byte)) → Finishes (resolve_fields ts)
  | [] => finishes_pure ()
  | t :: ts => by
    rw [LuaRpc.resolve_fields]
    exact finishes_bind (finishes_lua_getfield_replace t) fun _ =>
      finishes_resolve_fields ts

theorem finishes_resolve_path (f : List Byte) : Finishes (resolve_path f) := by
  unfold LuaRpc.resolve_path
  split
  · exact finishes_undefined
  · exact finishes_bind (finishes_lua_getglobal _) fun _ => finishes_resolve_fields _

theorem finishes_read_index (h : Host) : Finishes (read_index h) :=
  finishes_bind (finishes_transport_read_u32 h) fun _ =>
    finishes_bind (finishes_alloca_read_string h _) fun _ => finishes_resolve_path _

/-! ## C35: the decoder terminates -/

/-- After the tag octet is read, code that puts no input back leaves less input
than there was. -/
theorem strict_after_u8 {β : Type} (h : Host) (K : Byte → RPC β) (hK : ∀ t, NoGrow (K t))
    (s : RpcState) :
    ((transport_read_u8 h >>= K) s).2.tpt.inp.length ≤ s.tpt.inp.length ∧
    ∀ r, ((transport_read_u8 h >>= K) s).1 = .ok r →
      ((transport_read_u8 h >>= K) s).2.tpt.inp.length < s.tpt.inp.length := by
  rw [run_bind, bind_eq, run_transport_read_u8]
  by_cases ho : s.tpt.is_open = true
  · rw [if_pos ho]
    by_cases hl : 1 ≤ s.tpt.inp.length
    · rw [if_pos hl]
      dsimp only
      have hk := hK (s.tpt.inp.headD 0)
        { s with tpt := { s.tpt with mode := .reading, inp := s.tpt.inp.drop 1 } }
      simp only [List.length_drop] at hk
      exact ⟨by omega, fun _ _ => by omega⟩
    · rw [if_neg hl]
      exact ⟨le_refl _, fun r hr => Res.noConfusion hr⟩
  · rw [if_neg ho]
    exact ⟨le_refl _, fun r hr => Res.noConfusion hr⟩

/-- The decoder puts no input back, and `read_variable`, when it returns, has
consumed at least one octet. -/
theorem nogrow_decoder (h : Host) (ip : Interp) (fuel : Nat) :
    (∀ s : RpcState,
      (read_variable h ip fuel s).2.tpt.inp.length ≤ s.tpt.inp.length ∧
      ∀ r, (read_variable h ip fuel s).1 = .ok r →
        (read_variable h ip fuel s).2.tpt.inp.length < s.tpt.inp.length) ∧
    NoGrow (read_table h ip fuel) ∧
    (∀ i, NoGrow (read_table_loop h ip i fuel)) ∧ NoGrow (read_function h ip fuel) := by
  induction fuel with
  | zero =>
    refine ⟨fun s => ?_, ?_, fun i => ?_, ?_⟩
    · rw [LuaRpc.read_variable]
      exact ⟨le_refl _, fun r hr => Res.noConfusion hr⟩
    · rw [LuaRpc.read_table]; exact fun _ => le_refl _
    · rw [LuaRpc.read_table_loop]; exact fun _ => le_refl _
    · rw [LuaRpc.read_function]; exact fun _ => le_refl _
  | succ f ih =>
    obtain ⟨hv0, ht, hl, hfn⟩ := ih
    have hv : NoGrow (read_variable h ip f) := fun s => (hv0 s).1
    refine ⟨fun s => ?_, ?_, fun i => ?_, ?_⟩
    · rw [LuaRpc.read_variable]
      refine strict_after_u8 h _ (fun type => ?_) s
      dsimp only
      split
      · exact nogrow_bind (nogrow_lua_push _) fun _ => nogrow_pure _
      · exact nogrow_bind (nogrow_transport_read_u8 h) fun _ =>
          nogrow_bind (nogrow_lua_push _) fun _ => nogrow_pure _
      · exact nogrow_bind (nogrow_transport_read_number h) fun _ =>
          nogrow_bind (nogrow_lua_push _) fun _ => nogrow_pure _
      · exact nogrow_bind (nogrow_transport_read_u32 h) fun _ =>
          nogrow_bind (nogrow_alloca_read_string h _) fun _ =>
            nogrow_bind (nogrow_lua_push _) fun _ => nogrow_pure _
      · exact nogrow_bind ht fun _ => nogrow_pure _
      · exact nogrow_pure _
      · exact nogrow_bind hfn fun _ => nogrow_pure _
      · exact nogrow_pure _
      · exact nogrow_bind (nogrow_read_index h) fun _ => nogrow_pure _
      · exact nogrow_Throw _
    · rw [LuaRpc.read_table]
      exact nogrow_bind (nogrow_lua_push _) fun _ =>
        nogrow_bind nogrow_lua_gettop fun _ => hl _
    · rw [LuaRpc.read_table_loop]
      refine nogrow_bind hv fun r => nogrow_ite _ (nogrow_pure _) ?_
      exact nogrow_bind hv fun _ => nogrow_bind (nogrow_lua_rawset _) fun _ => hl i
    · rw [LuaRpc.read_function]
      refine nogrow_bind hv fun r => nogrow_ite _ (nogrow_pure _) ?_
      exact nogrow_bind (nogrow_load_top ip) fun _ => hfn

/-- The value `read_variable` returns is 0 or 1. -/
theorem read_variable_result (h : Host) (ip : Interp) (fuel : Nat) :
    Returns (fun r => r = 0 ∨ r = 1) (read_variable h ip fuel) := by
  cases fuel with
  | zero => rw [LuaRpc.read_variable]; exact fun _ _ hr => Res.noConfusion hr
  | succ f =>
    rw [LuaRpc.read_variable]
    refine returns_bind _ fun type => ?_
    have one : (1 : Nat) = 0 ∨ (1 : Nat) = 1 := Or.inr rfl
    have zero : (0 : Nat) = 0 ∨ (0 : Nat) = 1 := Or.inl rfl
    split
    · exact returns_bind _ fun _ => returns_pure 1 one
    · exact returns_bind _ fun _ => returns_bind _ fun _ => returns_pure 1 one
    · exact returns_bind _ fun _ => returns_bind _ fun _ => returns_pure 1 one
    · exact returns_bind _ fun _ => returns_bind _ fun _ =>
        returns_bind _ fun _ => returns_pure 1 one
    · exact returns_bind _ fun _ => returns_pure 1 one
    · exact returns_pure 0 zero
    · exact returns_bind _ fun _ => returns_pure 1 one
    · exact returns_pure 0 zero
    · exact returns_bind _ fun _ => returns_pure 1 one
    · exact returns_Throw _

/-- A sequence finishes when its first part does and its second part does on
what the first part leaves. -/
theorem bind_not_timeout {α β : Type} (x : RPC α) (f : α → RPC β) (s : RpcState)
    (hx : (x s).1 ≠ .timeout)
    (hf : ∀ a s1, x s = (.ok a, s1) → (f a s1).1 ≠ .timeout) :
    ((x >>= f) s).1 ≠ .timeout := by
  simp only [run_bind, bind_eq]
  generalize hq : x s = q at hx hf
  obtain ⟨q1, s1⟩ := q
  cases q1 with
  | ok a => exact hf a s1 rfl
  | throw e => exact fun hr => Res.noConfusion hr
  | error m => exact fun hr => Res.noConfusion hr
  | undefined => exact fun hr => Res.noConfusion hr
  | timeout => exact absurd rfl hx

/-- With a budget of three units for each unread octet the decoder finishes. -/
theorem decoder_finishes (h : Host) (ip : Interp) (fuel : Nat) :
    (∀ s : RpcState, 3 * s.tpt.inp.length + 1 ≤ fuel →
      (read_variable h ip fuel s).1 ≠ .timeout) ∧
    (∀ s : RpcState, 3 * s.tpt.inp.length + 3 ≤ fuel →
      (read_table h ip fuel s).1 ≠ .timeout) ∧
    (∀ (i : Nat) (s : RpcState), 3 * s.tpt.inp.length + 2 ≤ fuel →
      (read_table_loop h ip i fuel s).1 ≠ .timeout) ∧
    (∀ s : RpcState, 3 * s.tpt.inp.length + 2 ≤ fuel →
      (read_function h ip fuel s).1 ≠ .timeout) := by
  induction fuel with
  | zero =>
    refine ⟨fun s hb => ?_, fun s hb => ?_, fun i s hb => ?_, fun s hb => ?_⟩ <;> omega
  | succ f ih =>
    obtain ⟨iv, it, il, ifn⟩ := ih
    have hcons : ∀ (s s1 : RpcState) (a : Nat), read_variable h ip f s = (.ok a, s1) →
        s1.tpt.inp.length < s.tpt.inp.length := by
      intro s s1 a heq
      have := ((nogrow_decoder h ip f).1 s).2 a (by rw [heq])
      rw [heq] at this
      exact this
    refine ⟨fun s hb => ?_, fun s hb => ?_, fun i s hb => ?_, fun s hb => ?_⟩
    · rw [LuaRpc.read_variable]
      refine bind_not_timeout _ _ s (finishes_transport_read_u8 h s) fun type s1 heq => ?_
      have hlen : s1.tpt.inp.length + 1 ≤ s.tpt.inp.length := by
        have := (strict_after_u8 h (fun _ => (pure () : RPC Unit)) (fun _ => nogrow_pure _) s).2 ()
        rw [run_bind, bind_ok heq] at this
        exact this rfl
      show FinishesAt s1 _
      split
      · exact finishes_bind (finishes_lua_push _) (fun _ => finishes_pure _) s1
      · exact finishes_bind (finishes_transport_read_u8 h) (fun _ =>
          finishes_bind (finishes_lua_push _) fun _ => finishes_pure _) s1
      · exact finishes_bind (finishes_transport_read_number h) (fun _ =>
          finishes_bind (finishes_lua_push _) fun _ => finishes_pure _) s1
      · exact finishes_bind (finishes_transport_read_u32 h) (fun _ =>
          finishes_bind (finishes_alloca_read_string h _) fun _ =>
            finishes_bind (finishes_lua_push _) fun _ => finishes_pure _) s1
      · exact bind_not_timeout _ _ s1 (it s1 (by omega)) fun _ s2 _ => finishes_pure _ s2
      · exact finishes_pure _ s1
      · exact bind_not_timeout _ _ s1 (ifn s1 (by omega)) fun _ s2 _ => finishes_pure _ s2
      · exact finishes_pure _ s1
      · exact finishes_bind (finishes_read_index h) (fun _ => finishes_pure _) s1
      · exact finishes_Throw _ s1
    · rw [LuaRpc.read_table]
      refine bind_not_timeout _ _ s (finishes_lua_push _ s) fun _ s1 heq => ?_
      have h1 : s1.tpt.inp = s.tpt.inp := by
        have := congrArg (fun q => q.2.tpt.inp) heq
        exact this.symm
      refine bind_not_timeout _ _ s1 (finishes_lua_gettop s1) fun i s2 heq2 => ?_
      have h2 : s2.tpt.inp = s1.tpt.inp := by
        have := congrArg (fun q => q.2.tpt.inp) heq2
        exact this.symm
      exact il i s2 (by rw [h2, h1]; omega)
    · rw [LuaRpc.read_table_loop]
      refine bind_not_timeout _ _ s (iv s (by omega)) fun r s1 heq => ?_
      have l1 := hcons s s1 r heq
      by_cases hr : r = 0
      · rw [if_pos hr]
        exact finishes_pure _ s1
      · rw [if_neg hr]
        refine bind_not_timeout _ _ s1 (iv s1 (by omega)) fun r2 s2 heq2 => ?_
        have l2 := hcons s1 s2 r2 heq2
        refine bind_not_timeout _ _ s2 (finishes_lua_rawset _ s2) fun _ s3 heq3 => ?_
        have l3 : s3.tpt.inp.length ≤ s2.tpt.inp.length := by
          have := nogrow_lua_rawset i s2
          rw [heq3] at this
          exact this
        exact il i s3 (by omega)
    · rw [LuaRpc.read_function]
      refine bind_not_timeout _ _ s (iv s (by omega)) fun r s1 heq => ?_
      have l1 := hcons s s1 r heq
      by_cases hr : r = 0
      · rw [if_pos hr]
        exact finishes_pure _ s1
      · rw [if_neg hr]
        refine bind_not_timeout _ _ s1 (finishes_load_top ip s1) fun _ s2 heq2 => ?_
        have l2 : s2.tpt.inp.length ≤ s1.tpt.inp.length := by
          have := nogrow_load_top ip s1
          rw [heq2] at this
          exact this
        exact ifn s2 (by omega)

theorem first_not_timeout {α β : Type} (x : RPC α) (k : α → RPC β) (s : RpcState)
    (hne : ((x >>= k) s).1 ≠ .timeout) : (x s).1 ≠ .timeout := by
  simp only [run_bind, bind_eq] at hne
  generalize x s = q at hne
  obtain ⟨q1, s1⟩ := q
  cases q1 with
  | ok a => exact fun hr => Res.noConfusion hr
  | throw e => exact fun hr => Res.noConfusion hr
  | error m => exact fun hr => Res.noConfusion hr
  | undefined => exact fun hr => Res.noConfusion hr
  | timeout => exact absurd rfl hne

/-- Two sequences with the same first part agree where their second parts
agree on what the first part leaves. -/
theorem bind_stable {α β : Type} (x : RPC α) (k k' : α → RPC β) (s : RpcState)
    (hne : ((x >>= k) s).1 ≠ .timeout)
    (hk : ∀ a s1, x s = (.ok a, s1) → (k a s1).1 ≠ .timeout → k' a s1 = k a s1) :
    (x >>= k') s = (x >>= k) s := by
  simp only [run_bind, bind_eq] at hne ⊢
  generalize hq : x s = q at hne hk
  obtain ⟨q1, s1⟩ := q
  cases q1 with
  | ok a => exact hk a s1 rfl hne
  | throw e => rfl
  | error m => rfl
  | undefined => rfl
  | timeout => rfl

theorem bind_left_eq {α β : Type} (x x' : RPC α) (k : α → RPC β) (s : RpcState)
    (hx : x' s = x s) : (x' >>= k) s = (x >>= k) s := by
  simp only [run_bind, bind_eq, hx]

/-- A larger budget does not change an outcome that is not the exhausted
budget. -/
theorem decoder_stable (h : Host) (ip : Interp) (f : Nat) :
    (∀ s : RpcState, (read_variable h ip f s).1 ≠ .timeout →
      read_variable h ip (f + 1) s = read_variable h ip f s) ∧
    (∀ s : RpcState, (read_table h ip f s).1 ≠ .timeout →
      read_table h ip (f + 1) s = read_table h ip f s) ∧
    (∀ (i : Nat) (s : RpcState), (read_table_loop h ip i f s).1 ≠ .timeout →
      read_table_loop h ip i (f + 1) s = read_table_loop h ip i f s) ∧
    (∀ s : RpcState, (read_function h ip f s).1 ≠ .timeout →
      read_function h ip (f + 1) s = read_function h ip f s) := by
  induction f with
  | zero =>
    refine ⟨fun s hne => ?_, fun s hne => ?_, fun i s hne => ?_, fun s hne => ?_⟩
    · rw [LuaRpc.read_variable] at hne; exact absurd rfl hne
    · rw [LuaRpc.read_table] at hne; exact absurd rfl hne
    · rw [LuaRpc.read_table_loop] at hne; exact absurd rfl hne
    · rw [LuaRpc.read_function] at hne; exact absurd rfl hne
  | succ f ih =>
    obtain ⟨iv, it, il, ifn⟩ := ih
    refine ⟨fun s hne => ?_, fun s hne => ?_, fun i s hne => ?_, fun s hne => ?_⟩
    · rw [LuaRpc.read_variable] at hne
      conv_lhs => rw [LuaRpc.read_variable]
      conv_rhs => rw [LuaRpc.read_variable]
      refine bind_stable _ _ _ s hne fun type s1 _ hne1 => ?_
      obtain ⟨n, hn⟩ := type
      rcases n with _ | _ | _ | _ | _ | _ | _ | _ | _ | n
      · rfl
      · rfl
      · rfl
      · rfl
      · exact bind_left_eq _ _ _ s1 (it s1 (first_not_timeout _ _ s1 hne1))
      · rfl
      · exact bind_left_eq _ _ _ s1 (ifn s1 (first_not_timeout _ _ s1 hne1))
      · rfl
      · rfl
      · rfl
    · rw [LuaRpc.read_table] at hne
      conv_lhs => rw [LuaRpc.read_table]
      conv_rhs => rw [LuaRpc.read_table]
      refine bind_stable _ _ _ s hne fun _ s1 _ hne1 => ?_
      exact bind_stable _ _ _ s1 hne1 fun i s2 _ hne2 => il i s2 hne2
    · rw [LuaRpc.read_table_loop] at hne
      conv_lhs => rw [LuaRpc.read_table_loop]
      conv_rhs => rw [LuaRpc.read_table_loop]
      have h1 := iv s (first_not_timeout _ _ s hne)
      refine (bind_left_eq _ _ _ s h1).trans ?_
      refine bind_stable _ _ _ s hne fun r s1 _ hne1 => ?_
      by_cases hr : r = 0
      · simp only [hr, if_true]
      · simp only [hr, if_false] at hne1 ⊢
        have h2 := iv s1 (first_not_timeout _ _ s1 hne1)
        refine (bind_left_eq _ _ _ s1 h2).trans ?_
        refine bind_stable _ _ _ s1 hne1 fun _ s2 _ hne2 => ?_
        exact bind_stable _ _ _ s2 hne2 fun _ s3 _ hne3 => il i s3 hne3
    · rw [LuaRpc.read_function] at hne
      conv_lhs => rw [LuaRpc.read_function]
      conv_rhs => rw [LuaRpc.read_function]
      have h1 := iv s (first_not_timeout _ _ s hne)
      refine (bind_left_eq _ _ _ s h1).trans ?_
      refine bind_stable _ _ _ s hne fun r s1 _ hne1 => ?_
      by_cases hr : r = 0
      · simp only [hr, if_true]
      · simp only [hr, if_false] at hne1 ⊢
        exact bind_stable _ _ _ s1 hne1 fun _ s2 _ hne2 => ifn s2 hne2

/-- From a budget on that does not run out, every budget gives the same
outcome. -/
theorem read_variable_budget (h : Host) (ip : Interp) (s : RpcState) (f : Nat)
    (hne : (read_variable h ip f s).1 ≠ .timeout) :
    ∀ k, read_variable h ip (f + k) s = read_variable h ip f s
  | 0 => rfl
  | k + 1 => by
    have ih := read_variable_budget h ip s f hne k
    have := (decoder_stable h ip (f + k)).1 s (by rw [ih]; exact hne)
    rw [← ih]
    exact this

/-- C35, counterexample. On the stream `04 00 00` (a table whose first key is
nil) `read_variable` ends in the Lua error "table index is nil", which
`lua_rawset` raises: neither a return nor a transport or protocol exception. -/
theorem decoder_other_outcomes :
    (read_variable host_le_double sample_interp 10
      (state_of (linked_transport 1 1 8 0 0 [4, 0, 0]) [])).1 = .error .index_nil := by
  decide!

/-- C35. For every state with a finite stream of unread octets, `n` of them,
and every budget of at least `3 * n + 1`: `read_variable` does not exhaust the
budget, and the outcome is the same for all these budgets. On a stream that
keeps the decoder within the defined behaviour of the C program the outcome is
a return of 0 or 1, a thrown exception or a Lua error. When `read_variable`
returns, it has consumed at least one octet, so that every later call in the
loops of `read_table` and `read_function` starts on a shorter stream. -/
theorem decoder_termination (h : Host) (ip : Interp) (s : RpcState) (fuel : Nat)
    (hfuel : 3 * s.tpt.inp.length + 1 ≤ fuel) :
    (read_variable h ip fuel s).1 ≠ .timeout ∧
    read_variable h ip fuel s = read_variable h ip (3 * s.tpt.inp.length + 1) s ∧
    ((read_variable h ip fuel s).1 ≠ .undefined →
      (read_variable h ip fuel s).1 = .ok 0 ∨ (read_variable h ip fuel s).1 = .ok 1 ∨
      (∃ e, (read_variable h ip fuel s).1 = .throw e) ∨
      (∃ m, (read_variable h ip fuel s).1 = .error m)) ∧
    (∀ r, (read_variable h ip fuel s).1 = .ok r →
      (read_variable h ip fuel s).2.tpt.inp.length < s.tpt.inp.length) := by
  have h0 := (decoder_finishes h ip (3 * s.tpt.inp.length + 1)).1 s (le_refl _)
  have hsame := read_variable_budget h ip s _ h0 (fuel - (3 * s.tpt.inp.length + 1))
  rw [Nat.add_sub_cancel' hfuel] at hsame
  have hfin := (decoder_finishes h ip fuel).1 s hfuel
  refine ⟨hfin, hsame, fun hdef => ?_, fun r hr => ((nogrow_decoder h ip fuel).1 s).2 r hr⟩
  have hres := read_variable_result h ip fuel s
  revert hfin hdef hres
  generalize (read_variable h ip fuel s).1 = q
  intro hfin hdef hres
  cases q with
  | ok r =>
    rcases hres r rfl with hr | hr
    · exact Or.inl (by rw [hr])
    · exact Or.inr (Or.inl (by rw [hr]))
  | throw e => exact Or.inr (Or.inr (Or.inl ⟨e, rfl⟩))
  | error m => exact Or.inr (Or.inr (Or.inr ⟨m, rfl⟩))
  | undefined => exact absurd rfl hdef
  | timeout => exact absurd rfl hfin

/-- Witness for C35: the ten octets of the table with the pair `k = true`; the
outcome is the return of 1. -/
theorem decoder_termination_witness :
    (read_variable host_le_double sample_interp 31
      (state_of (linked_transport 1 1 8 0 0 [4, 3, 1, 0, 0, 0, 107, 2, 1, 5]) [])).1 ≠
      .timeout ∧
    read_variable host_le_double sample_interp 31
        (state_of (linked_transport 1 1 8 0 0 [4, 3, 1, 0, 0, 0, 107, 2, 1, 5]) []) =
      read_variable host_le_double sample_interp
        (3 * (state_of (linked_transport 1 1 8 0 0
          [4, 3, 1, 0, 0, 0, 107, 2, 1, 5]) []).tpt.inp.length + 1)
        (state_of (linked_transport 1 1 8 0 0 [4, 3, 1, 0, 0, 0, 107, 2, 1, 5]) []) ∧
    ((read_variable host_le_double sample_interp 31
        (state_of (linked_transport 1 1 8 0 0 [4, 3, 1, 0, 0, 0, 107, 2, 1, 5]) [])).1 =
        .ok 0 ∨
      (read_variable host_le_double sample_interp 31
        (state_of (linked_transport 1 1 8 0 0 [4, 3, 1, 0, 0, 0, 107, 2, 1, 5]) [])).1 =
        .ok 1 ∨
      (∃ e, (read_variable host_le_double sample_interp 31
        (state_of (linked_transport 1 1 8 0 0 [4, 3, 1, 0, 0, 0, 107, 2, 1, 5]) [])).1 =
        .throw e) ∨
      (∃ m, (read_variable host_le_double sample_interp 31
        (state_of (linked_transport 1 1 8 0 0 [4, 3, 1, 0, 0, 0, 107, 2, 1, 5]) [])).1 =
        .error m)) ∧
    (∀ r, (read_variable host_le_double sample_interp 31
        (state_of (linked_transport 1 1 8 0 0 [4, 3, 1, 0, 0, 0, 107, 2, 1, 5]) [])).1 = .ok r →
      (read_variable host_le_double sample_interp 31
        (state_of (linked_transport 1 1 8 0 0
          [4, 3, 1, 0, 0, 0, 107, 2, 1, 5]) [])).2.tpt.inp.length <
        (state_of (linked_transport 1 1 8 0 0
          [4, 3, 1, 0, 0, 0, 107, 2, 1, 5]) []).tpt.inp.length) :=
  have t := decoder_termination host_le_double sample_interp
    (state_of (linked_transport 1 1 8 0 0 [4, 3, 1, 0, 0, 0, 107, 2, 1, 5]) []) 31 (by decide)
  ⟨t.1, t.2.1, t.2.2.1 (by decide!), t.2.2.2⟩

/-! ## C36: negotiating again with the reply -/

/-- The validation of a header looks at its first five octets only. -/
theorem header_mismatch_first_five (h : Host) (b0 b1 b2 b3 b4 b5 b6 b7 c5 c6 c7 : Byte)
    (hm : header_mismatch h [b0, b1, b2, b3, b4, b5, b6, b7] = false) :
    header_mismatch h [b0, b1, b2, b3, b4, c5, c6, c7] = false :=
  (header_mismatch_iff h _ _ _ _ _ _ _ _).2 ((header_mismatch_iff h _ _ _ _ _ _ _ _).1 hm)

/-- The endianness octet of the reply, negotiated again, gives the same
`net_little` and the same octet. -/
theorem reconcile_little_again (h : Host) (b5 : Byte) (l : Bool) :
    (if char_val h (if char_val h b5 = ((flag l).val : Int) then b5 else 0) =
        ((flag l).val : Int) then flag l else 0) =
      (if char_val h b5 = ((flag l).val : Int) then flag l else 0) ∧
    (if char_val h (if char_val h b5 = ((flag l).val : Int) then b5 else 0) =
        ((flag l).val : Int) then (if char_val h b5 = ((flag l).val : Int) then b5 else 0)
      else 0) =
      (if char_val h b5 = ((flag l).val : Int) then b5 else 0) := by
  by_cases c : char_val h b5 = ((flag l).val : Int)
  · simp only [c, if_true]
    exact ⟨trivial, trivial⟩
  · simp only [c, if_false]
    have h0 : char_val h 0 = 0 := char_val_small h 0 (by decide)
    rw [h0]
    cases l <;> simp [flag]

/-- The integrality octet of the reply, negotiated again, gives the same
`net_intnum` and the same octet. -/
theorem reconcile_intnum_again (h : Host) (b7 : Byte) (i : Bool) :
    (if char_val h (if char_val h b7 = ((flag i).val : Int) then b7 else 1) =
        ((flag i).val : Int) then flag i else 1) =
      (if char_val h b7 = ((flag i).val : Int) then flag i else 1) ∧
    (if char_val h (if char_val h b7 = ((flag i).val : Int) then b7 else 1) =
        ((flag i).val : Int) then (if char_val h b7 = ((flag i).val : Int) then b7 else 1)
      else 1) =
      (if char_val h b7 = ((flag i).val : Int) then b7 else 1) := by
  by_cases c : char_val h b7 = ((flag i).val : Int)
  · simp only [c, if_true]
    exact ⟨trivial, trivial⟩
  · simp only [c, if_false]
    have h1 : char_val h 1 = 1 := char_val_small h 1 (by decide)
    rw [h1]
    cases i <;> simp [flag]

/-- The width octet of the reply, negotiated again, gives the same `lnum_bytes`
and the same octet. -/
theorem reconcile_width_again (h : Host) (b6 w : Byte) :
    (if (w.val : Int) < char_val h (if (w.val : Int) < char_val h b6 then w else b6) then w
      else if char_val h (if (w.val : Int) < char_val h b6 then w else b6) < (w.val : Int) then
        (if (w.val : Int) < char_val h b6 then w else b6)
      else w) =
      (if (w.val : Int) < char_val h b6 then w
        else if char_val h b6 < (w.val : Int) then b6 else w) ∧
    (if (w.val : Int) < char_val h (if (w.val : Int) < char_val h b6 then w else b6) then w
      else (if (w.val : Int) < char_val h b6 then w else b6)) =
      (if (w.val : Int) < char_val h b6 then w else b6) := by
  by_cases c : (w.val : Int) < char_val h b6
  · simp only [c, if_true]
    have hle : char_val h w ≤ (w.val : Int) := char_val_le h w
    have hn : ¬ ((w.val : Int) < char_val h w) := by omega
    simp only [hn, if_false]
    refine ⟨?_, trivial⟩
    by_cases c2 : char_val h w < (w.val : Int)
    · simp only [c2, if_true]
    · simp only [c2, if_false]
  · simp only [c, if_false]
    exact ⟨trivial, trivial⟩

/-- C36. For every client header that passes the validation and every host:
when the reply header that `server_negotiate` has written is received by
`server_negotiate` again, on a transport in whatever state (whatever was
negotiated on it before), it completes, writes the same reply header and
commits the same `net_little`, `lnum_bytes` and `net_intnum`. -/
theorem negotiation_idempotent (h : Host) (s s2 : RpcState) (b0 b1 b2 b3 b4 b5 b6 b7 : Byte)
    (rest rest2 : List Byte)
    (hinp : s.tpt.inp = [b0, b1, b2, b3, b4, b5, b6, b7] ++ rest)
    (hm : header_mismatch h [b0, b1, b2, b3, b4, b5, b6, b7] = false)
    (hinp2 : s2.tpt.inp = (server_negotiate h s).2.tpt.out.drop s.tpt.out.length ++ rest2) :
    (server_negotiate h s).1 = .ok () ∧
    (server_negotiate h s2).1 = .ok () ∧
    (server_negotiate h s2).2.tpt.out.drop s2.tpt.out.length =
      (server_negotiate h s).2.tpt.out.drop s.tpt.out.length ∧
    (server_negotiate h s2).2.tpt.net_little = (server_negotiate h s).2.tpt.net_little ∧
    (server_negotiate h s2).2.tpt.lnum_bytes = (server_negotiate h s).2.tpt.lnum_bytes ∧
    (server_negotiate h s2).2.tpt.net_intnum = (server_negotiate h s).2.tpt.net_intnum := by
  have h1 := server_negotiate_ok h s b0 b1 b2 b3 b4 b5 b6 b7 rest hinp hm
  rw [h1] at hinp2 ⊢
  dsimp only at hinp2 ⊢
  rw [List.drop_left] at hinp2 ⊢
  have h2 := server_negotiate_ok h s2 b0 b1 b2 b3 b4 _ _ _ rest2 hinp2
    (header_mismatch_first_five h b0 b1 b2 b3 b4 b5 b6 b7 _ _ _ hm)
  rw [h2]
  dsimp only
  rw [List.drop_left]
  obtain ⟨l1, l2⟩ := reconcile_little_again h b5 h.little_endian
  obtain ⟨i1, i2⟩ := reconcile_intnum_again h b7 h.lua_Number_integral
  obtain ⟨w1, w2⟩ := reconcile_width_again h b6 (byte h.sizeof_lua_Number)
  refine ⟨rfl, rfl, ?_, l1, w1, i1⟩
  rw [l2, i2, w2]

/-- Witness for C36: the header of a big-endian client with 4-octet integers
at a little-endian server with 8-octet doubles, and its reply received on a
transport that carries other attributes. -/
theorem negotiation_idempotent_witness :
    (server_negotiate host_le_double
      (state_of (fresh_transport [76, 82, 80, 67, 3, 0, 4, 1]) [])).1 = .ok () ∧
    (server_negotiate host_le_double
      (state_of (linked_transport 0 1 2 1 0 [76, 82, 80, 67, 3, 0, 4, 1]) [])).1 = .ok () ∧
    (server_negotiate host_le_double
      (state_of (linked_transport 0 1 2 1 0 [76, 82, 80, 67, 3, 0, 4, 1]) [])).2.tpt.out.drop
        (state_of (linked_transport 0 1 2 1 0 [76, 82, 80, 67, 3, 0, 4, 1]) []).tpt.out.length =
      (server_negotiate host_le_double
        (state_of (fresh_transport [76, 82, 80, 67, 3, 0, 4, 1]) [])).2.tpt.out.drop
        (state_of (fresh_transport [76, 82, 80, 67, 3, 0, 4, 1]) []).tpt.out.length ∧
    (server_negotiate host_le_double
      (state_of (linked_transport 0 1 2 1 0 [76, 82, 80, 67, 3, 0, 4, 1]) [])).2.tpt.net_little =
      (server_negotiate host_le_double
        (state_of (fresh_transport [76, 82, 80, 67, 3, 0, 4, 1]) [])).2.tpt.net_little ∧
    (server_negotiate host_le_double
      (state_of (linked_transport 0 1 2 1 0 [76, 82, 80, 67, 3, 0, 4, 1]) [])).2.tpt.lnum_bytes =
      (server_negotiate host_le_double
        (state_of (fresh_transport [76, 82, 80, 67, 3, 0, 4, 1]) [])).2.tpt.lnum_bytes ∧
    (server_negotiate host_le_double
      (state_of (linked_transport 0 1 2 1 0 [76, 82, 80, 67, 3, 0, 4, 1]) [])).2.tpt.net_intnum =
      (server_negotiate host_le_double
        (state_of (fresh_transport [76, 82, 80, 67, 3, 0, 4, 1]) [])).2.tpt.net_intnum :=
  negotiation_idempotent host_le_double
    (state_of (fresh_transport [76, 82, 80, 67, 3, 0, 4, 1]) [])
    (state_of (linked_transport 0 1 2 1 0 [76, 82, 80, 67, 3, 0, 4, 1]) [])
    76 82 80 67 3 0 4 1 [] [] rfl (by decide!) (by decide!)

/-! ## C37: the segments of a path -/

theorem split_at_sep_ne_nil (sep : Byte) : (cs : List Byte) → split_at_sep sep cs ≠ []
  | [] => by simp [split_at_sep]
  | c :: cs => by
    unfold LuaRpc.split_at_sep
    split
    · simp
    · split <;> simp

/-- The runs of the specification are the non-empty pieces between
separators. -/
theorem spec_runs_eq_split (sep : Byte) : (cs cur : List Byte) →
    spec_runs sep cur cs =
      ((cur ++ (split_at_sep sep cs).headD []) :: (split_at_sep sep cs).tail).filter
        fun w => !w.isEmpty
  | [], cur => by
    cases cur <;> simp [spec_runs, split_at_sep]
  | c :: cs, cur => by
    have ih0 := spec_runs_eq_split sep cs []
    have hne := split_at_sep_ne_nil sep cs
    by_cases hc : (c == sep) = true
    · simp only [spec_runs, split_at_sep, hc, if_true, List.headD_cons, List.tail_cons,
        List.append_nil]
      rw [ih0]
      cases hs : split_at_sep sep cs with
      | nil => exact absurd hs hne
      | cons w ws =>
        cases cur <;> simp [List.filter_cons]
    · have ih1 := spec_runs_eq_split sep cs (cur ++ [c])
      simp only [spec_runs, split_at_sep, hc, if_false, Bool.false_eq_true]
      rw [ih1]
      cases hs : split_at_sep sep cs with
      | nil => exact absurd hs hne
      | cons w ws => simp

/-- For a path without NUL the tokens of `strtok` are the segments of the
specification. -/
theorem strtok_all_eq_segments (path : List Byte) (hnul : ∀ c ∈ path, c ≠ 0) :
    strtok_all path = spec_segments path := by
  unfold LuaRpc.strtok_all LuaRpc.spec_segments
  rw [cstring_of_no_zero path hnul, spec_runs_eq_split]
  have hne := split_at_sep_ne_nil 46 path
  cases hs : split_at_sep 46 path with
  | nil => exact absurd hs hne
  | cons w ws => simp

/-- A path with an octet other than the separator has a segment. -/
theorem spec_runs_ne_nil (sep : Byte) : (cs cur : List Byte) →
    (cur ≠ [] ∨ ∃ c ∈ cs, c ≠ sep) → spec_runs sep cur cs ≠ []
  | [], cur, hx => by
    rcases hx with hcur | ⟨c, hc, _⟩
    · cases cur with
      | nil => exact absurd rfl hcur
      | cons a as => simp [spec_runs]
    · simp at hc
  | c :: cs, cur, hx => by
    by_cases hc : (c == sep) = true
    · simp only [spec_runs, hc, if_true]
      cases cur with
      | nil =>
        simp only [List.isEmpty_nil, if_true]
        refine spec_runs_ne_nil sep cs [] (Or.inr ?_)
        rcases hx with hcur | ⟨d, hd, hds⟩
        · exact absurd rfl hcur
        · rcases List.mem_cons.mp hd with rfl | hd2
          · exact absurd (by simpa using hc) hds
          · exact ⟨d, hd2, hds⟩
      | cons a as => simp
    · simp only [spec_runs, hc, if_false, Bool.false_eq_true]
      exact spec_runs_ne_nil sep cs (cur ++ [c]) (Or.inl (by simp))

/-- The loop of field lookups computes `spec_fields` on the value on top of the
stack. -/
theorem run_resolve_fields : (segs : List (List Byte)) → (s : RpcState) → (pre : List LVal) →
    (v : LVal) → s.stack = pre ++ [v] →
    (∀ w, spec_fields v segs = some w →
      resolve_fields segs s = (.ok (), { s with stack := pre ++ [w] })) ∧
    (spec_fields v segs = none → (resolve_fields segs s).1 = .error .not_indexable)
  | [], s, pre, v, hstack => by
    refine ⟨fun w hw => ?_, fun hn => ?_⟩
    · simp only [spec_fields, Option.some.injEq] at hw
      subst hw
      obtain ⟨tpt, stack, globals, geh⟩ := s
      dsimp only at hstack
      subst hstack
      rfl
    · simp [spec_fields] at hn
  | seg :: segs, s, pre, v, hstack => by
    obtain ⟨tpt, stack, globals, geh⟩ := s
    dsimp only at hstack
    subst hstack
    cases v with
    | table t =>
      have ih := run_resolve_fields segs
        ⟨tpt, pre ++ [t.get (.string seg)], globals, geh⟩ pre (t.get (.string seg)) rfl
      have hstep : lua_getfield_replace seg ⟨tpt, pre ++ [.table t], globals, geh⟩ =
          (.ok (), ⟨tpt, pre ++ [t.get (.string seg)], globals, geh⟩) := by
        simp [lua_getfield_replace, bind_eq]
      simp only [resolve_fields, run_bind, bind_ok hstep, spec_fields]
      exact ih
    | nil => simp [resolve_fields, lua_getfield_replace, bind_eq, spec_fields]
    | boolean b => simp [resolve_fields, lua_getfield_replace, bind_eq, spec_fields]
    | number x => simp [resolve_fields, lua_getfield_replace, bind_eq, spec_fields]
    | string x => simp [resolve_fields, lua_getfield_replace, bind_eq, spec_fields]
    | function x => simp [resolve_fields, lua_getfield_replace, bind_eq, spec_fields]
    | helper x => simp [resolve_fields, lua_getfield_replace, bind_eq, spec_fields]
    | userdata => simp [resolve_fields, lua_getfield_replace, bind_eq, spec_fields]
    | thread => simp [resolve_fields, lua_getfield_replace, bind_eq, spec_fields]
    | lightuserdata => simp [resolve_fields, lua_getfield_replace, bind_eq, spec_fields]

/-- C37, counterexample. The path `a`, NUL, `b` has a byte other than `.`, and
its only run of such bytes is the whole path; the resolution visits the segment
`a` instead and pushes the value of the global `a`. -/
theorem path_with_nul_cut :
    spec_segments [97, 0, 98] = [[97, 0, 98]] ∧
    strtok_all [97, 0, 98] = [[97]] ∧
    (resolve_path [97, 0, 98]
      ⟨fresh_transport [], [], .entry (.string [97]) (.boolean true) .empty, none⟩).2.stack =
      [.boolean true] ∧
    spec_resolve (.entry (.string [97]) (.boolean true) .empty) (spec_segments [97, 0, 98]) =
      some .nil := by
  refine ⟨by decide, by decide, lval_list_eq_of_beq _ _ (by decide), ?_⟩
  rfl

/-- C37. For every received path without a NUL byte that contains a byte other
than `.`: the tokens the resolution visits are the non-empty maximal runs of
bytes other than `.`, left to right, and there is at least one; when looking
up the first as a global and each later one as a field of the previous result
gives a value, the resolution returns with that value pushed, and when a
previous result is not a table, it raises the error of indexing; so two such
paths with the same runs resolve alike. The paths `a..b`, `.a.b` and `a.b.`
have the runs of `a.b`. -/
theorem path_tokenisation (path : List Byte) (s : RpcState) (hnul : ∀ c ∈ path, c ≠ 0)
    (hseg : ∃ c ∈ path, c ≠ 46) :
    strtok_all path = spec_segments path ∧
    spec_segments path ≠ [] ∧
    (∀ v, spec_resolve s.globals (spec_segments path) = some v →
      resolve_path path s = (.ok (), { s with stack := s.stack ++ [v] })) ∧
    (spec_resolve s.globals (spec_segments path) = none →
      (resolve_path path s).1 = .error .not_indexable) ∧
    (∀ other : List Byte, (∀ c ∈ other, c ≠ 0) → spec_segments other = spec_segments path →
      resolve_path other s = resolve_path path s) ∧
    spec_segments [97, 46, 46, 98] = spec_segments [97, 46, 98] ∧
    spec_segments [46, 97, 46, 98] = spec_segments [97, 46, 98] ∧
    spec_segments [97, 46, 98, 46] = spec_segments [97, 46, 98] := by
  have htok := strtok_all_eq_segments path hnul
  have hne : spec_segments path ≠ [] := spec_runs_ne_nil 46 path [] (Or.inr hseg)
  refine ⟨htok, hne, ?_, ?_, ?_, by decide, by decide, by decide⟩
  · intro v hv
    unfold LuaRpc.resolve_path
    rw [htok]
    cases hs : spec_segments path with
    | nil => exact absurd hs hne
    | cons seg segs =>
      rw [hs] at hv
      dsimp only
      have h1 : lua_getglobal seg s =
          (.ok (), { s with stack := s.stack ++ [s.globals.get (.string seg)] }) := rfl
      rw [run_bind, bind_ok h1]
      exact (run_resolve_fields segs _ s.stack _ rfl).1 v hv
  · intro hv
    unfold LuaRpc.resolve_path
    rw [htok]
    cases hs : spec_segments path with
    | nil => exact absurd hs hne
    | cons seg segs =>
      rw [hs] at hv
      dsimp only
      have h1 : lua_getglobal seg s =
          (.ok (), { s with stack := s.stack ++ [s.globals.get (.string seg)] }) := rfl
      rw [run_bind, bind_ok h1]
      exact (run_resolve_fields segs _ s.stack _ rfl).2 hv
  · intro other ho hsame
    unfold LuaRpc.resolve_path
    rw [htok, strtok_all_eq_segments other ho, hsame]

/-- Witness for C37: the path `..a.b` where the global `a` is a table whose
field `b` is `true`. -/
theorem path_tokenisation_witness :
    strtok_all [46, 46, 97, 46, 98] = spec_segments [46, 46, 97, 46, 98] ∧
    spec_segments [46, 46, 97, 46, 98] ≠ [] ∧
    resolve_path [46, 46, 97, 46, 98]
        ⟨fresh_transport [], [],
          .entry (.string [97]) (.table (.entry (.string [98]) (.boolean true) .empty)) .empty,
          none⟩ =
      (.ok (), ⟨fresh_transport [], [.boolean true],
          .entry (.string [97]) (.table (.entry (.string [98]) (.boolean true) .empty)) .empty,
          none⟩) :=
  ⟨(path_tokenisation [46, 46, 97, 46, 98]
      ⟨fresh_transport [], [],
        .entry (.string [97]) (.table (.entry (.string [98]) (.boolean true) .empty)) .empty,
        none⟩ (by decide!) ⟨97, by decide!, by decide⟩).1,
   (path_tokenisation [46, 46, 97, 46, 98]
      ⟨fresh_transport [], [],
        .entry (.string [97]) (.table (.entry (.string [98]) (.boolean true) .empty)) .empty,
        none⟩ (by decide!) ⟨97, by decide!, by decide⟩).2.1,
   (path_tokenisation [46, 46, 97, 46, 98]
      ⟨fresh_transport [], [],
        .entry (.string [97]) (.table (.entry (.string [98]) (.boolean true) .empty)) .empty,
        none⟩ (by decide!) ⟨97, by decide!, by decide⟩).2.2.1 (.boolean true) rfl⟩

/-! ## C38: calling the proxy `get` of a handle -/

/-- C38 (evaluation). For every proxy without parent whose segment is `get`,
`helper_call` passes the absent parent to `helper_get`, which follows it: the
behaviour of the call is undefined, whatever the arguments. -/
theorem call_get_without_parent (h : Host) (ip : Interp) (fuel : Nat) (s : RpcState)
    (hp : Helper) (args : List LVal) (hstack : s.stack = .helper hp :: args)
    (hname : cstring hp.funcname = [103, 101, 116]) (hroot : hp.parent = none) :
    helper_call h ip fuel s = (.undefined, s) := by
  simp only [helper_call, run_bind, bind_eq, run_get_stack, hstack, List.head?_cons, hname,
    if_true, hroot, run_undefined]

/-- Witness for C38: `handle.get()`, the proxy being the one `handle_index`
pushes for the name `get`. -/
theorem call_get_without_parent_witness :
    (handle_index host_le_double
      (state_of (fresh_transport []) [.userdata, .string [103, 101, 116]])).2.stack =
      [.userdata, .string [103, 101, 116],
        .helper (helper_create host_le_double [103, 101, 116])] ∧
    helper_call host_le_double sample_interp 1
        (state_of (fresh_transport []) [.helper (helper_create host_le_double [103, 101, 116])]) =
      (.undefined,
        state_of (fresh_transport []) [.helper (helper_create host_le_double [103, 101, 116])]) :=
  ⟨lval_list_eq_of_beq _ _ (by decide!),
   call_get_without_parent host_le_double sample_interp 1
    (state_of (fresh_transport []) [.helper (helper_create host_le_double [103, 101, 116])])
    (helper_create host_le_double [103, 101, 116]) [] rfl (by decide!) rfl⟩

/-! ## C39: installing the global error handler -/

/-- C39, counterexample. With a handler installed, `rpc_on_error` called with
the boolean `true` raises "bad args", and afterwards no handler is installed. -/
theorem on_error_bad_args_clears :
    (rpc_on_error ⟨fresh_transport [], [.boolean true], .empty, some (.function [1])⟩).1 =
      .error (.message bad_args_msg) ∧
    (rpc_on_error
      ⟨fresh_transport [], [.boolean true], .empty, some (.function [1])⟩).2.global_error_handler
      = none :=
  ⟨rfl, rfl⟩

/-- C39. When `rpc_on_error` is called with one argument `x`, whatever handler
was installed before: if `x` is a function, it returns and the handler is `x`;
if `x` is nil, it returns and no handler is installed; otherwise it raises
"bad args" and no handler is installed, the one installed before having been
released. -/
theorem on_error_outcomes (s : RpcState) (x : LVal) (hstack : s.stack = [x]) :
    (x.iscallable = true →
      (rpc_on_error s).1 = .ok 0 ∧ (rpc_on_error s).2.global_error_handler = some x) ∧
    (x = .nil →
      (rpc_on_error s).1 = .ok 0 ∧ (rpc_on_error s).2.global_error_handler = none) ∧
    (x.iscallable = false → x ≠ .nil →
      (rpc_on_error s).1 = .error (.message bad_args_msg) ∧
      (rpc_on_error s).2.global_error_handler = none) := by
  unfold LuaRpc.rpc_on_error
  rw [hstack]
  cases x <;> simp [LVal.iscallable]

/-- Witness for C39: a handler is installed, then replaced by a call with a
function, removed by a call with nil, and removed by a call with a string. -/
theorem on_error_outcomes_witness :
    (rpc_on_error
      ⟨fresh_transport [], [.function [2]], .empty, some (.function [1])⟩).2.global_error_handler
      = some (.function [2]) ∧
    (rpc_on_error
      ⟨fresh_transport [], [.nil], .empty, some (.function [1])⟩).2.global_error_handler
      = none ∧
    (rpc_on_error
      ⟨fresh_transport [], [.string [120]], .empty, some (.function [1])⟩).2.global_error_handler
      = none :=
  ⟨((on_error_outcomes ⟨fresh_transport [], [.function [2]], .empty, some (.function [1])⟩
      (.function [2]) rfl).1 rfl).2,
   ((on_error_outcomes ⟨fresh_transport [], [.nil], .empty, some (.function [1])⟩
      .nil rfl).2.1 rfl).2,
   ((on_error_outcomes ⟨fresh_transport [], [.string [120]], .empty, some (.function [1])⟩
      (.string [120]) rfl).2.2 rfl (by simp)).2⟩

end LuaRpc
